import Mathlib

/-!
# GeometryGenerator: procedural meshes and midpoint subdivision

A shallow embedding of `Common/GeometryGenerator.cpp`.

Conventions of the embedding:

* `float` is an exact ordered field `α` (instantiated at `ℚ` or `ℝ`); rounding is not modelled,
  except in `CreateBoxRounded`, where the three products `0.5f*x` of `CreateBox` are rounded
  by a parameter `fl` (`binary32` for IEEE 754 single precision).
* `uint32` values are natural numbers below `2^32`; every `uint32` operation of the source
  is followed by an explicit reduction `u32`.
* `std::vector` is `List`; its `size()` is an unbounded natural number (a `size_t`).
* An out-of-range `operator[]` and a loop that never exits make the result `none`.
* `CreateDiamondOfDeath` copies 36 entries out of a vertex table of 17: the 19 entries it
  reads past the end of the table are a parameter of the embedding (`past`).
* The C library and DirectXMath functions the source calls (`sqrtf`, `sinf`, `cosf`,
  `atan2f`, `acosf`, the constant `XM_PI`) are parameters of the functions that call them.
-/

namespace GeometryGenerator

/-! ## Data model -/

/-- Reduction of a natural number to the `uint32` range. -/
def u32 (n : Nat) : Nat := n % 2 ^ 32

/-- Subtraction of `uint32` values, wrapping around below zero. -/
def usub (a b : Nat) : Nat := (a + (2 ^ 32 - b % 2 ^ 32)) % 2 ^ 32

/-- Two packed floats (DirectXMath `XMFLOAT2`). -/
structure XMFLOAT2 (α : Type) where
  x : α
  y : α
deriving DecidableEq, Repr

/-- Three packed floats (DirectXMath `XMFLOAT3`). -/
structure XMFLOAT3 (α : Type) where
  x : α
  y : α
  z : α
deriving DecidableEq, Repr

/-- Modelled from the spec: the `Vertex` record of `GeometryGenerator.h`, which is not among
the sources: position, normal, tangent and texture coordinate. -/
structure Vertex (α : Type) where
  Position : XMFLOAT3 α
  Normal : XMFLOAT3 α
  TangentU : XMFLOAT3 α
  TexC : XMFLOAT2 α
deriving DecidableEq, Repr

/-- Modelled from the spec: the eleven-float constructor of `Vertex` declared in
`GeometryGenerator.h`: position, then normal, then tangent, then texture coordinate. -/
def Vertex.ofFloats {α : Type} (px py pz nx ny nz tx ty tz u v : α) : Vertex α :=
  { Position := ⟨px, py, pz⟩, Normal := ⟨nx, ny, nz⟩, TangentU := ⟨tx, ty, tz⟩, TexC := ⟨u, v⟩ }

/-- Modelled from the spec: a default-constructed `Vertex` (`Vertex v;`, `resize`), whose
fields are taken to be zeroed. -/
def Vertex.zero {α : Type} [Zero α] : Vertex α :=
  { Position := ⟨0, 0, 0⟩, Normal := ⟨0, 0, 0⟩, TangentU := ⟨0, 0, 0⟩, TexC := ⟨0, 0⟩ }

/-- Modelled from the spec: the `MeshData` record of `GeometryGenerator.h`: the vertex list
and the list of 32-bit indices. -/
structure MeshData (α : Type) where
  Vertices : List (Vertex α)
  Indices32 : List Nat
deriving DecidableEq, Repr

/-- Every index of the mesh is smaller than its vertex count. -/
def MeshData.IndicesValid {α : Type} (m : MeshData α) : Prop :=
  ∀ k ∈ m.Indices32, k < m.Vertices.length

/-- The three vertices of triangle number `t`, read through the vertex list. -/
def MeshData.triangle {α : Type} (m : MeshData α) (t : Nat) :
    Option (Vertex α × Vertex α × Vertex α) := do
  let a ← m.Indices32[3 * t]?
  let b ← m.Indices32[3 * t + 1]?
  let c ← m.Indices32[3 * t + 2]?
  let va ← m.Vertices[a]?
  let vb ← m.Vertices[b]?
  let vc ← m.Vertices[c]?
  pure (va, vb, vc)

/-! ## Vector helpers (DirectXMath) -/

section Ops

variable {α : Type} [LinearOrderedField α]

/-- Componentwise sum of two 3-vectors (`operator+` on `XMVECTOR`). -/
def add3 (a b : XMFLOAT3 α) : XMFLOAT3 α := ⟨a.x + b.x, a.y + b.y, a.z + b.z⟩

/-- Scaling of a 3-vector (`float * XMVECTOR`). -/
def scale3 (s : α) (a : XMFLOAT3 α) : XMFLOAT3 α := ⟨s * a.x, s * a.y, s * a.z⟩

/-- Componentwise sum of two 2-vectors. -/
def add2 (a b : XMFLOAT2 α) : XMFLOAT2 α := ⟨a.x + b.x, a.y + b.y⟩

/-- Scaling of a 2-vector. -/
def scale2 (s : α) (a : XMFLOAT2 α) : XMFLOAT2 α := ⟨s * a.x, s * a.y⟩

/-- Dot product of two 3-vectors. -/
def dot3 (a b : XMFLOAT3 α) : α := a.x * b.x + a.y * b.y + a.z * b.z

/-- Euclidean length of a 3-vector, for a given square root. -/
def length3 (sqrtf : α → α) (a : XMFLOAT3 α) : α := sqrtf (dot3 a a)

/-- Modelled from the spec: DirectXMath `XMVector3Normalize`, which is not among the sources:
the vector divided by its Euclidean length. On a vector of length zero each quotient is a
division by zero, which evaluates to `0` in a Lean field. -/
def XMVector3Normalize (sqrtf : α → α) (a : XMFLOAT3 α) : XMFLOAT3 α :=
  ⟨a.x / length3 sqrtf a, a.y / length3 sqrtf a, a.z / length3 sqrtf a⟩

/-! ## MidPoint and Subdivide -/

/-- The function `GeometryGenerator::MidPoint`: the vertex halfway between `v0` and `v1`. -/
def MidPoint (sqrtf : α → α) (v0 v1 : Vertex α) : Vertex α :=
  let p0 := v0.Position
  let p1 := v1.Position
  let n0 := v0.Normal
  let n1 := v1.Normal
  let tan0 := v0.TangentU
  let tan1 := v1.TangentU
  let tex0 := v0.TexC
  let tex1 := v1.TexC
  let pos := scale3 (1 / 2) (add3 p0 p1)
  let normal := XMVector3Normalize sqrtf (scale3 (1 / 2) (add3 n0 n1))
  let tangent := XMVector3Normalize sqrtf (scale3 (1 / 2) (add3 tan0 tan1))
  let tex := scale2 (1 / 2) (add2 tex0 tex1)
  { Position := pos, Normal := normal, TangentU := tangent, TexC := tex }

/-- Body of the loop of `Subdivide` for triangle `i`: the six vertices and the twelve
indices it pushes, or `none` when a lookup is out of range. -/
def subdivideTri (sqrtf : α → α) (inputCopy : MeshData α) (i : Nat) :
    Option (List (Vertex α) × List Nat) := do
  let i0 ← inputCopy.Indices32[u32 (i * 3 + 0)]?
  let i1 ← inputCopy.Indices32[u32 (i * 3 + 1)]?
  let i2 ← inputCopy.Indices32[u32 (i * 3 + 2)]?
  let v0 ← inputCopy.Vertices[i0]?
  let v1 ← inputCopy.Vertices[i1]?
  let v2 ← inputCopy.Vertices[i2]?
  let m0 := MidPoint sqrtf v0 v1
  let m1 := MidPoint sqrtf v1 v2
  let m2 := MidPoint sqrtf v0 v2
  pure ([v0, v1, v2, m0, m1, m2],
    [u32 (i * 6 + 0), u32 (i * 6 + 3), u32 (i * 6 + 5),
     u32 (i * 6 + 3), u32 (i * 6 + 4), u32 (i * 6 + 5),
     u32 (i * 6 + 5), u32 (i * 6 + 4), u32 (i * 6 + 2),
     u32 (i * 6 + 3), u32 (i * 6 + 1), u32 (i * 6 + 4)])

/-- The loop `for (i = ...; i < numTris; ++i)` of `Subdivide`, with `k` iterations left,
the counter at `i`, and the output built so far in `meshData`. -/
def subdivideLoop (sqrtf : α → α) (inputCopy : MeshData α) :
    Nat → Nat → MeshData α → Option (MeshData α)
  | 0, _, meshData => some meshData
  | k + 1, i, meshData =>
    match subdivideTri sqrtf inputCopy i with
    | none => none
    | some (vs, is) =>
      subdivideLoop sqrtf inputCopy k (i + 1)
        { Vertices := meshData.Vertices ++ vs, Indices32 := meshData.Indices32 ++ is }

/-- The function `GeometryGenerator::Subdivide`, from the input mesh to the rebuilt one. -/
def Subdivide (sqrtf : α → α) (meshData : MeshData α) : Option (MeshData α) :=
  let inputCopy := meshData
  let numTris := u32 inputCopy.Indices32.length / 3
  subdivideLoop sqrtf inputCopy numTris 0 { Vertices := [], Indices32 := [] }

/-- The loop `for (i = 0; i < numSubdivisions; ++i) Subdivide(meshData);`. -/
def subdividePasses (sqrtf : α → α) : Nat → MeshData α → Option (MeshData α)
  | 0, meshData => some meshData
  | n + 1, meshData =>
    match Subdivide sqrtf meshData with
    | none => none
    | some m => subdividePasses sqrtf n m

/-! ## CreateBox -/

/-- The vertex table `v[24]` of `CreateBox`. -/
def boxVertices (width height depth : α) : List (Vertex α) :=
  let w2 := 1 / 2 * width
  let h2 := 1 / 2 * height
  let d2 := 1 / 2 * depth
  [ -- front face
    Vertex.ofFloats (-w2) (-h2) (-d2) 0 0 (-1) 1 0 0 0 1,
    Vertex.ofFloats (-w2) h2 (-d2) 0 0 (-1) 1 0 0 0 0,
    Vertex.ofFloats w2 h2 (-d2) 0 0 (-1) 1 0 0 1 0,
    Vertex.ofFloats w2 (-h2) (-d2) 0 0 (-1) 1 0 0 1 1,
    -- back face
    Vertex.ofFloats (-w2) (-h2) d2 0 0 1 (-1) 0 0 1 1,
    Vertex.ofFloats w2 (-h2) d2 0 0 1 (-1) 0 0 0 1,
    Vertex.ofFloats w2 h2 d2 0 0 1 (-1) 0 0 0 0,
    Vertex.ofFloats (-w2) h2 d2 0 0 1 (-1) 0 0 1 0,
    -- top face
    Vertex.ofFloats (-w2) h2 (-d2) 0 1 0 1 0 0 0 1,
    Vertex.ofFloats (-w2) h2 d2 0 1 0 1 0 0 0 0,
    Vertex.ofFloats w2 h2 d2 0 1 0 1 0 0 1 0,
    Vertex.ofFloats w2 h2 (-d2) 0 1 0 1 0 0 1 1,
    -- bottom face
    Vertex.ofFloats (-w2) (-h2) (-d2) 0 (-1) 0 (-1) 0 0 1 1,
    Vertex.ofFloats w2 (-h2) (-d2) 0 (-1) 0 (-1) 0 0 0 1,
    Vertex.ofFloats w2 (-h2) d2 0 (-1) 0 (-1) 0 0 0 0,
    Vertex.ofFloats (-w2) (-h2) d2 0 (-1) 0 (-1) 0 0 1 0,
    -- left face
    Vertex.ofFloats (-w2) (-h2) d2 (-1) 0 0 0 0 (-1) 0 1,
    Vertex.ofFloats (-w2) h2 d2 (-1) 0 0 0 0 (-1) 0 0,
    Vertex.ofFloats (-w2) h2 (-d2) (-1) 0 0 0 0 (-1) 1 0,
    Vertex.ofFloats (-w2) (-h2) (-d2) (-1) 0 0 0 0 (-1) 1 1,
    -- right face
    Vertex.ofFloats w2 (-h2) (-d2) 1 0 0 0 0 1 0 1,
    Vertex.ofFloats w2 h2 (-d2) 1 0 0 0 0 1 0 0,
    Vertex.ofFloats w2 h2 d2 1 0 0 0 0 1 1 0,
    Vertex.ofFloats w2 (-h2) d2 1 0 0 0 0 1 1 1 ]

/-- The index table `i[36]` of `CreateBox`. -/
def boxIndices : List Nat :=
  [ 0, 1, 2, 0, 2, 3,
    4, 5, 6, 4, 6, 7,
    8, 9, 10, 8, 10, 11,
    12, 13, 14, 12, 14, 15,
    16, 17, 18, 16, 18, 19,
    20, 21, 22, 20, 22, 23 ]

/-- The mesh of `CreateBox` before subdivision: `Vertices.assign(&v[0], &v[24])` and
`Indices32.assign(&i[0], &i[36])`. -/
def boxMesh (width height depth : α) : MeshData α :=
  { Vertices := boxVertices width height depth, Indices32 := boxIndices }

/-- The function `GeometryGenerator::CreateBox`. -/
def CreateBox (sqrtf : α → α) (width height depth : α) (numSubdivisions : Nat) :
    Option (MeshData α) :=
  let meshData : MeshData α := boxMesh width height depth
  let numSubdivisions := min numSubdivisions 6
  subdividePasses sqrtf numSubdivisions meshData

/-! ## CreateBox with the rounding of the half extents made explicit -/

/-- The integer nearest to `q`, the even one of the two when `q` lies half-way between two
integers. -/
def roundTiesEven (q : ℚ) : ℤ :=
  if q - ⌊q⌋ < 1 / 2 then ⌊q⌋
  else if 1 / 2 < q - ⌊q⌋ then ⌊q⌋ + 1
  else if ⌊q⌋ % 2 = 0 then ⌊q⌋ else ⌊q⌋ + 1

/-- The `float` (IEEE 754 binary32) nearest to the rational `x`, ties to even: the value a
`float` operation of the source stores when its exact result is `x`. The significand has 24
bits and the exponent is at least `-126`, so that below `2^-126` the values are `2^-149`
apart. Overflow to infinity is left out: `x` is meant below `2^128` in absolute value. -/
def binary32 (x : ℚ) : ℚ :=
  let e := max (Int.log 2 |x|) (-126)
  let ulp : ℚ := 2 ^ (e - 23)
  (roundTiesEven (x / ulp) : ℚ) * ulp

/-- The vertex table `v[24]` of `CreateBox`, with the rounding `fl` of the three products
`w2 = 0.5f*width`, `h2 = 0.5f*height`, `d2 = 0.5f*depth` made explicit (the negations `-w2`,
`-h2`, `-d2` are exact). -/
def boxVerticesRounded (fl : α → α) (width height depth : α) : List (Vertex α) :=
  let w2 := fl (1 / 2 * width)
  let h2 := fl (1 / 2 * height)
  let d2 := fl (1 / 2 * depth)
  [ -- front face
    Vertex.ofFloats (-w2) (-h2) (-d2) 0 0 (-1) 1 0 0 0 1,
    Vertex.ofFloats (-w2) h2 (-d2) 0 0 (-1) 1 0 0 0 0,
    Vertex.ofFloats w2 h2 (-d2) 0 0 (-1) 1 0 0 1 0,
    Vertex.ofFloats w2 (-h2) (-d2) 0 0 (-1) 1 0 0 1 1,
    -- back face
    Vertex.ofFloats (-w2) (-h2) d2 0 0 1 (-1) 0 0 1 1,
    Vertex.ofFloats w2 (-h2) d2 0 0 1 (-1) 0 0 0 1,
    Vertex.ofFloats w2 h2 d2 0 0 1 (-1) 0 0 0 0,
    Vertex.ofFloats (-w2) h2 d2 0 0 1 (-1) 0 0 1 0,
    -- top face
    Vertex.ofFloats (-w2) h2 (-d2) 0 1 0 1 0 0 0 1,
    Vertex.ofFloats (-w2) h2 d2 0 1 0 1 0 0 0 0,
    Vertex.ofFloats w2 h2 d2 0 1 0 1 0 0 1 0,
    Vertex.ofFloats w2 h2 (-d2) 0 1 0 1 0 0 1 1,
    -- bottom face
    Vertex.ofFloats (-w2) (-h2) (-d2) 0 (-1) 0 (-1) 0 0 1 1,
    Vertex.ofFloats w2 (-h2) (-d2) 0 (-1) 0 (-1) 0 0 0 1,
    Vertex.ofFloats w2 (-h2) d2 0 (-1) 0 (-1) 0 0 0 0,
    Vertex.ofFloats (-w2) (-h2) d2 0 (-1) 0 (-1) 0 0 1 0,
    -- left face
    Vertex.ofFloats (-w2) (-h2) d2 (-1) 0 0 0 0 (-1) 0 1,
    Vertex.ofFloats (-w2) h2 d2 (-1) 0 0 0 0 (-1) 0 0,
    Vertex.ofFloats (-w2) h2 (-d2) (-1) 0 0 0 0 (-1) 1 0,
    Vertex.ofFloats (-w2) (-h2) (-d2) (-1) 0 0 0 0 (-1) 1 1,
    -- right face
    Vertex.ofFloats w2 (-h2) (-d2) 1 0 0 0 0 1 0 1,
    Vertex.ofFloats w2 h2 (-d2) 1 0 0 0 0 1 0 0,
    Vertex.ofFloats w2 h2 d2 1 0 0 0 0 1 1 0,
    Vertex.ofFloats w2 (-h2) d2 1 0 0 0 0 1 1 1 ]

/-- The function `GeometryGenerator::CreateBox` with the rounding `fl` of the three products
`0.5f*width`, `0.5f*height`, `0.5f*depth` made explicit: the same vertex and index tables
and the same passes of `Subdivide` (whose own arithmetic is left exact; no pass runs when
`numSubdivisions = 0`). With `fl` the identity it is `CreateBox`. -/
def CreateBoxRounded (sqrtf fl : α → α) (width height depth : α) (numSubdivisions : Nat) :
    Option (MeshData α) :=
  let meshData : MeshData α :=
    { Vertices := boxVerticesRounded fl width height depth, Indices32 := boxIndices }
  let numSubdivisions := min numSubdivisions 6
  subdividePasses sqrtf numSubdivisions meshData

/-! ## CreateSphere -/

/-- Body of the inner loop of `CreateSphere`: the vertex of ring `i` at slice `j`. -/
def sphereRingVertex (sqrtf sinf cosf : α → α) (XM_PI radius phiStep thetaStep : α)
    (i j : Nat) : Vertex α :=
  let phi := (i : α) * phiStep
  let theta := (j : α) * thetaStep
  let position : XMFLOAT3 α :=
    ⟨radius * sinf phi * cosf theta, radius * cosf phi, radius * sinf phi * sinf theta⟩
  let tangentU : XMFLOAT3 α :=
    ⟨-radius * sinf phi * sinf theta, 0, radius * sinf phi * cosf theta⟩
  { Position := position
    TangentU := XMVector3Normalize sqrtf tangentU
    Normal := XMVector3Normalize sqrtf position
    TexC := ⟨theta / (2 * XM_PI), phi / XM_PI⟩ }

/-- The two nested loops of `CreateSphere` over the rings `i = 1 .. stackCount-1` and the
slices `j = 0 .. sliceCount`: the ring vertices, in the order they are pushed. -/
def sphereRings (sqrtf sinf cosf : α → α) (XM_PI radius : α)
    (sliceCount stackCount : Nat) : List (Vertex α) :=
  let phiStep := XM_PI / (stackCount : α)
  let thetaStep := 2 * XM_PI / (sliceCount : α)
  (List.range' 1 (usub stackCount 1)).flatMap (fun i =>
    (List.range' 0 (sliceCount + 1)).map (fun j =>
      sphereRingVertex sqrtf sinf cosf XM_PI radius phiStep thetaStep i j))

/-- The vertex list of `CreateSphere`: top pole, ring vertices, bottom pole. -/
def sphereVertices (sqrtf sinf cosf : α → α) (XM_PI radius : α)
    (sliceCount stackCount : Nat) : List (Vertex α) :=
  let topVertex : Vertex α := Vertex.ofFloats 0 radius 0 0 1 0 1 0 0 0 0
  let bottomVertex : Vertex α := Vertex.ofFloats 0 (-radius) 0 0 (-1) 0 1 0 0 0 1
  [topVertex] ++ sphereRings sqrtf sinf cosf XM_PI radius sliceCount stackCount
    ++ [bottomVertex]

/-- The index list of `CreateSphere` for a vertex list of `vertexCount` entries: top fan,
inner stacks, bottom fan. -/
def sphereIndices (sliceCount stackCount vertexCount : Nat) : List Nat :=
  let top := (List.range' 1 sliceCount).flatMap (fun i => [0, u32 (i + 1), i])
  let baseIndex := 1
  let ringVertexCount := u32 (sliceCount + 1)
  let inner := (List.range (usub stackCount 2)).flatMap (fun i =>
    (List.range sliceCount).flatMap (fun j =>
      [ u32 (baseIndex + i * ringVertexCount + j),
        u32 (baseIndex + i * ringVertexCount + j + 1),
        u32 (baseIndex + (i + 1) * ringVertexCount + j),
        u32 (baseIndex + (i + 1) * ringVertexCount + j),
        u32 (baseIndex + i * ringVertexCount + j + 1),
        u32 (baseIndex + (i + 1) * ringVertexCount + j + 1) ]))
  let southPoleIndex := usub (u32 vertexCount) 1
  let baseIndex := usub southPoleIndex ringVertexCount
  let bottom := (List.range sliceCount).flatMap (fun i =>
    [southPoleIndex, u32 (baseIndex + i), u32 (baseIndex + i + 1)])
  top ++ inner ++ bottom

/-- The function `GeometryGenerator::CreateSphere`. Its loops over `uint32` counters with
the conditions `i <= stackCount-1`, `j <= sliceCount` and `i <= sliceCount` never exit when
their bound is `2^32 - 1`, that is when `stackCount` is `0` or `sliceCount` is `2^32 - 1`:
the result is then `none`. -/
def CreateSphere (sqrtf sinf cosf : α → α) (XM_PI radius : α)
    (sliceCount stackCount : Nat) : Option (MeshData α) :=
  if usub stackCount 1 = 2 ^ 32 - 1 ∨ sliceCount = 2 ^ 32 - 1 then none
  else
    let vertices := sphereVertices sqrtf sinf cosf XM_PI radius sliceCount stackCount
    some { Vertices := vertices
           Indices32 := sphereIndices sliceCount stackCount vertices.length }

/-! ## CreateGeosphere -/

/-- The position table `pos[12]` of `CreateGeosphere`: a regular icosahedron. -/
def icosahedronPositions : List (XMFLOAT3 α) :=
  let X : α := 525731 / 1000000
  let Z : α := 850651 / 1000000
  [ ⟨-X, 0, Z⟩, ⟨X, 0, Z⟩,
    ⟨-X, 0, -Z⟩, ⟨X, 0, -Z⟩,
    ⟨0, Z, X⟩, ⟨0, Z, -X⟩,
    ⟨0, -Z, X⟩, ⟨0, -Z, -X⟩,
    ⟨Z, X, 0⟩, ⟨-Z, X, 0⟩,
    ⟨Z, -X, 0⟩, ⟨-Z, -X, 0⟩ ]

/-- The index table `k[60]` of `CreateGeosphere`. -/
def icosahedronIndices : List Nat :=
  [ 1, 4, 0, 4, 9, 0, 4, 5, 9, 8, 5, 4, 1, 8, 4,
    1, 10, 8, 10, 3, 8, 8, 3, 5, 3, 2, 5, 3, 7, 2,
    3, 10, 7, 10, 6, 7, 6, 11, 7, 6, 0, 11, 6, 1, 0,
    10, 1, 6, 11, 0, 9, 2, 11, 9, 5, 2, 9, 11, 2, 7 ]

/-- Body of the last loop of `CreateGeosphere`: the vertex re-projected onto the sphere. -/
def geosphereProject (sqrtf sinf cosf acosf : α → α) (atan2f : α → α → α) (XM_PI radius : α)
    (v : Vertex α) : Vertex α :=
  let n := XMVector3Normalize sqrtf v.Position
  let p := scale3 radius n
  let theta0 := atan2f p.z p.x
  let theta := if theta0 < 0 then theta0 + 2 * XM_PI else theta0
  let phi := acosf (p.y / radius)
  let tangentU : XMFLOAT3 α :=
    ⟨-radius * sinf phi * sinf theta, 0, radius * sinf phi * cosf theta⟩
  { Position := p
    Normal := n
    TexC := ⟨theta / (2 * XM_PI), phi / XM_PI⟩
    TangentU := XMVector3Normalize sqrtf tangentU }

/-- The mesh of `CreateGeosphere` before subdivision: twelve default vertices whose
positions are set from `pos`, and the indices `k`. -/
def icosahedronMesh : MeshData α :=
  { Vertices := icosahedronPositions.map (fun p => { Vertex.zero with Position := p })
    Indices32 := icosahedronIndices }

/-- The last loop of `CreateGeosphere`: every vertex of the mesh is re-projected. -/
def geosphereProjectAll (sqrtf sinf cosf acosf : α → α) (atan2f : α → α → α)
    (XM_PI radius : α) (m : MeshData α) : MeshData α :=
  { m with
    Vertices := m.Vertices.map (geosphereProject sqrtf sinf cosf acosf atan2f XM_PI radius) }

/-- The function `GeometryGenerator::CreateGeosphere`. -/
def CreateGeosphere (sqrtf sinf cosf acosf : α → α) (atan2f : α → α → α) (XM_PI radius : α)
    (numSubdivisions : Nat) : Option (MeshData α) :=
  let numSubdivisions := min numSubdivisions 6
  let meshData : MeshData α := icosahedronMesh
  match subdividePasses sqrtf numSubdivisions meshData with
  | none => none
  | some m => some (geosphereProjectAll sqrtf sinf cosf acosf atan2f XM_PI radius m)

/-! ## CreateCylinder -/

/-- Modelled from the spec: DirectXMath `XMVector3Cross`, which is not among the sources:
the cross product of two 3-vectors. -/
def XMVector3Cross (a b : XMFLOAT3 α) : XMFLOAT3 α :=
  ⟨a.y * b.z - a.z * b.y, a.z * b.x - a.x * b.z, a.x * b.y - a.y * b.x⟩

/-- Body of the inner loop of `CreateCylinder`: the side vertex of ring `i` at slice `j`. -/
def cylinderSideVertex (sqrtf sinf cosf : α → α) (XM_PI bottomRadius topRadius height : α)
    (sliceCount stackCount i j : Nat) : Vertex α :=
  let stackHeight := height / (stackCount : α)
  let radiusStep := (topRadius - bottomRadius) / (stackCount : α)
  let y := -(1 / 2) * height + (i : α) * stackHeight
  let r := bottomRadius + (i : α) * radiusStep
  let dTheta := 2 * XM_PI / (sliceCount : α)
  let c := cosf ((j : α) * dTheta)
  let s := sinf ((j : α) * dTheta)
  let tangentU : XMFLOAT3 α := ⟨-s, 0, c⟩
  let dr := bottomRadius - topRadius
  let bitangent : XMFLOAT3 α := ⟨dr * c, -height, dr * s⟩
  { Position := ⟨r * c, y, r * s⟩
    TexC := ⟨(j : α) / (sliceCount : α), 1 - (i : α) / (stackCount : α)⟩
    TangentU := tangentU
    Normal := XMVector3Normalize sqrtf (XMVector3Cross tangentU bitangent) }

/-- The side vertices of `CreateCylinder`: rings `i = 0 .. ringCount-1` with
`ringCount = stackCount+1` computed in `uint32`, slices `j = 0 .. sliceCount`. -/
def cylinderSideVertices (sqrtf sinf cosf : α → α) (XM_PI bottomRadius topRadius height : α)
    (sliceCount stackCount : Nat) : List (Vertex α) :=
  let ringCount := u32 (stackCount + 1)
  (List.range ringCount).flatMap (fun i =>
    (List.range' 0 (sliceCount + 1)).map (fun j =>
      cylinderSideVertex sqrtf sinf cosf XM_PI bottomRadius topRadius height
        sliceCount stackCount i j))

/-- The side indices of `CreateCylinder`: two triangles for each stack `i` and slice `j`. -/
def cylinderSideIndices (sliceCount stackCount : Nat) : List Nat :=
  let ringVertexCount := u32 (sliceCount + 1)
  (List.range stackCount).flatMap (fun i =>
    (List.range sliceCount).flatMap (fun j =>
      [ u32 (i * ringVertexCount + j),
        u32 ((i + 1) * ringVertexCount + j),
        u32 ((i + 1) * ringVertexCount + j + 1),
        u32 (i * ringVertexCount + j),
        u32 ((i + 1) * ringVertexCount + j + 1),
        u32 (i * ringVertexCount + j + 1) ]))

/-- The cap ring vertices pushed by a cap builder: radius `capRadius`, height `y`, normal
`(0, ny, 0)`, for `i = 0 .. sliceCount`. -/
def capRingVertices (sinf cosf : α → α) (XM_PI capRadius height y ny : α)
    (sliceCount : Nat) : List (Vertex α) :=
  let dTheta := 2 * XM_PI / (sliceCount : α)
  (List.range' 0 (sliceCount + 1)).map (fun (i : Nat) =>
    let x := capRadius * cosf ((i : α) * dTheta)
    let z := capRadius * sinf ((i : α) * dTheta)
    let u := x / height + 1 / 2
    let v := z / height + 1 / 2
    Vertex.ofFloats x y z 0 ny 0 1 0 0 u v)

/-- The function `GeometryGenerator::BuildCylinderTopCap`, from the mesh it is given to the
mesh it leaves. Its loop `i <= sliceCount` never exits when `sliceCount` is `2^32 - 1`: the
result is then `none`. -/
def BuildCylinderTopCap (sinf cosf : α → α) (XM_PI _bottomRadius topRadius height : α)
    (sliceCount _stackCount : Nat) (meshData : MeshData α) : Option (MeshData α) :=
  if sliceCount = 2 ^ 32 - 1 then none
  else
    let baseIndex := u32 meshData.Vertices.length
    let y := 1 / 2 * height
    let vertices := meshData.Vertices
      ++ capRingVertices sinf cosf XM_PI topRadius height y 1 sliceCount
      ++ [Vertex.ofFloats 0 y 0 0 1 0 1 0 0 (1 / 2) (1 / 2)]
    let centerIndex := usub (u32 vertices.length) 1
    let indices := (List.range sliceCount).flatMap (fun i =>
      [centerIndex, u32 (baseIndex + i + 1), u32 (baseIndex + i)])
    some { Vertices := vertices, Indices32 := meshData.Indices32 ++ indices }

/-- The function `GeometryGenerator::BuildCylinderBottomCap`, from the mesh it is given to
the mesh it leaves. Its loop `i <= sliceCount` never exits when `sliceCount` is `2^32 - 1`:
the result is then `none`. -/
def BuildCylinderBottomCap (sinf cosf : α → α) (XM_PI bottomRadius _topRadius height : α)
    (sliceCount _stackCount : Nat) (meshData : MeshData α) : Option (MeshData α) :=
  if sliceCount = 2 ^ 32 - 1 then none
  else
    let baseIndex := u32 meshData.Vertices.length
    let y := -(1 / 2) * height
    let vertices := meshData.Vertices
      ++ capRingVertices sinf cosf XM_PI bottomRadius height y (-1) sliceCount
      ++ [Vertex.ofFloats 0 y 0 0 (-1) 0 1 0 0 (1 / 2) (1 / 2)]
    let centerIndex := usub (u32 vertices.length) 1
    let indices := (List.range sliceCount).flatMap (fun i =>
      [centerIndex, u32 (baseIndex + i), u32 (baseIndex + i + 1)])
    some { Vertices := vertices, Indices32 := meshData.Indices32 ++ indices }

/-- The function `GeometryGenerator::CreateCylinder`. The loops with the condition
`<= sliceCount` (the slices of a side ring and the ring of each cap) never exit when
`sliceCount` is `2^32 - 1`: the result is then `none`. -/
def CreateCylinder (sqrtf sinf cosf : α → α) (XM_PI bottomRadius topRadius height : α)
    (sliceCount stackCount : Nat) : Option (MeshData α) :=
  if sliceCount = 2 ^ 32 - 1 then none
  else
    let meshData : MeshData α :=
      { Vertices := cylinderSideVertices sqrtf sinf cosf XM_PI bottomRadius topRadius height
          sliceCount stackCount
        Indices32 := cylinderSideIndices sliceCount stackCount }
    match BuildCylinderTopCap sinf cosf XM_PI bottomRadius topRadius height
        sliceCount stackCount meshData with
    | none => none
    | some m =>
      BuildCylinderBottomCap sinf cosf XM_PI bottomRadius topRadius height
        sliceCount stackCount m

/-! ## CreateGrid -/

/-- Assignment `v[k] = x` to an element of a `std::vector`: `none` when `k` is out of
range. -/
def assignAt {β : Type} (v : List β) (k : Nat) (x : β) : Option (List β) :=
  if k < v.length then some (v.set k x) else none

/-- Body of the inner vertex loop of `CreateGrid`: the vertex stored for row `i` and column
`j`. The source assigns the four fields of `Vertices[i*n+j]` one after the other. -/
def gridVertex (width depth : α) (m n i j : Nat) : Vertex α :=
  let halfWidth := 1 / 2 * width
  let halfDepth := 1 / 2 * depth
  let dx := width / ((usub n 1 : Nat) : α)
  let dz := depth / ((usub m 1 : Nat) : α)
  let du := 1 / ((usub n 1 : Nat) : α)
  let dv := 1 / ((usub m 1 : Nat) : α)
  let z := halfDepth - (i : α) * dz
  let x := -halfWidth + (j : α) * dx
  { Position := ⟨x, 0, z⟩
    Normal := ⟨0, 1, 0⟩
    TangentU := ⟨1, 0, 0⟩
    TexC := ⟨(j : α) * du, (i : α) * dv⟩ }

/-- The vertex loops of `CreateGrid`, `for (i = 0; i < m; ++i) for (j = 0; j < n; ++j)`,
writing `Vertices[i*n+j]` into the resized vertex array. -/
def gridVertexLoop (width depth : α) (m n : Nat) (vertices : List (Vertex α)) :
    Option (List (Vertex α)) :=
  (List.range m).foldlM (fun vertices i =>
    (List.range n).foldlM (fun vertices j =>
      assignAt vertices (u32 (i * n + j)) (gridVertex width depth m n i j)) vertices) vertices

/-- Body of the inner index loop of `CreateGrid` for the quad `(i, j)`: six assignments at
`k .. k+5`, then `k += 6`. The state is the index array and the counter `k`. -/
def gridIndexStep (n i j : Nat) (st : List Nat × Nat) : Option (List Nat × Nat) := do
  let k := st.2
  let indices ← assignAt st.1 k (u32 (i * n + j))
  let indices ← assignAt indices (u32 (k + 1)) (u32 (i * n + j + 1))
  let indices ← assignAt indices (u32 (k + 2)) (u32 ((i + 1) * n + j))
  let indices ← assignAt indices (u32 (k + 3)) (u32 ((i + 1) * n + j))
  let indices ← assignAt indices (u32 (k + 4)) (u32 (i * n + j + 1))
  let indices ← assignAt indices (u32 (k + 5)) (u32 ((i + 1) * n + j + 1))
  pure (indices, u32 (k + 6))

/-- The index loops of `CreateGrid`, `for (i = 0; i < m-1; ++i) for (j = 0; j < n-1; ++j)`,
started with `k = 0` on the resized index array. -/
def gridIndexLoop (m n : Nat) (indices : List Nat) : Option (List Nat × Nat) :=
  (List.range (usub m 1)).foldlM (fun st i =>
    (List.range (usub n 1)).foldlM (fun st j => gridIndexStep n i j st) st) (indices, 0)

/-- The function `GeometryGenerator::CreateGrid`. Both arrays are resized to a count computed
in `uint32` and then written through `operator[]`. -/
def CreateGrid (width depth : α) (m n : Nat) : Option (MeshData α) :=
  let vertexCount := u32 (m * n)
  let faceCount := u32 (usub m 1 * usub n 1 * 2)
  match gridVertexLoop width depth m n (List.replicate vertexCount Vertex.zero) with
  | none => none
  | some vertices =>
    match gridIndexLoop m n (List.replicate (u32 (faceCount * 3)) 0) with
    | none => none
    | some st => some { Vertices := vertices, Indices32 := st.1 }

/-! ## CreateQuad -/

/-- The function `GeometryGenerator::CreateQuad`: both arrays are resized, then every entry
is assigned. -/
def CreateQuad (x y w h depth : α) : MeshData α :=
  let vertices : List (Vertex α) := List.replicate 4 Vertex.zero
  let indices : List Nat := List.replicate 6 0
  let vertices := vertices.set 0 (Vertex.ofFloats x (y - h) depth 0 0 (-1) 1 0 0 0 1)
  let vertices := vertices.set 1 (Vertex.ofFloats x y depth 0 0 (-1) 1 0 0 0 0)
  let vertices := vertices.set 2 (Vertex.ofFloats (x + w) y depth 0 0 (-1) 1 0 0 1 0)
  let vertices := vertices.set 3 (Vertex.ofFloats (x + w) (y - h) depth 0 0 (-1) 1 0 0 1 1)
  let indices := indices.set 0 0
  let indices := indices.set 1 1
  let indices := indices.set 2 2
  let indices := indices.set 3 0
  let indices := indices.set 4 2
  let indices := indices.set 5 3
  { Vertices := vertices, Indices32 := indices }

/-! ## Coarse polyhedra -/

/-- The table entry `Vertex(cos((k*(2*XM_PI))/8)*r, y, sin((k*(2*XM_PI))/8)*r, 0, ..., 0)`
that the tables of `CreateDiamondOfDeath` and `CreateCone` write for `k = 1 .. 8`. -/
def octagonVertex (cos sin : α → α) (XM_PI k r y : α) : Vertex α :=
  Vertex.ofFloats (cos ((k * (2 * XM_PI)) / 8) * r) y (sin ((k * (2 * XM_PI)) / 8) * r)
    0 0 0 0 0 0 0 0

/-- The vertex table `v[17]` of `CreateDiamondOfDeath`. -/
def diamondVertices (cos sin : α → α) (XM_PI height : α) : List (Vertex α) :=
  let heightBottom := 3 / 4 * height
  [ Vertex.ofFloats 0 (1 / 4) 0 0 0 (-1) 1 0 0 0 1,
    octagonVertex cos sin XM_PI 1 (3 / 4) heightBottom,
    octagonVertex cos sin XM_PI 2 (3 / 4) heightBottom,
    octagonVertex cos sin XM_PI 3 (3 / 4) heightBottom,
    octagonVertex cos sin XM_PI 4 (3 / 4) heightBottom,
    octagonVertex cos sin XM_PI 5 (3 / 4) heightBottom,
    octagonVertex cos sin XM_PI 6 (3 / 4) heightBottom,
    octagonVertex cos sin XM_PI 7 (3 / 4) heightBottom,
    octagonVertex cos sin XM_PI 8 (3 / 4) heightBottom,
    octagonVertex cos sin XM_PI 1 (1 / 4) height,
    octagonVertex cos sin XM_PI 2 (1 / 4) height,
    octagonVertex cos sin XM_PI 3 (1 / 4) height,
    octagonVertex cos sin XM_PI 4 (1 / 4) height,
    octagonVertex cos sin XM_PI 5 (1 / 4) height,
    octagonVertex cos sin XM_PI 6 (1 / 4) height,
    octagonVertex cos sin XM_PI 7 (1 / 4) height,
    octagonVertex cos sin XM_PI 8 (1 / 4) height ]

/-- The index table `i[72]` of `CreateDiamondOfDeath`. -/
def diamondIndices : List Nat :=
  [ 0, 1, 2, 0, 2, 3, 0, 3, 4, 0, 4, 5, 0, 5, 6, 0, 6, 7, 0, 7, 8, 0, 8, 1,
    1, 9, 2, 2, 9, 10, 2, 10, 3, 3, 10, 11, 3, 11, 4, 4, 11, 12, 4, 12, 5, 5, 12, 13,
    5, 13, 6, 6, 13, 14, 6, 14, 7, 7, 14, 15, 7, 15, 8, 8, 15, 16, 8, 16, 1, 1, 16, 9 ]

/-- The mesh of `CreateDiamondOfDeath` before subdivision. The source copies the range
`&v[0] .. &v[36]` of the 17-entry table `v`, so the vertex list has 36 entries: the table,
then the 19 entries read past its end, which are whatever the memory after the table holds,
here `past 0 .. past 18`. -/
def diamondMesh (cos sin : α → α) (XM_PI height : α) (past : Nat → Vertex α) : MeshData α :=
  { Vertices := diamondVertices cos sin XM_PI height ++ (List.range (36 - 17)).map past
    Indices32 := diamondIndices }

/-- The function `GeometryGenerator::CreateDiamondOfDeath`; `past` is the memory after the
vertex table, see `diamondMesh`. -/
def CreateDiamondOfDeath (sqrtf cos sin : α → α) (XM_PI height : α) (past : Nat → Vertex α) :
    Option (MeshData α) :=
  subdividePasses sqrtf 3 (diamondMesh cos sin XM_PI height past)

/-- The vertex table `v[10]` of `CreateCone`. -/
def coneVertices (cos sin : α → α) (XM_PI height : α) : List (Vertex α) :=
  [ Vertex.ofFloats 0 (-(height * (1 / 2))) 0 0 0 (-1) 1 0 0 0 1,
    octagonVertex cos sin XM_PI 1 (3 / 4) (-(height * (1 / 2))),
    octagonVertex cos sin XM_PI 2 (3 / 4) (-(height * (1 / 2))),
    octagonVertex cos sin XM_PI 3 (3 / 4) (-(height * (1 / 2))),
    octagonVertex cos sin XM_PI 4 (3 / 4) (-(height * (1 / 2))),
    octagonVertex cos sin XM_PI 5 (3 / 4) (-(height * (1 / 2))),
    octagonVertex cos sin XM_PI 6 (3 / 4) (-(height * (1 / 2))),
    octagonVertex cos sin XM_PI 7 (3 / 4) (-(height * (1 / 2))),
    octagonVertex cos sin XM_PI 8 (3 / 4) (-(height * (1 / 2))),
    Vertex.ofFloats 0 (height * (1 / 2)) 0 0 0 (-1) 1 0 0 0 1 ]

/-- The index table `i[48]` of `CreateCone`. -/
def coneIndices : List Nat :=
  [ 0, 1, 2, 0, 2, 3, 0, 3, 4, 0, 4, 5, 0, 5, 6, 0, 6, 7, 0, 7, 8, 0, 8, 1,
    9, 2, 1, 9, 1, 8, 9, 8, 7, 9, 7, 6, 9, 6, 5, 9, 5, 4, 9, 4, 3, 9, 3, 2 ]

/-- The mesh of `CreateCone` before subdivision. -/
def coneMesh (cos sin : α → α) (XM_PI height : α) : MeshData α :=
  { Vertices := coneVertices cos sin XM_PI height, Indices32 := coneIndices }

/-- The function `GeometryGenerator::CreateCone`. -/
def CreateCone (sqrtf cos sin : α → α) (XM_PI height : α) : Option (MeshData α) :=
  subdividePasses sqrtf 3 (coneMesh cos sin XM_PI height)

/-- The vertex table `v[6]` of `CreateWedge`. -/
def wedgeVertices (width depth height : α) : List (Vertex α) :=
  [ Vertex.ofFloats (-(width * (1 / 2))) (-(height * (1 / 2))) (-(depth * (1 / 2)))
      0 0 (-1) 1 0 0 0 0,
    Vertex.ofFloats (-(width * (1 / 2))) (-(height * (1 / 2))) (depth * (1 / 2))
      0 0 (-1) 1 0 0 0 0,
    Vertex.ofFloats (width * (1 / 2)) (-(height * (1 / 2))) (-(depth * (1 / 2)))
      0 0 (-1) 1 0 0 0 0,
    Vertex.ofFloats (width * (1 / 2)) (-(height * (1 / 2))) (depth * (1 / 2))
      0 0 (-1) 1 0 0 0 0,
    Vertex.ofFloats (width * (1 / 2)) (height * (1 / 2)) (depth * (1 / 2))
      0 0 (-1) 1 0 0 0 0,
    Vertex.ofFloats (-(width * (1 / 2))) (height * (1 / 2)) (depth * (1 / 2))
      0 0 (-1) 1 0 0 0 0 ]

/-- The index table `i[24]` of `CreateWedge`. -/
def wedgeIndices : List Nat :=
  [ 0, 2, 1, 2, 3, 1,
    4, 3, 2,
    5, 0, 1,
    2, 0, 5, 2, 5, 4,
    5, 1, 3, 5, 3, 4 ]

/-- The mesh of `CreateWedge` before subdivision. -/
def wedgeMesh (width depth height : α) : MeshData α :=
  { Vertices := wedgeVertices width depth height, Indices32 := wedgeIndices }

/-- The function `GeometryGenerator::CreateWedge`. -/
def CreateWedge (sqrtf : α → α) (width depth height : α) : Option (MeshData α) :=
  subdividePasses sqrtf 3 (wedgeMesh width depth height)

/-- The vertex table `v[5]` of `CreatePyramid`. -/
def pyramidVertices (width depth height : α) : List (Vertex α) :=
  [ Vertex.ofFloats 0 (height * (1 / 2)) 0 0 0 (-1) 1 0 0 0 0,
    Vertex.ofFloats (-(width * (1 / 2))) (-(height * (1 / 2))) (-(depth * (1 / 2)))
      0 0 (-1) 1 0 0 0 0,
    Vertex.ofFloats (-(width * (1 / 2))) (-(height * (1 / 2))) (depth * (1 / 2))
      0 0 (-1) 1 0 0 0 0,
    Vertex.ofFloats (width * (1 / 2)) (-(height * (1 / 2))) (-(depth * (1 / 2)))
      0 0 (-1) 1 0 0 0 0,
    Vertex.ofFloats (width * (1 / 2)) (-(height * (1 / 2))) (depth * (1 / 2))
      0 0 (-1) 1 0 0 0 0 ]

/-- The index table `i[18]` of `CreatePyramid`. -/
def pyramidIndices : List Nat :=
  [ 1, 3, 4, 1, 4, 2,
    0, 2, 4,
    0, 3, 1,
    0, 4, 3,
    0, 1, 2 ]

/-- The mesh of `CreatePyramid` before subdivision. -/
def pyramidMesh (width depth height : α) : MeshData α :=
  { Vertices := pyramidVertices width depth height, Indices32 := pyramidIndices }

/-- The function `GeometryGenerator::CreatePyramid`. -/
def CreatePyramid (sqrtf : α → α) (width depth height : α) : Option (MeshData α) :=
  subdividePasses sqrtf 3 (pyramidMesh width depth height)

/-- The vertex table `v[8]` of `CreateTruncatedPyramid`. -/
def truncatedPyramidVertices (bottomWidth bottomDepth topWidth topDepth height : α) :
    List (Vertex α) :=
  [ Vertex.ofFloats (-(bottomWidth * (1 / 2))) (-(height * (1 / 2))) (-(bottomDepth * (1 / 2)))
      0 0 (-1) 1 0 0 0 0,
    Vertex.ofFloats (-(bottomWidth * (1 / 2))) (-(height * (1 / 2))) (bottomDepth * (1 / 2))
      0 0 (-1) 1 0 0 0 0,
    Vertex.ofFloats (bottomWidth * (1 / 2)) (-(height * (1 / 2))) (-(bottomDepth * (1 / 2)))
      0 0 (-1) 1 0 0 0 0,
    Vertex.ofFloats (bottomWidth * (1 / 2)) (-(height * (1 / 2))) (bottomDepth * (1 / 2))
      0 0 (-1) 1 0 0 0 0,
    Vertex.ofFloats (-(topWidth * (1 / 2))) (height * (1 / 2)) (-(topDepth * (1 / 2)))
      0 0 (-1) 1 0 0 0 0,
    Vertex.ofFloats (-(topWidth * (1 / 2))) (height * (1 / 2)) (topDepth * (1 / 2))
      0 0 (-1) 1 0 0 0 0,
    Vertex.ofFloats (topWidth * (1 / 2)) (height * (1 / 2)) (-(topDepth * (1 / 2)))
      0 0 (-1) 1 0 0 0 0,
    Vertex.ofFloats (topWidth * (1 / 2)) (height * (1 / 2)) (topDepth * (1 / 2))
      0 0 (-1) 1 0 0 0 0 ]

/-- The index table `i[36]` of `CreateTruncatedPyramid`. -/
def truncatedPyramidIndices : List Nat :=
  [ 0, 2, 1, 2, 3, 1,
    2, 6, 3, 3, 6, 7,
    1, 5, 0, 0, 5, 4,
    0, 4, 2, 2, 4, 6,
    3, 7, 1, 1, 7, 5,
    4, 5, 6, 6, 5, 7 ]

/-- The mesh of `CreateTruncatedPyramid` before subdivision. -/
def truncatedPyramidMesh (bottomWidth bottomDepth topWidth topDepth height : α) : MeshData α :=
  { Vertices := truncatedPyramidVertices bottomWidth bottomDepth topWidth topDepth height
    Indices32 := truncatedPyramidIndices }

/-- The function `GeometryGenerator::CreateTruncatedPyramid`. -/
def CreateTruncatedPyramid (sqrtf : α → α)
    (bottomWidth bottomDepth topWidth topDepth height : α) : Option (MeshData α) :=
  subdividePasses sqrtf 3
    (truncatedPyramidMesh bottomWidth bottomDepth topWidth topDepth height)

/-! ## The 16-bit index view -/

/-- Modelled from the spec: `MeshData::GetIndices16` of `GeometryGenerator.h`, which is not
among the sources: the 16-bit view of the index list, every 32-bit index narrowed to 16 bits
(truncating). -/
def MeshData.GetIndices16 (m : MeshData α) : List Nat :=
  m.Indices32.map (fun i => i % 2 ^ 16)

/-! ## Vocabulary of the statements -/

/-- The six vertices pushed for a triangle with corners `v0 v1 v2`. -/
def triVertices (sqrtf : α → α) (v0 v1 v2 : Vertex α) : List (Vertex α) :=
  [v0, v1, v2, MidPoint sqrtf v0 v1, MidPoint sqrtf v1 v2, MidPoint sqrtf v0 v2]

/-- The twelve indices pushed for triangle number `i`. -/
def triIndices (i : Nat) : List Nat :=
  [u32 (i * 6 + 0), u32 (i * 6 + 3), u32 (i * 6 + 5),
   u32 (i * 6 + 3), u32 (i * 6 + 4), u32 (i * 6 + 5),
   u32 (i * 6 + 5), u32 (i * 6 + 4), u32 (i * 6 + 2),
   u32 (i * 6 + 3), u32 (i * 6 + 1), u32 (i * 6 + 4)]

/-- The corner lookups of input triangle `i` succeed with the given results. -/
def Corners (inp : MeshData α) (i : Nat) (v0 v1 v2 : Vertex α) : Prop :=
  ∃ a b c, inp.Indices32[3 * i]? = some a ∧ inp.Indices32[3 * i + 1]? = some b ∧
    inp.Indices32[3 * i + 2]? = some c ∧
    inp.Vertices[a]? = some v0 ∧ inp.Vertices[b]? = some v1 ∧ inp.Vertices[c]? = some v2

/-- Number of triangles `Subdivide` reads from a mesh: `(uint32)Indices32.size() / 3`. -/
def numTris (m : MeshData α) : Nat := u32 m.Indices32.length / 3

/-- The four vertices `4f .. 4f+3` of face `f` of a box. -/
def faceVertices (vs : List (Vertex α)) (f : Nat) : List (Vertex α) := (vs.drop (4 * f)).take 4

/-- Componentwise arithmetic mean of two 3-vectors. -/
def mean3 (a b : XMFLOAT3 α) : XMFLOAT3 α := ⟨(a.x + b.x) / 2, (a.y + b.y) / 2, (a.z + b.z) / 2⟩

/-- Componentwise arithmetic mean of two 2-vectors. -/
def mean2 (a b : XMFLOAT2 α) : XMFLOAT2 α := ⟨(a.x + b.x) / 2, (a.y + b.y) / 2⟩

/-- Every triangle of the mesh lies strictly on the positive side of some plane through the
origin: a direction `l` has a positive dot product with the three corner positions. -/
def TrianglesFaceOut (m : MeshData α) : Prop :=
  ∀ i v0 v1 v2, Corners m i v0 v1 v2 →
    ∃ l : XMFLOAT3 α, 0 < dot3 l v0.Position ∧ 0 < dot3 l v1.Position ∧ 0 < dot3 l v2.Position

/-- The indices pushed by `BuildCylinderTopCap` on a mesh of `n` vertices. -/
def topCapIndices (sliceCount n : Nat) : List Nat :=
  (List.range sliceCount).flatMap (fun i =>
    [usub (u32 (n + (sliceCount + 1) + 1)) 1, u32 (u32 n + i + 1), u32 (u32 n + i)])

/-- The indices pushed by `BuildCylinderBottomCap` on a mesh of `n` vertices. -/
def bottomCapIndices (sliceCount n : Nat) : List Nat :=
  (List.range sliceCount).flatMap (fun i =>
    [usub (u32 (n + (sliceCount + 1) + 1)) 1, u32 (u32 n + i), u32 (u32 n + i + 1)])

/-- The vertices a top cap adds: the ring and the centre. -/
def topCapVertices (sinf cosf : α → α) (XM_PI topRadius height : α) (sliceCount : Nat) :
    List (Vertex α) :=
  capRingVertices sinf cosf XM_PI topRadius height (1 / 2 * height) 1 sliceCount
    ++ [Vertex.ofFloats 0 (1 / 2 * height) 0 0 1 0 1 0 0 (1 / 2) (1 / 2)]

/-- The vertices a bottom cap adds: the ring and the centre. -/
def bottomCapVertices (sinf cosf : α → α) (XM_PI bottomRadius height : α) (sliceCount : Nat) :
    List (Vertex α) :=
  capRingVertices sinf cosf XM_PI bottomRadius height (-(1 / 2) * height) (-1) sliceCount
    ++ [Vertex.ofFloats 0 (-(1 / 2) * height) 0 0 (-1) 0 1 0 0 (1 / 2) (1 / 2)]

/-- The mesh `CreateCylinder` returns when it returns: side, top cap, bottom cap. -/
def cylinderMesh (sqrtf sinf cosf : α → α) (XM_PI bottomRadius topRadius height : α)
    (sliceCount stackCount : Nat) : MeshData α :=
  let side := cylinderSideVertices sqrtf sinf cosf XM_PI bottomRadius topRadius height
    sliceCount stackCount
  let top := topCapVertices sinf cosf XM_PI topRadius height sliceCount
  { Vertices := side ++ top ++ bottomCapVertices sinf cosf XM_PI bottomRadius height sliceCount
    Indices32 := cylinderSideIndices sliceCount stackCount
      ++ topCapIndices sliceCount side.length
      ++ bottomCapIndices sliceCount (side.length + top.length) }

/-- The vertices `CreateGrid` leaves in the vertex array: row after row. -/
def gridVertices (width depth : α) (m n : Nat) : List (Vertex α) :=
  (List.range m).flatMap (fun i =>
    (List.range n).map (fun j => gridVertex width depth m n i j))

/-- The six values `CreateGrid` writes for the quad `(i, j)`, without the 32-bit
reduction. -/
def gridCell (n i j : Nat) : List Nat :=
  [i * n + j, i * n + j + 1, (i + 1) * n + j, (i + 1) * n + j, i * n + j + 1, (i + 1) * n + j + 1]

/-- The indices `CreateGrid` leaves in the index array when nothing wraps around: quad after
quad. -/
def gridIndices (m n : Nat) : List Nat :=
  (List.range (m - 1)).flatMap (fun i => (List.range (n - 1)).flatMap (fun j => gridCell n i j))

/-- The index list of a sphere as the specification describes it: the top fan, the bands of
quads, and the bottom fan, all in exact arithmetic. -/
def sphereIndicesSpec (sliceCount stackCount : Nat) : List Nat :=
  let south := 2 + (stackCount - 1) * (sliceCount + 1) - 1
  let base := 1 + (stackCount - 2) * (sliceCount + 1)
  (List.range' 1 sliceCount).flatMap (fun i => [0, i + 1, i])
    ++ (List.range (stackCount - 2)).flatMap (fun i =>
        (List.range sliceCount).flatMap (fun j =>
          let a := 1 + i * (sliceCount + 1) + j
          let b := a + sliceCount + 1
          [a, a + 1, b, b, a + 1, b + 1]))
    ++ (List.range sliceCount).flatMap (fun i => [south, base + i, base + i + 1])

/-- The generator call returned a mesh of at most 65535 vertices whose 32-bit indices are all
below 65536 and whose 16-bit view equals the 32-bit index list value for value. -/
def NarrowsExactly (call : Option (MeshData α)) : Prop :=
  ∃ m, call = some m ∧ m.Vertices.length ≤ 65535 ∧ (∀ k ∈ m.Indices32, k < 65536) ∧
    m.GetIndices16 = m.Indices32

/-- Componentwise difference of two 3-vectors. -/
def sub3 (a b : XMFLOAT3 α) : XMFLOAT3 α := ⟨a.x - b.x, a.y - b.y, a.z - b.z⟩

/-- The directed edges of the triangles of an index list: `(a,b)`, `(b,c)`, `(c,a)` for
each triangle `(a,b,c)`, in order. -/
def triangleEdges : List Nat → List (Nat × Nat)
  | a :: b :: c :: rest => (a, b) :: (b, c) :: (c, a) :: triangleEdges rest
  | _ => []

/-- The index list describes a closed, consistently oriented surface: every directed edge of
a triangle occurs once in the list of directed edges, its reverse occurs once, and its two
ends differ. -/
def ClosedOriented (indices : List Nat) : Prop :=
  ∀ e ∈ triangleEdges indices,
    (triangleEdges indices).count e = 1 ∧ (triangleEdges indices).count (e.2, e.1) = 1 ∧
      e.1 ≠ e.2

instance ClosedOriented.decidable (indices : List Nat) : Decidable (ClosedOriented indices) :=
  inferInstanceAs (Decidable (∀ e ∈ triangleEdges indices,
    (triangleEdges indices).count e = 1 ∧ (triangleEdges indices).count (e.2, e.1) = 1 ∧
      e.1 ≠ e.2))

/-- One of the six axis unit vectors. -/
def IsAxisUnit (n : XMFLOAT3 α) : Prop :=
  n = ⟨1, 0, 0⟩ ∨ n = ⟨-1, 0, 0⟩ ∨ n = ⟨0, 1, 0⟩ ∨ n = ⟨0, -1, 0⟩ ∨ n = ⟨0, 0, 1⟩ ∨
    n = ⟨0, 0, -1⟩

/-- The vertex lies on the face named by the axis unit vector `n` of the box with half
dimensions `w2`, `h2`, `d2`: its normal is `n`, its coordinate along the axis of `n` is the
sign of `n` times the half dimension, its coordinates are within the box extents, and its
texture coordinates are in `[0,1]`. -/
def OnBoxFace (w2 h2 d2 : α) (n : XMFLOAT3 α) (v : Vertex α) : Prop :=
  v.Normal = n ∧
  (n.x ≠ 0 → v.Position.x = n.x * w2) ∧ (n.y ≠ 0 → v.Position.y = n.y * h2) ∧
  (n.z ≠ 0 → v.Position.z = n.z * d2) ∧
  |v.Position.x| ≤ |w2| ∧ |v.Position.y| ≤ |h2| ∧ |v.Position.z| ≤ |d2| ∧
  0 ≤ v.TexC.x ∧ v.TexC.x ≤ 1 ∧ 0 ≤ v.TexC.y ∧ v.TexC.y ≤ 1

/-! ## Concrete meshes used to instantiate the statements -/

/-- A mesh over `ℚ` with one vertex and `n` indices, all `0`. -/
def zeroIndexMesh (n : Nat) : MeshData ℚ :=
  { Vertices := [Vertex.zero], Indices32 := List.replicate n 0 }

/-- A vertex over `ℚ` at position `(px, py, pz)` with normal `(0,0,-1)` and tangent
`(1,0,0)`. -/
def flatVertex (px py pz : ℚ) : Vertex ℚ := Vertex.ofFloats px py pz 0 0 (-1) 1 0 0 px py

/-- A mesh over `ℚ` with two vertices whose first triangle is `(0, 1, 0)` and whose `n`
further indices are all `0`. -/
def wrapMesh (n : Nat) : MeshData ℚ :=
  { Vertices := [flatVertex 0 0 0, flatVertex 1 0 0],
    Indices32 := [0, 1, 0] ++ List.replicate n 0 }

/-- A mesh over `ℚ` with a single triangle. -/
def oneTriangle : MeshData ℚ :=
  { Vertices := [flatVertex 0 0 0, flatVertex 0 2 0, flatVertex 2 0 0],
    Indices32 := [0, 1, 2] }

/-- A mesh over `ℚ` with `n` zeroed vertices and no index. -/
def blankMesh (n : Nat) : MeshData ℚ :=
  { Vertices := List.replicate n Vertex.zero, Indices32 := [] }

/-- A mesh over `ℚ` with the vertices `(0,0,0)`, `(2,0,0)`, `(0,2,0)` whose `n` indices run
`0, 1, 2, 0, 1, 2, ...`. -/
def cycleMesh (n : Nat) : MeshData ℚ :=
  { Vertices := [flatVertex 0 0 0, flatVertex 2 0 0, flatVertex 0 2 0],
    Indices32 := (List.range n).map (fun k => k % 3) }

end Ops

/-! ## Lemmas on 32-bit arithmetic -/

theorem u32_of_lt {n : Nat} (h : n < 2 ^ 32) : u32 n = n := Nat.mod_eq_of_lt h

theorem u32_le (n : Nat) : u32 n ≤ n := Nat.mod_le _ _

theorem u32_lt (n : Nat) : u32 n < 2 ^ 32 := Nat.mod_lt _ (by norm_num)

/-! ## Lemmas on the loop of Subdivide -/

section SubdivideLemmas

variable {α : Type} [LinearOrderedField α]

omit [LinearOrderedField α] in
theorem Corners.unique {inp : MeshData α} {i : Nat} {v0 v1 v2 w0 w1 w2 : Vertex α}
    (h : Corners inp i v0 v1 v2) (hw : Corners inp i w0 w1 w2) :
    v0 = w0 ∧ v1 = w1 ∧ v2 = w2 := by
  obtain ⟨a, b, c, ha, hb, hc, h0, h1, h2⟩ := h
  obtain ⟨a2, b2, c2, ha2, hb2, hc2, k0, k1, k2⟩ := hw
  have ea : a = a2 := Option.some.inj (ha.symm.trans ha2)
  have eb : b = b2 := Option.some.inj (hb.symm.trans hb2)
  have ec : c = c2 := Option.some.inj (hc.symm.trans hc2)
  subst ea; subst eb; subst ec
  exact ⟨Option.some.inj (h0.symm.trans k0), Option.some.inj (h1.symm.trans k1),
    Option.some.inj (h2.symm.trans k2)⟩

omit [LinearOrderedField α] in
theorem corners_exist {inp : MeshData α} (hv : inp.IndicesValid) {i : Nat}
    (hi : 3 * i + 2 < inp.Indices32.length) : ∃ v0 v1 v2, Corners inp i v0 v1 v2 := by
  have ha : inp.Indices32[3 * i]? = some (inp.Indices32[3 * i]) :=
    List.getElem?_eq_getElem (by omega)
  have hb : inp.Indices32[3 * i + 1]? = some (inp.Indices32[3 * i + 1]) :=
    List.getElem?_eq_getElem (by omega)
  have hc : inp.Indices32[3 * i + 2]? = some (inp.Indices32[3 * i + 2]) :=
    List.getElem?_eq_getElem (by omega)
  have hav := hv _ (List.getElem?_mem ha)
  have hbv := hv _ (List.getElem?_mem hb)
  have hcv := hv _ (List.getElem?_mem hc)
  exact ⟨_, _, _, _, _, _, ha, hb, hc, List.getElem?_eq_getElem hav,
    List.getElem?_eq_getElem hbv, List.getElem?_eq_getElem hcv⟩

theorem subdivideTri_of_corners (sqrtf : α → α) {inp : MeshData α} {i : Nat}
    {v0 v1 v2 : Vertex α} (hi : 3 * i + 2 < 2 ^ 32) (h : Corners inp i v0 v1 v2) :
    subdivideTri sqrtf inp i = some (triVertices sqrtf v0 v1 v2, triIndices i) := by
  obtain ⟨a, b, c, ha, hb, hc, h0, h1, h2⟩ := h
  have e0 : u32 (i * 3) = 3 * i := by rw [u32_of_lt (by omega)]; omega
  have e1 : u32 (i * 3 + 1) = 3 * i + 1 := by rw [u32_of_lt (by omega)]; omega
  have e2 : u32 (i * 3 + 2) = 3 * i + 2 := by rw [u32_of_lt (by omega)]; omega
  simp [subdivideTri, e0, e1, e2, ha, hb, hc, h0, h1, h2, triVertices, triIndices]

theorem subdivideLoop_spec (sqrtf : α → α) (inp : MeshData α) :
    ∀ (k i : Nat) (out : MeshData α),
      (∀ j, j < k → ∃ v0 v1 v2, Corners inp (i + j) v0 v1 v2) →
      3 * (i + k) ≤ 2 ^ 32 →
      ∃ res, subdivideLoop sqrtf inp k i out = some res ∧
        res.Vertices.length = out.Vertices.length + 6 * k ∧
        res.Indices32.length = out.Indices32.length + 12 * k ∧
        (∀ p, p < out.Vertices.length → res.Vertices[p]? = out.Vertices[p]?) ∧
        (∀ p, p < out.Indices32.length → res.Indices32[p]? = out.Indices32[p]?) ∧
        (∀ j v0 v1 v2, j < k → Corners inp (i + j) v0 v1 v2 →
          (∀ t, t < 6 → res.Vertices[out.Vertices.length + 6 * j + t]?
              = (triVertices sqrtf v0 v1 v2)[t]?) ∧
          (∀ t, t < 12 → res.Indices32[out.Indices32.length + 12 * j + t]?
              = (triIndices (i + j))[t]?)) := by
  intro k
  induction k with
  | zero =>
    intro i out _ _
    exact ⟨out, rfl, by simp, by simp, fun _ _ => rfl, fun _ _ => rfl,
      fun j _ _ _ hj => absurd hj (Nat.not_lt_zero _)⟩
  | succ k ih =>
    intro i out hc hb
    obtain ⟨v0, v1, v2, hcor⟩ := hc 0 (Nat.succ_pos _)
    simp only [Nat.add_zero] at hcor
    have htri := subdivideTri_of_corners sqrtf (by omega) hcor
    have hc2 : ∀ j, j < k → ∃ v0 v1 v2, Corners inp (i + 1 + j) v0 v1 v2 := by
      intro j hj
      have := hc (j + 1) (by omega)
      rwa [show i + (j + 1) = i + 1 + j by omega] at this
    obtain ⟨res, hres, hlv, hli, hpv, hpi, hall⟩ :=
      ih (i + 1) { Vertices := out.Vertices ++ triVertices sqrtf v0 v1 v2,
                   Indices32 := out.Indices32 ++ triIndices i } hc2 (by omega)
    have hlv6 : (triVertices sqrtf v0 v1 v2).length = 6 := rfl
    have hli12 : (triIndices i).length = 12 := rfl
    simp only [List.length_append, hlv6, hli12] at hlv hli hpv hpi hall
    refine ⟨res, ?_, by omega, by omega, ?_, ?_, ?_⟩
    · simp only [subdivideLoop, htri]; exact hres
    · intro p hp
      rw [hpv p (by omega), List.getElem?_append_left hp]
    · intro p hp
      rw [hpi p (by omega), List.getElem?_append_left hp]
    · intro j w0 w1 w2 hj hw
      cases j with
      | zero =>
        simp only [Nat.add_zero] at hw
        obtain ⟨e0, e1, e2⟩ := Corners.unique hw hcor
        subst e0; subst e1; subst e2
        constructor
        · intro t ht
          rw [hpv _ (by omega), List.getElem?_append_right (by omega)]
          congr 1; omega
        · intro t ht
          rw [hpi _ (by omega), List.getElem?_append_right (by omega)]
          simp only [Nat.add_zero]
          congr 1; omega
      | succ j =>
        have hw2 : Corners inp (i + 1 + j) w0 w1 w2 := by
          rwa [show i + (j + 1) = i + 1 + j by omega] at hw
        obtain ⟨hv, hi⟩ := hall j w0 w1 w2 (by omega) hw2
        constructor
        · intro t ht
          have := hv t ht
          rwa [show out.Vertices.length + 6 + 6 * j + t
            = out.Vertices.length + 6 * (j + 1) + t by omega] at this
        · intro t ht
          have := hi t ht
          rwa [show out.Indices32.length + 12 + 12 * j + t
            = out.Indices32.length + 12 * (j + 1) + t by omega,
            show i + 1 + j = i + (j + 1) by omega] at this

theorem corners_of_subdivideTri (sqrtf : α → α) {inp : MeshData α} {i : Nat}
    {x : List (Vertex α) × List Nat} (hi : 3 * i + 2 < 2 ^ 32)
    (h : subdivideTri sqrtf inp i = some x) : ∃ v0 v1 v2, Corners inp i v0 v1 v2 := by
  have e0 : u32 (i * 3) = 3 * i := by rw [u32_of_lt (by omega)]; omega
  have e1 : u32 (i * 3 + 1) = 3 * i + 1 := by rw [u32_of_lt (by omega)]; omega
  have e2 : u32 (i * 3 + 2) = 3 * i + 2 := by rw [u32_of_lt (by omega)]; omega
  simp only [subdivideTri, Nat.add_zero, e0, e1, e2] at h
  cases ha : inp.Indices32[3 * i]? with
  | none => simp [ha] at h
  | some a =>
  cases hb : inp.Indices32[3 * i + 1]? with
  | none => simp [ha, hb] at h
  | some b =>
  cases hc : inp.Indices32[3 * i + 2]? with
  | none => simp [ha, hb, hc] at h
  | some c =>
  cases h0 : inp.Vertices[a]? with
  | none => simp [ha, hb, hc, h0] at h
  | some v0 =>
  cases h1 : inp.Vertices[b]? with
  | none => simp [ha, hb, hc, h0, h1] at h
  | some v1 =>
  cases h2 : inp.Vertices[c]? with
  | none => simp [ha, hb, hc, h0, h1, h2] at h
  | some v2 => exact ⟨v0, v1, v2, a, b, c, ha, hb, hc, h0, h1, h2⟩

theorem corners_of_subdivideLoop (sqrtf : α → α) (inp : MeshData α) :
    ∀ (k i : Nat) (out res : MeshData α), subdivideLoop sqrtf inp k i out = some res →
      3 * (i + k) ≤ 2 ^ 32 → ∀ j, j < k → ∃ v0 v1 v2, Corners inp (i + j) v0 v1 v2 := by
  intro k
  induction k with
  | zero => intro i out res _ _ j hj; exact absurd hj (Nat.not_lt_zero _)
  | succ k ih =>
    intro i out res h hb j hj
    simp only [subdivideLoop] at h
    cases htri : subdivideTri sqrtf inp i with
    | none => simp [htri] at h
    | some x =>
      obtain ⟨vs, is⟩ := x
      simp only [htri] at h
      cases j with
      | zero => exact corners_of_subdivideTri sqrtf (by omega) htri
      | succ j =>
        have := ih (i + 1) _ res h (by omega) j (by omega)
        rwa [show i + 1 + j = i + (j + 1) by omega] at this

omit [LinearOrderedField α] in
theorem numTris_bound (m : MeshData α) : 3 * numTris m ≤ 2 ^ 32 ∧
    3 * numTris m ≤ m.Indices32.length := by
  have h1 := u32_lt m.Indices32.length
  have h2 := u32_le m.Indices32.length
  unfold numTris
  omega

/-- What a successful `Subdivide` has built: six vertices and twelve indices for each of
the `numTris` triangles read, in order. -/
theorem Subdivide_some_spec (sqrtf : α → α) {m out : MeshData α}
    (h : Subdivide sqrtf m = some out) :
    out.Vertices.length = 6 * numTris m ∧ out.Indices32.length = 12 * numTris m ∧
    (∀ j, j < numTris m → ∃ v0 v1 v2, Corners m j v0 v1 v2) ∧
    (∀ j v0 v1 v2, j < numTris m → Corners m j v0 v1 v2 →
      (∀ t, t < 6 → out.Vertices[6 * j + t]? = (triVertices sqrtf v0 v1 v2)[t]?) ∧
      (∀ t, t < 12 → out.Indices32[12 * j + t]? = (triIndices j)[t]?)) := by
  have hb := numTris_bound m
  have hcor : ∀ j, j < numTris m → ∃ v0 v1 v2, Corners m (0 + j) v0 v1 v2 :=
    corners_of_subdivideLoop sqrtf m (numTris m) 0 _ out h (by omega)
  obtain ⟨res, hres, hlv, hli, _, _, hall⟩ :=
    subdivideLoop_spec sqrtf m (numTris m) 0 { Vertices := [], Indices32 := [] } hcor
      (by omega)
  have e : res = out := Option.some.inj (hres.symm.trans h)
  subst e
  simp only [List.length_nil, Nat.zero_add] at hlv hli hall hcor
  exact ⟨hlv, hli, hcor, hall⟩

/-- On a mesh whose indices are all in range, `Subdivide` returns. -/
theorem Subdivide_isSome (sqrtf : α → α) {m : MeshData α} (hv : m.IndicesValid) :
    ∃ out, Subdivide sqrtf m = some out := by
  have hb := numTris_bound m
  have hcor : ∀ j, j < numTris m → ∃ v0 v1 v2, Corners m (0 + j) v0 v1 v2 := by
    intro j hj
    rw [Nat.zero_add]
    exact corners_exist hv (by omega)
  obtain ⟨res, hres, _⟩ :=
    subdivideLoop_spec sqrtf m (numTris m) 0 { Vertices := [], Indices32 := [] } hcor
      (by omega)
  exact ⟨res, hres⟩

/-- Every index written by `Subdivide` is below the number of vertices written. -/
theorem Subdivide_valid (sqrtf : α → α) {m out : MeshData α}
    (h : Subdivide sqrtf m = some out) : out.IndicesValid := by
  obtain ⟨hlv, hli, hcor, hall⟩ := Subdivide_some_spec sqrtf h
  intro k hk
  obtain ⟨p, hp⟩ := List.mem_iff_getElem?.mp hk
  have hpl : p < out.Indices32.length := by
    obtain ⟨hlt, _⟩ := List.getElem?_eq_some_iff.mp hp
    exact hlt
  have hj : p / 12 < numTris m := by omega
  obtain ⟨v0, v1, v2, hc⟩ := hcor _ hj
  have ht : p % 12 < 12 := Nat.mod_lt _ (by norm_num)
  have hidx := (hall _ v0 v1 v2 hj hc).2 (p % 12) ht
  rw [show 12 * (p / 12) + p % 12 = p from Nat.div_add_mod p 12, hp] at hidx
  have hmem : k ∈ triIndices (p / 12) := List.getElem?_mem hidx.symm
  have hle : ∀ c, c ≤ 5 → u32 (p / 12 * 6 + c) < out.Vertices.length := by
    intro c hc5
    have := u32_le (p / 12 * 6 + c)
    omega
  simp only [triIndices, List.mem_cons, List.mem_singleton, List.not_mem_nil, or_false] at hmem
  rcases hmem with e | e | e | e | e | e | e | e | e | e | e | e <;> subst e <;>
    exact hle _ (by norm_num)

end SubdivideLemmas

/-! ## Subdivide: counts, validity, midpoints -/

section SubdivideClaims

variable {α : Type} [LinearOrderedField α]

omit [LinearOrderedField α] in
theorem numTris_eq {m : MeshData α} {T : Nat} (hT : m.Indices32.length = 3 * T)
    (hfit : 3 * T < 2 ^ 32) : numTris m = T := by
  unfold numTris
  rw [hT, u32_of_lt hfit]
  omega

theorem oneTriangle_valid : oneTriangle.IndicesValid := by
  intro k hk
  simp only [oneTriangle, List.mem_cons, List.mem_singleton, List.not_mem_nil, or_false] at hk
  simp only [oneTriangle, List.length_cons, List.length_nil]
  omega

theorem zeroIndexMesh_valid (n : Nat) : (zeroIndexMesh n).IndicesValid := by
  intro k hk
  have h0 : k = 0 := (List.mem_replicate.mp hk).2
  subst h0
  simp only [zeroIndexMesh, List.length_cons, List.length_nil]
  omega

theorem zeroIndexMesh_length (n : Nat) : (zeroIndexMesh n).Indices32.length = n := by
  simp only [zeroIndexMesh, List.length_replicate]

theorem zeroIndexMesh_subdivide (sqrtf : ℚ → ℚ) :
    Subdivide sqrtf (zeroIndexMesh (3 * 2 ^ 32)) = some { Vertices := [], Indices32 := [] } := by
  have h : u32 (zeroIndexMesh (3 * 2 ^ 32)).Indices32.length / 3 = 0 := by
    rw [zeroIndexMesh_length]
    simp only [u32]
    norm_num
  show subdivideLoop sqrtf (zeroIndexMesh (3 * 2 ^ 32))
    (u32 (zeroIndexMesh (3 * 2 ^ 32)).Indices32.length / 3) 0 _ = _
  rw [h]
  rfl

/-- C1 (as stated, refuted): the mesh with one vertex and `3 * 2^32` zero indices has index
count `3 * T` for `T = 2^32` and only in-range indices, yet `Subdivide` reads
`(uint32)size() / 3 = 0` triangles and returns the empty mesh, not `6 * T` vertices. -/
theorem C1_counterexample :
    (zeroIndexMesh (3 * 2 ^ 32)).Indices32.length = 3 * 2 ^ 32 ∧
    (zeroIndexMesh (3 * 2 ^ 32)).IndicesValid ∧
    ¬ ∃ out, Subdivide (fun x : ℚ => x) (zeroIndexMesh (3 * 2 ^ 32)) = some out ∧
        out.Vertices.length = 6 * 2 ^ 32 ∧ out.Indices32.length = 12 * 2 ^ 32 := by
  refine ⟨zeroIndexMesh_length _, zeroIndexMesh_valid _, ?_⟩
  rintro ⟨out, hout, hlen, _⟩
  rw [zeroIndexMesh_subdivide] at hout
  have e := Option.some.inj hout
  rw [← e] at hlen
  simp only [List.length_nil] at hlen
  omega

/-- C1 (amended): for every mesh whose index count is `3 * T` with `3 * T < 2^32` and whose
indices are all smaller than its vertex count, `Subdivide` returns a mesh with exactly
`6 * T` vertices and exactly `12 * T` indices, four times the input index count. -/
theorem C1_subdivide_counts (sqrtf : α → α) (m : MeshData α) (T : Nat)
    (hT : m.Indices32.length = 3 * T) (hfit : 3 * T < 2 ^ 32) (hv : m.IndicesValid) :
    ∃ out, Subdivide sqrtf m = some out ∧ out.Vertices.length = 6 * T ∧
      out.Indices32.length = 12 * T ∧ out.Indices32.length = 4 * m.Indices32.length := by
  obtain ⟨out, hout⟩ := Subdivide_isSome sqrtf hv
  obtain ⟨hlv, hli, _, _⟩ := Subdivide_some_spec sqrtf hout
  rw [numTris_eq hT hfit] at hlv hli
  exact ⟨out, hout, hlv, hli, by omega⟩

theorem C1_subdivide_counts_witness :
    oneTriangle.Indices32.length = 3 * 1 ∧ 3 * 1 < 2 ^ 32 ∧ oneTriangle.IndicesValid ∧
    ∃ out, Subdivide (fun x : ℚ => x) oneTriangle = some out ∧ out.Vertices.length = 6 * 1 ∧
      out.Indices32.length = 12 * 1 ∧ out.Indices32.length = 4 * oneTriangle.Indices32.length :=
  ⟨rfl, by norm_num, oneTriangle_valid,
    C1_subdivide_counts (fun x : ℚ => x) oneTriangle 1 rfl (by norm_num) oneTriangle_valid⟩

/-- C5: on every mesh whose indices are all smaller than its vertex count, `Subdivide`
returns (no index or vertex lookup is out of range: the corners of each of the triangles it
reads exist), and in its output the index count is a multiple of 3 and every index is
smaller than the output vertex count. -/
theorem C5_subdivide_preserves_validity (sqrtf : α → α) (m : MeshData α)
    (hv : m.IndicesValid) :
    ∃ out, Subdivide sqrtf m = some out ∧
      (∀ i, i < numTris m → ∃ v0 v1 v2, Corners m i v0 v1 v2) ∧
      out.Indices32.length % 3 = 0 ∧ out.IndicesValid := by
  obtain ⟨out, hout⟩ := Subdivide_isSome sqrtf hv
  obtain ⟨_, hli, hcor, _⟩ := Subdivide_some_spec sqrtf hout
  exact ⟨out, hout, hcor, by omega, Subdivide_valid sqrtf hout⟩

theorem C5_subdivide_preserves_validity_witness :
    oneTriangle.IndicesValid ∧ ∃ out, Subdivide (fun x : ℚ => x) oneTriangle = some out ∧
      (∀ i, i < numTris oneTriangle → ∃ v0 v1 v2, Corners oneTriangle i v0 v1 v2) ∧
      out.Indices32.length % 3 = 0 ∧ out.IndicesValid :=
  ⟨oneTriangle_valid,
    C5_subdivide_preserves_validity (fun x : ℚ => x) oneTriangle oneTriangle_valid⟩

omit [LinearOrderedField α] in
theorem triangle_of_lookups {out : MeshData α} {t p q r a b c : Nat} {va vb vc : Vertex α}
    (hp : p = 3 * t) (hq : q = 3 * t + 1) (hr : r = 3 * t + 2)
    (ha : out.Indices32[p]? = some a) (hb : out.Indices32[q]? = some b)
    (hc : out.Indices32[r]? = some c) (h0 : out.Vertices[a]? = some va)
    (h1 : out.Vertices[b]? = some vb) (h2 : out.Vertices[c]? = some vc) :
    out.triangle t = some (va, vb, vc) := by
  subst hp; subst hq; subst hr
  simp [MeshData.triangle, ha, hb, hc, h0, h1, h2]

/-- C3: `MidPoint` returns the componentwise arithmetic mean of the two positions and of the
two texture coordinates; and when `Subdivide` runs on a mesh with in-range indices, the
three vertices it inserts after the corners of each triangle have as positions the means of
the positions of the corner pairs `(v0,v1)`, `(v1,v2)`, `(v0,v2)`. -/
theorem C3_midpoint_mean (sqrtf : α → α) :
    (∀ a b : Vertex α, (MidPoint sqrtf a b).Position = mean3 a.Position b.Position ∧
      (MidPoint sqrtf a b).TexC = mean2 a.TexC b.TexC) ∧
    (∀ m : MeshData α, m.IndicesValid → ∃ out, Subdivide sqrtf m = some out ∧
      out.Vertices.length = 6 * numTris m ∧
      ∀ i, i < numTris m → ∃ v0 v1 v2 m0 m1 m2, Corners m i v0 v1 v2 ∧
        out.Vertices[6 * i + 3]? = some m0 ∧ out.Vertices[6 * i + 4]? = some m1 ∧
        out.Vertices[6 * i + 5]? = some m2 ∧
        m0.Position = mean3 v0.Position v1.Position ∧
        m1.Position = mean3 v1.Position v2.Position ∧
        m2.Position = mean3 v0.Position v2.Position) := by
  have hmid : ∀ a b : Vertex α, (MidPoint sqrtf a b).Position = mean3 a.Position b.Position ∧
      (MidPoint sqrtf a b).TexC = mean2 a.TexC b.TexC := by
    intro a b
    constructor
    · simp only [MidPoint, scale3, add3, mean3, XMFLOAT3.mk.injEq]
      refine ⟨?_, ?_, ?_⟩ <;> ring
    · simp only [MidPoint, scale2, add2, mean2, XMFLOAT2.mk.injEq]
      refine ⟨?_, ?_⟩ <;> ring
  refine ⟨hmid, ?_⟩
  intro m hv
  obtain ⟨out, hout⟩ := Subdivide_isSome sqrtf hv
  obtain ⟨hlv, _, hcor, hall⟩ := Subdivide_some_spec sqrtf hout
  refine ⟨out, hout, hlv, ?_⟩
  intro i hi
  obtain ⟨v0, v1, v2, hc⟩ := hcor i hi
  have hV := (hall i v0 v1 v2 hi hc).1
  exact ⟨v0, v1, v2, MidPoint sqrtf v0 v1, MidPoint sqrtf v1 v2, MidPoint sqrtf v0 v2, hc,
    (hV 3 (by norm_num)).trans rfl, (hV 4 (by norm_num)).trans rfl,
    (hV 5 (by norm_num)).trans rfl, (hmid v0 v1).1, (hmid v1 v2).1, (hmid v0 v2).1⟩

theorem C3_midpoint_mean_witness :
    oneTriangle.IndicesValid ∧ ∃ out, Subdivide (fun x : ℚ => x) oneTriangle = some out ∧
      out.Vertices.length = 6 * numTris oneTriangle ∧
      ∀ i, i < numTris oneTriangle → ∃ v0 v1 v2 m0 m1 m2, Corners oneTriangle i v0 v1 v2 ∧
        out.Vertices[6 * i + 3]? = some m0 ∧ out.Vertices[6 * i + 4]? = some m1 ∧
        out.Vertices[6 * i + 5]? = some m2 ∧
        m0.Position = mean3 v0.Position v1.Position ∧
        m1.Position = mean3 v1.Position v2.Position ∧
        m2.Position = mean3 v0.Position v2.Position :=
  ⟨oneTriangle_valid, (C3_midpoint_mean (fun x : ℚ => x)).2 oneTriangle oneTriangle_valid⟩

/-- The triangles written by `Subdivide` for input triangle `i`, read back through the
output vertex list, when none of the indices `i*6+0 .. i*6+5` wraps around. -/
theorem Subdivide_triangles (sqrtf : α → α) {m out : MeshData α}
    (h : Subdivide sqrtf m = some out) {i : Nat} {v0 v1 v2 : Vertex α}
    (hi : i < numTris m) (hw : 6 * i + 5 < 2 ^ 32) (hc : Corners m i v0 v1 v2) :
    out.triangle (4 * i) = some (v0, MidPoint sqrtf v0 v1, MidPoint sqrtf v0 v2) ∧
    out.triangle (4 * i + 1)
      = some (MidPoint sqrtf v0 v1, MidPoint sqrtf v1 v2, MidPoint sqrtf v0 v2) ∧
    out.triangle (4 * i + 2) = some (MidPoint sqrtf v0 v2, MidPoint sqrtf v1 v2, v2) ∧
    out.triangle (4 * i + 3) = some (MidPoint sqrtf v0 v1, v1, MidPoint sqrtf v1 v2) ∧
    out.Vertices[6 * i]? = some v0 ∧ out.Vertices[6 * i + 1]? = some v1 ∧
    out.Vertices[6 * i + 2]? = some v2 := by
  obtain ⟨_, _, _, hall⟩ := Subdivide_some_spec sqrtf h
  obtain ⟨hV, hI⟩ := hall i v0 v1 v2 hi hc
  have hI2 : ∀ t x, t < 12 → (triIndices i)[t]? = some x →
      out.Indices32[12 * i + t]? = some x := fun t x ht hx => (hI t ht).trans hx
  have hV2 : ∀ c x, c < 6 → (triVertices sqrtf v0 v1 v2)[c]? = some x →
      out.Vertices[u32 (i * 6 + c)]? = some x := by
    intro c x hc6 hx
    rw [u32_of_lt (by omega), show i * 6 + c = 6 * i + c by omega, hV c hc6]
    exact hx
  refine ⟨?_, ?_, ?_, ?_, (hV 0 (by norm_num)).trans rfl, (hV 1 (by norm_num)).trans rfl,
    (hV 2 (by norm_num)).trans rfl⟩
  · exact triangle_of_lookups (p := 12 * i + 0) (q := 12 * i + 1) (r := 12 * i + 2)
      (by omega) (by omega) (by omega)
      (hI2 0 (u32 (i * 6 + 0)) (by norm_num) rfl) (hI2 1 (u32 (i * 6 + 3)) (by norm_num) rfl)
      (hI2 2 (u32 (i * 6 + 5)) (by norm_num) rfl)
      (hV2 0 _ (by norm_num) rfl) (hV2 3 _ (by norm_num) rfl) (hV2 5 _ (by norm_num) rfl)
  · exact triangle_of_lookups (p := 12 * i + 3) (q := 12 * i + 4) (r := 12 * i + 5)
      (by omega) (by omega) (by omega)
      (hI2 3 (u32 (i * 6 + 3)) (by norm_num) rfl) (hI2 4 (u32 (i * 6 + 4)) (by norm_num) rfl)
      (hI2 5 (u32 (i * 6 + 5)) (by norm_num) rfl)
      (hV2 3 _ (by norm_num) rfl) (hV2 4 _ (by norm_num) rfl) (hV2 5 _ (by norm_num) rfl)
  · exact triangle_of_lookups (p := 12 * i + 6) (q := 12 * i + 7) (r := 12 * i + 8)
      (by omega) (by omega) (by omega)
      (hI2 6 (u32 (i * 6 + 5)) (by norm_num) rfl) (hI2 7 (u32 (i * 6 + 4)) (by norm_num) rfl)
      (hI2 8 (u32 (i * 6 + 2)) (by norm_num) rfl)
      (hV2 5 _ (by norm_num) rfl) (hV2 4 _ (by norm_num) rfl) (hV2 2 _ (by norm_num) rfl)
  · exact triangle_of_lookups (p := 12 * i + 9) (q := 12 * i + 10) (r := 12 * i + 11)
      (by omega) (by omega) (by omega)
      (hI2 9 (u32 (i * 6 + 3)) (by norm_num) rfl) (hI2 10 (u32 (i * 6 + 1)) (by norm_num) rfl)
      (hI2 11 (u32 (i * 6 + 4)) (by norm_num) rfl)
      (hV2 3 _ (by norm_num) rfl) (hV2 1 _ (by norm_num) rfl) (hV2 4 _ (by norm_num) rfl)

/-- C2 (amended): for every mesh with in-range indices whose index count is `3 * T` with
`6 * T ≤ 2^32` (so that no output index `i*6+k` wraps around in 32 bits) and every input
triangle `i` with corner vertices `(v0,v1,v2)`, writing `m0 = MidPoint(v0,v1)`,
`m1 = MidPoint(v1,v2)`, `m2 = MidPoint(v0,v2)`, the output triangles number `4i .. 4i+3` of
`Subdivide`, read through the output vertex list, are `(v0,m0,m2)`, `(m0,m1,m2)`,
`(m2,m1,v2)`, `(m0,v1,m1)`, that is exactly the set
`{(v0,m0,m2), (m0,v1,m1), (m2,m1,v2), (m0,m1,m2)}`, and `v0,v1,v2` are copied unchanged to
the output offsets `6i, 6i+1, 6i+2`. -/
theorem C2_subdivide_triangles (sqrtf : α → α) (m : MeshData α) (T i : Nat)
    (v0 v1 v2 : Vertex α) (hT : m.Indices32.length = 3 * T) (hfit : 6 * T ≤ 2 ^ 32)
    (hv : m.IndicesValid) (hc : Corners m i v0 v1 v2) :
    ∃ out, Subdivide sqrtf m = some out ∧
      out.triangle (4 * i) = some (v0, MidPoint sqrtf v0 v1, MidPoint sqrtf v0 v2) ∧
      out.triangle (4 * i + 1)
        = some (MidPoint sqrtf v0 v1, MidPoint sqrtf v1 v2, MidPoint sqrtf v0 v2) ∧
      out.triangle (4 * i + 2) = some (MidPoint sqrtf v0 v2, MidPoint sqrtf v1 v2, v2) ∧
      out.triangle (4 * i + 3) = some (MidPoint sqrtf v0 v1, v1, MidPoint sqrtf v1 v2) ∧
      {t | ∃ k, k < 4 ∧ out.triangle (4 * i + k) = some t}
        = ({(v0, MidPoint sqrtf v0 v1, MidPoint sqrtf v0 v2),
            (MidPoint sqrtf v0 v1, v1, MidPoint sqrtf v1 v2),
            (MidPoint sqrtf v0 v2, MidPoint sqrtf v1 v2, v2),
            (MidPoint sqrtf v0 v1, MidPoint sqrtf v1 v2, MidPoint sqrtf v0 v2)} :
            Set (Vertex α × Vertex α × Vertex α)) ∧
      out.Vertices[6 * i]? = some v0 ∧ out.Vertices[6 * i + 1]? = some v1 ∧
      out.Vertices[6 * i + 2]? = some v2 := by
  obtain ⟨out, hout⟩ := Subdivide_isSome sqrtf hv
  have hiT : 3 * i + 2 < m.Indices32.length := by
    obtain ⟨a, b, c, _, _, hc2, _⟩ := hc
    exact (List.getElem?_eq_some_iff.mp hc2).1
  have hn : numTris m = T := numTris_eq hT (by omega)
  obtain ⟨t0, t1, t2, t3, c0, c1, c2⟩ :=
    Subdivide_triangles sqrtf hout (i := i) (by omega) (by omega) hc
  refine ⟨out, hout, t0, t1, t2, t3, ?_, c0, c1, c2⟩
  ext x
  simp only [Set.mem_setOf_eq, Set.mem_insert_iff, Set.mem_singleton_iff]
  constructor
  · rintro ⟨k, hk, hx⟩
    interval_cases k
    · rw [Nat.add_zero, t0] at hx; exact Or.inl (Option.some.inj hx).symm
    · rw [t1] at hx; exact Or.inr (Or.inr (Or.inr (Option.some.inj hx).symm))
    · rw [t2] at hx; exact Or.inr (Or.inr (Or.inl (Option.some.inj hx).symm))
    · rw [t3] at hx; exact Or.inr (Or.inl (Option.some.inj hx).symm)
  · rintro (e | e | e | e)
    · exact ⟨0, by norm_num, by rw [e, Nat.add_zero, t0]⟩
    · exact ⟨3, by norm_num, by rw [e, t3]⟩
    · exact ⟨2, by norm_num, by rw [e, t2]⟩
    · exact ⟨1, by norm_num, by rw [e, t1]⟩

theorem oneTriangle_corners :
    Corners oneTriangle 0 (flatVertex 0 0 0) (flatVertex 0 2 0) (flatVertex 2 0 0) :=
  ⟨0, 1, 2, rfl, rfl, rfl, rfl, rfl, rfl⟩

theorem C2_subdivide_triangles_witness :
    oneTriangle.Indices32.length = 3 * 1 ∧ 6 * 1 ≤ 2 ^ 32 ∧ oneTriangle.IndicesValid ∧
    Corners oneTriangle 0 (flatVertex 0 0 0) (flatVertex 0 2 0) (flatVertex 2 0 0) ∧
    ∃ out, Subdivide (fun x : ℚ => x) oneTriangle = some out ∧
      out.triangle (4 * 0) = some (flatVertex 0 0 0,
        MidPoint (fun x : ℚ => x) (flatVertex 0 0 0) (flatVertex 0 2 0),
        MidPoint (fun x : ℚ => x) (flatVertex 0 0 0) (flatVertex 2 0 0)) :=
  ⟨rfl, by norm_num, oneTriangle_valid, oneTriangle_corners,
    (C2_subdivide_triangles (fun x : ℚ => x) oneTriangle 1 0 (flatVertex 0 0 0)
      (flatVertex 0 2 0) (flatVertex 2 0 0) rfl (by norm_num) oneTriangle_valid
      oneTriangle_corners).imp (fun _ h => ⟨h.1, h.2.1⟩)⟩

theorem wrapMesh_length (n : Nat) : (wrapMesh n).Indices32.length = n + 3 := by
  simp only [wrapMesh, List.length_append, List.length_replicate, List.length_cons,
    List.length_nil]
  omega

theorem wrapMesh_valid (n : Nat) : (wrapMesh n).IndicesValid := by
  intro k hk
  simp only [wrapMesh, List.mem_append, List.mem_cons, List.mem_singleton, List.not_mem_nil,
    or_false, List.mem_replicate] at hk
  simp only [wrapMesh, List.length_cons, List.length_nil]
  omega

theorem wrapMesh_index (n p : Nat) (h3 : 3 ≤ p) (hp : p < n + 3) :
    (wrapMesh n).Indices32[p]? = some 0 := by
  have hlen : ([0, 1, 0] : List Nat).length = 3 := rfl
  simp only [wrapMesh]
  rw [List.getElem?_append_right (by omega), hlen, List.getElem?_replicate,
    if_pos (by omega)]

theorem wrapMesh_corners (n i : Nat) (hi : 1 ≤ i) (h : 3 * i + 2 < n + 3) :
    Corners (wrapMesh n) i (flatVertex 0 0 0) (flatVertex 0 0 0) (flatVertex 0 0 0) :=
  ⟨0, 0, 0, wrapMesh_index n _ (by omega) (by omega), wrapMesh_index n _ (by omega) (by omega),
    wrapMesh_index n _ (by omega) (by omega), rfl, rfl, rfl⟩

theorem wrapMesh_corners_zero (n : Nat) :
    Corners (wrapMesh n) 0 (flatVertex 0 0 0) (flatVertex 1 0 0) (flatVertex 0 0 0) :=
  ⟨0, 1, 0, by simp [wrapMesh], by simp [wrapMesh], by simp [wrapMesh], rfl, rfl, rfl⟩

/-- On `wrapMesh`, when the index `i*6+5` wraps around to `1`, output triangle `4i` ends at
the second vertex written for triangle `0`. -/
theorem wrapMesh_triangle (sqrtf : ℚ → ℚ) (n i : Nat) {out : MeshData ℚ}
    (h : Subdivide sqrtf (wrapMesh n) = some out) (hn : i < numTris (wrapMesh n))
    (hi : 1 ≤ i) (h0 : u32 (i * 6 + 0) = 6 * i + 0) (h3 : u32 (i * 6 + 3) = 6 * i + 3)
    (h5 : u32 (i * 6 + 5) = 6 * 0 + 1) :
    out.triangle (4 * i) = some (flatVertex 0 0 0,
      MidPoint sqrtf (flatVertex 0 0 0) (flatVertex 0 0 0), flatVertex 1 0 0) := by
  have hb := numTris_bound (wrapMesh n)
  rw [wrapMesh_length] at hb
  obtain ⟨_, _, _, hall⟩ := Subdivide_some_spec sqrtf h
  obtain ⟨hV, hI⟩ := hall i _ _ _ hn (wrapMesh_corners n i hi (by omega))
  obtain ⟨hV0, _⟩ := hall 0 _ _ _ (by omega) (wrapMesh_corners_zero n)
  have hI2 : ∀ t x, t < 12 → (triIndices i)[t]? = some x →
      out.Indices32[12 * i + t]? = some x := fun t x ht hx => (hI t ht).trans hx
  refine triangle_of_lookups (p := 12 * i + 0) (q := 12 * i + 1) (r := 12 * i + 2)
    (by omega) (by omega) (by omega)
    (hI2 0 (u32 (i * 6 + 0)) (by norm_num) rfl) (hI2 1 (u32 (i * 6 + 3)) (by norm_num) rfl)
    (hI2 2 (u32 (i * 6 + 5)) (by norm_num) rfl) ?_ ?_ ?_
  · rw [h0]; exact (hV 0 (by norm_num)).trans rfl
  · rw [h3]; exact (hV 3 (by norm_num)).trans rfl
  · rw [h5]; exact (hV0 1 (by norm_num)).trans rfl

theorem wrapMesh_numTris_eq (n : Nat) : numTris (wrapMesh n) = u32 (n + 3) / 3 := by
  simp only [numTris, wrapMesh_length]

theorem u32_wrap_count : u32 (2147483646 + 3) / 3 = 715827883 := by
  simp only [u32]
  norm_num

theorem wrapMesh_numTris : numTris (wrapMesh 2147483646) = 715827883 :=
  (wrapMesh_numTris_eq 2147483646).trans u32_wrap_count

theorem flatVertex_ne_of_x {a b c d e f : ℚ} (h : a ≠ d) :
    flatVertex a b c ≠ flatVertex d e f := by
  intro he
  exact h (congrArg (fun v => v.Position.x) he)

theorem midPoint_flat_x (sqrtf : ℚ → ℚ) (a b c d e f : ℚ) :
    (MidPoint sqrtf (flatVertex a b c) (flatVertex d e f)).Position.x = 1 / 2 * (a + d) := rfl

/-- C2 (as stated, refuted): the mesh with vertices `A = (0,0,0)`, `B = (1,0,0)`, first
triangle `(0,1,0)` and `715827882` further triangles `(0,0,0)` has in-range indices and
`3 * 715827883 < 2^32` indices. For its last triangle `i = 715827882`, with corners
`(A,A,A)`, the index `i*6+5` wraps around to `1`, so output triangle `4i` is
`(A, MidPoint(A,A), B)`, which is none of the four triangles of the claim. -/
theorem C2_counterexample :
    (wrapMesh 2147483646).Indices32.length = 3 * 715827883 ∧
    (wrapMesh 2147483646).IndicesValid ∧
    Corners (wrapMesh 2147483646) 715827882
      (flatVertex 0 0 0) (flatVertex 0 0 0) (flatVertex 0 0 0) ∧
    ∃ out, Subdivide (fun x : ℚ => x) (wrapMesh 2147483646) = some out ∧
      out.triangle (4 * 715827882) = some (flatVertex 0 0 0,
        MidPoint (fun x : ℚ => x) (flatVertex 0 0 0) (flatVertex 0 0 0), flatVertex 1 0 0) ∧
      (flatVertex 0 0 0,
        MidPoint (fun x : ℚ => x) (flatVertex 0 0 0) (flatVertex 0 0 0), flatVertex 1 0 0) ∉
        ({(flatVertex 0 0 0, MidPoint (fun x : ℚ => x) (flatVertex 0 0 0) (flatVertex 0 0 0),
            MidPoint (fun x : ℚ => x) (flatVertex 0 0 0) (flatVertex 0 0 0)),
          (MidPoint (fun x : ℚ => x) (flatVertex 0 0 0) (flatVertex 0 0 0), flatVertex 0 0 0,
            MidPoint (fun x : ℚ => x) (flatVertex 0 0 0) (flatVertex 0 0 0)),
          (MidPoint (fun x : ℚ => x) (flatVertex 0 0 0) (flatVertex 0 0 0),
            MidPoint (fun x : ℚ => x) (flatVertex 0 0 0) (flatVertex 0 0 0), flatVertex 0 0 0),
          (MidPoint (fun x : ℚ => x) (flatVertex 0 0 0) (flatVertex 0 0 0),
            MidPoint (fun x : ℚ => x) (flatVertex 0 0 0) (flatVertex 0 0 0),
            MidPoint (fun x : ℚ => x) (flatVertex 0 0 0) (flatVertex 0 0 0))} :
          Set (Vertex ℚ × Vertex ℚ × Vertex ℚ)) := by
  obtain ⟨out, hout⟩ := Subdivide_isSome (fun x : ℚ => x) (wrapMesh_valid 2147483646)
  have hBA : flatVertex 1 0 0 ≠ flatVertex 0 0 0 := flatVertex_ne_of_x (by norm_num)
  have hBM : flatVertex 1 0 0
      ≠ MidPoint (fun x : ℚ => x) (flatVertex 0 0 0) (flatVertex 0 0 0) := by
    intro he
    have hx := congrArg (fun v => v.Position.x) he
    simp only [midPoint_flat_x] at hx
    have h1 : (flatVertex 1 0 0).Position.x = 1 := rfl
    rw [h1] at hx
    norm_num at hx
  refine ⟨by rw [wrapMesh_length], wrapMesh_valid _,
    wrapMesh_corners _ _ (by norm_num) (by norm_num), out, hout, ?_, ?_⟩
  · exact wrapMesh_triangle _ _ _ hout (by rw [wrapMesh_numTris]; norm_num) (by norm_num)
      (by simp only [u32]; norm_num) (by simp only [u32]; norm_num)
      (by simp only [u32]; norm_num)
  · simp only [Set.mem_insert_iff, Set.mem_singleton_iff, Prod.mk.injEq, not_or, not_and]
    exact ⟨fun _ _ => hBM, fun _ _ => hBM, fun _ _ => hBA, fun _ _ => hBM⟩

end SubdivideClaims

/-! ## MidPoint in real arithmetic -/

theorem dot3_self_pos {v : XMFLOAT3 ℝ} (hv : v ≠ ⟨0, 0, 0⟩) : 0 < dot3 v v := by
  obtain ⟨x, y, z⟩ := v
  simp only [dot3]
  have hne : x ≠ 0 ∨ y ≠ 0 ∨ z ≠ 0 := by
    by_contra hcon
    push_neg at hcon
    obtain ⟨hx, hy, hz⟩ := hcon
    exact hv (by rw [hx, hy, hz])
  rcases hne with h | h | h
  · have := mul_self_pos.mpr h
    nlinarith [mul_self_nonneg y, mul_self_nonneg z]
  · have := mul_self_pos.mpr h
    nlinarith [mul_self_nonneg x, mul_self_nonneg z]
  · have := mul_self_pos.mpr h
    nlinarith [mul_self_nonneg x, mul_self_nonneg y]

/-- In real arithmetic a non-zero vector is normalised to a unit vector that is a positive
multiple of it. -/
theorem normalize_real {v : XMFLOAT3 ℝ} (hv : v ≠ ⟨0, 0, 0⟩) :
    length3 Real.sqrt (XMVector3Normalize Real.sqrt v) = 1 ∧
    ∃ c : ℝ, 0 < c ∧ XMVector3Normalize Real.sqrt v = scale3 c v := by
  have hpos := dot3_self_pos hv
  have hL : 0 < Real.sqrt (dot3 v v) := Real.sqrt_pos.mpr hpos
  have hsq : Real.sqrt (dot3 v v) * Real.sqrt (dot3 v v) = dot3 v v :=
    Real.mul_self_sqrt hpos.le
  constructor
  · have hd : dot3 (XMVector3Normalize Real.sqrt v) (XMVector3Normalize Real.sqrt v) = 1 := by
      have hL0 : Real.sqrt (dot3 v v) ≠ 0 := ne_of_gt hL
      simp only [XMVector3Normalize, length3, dot3] at hsq hL0 ⊢
      field_simp
      ring_nf at hsq ⊢
      linarith [hsq]
    simp only [length3] at hd ⊢
    rw [hd, Real.sqrt_one]
  · refine ⟨1 / Real.sqrt (dot3 v v), by positivity, ?_⟩
    simp only [XMVector3Normalize, length3, scale3, XMFLOAT3.mk.injEq]
    refine ⟨?_, ?_, ?_⟩ <;> ring

theorem scale3_half_ne_zero {v : XMFLOAT3 ℝ} (hv : v ≠ ⟨0, 0, 0⟩) :
    scale3 (1 / 2) v ≠ ⟨0, 0, 0⟩ := by
  obtain ⟨x, y, z⟩ := v
  intro h
  simp only [scale3, XMFLOAT3.mk.injEq] at h
  apply hv
  obtain ⟨hx, hy, hz⟩ := h
  simp only [XMFLOAT3.mk.injEq]
  refine ⟨by linarith, by linarith, by linarith⟩

theorem normalize_half_real {v : XMFLOAT3 ℝ} (hv : v ≠ ⟨0, 0, 0⟩) :
    length3 Real.sqrt (XMVector3Normalize Real.sqrt (scale3 (1 / 2) v)) = 1 ∧
    ∃ c : ℝ, 0 < c ∧ XMVector3Normalize Real.sqrt (scale3 (1 / 2) v) = scale3 c v := by
  obtain ⟨h1, c, hc, he⟩ := normalize_real (scale3_half_ne_zero hv)
  refine ⟨h1, c * (1 / 2), by positivity, ?_⟩
  rw [he]
  simp only [scale3, XMFLOAT3.mk.injEq]
  refine ⟨?_, ?_, ?_⟩ <;> ring

/-- C4: for all vertices `a`, `b` over the reals whose normals do not sum to the zero vector
and whose tangents do not sum to the zero vector, the normal and the tangent of
`MidPoint(a,b)` each have Euclidean length exactly 1 and are positive multiples of
`a.Normal + b.Normal` and of `a.TangentU + b.TangentU` respectively. -/
theorem C4_midpoint_unit (a b : Vertex ℝ) (hn : add3 a.Normal b.Normal ≠ ⟨0, 0, 0⟩)
    (ht : add3 a.TangentU b.TangentU ≠ ⟨0, 0, 0⟩) :
    length3 Real.sqrt (MidPoint Real.sqrt a b).Normal = 1 ∧
    (∃ c : ℝ, 0 < c ∧ (MidPoint Real.sqrt a b).Normal = scale3 c (add3 a.Normal b.Normal)) ∧
    length3 Real.sqrt (MidPoint Real.sqrt a b).TangentU = 1 ∧
    (∃ c : ℝ, 0 < c ∧
      (MidPoint Real.sqrt a b).TangentU = scale3 c (add3 a.TangentU b.TangentU)) := by
  obtain ⟨n1, n2⟩ := normalize_half_real hn
  obtain ⟨t1, t2⟩ := normalize_half_real ht
  exact ⟨n1, n2, t1, t2⟩

theorem C4_midpoint_unit_witness :
    add3 (Vertex.ofFloats (0 : ℝ) 0 0 0 0 (-1) 1 0 0 0 0).Normal
      (Vertex.ofFloats (2 : ℝ) 0 0 0 1 0 0 0 1 1 0).Normal ≠ ⟨0, 0, 0⟩ ∧
    add3 (Vertex.ofFloats (0 : ℝ) 0 0 0 0 (-1) 1 0 0 0 0).TangentU
      (Vertex.ofFloats (2 : ℝ) 0 0 0 1 0 0 0 1 1 0).TangentU ≠ ⟨0, 0, 0⟩ ∧
    length3 Real.sqrt (MidPoint Real.sqrt (Vertex.ofFloats (0 : ℝ) 0 0 0 0 (-1) 1 0 0 0 0)
      (Vertex.ofFloats (2 : ℝ) 0 0 0 1 0 0 0 1 1 0)).Normal = 1 ∧
    length3 Real.sqrt (MidPoint Real.sqrt (Vertex.ofFloats (0 : ℝ) 0 0 0 0 (-1) 1 0 0 0 0)
      (Vertex.ofFloats (2 : ℝ) 0 0 0 1 0 0 0 1 1 0)).TangentU = 1 :=
  have hn : add3 (Vertex.ofFloats (0 : ℝ) 0 0 0 0 (-1) 1 0 0 0 0).Normal
      (Vertex.ofFloats (2 : ℝ) 0 0 0 1 0 0 0 1 1 0).Normal ≠ ⟨0, 0, 0⟩ := by
    simp [add3, Vertex.ofFloats]
  have ht : add3 (Vertex.ofFloats (0 : ℝ) 0 0 0 0 (-1) 1 0 0 0 0).TangentU
      (Vertex.ofFloats (2 : ℝ) 0 0 0 1 0 0 0 1 1 0).TangentU ≠ ⟨0, 0, 0⟩ := by
    simp [add3, Vertex.ofFloats]
  ⟨hn, ht, (C4_midpoint_unit _ _ hn ht).1, (C4_midpoint_unit _ _ hn ht).2.2.1⟩

/-! ## Repeated subdivision and CreateBox -/

section BoxClaims

variable {α : Type} [LinearOrderedField α]

/-- Running `n` passes on a mesh with in-range indices whose index count `3 * T`, multiplied
by `4^n`, stays below `2^32`. -/
theorem subdividePasses_counts (sqrtf : α → α) :
    ∀ (n : Nat) (m : MeshData α), m.IndicesValid → 3 ∣ m.Indices32.length →
      m.Indices32.length * 4 ^ n < 2 ^ 32 →
      ∃ out, subdividePasses sqrtf n m = some out ∧
        out.Indices32.length = m.Indices32.length * 4 ^ n ∧ out.IndicesValid ∧
        (n = 0 → out = m) ∧ (1 ≤ n → 2 * out.Vertices.length = out.Indices32.length) := by
  intro n
  induction n with
  | zero =>
    intro m hv _ _
    exact ⟨m, rfl, by simp, hv, fun _ => rfl, fun h => absurd h (by norm_num)⟩
  | succ n ih =>
    intro m hv h3 hfit
    obtain ⟨T, hT⟩ := h3
    have hpow : 1 ≤ 4 ^ n := Nat.one_le_pow _ _ (by norm_num)
    have hlt : 3 * T < 2 ^ 32 := by
      rw [hT, pow_succ] at hfit
      nlinarith
    obtain ⟨m1, hm1⟩ := Subdivide_isSome sqrtf hv
    obtain ⟨hv1, hi1, _, _⟩ := Subdivide_some_spec sqrtf hm1
    rw [numTris_eq hT hlt] at hv1 hi1
    have hval1 : m1.IndicesValid := Subdivide_valid sqrtf hm1
    have hfit1 : m1.Indices32.length * 4 ^ n < 2 ^ 32 := by
      rw [hi1]
      rw [hT, pow_succ] at hfit
      nlinarith
    obtain ⟨out, hout, hlen, hval, h0, hge⟩ := ih m1 hval1 ⟨4 * T, by rw [hi1]; ring⟩ hfit1
    refine ⟨out, ?_, ?_, hval, fun h => absurd h (Nat.succ_ne_zero n), ?_⟩
    · simp only [subdividePasses, hm1]
      exact hout
    · rw [hlen, hi1, hT, pow_succ]
      ring
    · intro _
      rcases Nat.eq_zero_or_pos n with hn | hn
      · have := h0 hn
        subst this
        rw [hv1, hi1]
        ring
      · exact hge hn

omit [LinearOrderedField α] in
theorem iterate_bind_none (f : MeshData α → Option (MeshData α)) (n : Nat) :
    (fun o : Option (MeshData α) => o.bind f)^[n] none = none := by
  induction n with
  | zero => rfl
  | succ n ih => rw [Function.iterate_succ_apply]; exact ih

/-- The loop of `n` passes is the `n`-fold iteration of `Subdivide`. -/
theorem subdividePasses_eq_iterate (sqrtf : α → α) (n : Nat) (m : MeshData α) :
    subdividePasses sqrtf n m
      = (fun o : Option (MeshData α) => o.bind (Subdivide sqrtf))^[n] (some m) := by
  induction n generalizing m with
  | zero => rfl
  | succ n ih =>
    rw [Function.iterate_succ_apply]
    simp only [subdividePasses, Option.some_bind]
    cases h : Subdivide sqrtf m with
    | none => simp only [iterate_bind_none]
    | some m1 => exact ih m1

theorem boxMesh_valid (width height depth : α) :
    (boxMesh width height depth).IndicesValid := by
  intro k hk
  have h24 : (boxVertices width height depth).length = 24 := rfl
  have : ∀ k ∈ boxIndices, k < 24 := by decide
  show k < (boxVertices width height depth).length
  rw [h24]
  exact this k hk

theorem icosahedronMesh_valid : (icosahedronMesh : MeshData α).IndicesValid := by
  intro k hk
  have h12 : (icosahedronMesh : MeshData α).Vertices.length = 12 := rfl
  have : ∀ k ∈ icosahedronIndices, k < 12 := by decide
  rw [h12]
  exact this k hk

theorem CreateBox_eq (sqrtf : α → α) (width height depth : α) (n : Nat) :
    CreateBox sqrtf width height depth n
      = subdividePasses sqrtf (min n 6) (boxMesh width height depth) :=
  rfl

theorem pow4_le {k : Nat} (hk : k ≤ 6) : 4 ^ k ≤ 4096 := by
  calc 4 ^ k ≤ 4 ^ 6 := Nat.pow_le_pow_right (by norm_num) hk
    _ = 4096 := by norm_num

/-- What `CreateBox` returns, by number of passes. -/
theorem CreateBox_counts (sqrtf : α → α) (width height depth : α) (n : Nat) :
    ∃ m, CreateBox sqrtf width height depth n = some m ∧
      m.Indices32.length = 36 * 4 ^ (min n 6) ∧ m.IndicesValid ∧
      (min n 6 = 0 → m.Vertices.length = 24) ∧
      (1 ≤ min n 6 → m.Vertices.length = 18 * 4 ^ (min n 6)) := by
  have hk : min n 6 ≤ 6 := Nat.min_le_right _ _
  have hp := pow4_le hk
  obtain ⟨out, hout, hlen, hval, h0, hge⟩ :=
    subdividePasses_counts sqrtf (min n 6) _ (boxMesh_valid width height depth)
      ⟨12, rfl⟩ (by
        show 36 * 4 ^ (min n 6) < 2 ^ 32
        omega)
  have hlen2 : out.Indices32.length = 36 * 4 ^ (min n 6) := hlen
  refine ⟨out, (CreateBox_eq sqrtf width height depth n).trans hout, hlen2, hval, ?_, ?_⟩
  · intro h
    rw [h0 h]
    rfl
  · intro h
    have := hge h
    omega

/-- C8: for every `numSubdivisions` and all dimensions, the mesh returned by `CreateBox`
has at most `24 * 4^6 = 98304` vertices. -/
theorem C8_box_vertex_bound (sqrtf : α → α) (width height depth : α) (numSubdivisions : Nat) :
    ∃ m, CreateBox sqrtf width height depth numSubdivisions = some m ∧
      m.Vertices.length ≤ 24 * 4 ^ 6 ∧ 24 * 4 ^ 6 = 98304 := by
  obtain ⟨m, hm, _, _, h0, hge⟩ := CreateBox_counts sqrtf width height depth numSubdivisions
  have hk : min numSubdivisions 6 ≤ 6 := Nat.min_le_right _ _
  have hp := pow4_le hk
  refine ⟨m, hm, ?_, by norm_num⟩
  rcases Nat.eq_zero_or_pos (min numSubdivisions 6) with h | h
  · rw [h0 h]; norm_num
  · rw [hge h]
    have : (4 : Nat) ^ 6 = 4096 := by norm_num
    omega

theorem CreateBox_zero (sqrtf : α → α) (width height depth : α) :
    CreateBox sqrtf width height depth 0
      = some (boxMesh width height depth) := rfl

theorem boxIndices_face : ∀ f, f < 6 →
    boxIndices[6 * f]? = some (4 * f) ∧ boxIndices[6 * f + 1]? = some (4 * f + 1) ∧
    boxIndices[6 * f + 2]? = some (4 * f + 2) ∧ boxIndices[6 * f + 3]? = some (4 * f) ∧
    boxIndices[6 * f + 4]? = some (4 * f + 2) ∧ boxIndices[6 * f + 5]? = some (4 * f + 3) := by
  decide

theorem boxIndices_block :
    ∀ p, p < 36 → boxIndices[p]?.map (fun k => k / 4) = some (p / 6) := by
  decide

/-- C6: for all dimensions `CreateBox` with `numSubdivisions = 0` returns exactly 24 vertices
and 36 indices; the two triangles of face `f` are `(4f,4f+1,4f+2)` and `(4f,4f+2,4f+3)`, so
an index stored at offset `p` refers to one of the four vertices of face `p / 6` and no
vertex is referenced from two different faces; vertex 0 is at
`(-width/2, -height/2, -depth/2)`, and `CreateBox(2,2,2,0)` has vertex 0 at `(-1,-1,-1)`. -/
theorem C6_box_base (sqrtf : α → α) (width height depth : α) :
    (∃ m, CreateBox sqrtf width height depth 0 = some m ∧
      m.Vertices.length = 24 ∧ m.Indices32.length = 36 ∧
      (∀ f, f < 6 →
        m.Indices32[6 * f]? = some (4 * f) ∧ m.Indices32[6 * f + 1]? = some (4 * f + 1) ∧
        m.Indices32[6 * f + 2]? = some (4 * f + 2) ∧ m.Indices32[6 * f + 3]? = some (4 * f) ∧
        m.Indices32[6 * f + 4]? = some (4 * f + 2) ∧
        m.Indices32[6 * f + 5]? = some (4 * f + 3)) ∧
      (∀ p q k, m.Indices32[p]? = some k → m.Indices32[q]? = some k → p / 6 = q / 6) ∧
      ∃ v, m.Vertices[0]? = some v ∧
        v.Position = ⟨-(width / 2), -(height / 2), -(depth / 2)⟩) ∧
    (∃ m, CreateBox sqrtf 2 2 2 0 = some m ∧
      ∃ v, m.Vertices[0]? = some v ∧ v.Position = ⟨-1, -1, -1⟩) := by
  have hpos : ∀ w h d : α, ∃ v, (boxVertices w h d)[0]? = some v ∧
      v.Position = ⟨-(w / 2), -(h / 2), -(d / 2)⟩ := by
    intro w h d
    refine ⟨Vertex.ofFloats (-(1 / 2 * w)) (-(1 / 2 * h)) (-(1 / 2 * d)) 0 0 (-1) 1 0 0 0 1,
      rfl, ?_⟩
    simp only [Vertex.ofFloats, XMFLOAT3.mk.injEq]
    refine ⟨?_, ?_, ?_⟩ <;> ring
  refine ⟨⟨_, CreateBox_zero sqrtf width height depth, rfl, rfl, boxIndices_face, ?_,
    hpos width height depth⟩, ⟨_, CreateBox_zero sqrtf 2 2 2, ?_⟩⟩
  · intro p q k hp hq
    have hp : boxIndices[p]? = some k := hp
    have hq : boxIndices[q]? = some k := hq
    have hp36 : p < 36 := (List.getElem?_eq_some_iff.mp hp).1
    have hq36 : q < 36 := (List.getElem?_eq_some_iff.mp hq).1
    have h1 := boxIndices_block p hp36
    have h2 := boxIndices_block q hq36
    rw [hp] at h1
    rw [hq] at h2
    simp only [Option.map_some'] at h1 h2
    exact Option.some.inj (h1.symm.trans h2)
  · obtain ⟨v, hv, hp⟩ := hpos (2 : α) 2 2
    refine ⟨v, hv, ?_⟩
    rw [hp]
    simp only [XMFLOAT3.mk.injEq]
    refine ⟨?_, ?_, ?_⟩ <;> norm_num

omit [LinearOrderedField α] in
theorem perm_corners_front (a b c d : XMFLOAT2 α) : [b, a, c, d].Perm [a, b, c, d] :=
  List.Perm.swap a b [c, d]

omit [LinearOrderedField α] in
theorem perm_corners_back (a b c d : XMFLOAT2 α) : [d, b, a, c].Perm [a, b, c, d] := by
  have h1 : [d, b, a, c].Perm [b, a, c, d] := @List.perm_append_comm _ [d] [b, a, c]
  exact h1.trans (List.Perm.swap a b [c, d])

/-- C9: in `CreateBox` with `numSubdivisions = 0`, the four vertices `4f .. 4f+3` of face
`f` carry the normals `(0,0,-1)`, `(0,0,1)`, `(0,1,0)`, `(0,-1,0)`, `(-1,0,0)`, `(1,0,0)` for
`f = 0..5`, each lies on the matching plane `z = -depth/2`, `z = depth/2`, `y = height/2`,
`y = -height/2`, `x = -width/2`, `x = width/2`, and the texture coordinates of the four
vertices of each face are, up to order, the four corners `(0,0)`, `(0,1)`, `(1,0)`, `(1,1)`. -/
theorem C9_box_faces (sqrtf : α → α) (width height depth : α) :
    ∃ m, CreateBox sqrtf width height depth 0 = some m ∧
      (∀ v ∈ faceVertices m.Vertices 0, v.Normal = ⟨0, 0, -1⟩ ∧ v.Position.z = -(depth / 2)) ∧
      (∀ v ∈ faceVertices m.Vertices 1, v.Normal = ⟨0, 0, 1⟩ ∧ v.Position.z = depth / 2) ∧
      (∀ v ∈ faceVertices m.Vertices 2, v.Normal = ⟨0, 1, 0⟩ ∧ v.Position.y = height / 2) ∧
      (∀ v ∈ faceVertices m.Vertices 3, v.Normal = ⟨0, -1, 0⟩ ∧
        v.Position.y = -(height / 2)) ∧
      (∀ v ∈ faceVertices m.Vertices 4, v.Normal = ⟨-1, 0, 0⟩ ∧ v.Position.x = -(width / 2)) ∧
      (∀ v ∈ faceVertices m.Vertices 5, v.Normal = ⟨1, 0, 0⟩ ∧ v.Position.x = width / 2) ∧
      (∀ f, f < 6 → (faceVertices m.Vertices f).length = 4 ∧
        ((faceVertices m.Vertices f).map (fun v => v.TexC)).Perm
          [⟨0, 0⟩, ⟨0, 1⟩, ⟨1, 0⟩, ⟨1, 1⟩]) := by
  refine ⟨_, CreateBox_zero sqrtf width height depth, ?_, ?_, ?_, ?_, ?_, ?_, ?_⟩
  · intro v hv
    simp only [boxMesh, faceVertices, boxVertices, Nat.reduceMul, List.drop_zero, List.drop_succ_cons,
      List.take_succ_cons, List.take_zero, List.mem_cons, List.mem_singleton,
      List.not_mem_nil, or_false] at hv
    rcases hv with rfl | rfl | rfl | rfl <;> refine ⟨rfl, ?_⟩ <;>
      simp only [Vertex.ofFloats] <;> ring
  · intro v hv
    simp only [boxMesh, faceVertices, boxVertices, Nat.reduceMul, List.drop_zero, List.drop_succ_cons,
      List.take_succ_cons, List.take_zero, List.mem_cons, List.mem_singleton,
      List.not_mem_nil, or_false] at hv
    rcases hv with rfl | rfl | rfl | rfl <;> refine ⟨rfl, ?_⟩ <;>
      simp only [Vertex.ofFloats] <;> ring
  · intro v hv
    simp only [boxMesh, faceVertices, boxVertices, Nat.reduceMul, List.drop_zero, List.drop_succ_cons,
      List.take_succ_cons, List.take_zero, List.mem_cons, List.mem_singleton,
      List.not_mem_nil, or_false] at hv
    rcases hv with rfl | rfl | rfl | rfl <;> refine ⟨rfl, ?_⟩ <;>
      simp only [Vertex.ofFloats] <;> ring
  · intro v hv
    simp only [boxMesh, faceVertices, boxVertices, Nat.reduceMul, List.drop_zero, List.drop_succ_cons,
      List.take_succ_cons, List.take_zero, List.mem_cons, List.mem_singleton,
      List.not_mem_nil, or_false] at hv
    rcases hv with rfl | rfl | rfl | rfl <;> refine ⟨rfl, ?_⟩ <;>
      simp only [Vertex.ofFloats] <;> ring
  · intro v hv
    simp only [boxMesh, faceVertices, boxVertices, Nat.reduceMul, List.drop_zero, List.drop_succ_cons,
      List.take_succ_cons, List.take_zero, List.mem_cons, List.mem_singleton,
      List.not_mem_nil, or_false] at hv
    rcases hv with rfl | rfl | rfl | rfl <;> refine ⟨rfl, ?_⟩ <;>
      simp only [Vertex.ofFloats] <;> ring
  · intro v hv
    simp only [boxMesh, faceVertices, boxVertices, Nat.reduceMul, List.drop_zero, List.drop_succ_cons,
      List.take_succ_cons, List.take_zero, List.mem_cons, List.mem_singleton,
      List.not_mem_nil, or_false] at hv
    rcases hv with rfl | rfl | rfl | rfl <;> refine ⟨rfl, ?_⟩ <;>
      simp only [Vertex.ofFloats] <;> ring
  · intro f hf
    interval_cases f <;>
      simp only [boxMesh, faceVertices, boxVertices, Nat.reduceMul, List.drop_zero, List.drop_succ_cons,
        List.take_succ_cons, List.take_zero, List.map_cons, List.map_nil, Vertex.ofFloats,
        List.length_cons, List.length_nil, Nat.reduceAdd, true_and]
    · exact perm_corners_front _ _ _ _
    · exact perm_corners_back _ _ _ _
    · exact perm_corners_front _ _ _ _
    · exact perm_corners_back _ _ _ _
    · exact perm_corners_front _ _ _ _
    · exact perm_corners_front _ _ _ _

end BoxClaims

/-! ## The cap on the number of passes -/

section GeoClaims

variable {α : Type} [LinearOrderedField α]

theorem CreateGeosphere_eq (sqrtf sinf cosf acosf : α → α) (atan2f : α → α → α)
    (XM_PI radius : α) (n : Nat) :
    CreateGeosphere sqrtf sinf cosf acosf atan2f XM_PI radius n
      = (subdividePasses sqrtf (min n 6) icosahedronMesh).map
          (geosphereProjectAll sqrtf sinf cosf acosf atan2f XM_PI radius) := by
  simp only [CreateGeosphere]
  cases subdividePasses sqrtf (min n 6) icosahedronMesh <;> rfl

/-- C7: the subdivision count is capped at 6. For `numSubdivisions ≥ 6`, `CreateBox` and
`CreateGeosphere` return what they return for 6. For `numSubdivisions ≤ 6`, `CreateBox`
returns the result of exactly `numSubdivisions` successive `Subdivide` passes on the base
box (so it has `36 * 4^numSubdivisions` indices), and `CreateGeosphere` returns the
re-projection of the result of exactly `numSubdivisions` passes on the icosahedron (so it
has `60 * 4^numSubdivisions` indices). -/
theorem C7_subdivision_cap (sqrtf sinf cosf acosf : α → α) (atan2f : α → α → α)
    (XM_PI width height depth radius : α) (numSubdivisions : Nat) :
    (6 ≤ numSubdivisions →
      CreateBox sqrtf width height depth numSubdivisions
        = CreateBox sqrtf width height depth 6 ∧
      CreateGeosphere sqrtf sinf cosf acosf atan2f XM_PI radius numSubdivisions
        = CreateGeosphere sqrtf sinf cosf acosf atan2f XM_PI radius 6) ∧
    (numSubdivisions ≤ 6 →
      CreateBox sqrtf width height depth numSubdivisions
        = (fun o : Option (MeshData α) => o.bind (Subdivide sqrtf))^[numSubdivisions]
            (some (boxMesh width height depth)) ∧
      (∃ m, CreateBox sqrtf width height depth numSubdivisions = some m ∧
        m.Indices32.length = 36 * 4 ^ numSubdivisions) ∧
      CreateGeosphere sqrtf sinf cosf acosf atan2f XM_PI radius numSubdivisions
        = ((fun o : Option (MeshData α) => o.bind (Subdivide sqrtf))^[numSubdivisions]
            (some icosahedronMesh)).map
            (geosphereProjectAll sqrtf sinf cosf acosf atan2f XM_PI radius) ∧
      (∃ m, CreateGeosphere sqrtf sinf cosf acosf atan2f XM_PI radius numSubdivisions = some m ∧
        m.Indices32.length = 60 * 4 ^ numSubdivisions)) := by
  constructor
  · intro h
    have hmin : min numSubdivisions 6 = min 6 6 := by
      rw [Nat.min_eq_right h, Nat.min_self]
    constructor
    · rw [CreateBox_eq, CreateBox_eq, hmin]
    · rw [CreateGeosphere_eq, CreateGeosphere_eq, hmin]
  · intro h
    have hmin : min numSubdivisions 6 = numSubdivisions := Nat.min_eq_left h
    have hp := pow4_le h
    refine ⟨?_, ?_, ?_, ?_⟩
    · rw [CreateBox_eq, hmin, subdividePasses_eq_iterate]
    · obtain ⟨m, hm, hlen, _⟩ := CreateBox_counts sqrtf width height depth numSubdivisions
      rw [hmin] at hlen
      exact ⟨m, hm, hlen⟩
    · rw [CreateGeosphere_eq, hmin, subdividePasses_eq_iterate]
    · obtain ⟨out, hout, hlen, _⟩ :=
        subdividePasses_counts sqrtf numSubdivisions (icosahedronMesh : MeshData α)
          icosahedronMesh_valid ⟨20, rfl⟩ (by
            show 60 * 4 ^ numSubdivisions < 2 ^ 32
            omega)
      refine ⟨geosphereProjectAll sqrtf sinf cosf acosf atan2f XM_PI radius out, ?_, ?_⟩
      · rw [CreateGeosphere_eq, hmin, hout]
        rfl
      · exact hlen

theorem C7_subdivision_cap_witness :
    (6 ≤ 9 ∧
      CreateBox (fun x : ℚ => x) 1 1 1 9 = CreateBox (fun x : ℚ => x) 1 1 1 6) ∧
    (2 ≤ 6 ∧ ∃ m, CreateBox (fun x : ℚ => x) 1 1 1 2 = some m ∧
      m.Indices32.length = 36 * 4 ^ 2) :=
  ⟨⟨by norm_num,
    ((C7_subdivision_cap (fun x : ℚ => x) (fun x => x) (fun x => x) (fun x => x)
      (fun x _ => x) 3 1 1 1 1 9).1 (by norm_num)).1⟩,
   ⟨by norm_num,
    ((C7_subdivision_cap (fun x : ℚ => x) (fun x => x) (fun x => x) (fun x => x)
      (fun x _ => x) 3 1 1 1 1 2).2 (by norm_num)).2.1⟩⟩

end GeoClaims

/-! ## CreateSphere: the vertex list -/

section SphereClaims

variable {α : Type} [LinearOrderedField α]

theorem length_flatMap_const {β γ : Type} (l : List β) (f : β → List γ) (c : Nat)
    (h : ∀ x ∈ l, (f x).length = c) : (l.flatMap f).length = l.length * c := by
  induction l with
  | nil => simp
  | cons a l ih =>
    rw [List.flatMap_cons, List.length_append, h a (List.mem_cons_self _ _),
      ih (fun x hx => h x (List.mem_cons_of_mem _ hx)), List.length_cons]
    ring

theorem usub_one {n : Nat} (h1 : 1 ≤ n) (h2 : n < 2 ^ 32) : usub n 1 = n - 1 := by
  simp only [usub]
  omega

theorem sphereVertices_eq (sqrtf sinf cosf : α → α) (XM_PI radius : α)
    (sliceCount stackCount : Nat) :
    sphereVertices sqrtf sinf cosf XM_PI radius sliceCount stackCount
      = [Vertex.ofFloats 0 radius 0 0 1 0 1 0 0 0 0]
        ++ sphereRings sqrtf sinf cosf XM_PI radius sliceCount stackCount
        ++ [Vertex.ofFloats 0 (-radius) 0 0 (-1) 0 1 0 0 0 1] := rfl

theorem sphereRings_length (sqrtf sinf cosf : α → α) (XM_PI radius : α)
    (sliceCount stackCount : Nat) :
    (sphereRings sqrtf sinf cosf XM_PI radius sliceCount stackCount).length
      = usub stackCount 1 * (sliceCount + 1) := by
  unfold sphereRings
  rw [length_flatMap_const _ _ (sliceCount + 1), List.length_range']
  intro i _
  rw [List.length_map, List.length_range']

theorem sphereRings_mem (sqrtf sinf cosf : α → α) (XM_PI radius : α)
    (sliceCount stackCount : Nat) (v : Vertex α)
    (hv : v ∈ sphereRings sqrtf sinf cosf XM_PI radius sliceCount stackCount) :
    ∃ i j, 1 ≤ i ∧ i ≤ usub stackCount 1 ∧ j ≤ sliceCount ∧
      v = sphereRingVertex sqrtf sinf cosf XM_PI radius (XM_PI / (stackCount : α))
        (2 * XM_PI / (sliceCount : α)) i j := by
  unfold sphereRings at hv
  obtain ⟨i, hi, hv2⟩ := List.mem_flatMap.mp hv
  obtain ⟨j, hj, hv3⟩ := List.mem_map.mp hv2
  rw [List.mem_range'_1] at hi hj
  exact ⟨i, j, hi.1, by omega, by omega, hv3.symm⟩

/-- The vertex list of `CreateSphere`, offset by offset: the top pole at offset 0, the bottom
pole at the last offset, ring vertices in between. -/
theorem sphereVertices_cases (sqrtf sinf cosf : α → α) (XM_PI radius : α)
    (sliceCount stackCount k : Nat) (v : Vertex α)
    (h : (sphereVertices sqrtf sinf cosf XM_PI radius sliceCount stackCount)[k]? = some v) :
    (k = 0 ∧ v = Vertex.ofFloats 0 radius 0 0 1 0 1 0 0 0 0) ∨
    (k = 1 + usub stackCount 1 * (sliceCount + 1) ∧
      v = Vertex.ofFloats 0 (-radius) 0 0 (-1) 0 1 0 0 0 1) ∨
    (1 ≤ k ∧ k ≤ usub stackCount 1 * (sliceCount + 1) ∧
      ∃ i j, 1 ≤ i ∧ i ≤ usub stackCount 1 ∧ j ≤ sliceCount ∧
        v = sphereRingVertex sqrtf sinf cosf XM_PI radius (XM_PI / (stackCount : α))
          (2 * XM_PI / (sliceCount : α)) i j) := by
  rw [sphereVertices_eq, List.append_assoc] at h
  have hR := sphereRings_length sqrtf sinf cosf XM_PI radius sliceCount stackCount
  rcases Nat.eq_zero_or_pos k with hk | hk
  · subst hk
    left
    have h1 : ([Vertex.ofFloats 0 radius 0 0 1 0 1 0 0 0 0] : List (Vertex α)).length = 1 := rfl
    rw [List.getElem?_append_left (by rw [h1]; exact Nat.zero_lt_one)] at h
    exact ⟨rfl, (Option.some.inj h).symm⟩
  · right
    have h1 : ([Vertex.ofFloats 0 radius 0 0 1 0 1 0 0 0 0] : List (Vertex α)).length = 1 := rfl
    rw [List.getElem?_append_right (by rw [h1]; exact hk), h1] at h
    by_cases hlt : k - 1 < (sphereRings sqrtf sinf cosf XM_PI radius sliceCount stackCount).length
    · right
      rw [List.getElem?_append_left hlt] at h
      exact ⟨hk, by omega, sphereRings_mem _ _ _ _ _ _ _ _ (List.getElem?_mem h)⟩
    · left
      rw [List.getElem?_append_right (by omega)] at h
      have hlen := (List.getElem?_eq_some_iff.mp h).1
      have hb1 : ([Vertex.ofFloats 0 (-radius) 0 0 (-1) 0 1 0 0 0 1] : List (Vertex α)).length
          = 1 := rfl
      rw [hb1] at hlen
      have hz : k - 1 - (sphereRings sqrtf sinf cosf XM_PI radius sliceCount stackCount).length
          = 0 := by omega
      rw [hz] at h
      exact ⟨by omega, (Option.some.inj h).symm⟩

theorem sphereVertices_zero (sqrtf sinf cosf : α → α) (XM_PI radius : α)
    (sliceCount stackCount : Nat) :
    (sphereVertices sqrtf sinf cosf XM_PI radius sliceCount stackCount)[0]?
      = some (Vertex.ofFloats 0 radius 0 0 1 0 1 0 0 0 0) := by
  have h1 : ([Vertex.ofFloats 0 radius 0 0 1 0 1 0 0 0 0] : List (Vertex α)).length = 1 := rfl
  rw [sphereVertices_eq, List.append_assoc,
    List.getElem?_append_left (by rw [h1]; exact Nat.zero_lt_one)]
  rfl

theorem sphereVertices_length (sqrtf sinf cosf : α → α) (XM_PI radius : α)
    (sliceCount stackCount : Nat) :
    (sphereVertices sqrtf sinf cosf XM_PI radius sliceCount stackCount).length
      = 2 + usub stackCount 1 * (sliceCount + 1) := by
  rw [sphereVertices_eq, List.length_append, List.length_append, sphereRings_length]
  simp only [List.length_singleton]
  omega

theorem sphere_bounds {sliceCount stackCount : Nat} (hs : 3 ≤ sliceCount) (ht : 2 ≤ stackCount)
    (hfit : 2 + (stackCount - 1) * (sliceCount + 1) < 2 ^ 32) :
    usub stackCount 1 = stackCount - 1 ∧ sliceCount + 1 < 2 ^ 32 ∧ stackCount < 2 ^ 32 := by
  have h1 : stackCount - 1 ≤ (stackCount - 1) * (sliceCount + 1) :=
    Nat.le_mul_of_pos_right _ (by omega)
  have h2 : sliceCount + 1 ≤ (stackCount - 1) * (sliceCount + 1) :=
    Nat.le_mul_of_pos_left _ (by omega)
  have h3 : stackCount < 2 ^ 32 := by omega
  exact ⟨usub_one (by omega) h3, by omega, h3⟩

theorem CreateSphere_some (sqrtf sinf cosf : α → α) (XM_PI radius : α)
    {sliceCount stackCount : Nat} (hs : 3 ≤ sliceCount) (ht : 2 ≤ stackCount)
    (hfit : 2 + (stackCount - 1) * (sliceCount + 1) < 2 ^ 32) :
    CreateSphere sqrtf sinf cosf XM_PI radius sliceCount stackCount
      = some { Vertices := sphereVertices sqrtf sinf cosf XM_PI radius sliceCount stackCount
               Indices32 := sphereIndices sliceCount stackCount
                 (sphereVertices sqrtf sinf cosf XM_PI radius sliceCount stackCount).length } := by
  obtain ⟨hu, hsl, hst⟩ := sphere_bounds hs ht hfit
  have hne : ¬ (usub stackCount 1 = 2 ^ 32 - 1 ∨ sliceCount = 2 ^ 32 - 1) := by
    rw [hu]
    omega
  simp only [CreateSphere, if_neg hne]

theorem cos_ring_lt_one {i n : Nat} (hi : 1 ≤ i) (hn : i + 1 ≤ n) :
    Real.cos ((i : ℝ) * (Real.pi / (n : ℝ))) < 1 ∧ -1 < Real.cos ((i : ℝ) * (Real.pi / (n : ℝ))) := by
  have hpi := Real.pi_pos
  have hn0 : (0 : ℝ) < n := by exact_mod_cast (by omega : 0 < n)
  have hi0 : (0 : ℝ) < i := by exact_mod_cast (by omega : 0 < i)
  have hin : (i : ℝ) < n := by exact_mod_cast (by omega : i < n)
  have hpos : 0 < (i : ℝ) * (Real.pi / (n : ℝ)) := by positivity
  have hlt : (i : ℝ) * (Real.pi / (n : ℝ)) < Real.pi := by
    rw [← mul_div_assoc, div_lt_iff₀ hn0]
    nlinarith
  constructor
  · have := Real.cos_lt_cos_of_nonneg_of_le_pi (le_refl (0 : ℝ)) hlt.le hpos
    rwa [Real.cos_zero] at this
  · have := Real.cos_lt_cos_of_nonneg_of_le_pi hpos.le (le_refl Real.pi) hlt
    rwa [Real.cos_pi] at this

/-- C10: for every `sliceCount ≥ 3` and `stackCount ≥ 2` with
`2 + (stackCount-1)*(sliceCount+1) < 2^32`, `CreateSphere` returns exactly
`2 + (stackCount-1)*(sliceCount+1)` vertices; the first is the top pole `(0,+radius,0)`, the
last is the bottom pole `(0,-radius,0)`, and each pole is pushed once: every vertex strictly
between them is a ring vertex of a ring `1 ≤ i ≤ stackCount-1` (and, in real arithmetic with
`radius ≠ 0`, the position of a pole occurs at no other offset). `CreateSphere(1,8,4)` has
29 vertices. -/
theorem C10_sphere_vertex_count (sqrtf sinf cosf : α → α) (XM_PI radius : α)
    (sliceCount stackCount : Nat) (hs : 3 ≤ sliceCount) (ht : 2 ≤ stackCount)
    (hfit : 2 + (stackCount - 1) * (sliceCount + 1) < 2 ^ 32) :
    (∃ m, CreateSphere sqrtf sinf cosf XM_PI radius sliceCount stackCount = some m ∧
      m.Vertices.length = 2 + (stackCount - 1) * (sliceCount + 1) ∧
      (∃ v, m.Vertices[0]? = some v ∧ v.Position = ⟨0, radius, 0⟩) ∧
      (∃ v, m.Vertices[1 + (stackCount - 1) * (sliceCount + 1)]? = some v ∧
        v.Position = ⟨0, -radius, 0⟩) ∧
      (∀ k v, 1 ≤ k → k ≤ (stackCount - 1) * (sliceCount + 1) → m.Vertices[k]? = some v →
        ∃ i j, 1 ≤ i ∧ i ≤ stackCount - 1 ∧ j ≤ sliceCount ∧
          v = sphereRingVertex sqrtf sinf cosf XM_PI radius (XM_PI / (stackCount : α))
            (2 * XM_PI / (sliceCount : α)) i j)) ∧
    (∀ r : ℝ, r ≠ 0 → ∀ k v,
      (sphereVertices Real.sqrt Real.sin Real.cos Real.pi r sliceCount stackCount)[k]? = some v →
        (v.Position = ⟨0, r, 0⟩ ↔ k = 0) ∧
        (v.Position = ⟨0, -r, 0⟩ ↔ k = 1 + (stackCount - 1) * (sliceCount + 1))) ∧
    (∃ m, CreateSphere sqrtf sinf cosf XM_PI 1 8 4 = some m ∧ m.Vertices.length = 29) := by
  obtain ⟨hu, hsl, hst⟩ := sphere_bounds hs ht hfit
  refine ⟨⟨_, CreateSphere_some sqrtf sinf cosf XM_PI radius hs ht hfit, ?_, ?_, ?_, ?_⟩,
    ?_, ⟨_, CreateSphere_some sqrtf sinf cosf XM_PI 1 (by norm_num) (by norm_num)
      (by norm_num), ?_⟩⟩
  · show (sphereVertices sqrtf sinf cosf XM_PI radius sliceCount stackCount).length = _
    rw [sphereVertices_length, hu]
  · exact ⟨_, sphereVertices_zero sqrtf sinf cosf XM_PI radius sliceCount stackCount, rfl⟩
  · show ∃ v, (sphereVertices sqrtf sinf cosf XM_PI radius sliceCount stackCount)[_]? = some v
      ∧ _
    have hlen := sphereVertices_length sqrtf sinf cosf XM_PI radius sliceCount stackCount
    rw [hu] at hlen
    obtain ⟨v, hv⟩ : ∃ v, (sphereVertices sqrtf sinf cosf XM_PI radius sliceCount
        stackCount)[1 + (stackCount - 1) * (sliceCount + 1)]? = some v :=
      ⟨_, List.getElem?_eq_getElem (by omega)⟩
    refine ⟨v, hv, ?_⟩
    rcases sphereVertices_cases _ _ _ _ _ _ _ _ _ hv with h | h | h
    · omega
    · rw [h.2]; rfl
    · rw [hu] at h; omega
  · intro k v hk1 hk2 hv
    have hv2 : (sphereVertices sqrtf sinf cosf XM_PI radius sliceCount stackCount)[k]? = some v :=
      hv
    rcases sphereVertices_cases _ _ _ _ _ _ _ _ _ hv2 with h | h | h
    · omega
    · rw [hu] at h; omega
    · rw [hu] at h; exact h.2.2
  · intro r hr k v hv
    have hrr : r ≠ -r := by
      intro h
      apply hr
      linarith
    rcases sphereVertices_cases _ _ _ _ _ _ _ _ _ hv with h | h | h
    · obtain ⟨hk, hv0⟩ := h
      subst hv0
      refine ⟨⟨fun _ => hk, fun _ => rfl⟩, ⟨fun h2 => ?_, fun h2 => by omega⟩⟩
      simp only [Vertex.ofFloats, XMFLOAT3.mk.injEq] at h2
      exact absurd h2.2.1 hrr
    · obtain ⟨hk, hv0⟩ := h
      rw [hu] at hk
      subst hv0
      refine ⟨⟨fun h2 => ?_, fun h2 => by omega⟩, ⟨fun _ => hk, fun _ => rfl⟩⟩
      simp only [Vertex.ofFloats, XMFLOAT3.mk.injEq] at h2
      exact absurd h2.2.1.symm hrr
    · obtain ⟨hk1, hk2, i, j, hi1, hi2, _, hv0⟩ := h
      rw [hu] at hk2 hi2
      obtain ⟨hc1, hc2⟩ := cos_ring_lt_one (i := i) (n := stackCount) hi1 (by omega)
      subst hv0
      refine ⟨⟨fun h2 => ?_, fun h2 => by omega⟩, ⟨fun h2 => ?_, fun h2 => by omega⟩⟩
      · simp only [sphereRingVertex, XMFLOAT3.mk.injEq] at h2
        have hy := h2.2.1
        have : Real.cos ((i : ℝ) * (Real.pi / (stackCount : ℝ))) = 1 := by
          have := mul_right_cancel₀ hr (show Real.cos ((i : ℝ) * (Real.pi / (stackCount : ℝ))) * r
            = 1 * r by linarith)
          exact this
        linarith
      · simp only [sphereRingVertex, XMFLOAT3.mk.injEq] at h2
        have hy := h2.2.1
        have : Real.cos ((i : ℝ) * (Real.pi / (stackCount : ℝ))) = -1 := by
          have := mul_right_cancel₀ hr (show Real.cos ((i : ℝ) * (Real.pi / (stackCount : ℝ))) * r
            = (-1) * r by linarith)
          exact this
        linarith
  · show (sphereVertices sqrtf sinf cosf XM_PI 1 8 4).length = 29
    rw [sphereVertices_length, usub_one (by norm_num) (by norm_num)]

theorem C10_sphere_vertex_count_witness :
    3 ≤ 8 ∧ 2 ≤ 4 ∧ 2 + (4 - 1) * (8 + 1) < 2 ^ 32 ∧
    ∃ m, CreateSphere (fun x : ℚ => x) (fun x => x) (fun x => x) 3 1 8 4 = some m ∧
      m.Vertices.length = 2 + (4 - 1) * (8 + 1) :=
  ⟨by norm_num, by norm_num, by norm_num,
    (C10_sphere_vertex_count (fun x : ℚ => x) (fun x => x) (fun x => x) 3 1 8 4
      (by norm_num) (by norm_num) (by norm_num)).1.imp (fun _ h => ⟨h.1, h.2.1⟩)⟩

end SphereClaims

/-! ## CreateSphere: the index list -/

section SphereIndexClaims

variable {α : Type} [LinearOrderedField α]

theorem usub_lt (a b : Nat) : usub a b < 2 ^ 32 := Nat.mod_lt _ (by norm_num)

theorem usub_of_le {a b : Nat} (hb : b ≤ a) (ha : a < 2 ^ 32) : usub a b = a - b := by
  simp only [usub]
  omega

theorem length_flatMap_flatMap_const {β γ δ : Type} (l : List β) (l2 : List γ)
    (f : β → γ → List δ) (c : Nat) (h : ∀ x y, (f x y).length = c) :
    (l.flatMap (fun x => l2.flatMap (fun y => f x y))).length = l.length * (l2.length * c) :=
  length_flatMap_const _ _ _ (fun x _ => length_flatMap_const _ _ _ (fun y _ => h x y))

theorem sphereIndices_length (sliceCount stackCount vertexCount : Nat) :
    (sphereIndices sliceCount stackCount vertexCount).length
      = 6 * sliceCount + 6 * sliceCount * usub stackCount 2 := by
  simp only [sphereIndices, List.length_append]
  rw [length_flatMap_const _ _ 3 (by intros; rfl),
    length_flatMap_flatMap_const _ _ _ 6 (by intros; rfl),
    length_flatMap_const _ _ 3 (by intros; rfl)]
  simp only [List.length_range', List.length_range]
  ring

/-- Every index written by `CreateSphere` is below the number of vertices, whether or not
the 32-bit index arithmetic wraps around. -/
theorem sphereIndices_valid {sliceCount stackCount : Nat} (hs : 3 ≤ sliceCount)
    (ht : 2 ≤ stackCount) (hs32 : sliceCount + 1 < 2 ^ 32) (ht32 : stackCount < 2 ^ 32) :
    ∀ k ∈ sphereIndices sliceCount stackCount (2 + (stackCount - 1) * (sliceCount + 1)),
      k < 2 + (stackCount - 1) * (sliceCount + 1) := by
  intro k hk
  have hrvc : u32 (sliceCount + 1) = sliceCount + 1 := u32_of_lt hs32
  have hu2 : usub stackCount 2 = stackCount - 2 := usub_of_le ht ht32
  obtain ⟨a, rfl⟩ : ∃ a, stackCount = a + 2 := ⟨stackCount - 2, by omega⟩
  have hV : (a + 2 - 1) * (sliceCount + 1) = a * (sliceCount + 1) + (sliceCount + 1) := by
    rw [show a + 2 - 1 = a + 1 by omega]; ring
  simp only [sphereIndices, hrvc, hu2, List.mem_append, List.mem_flatMap, List.mem_range'_1,
    List.mem_range, List.mem_cons, List.mem_singleton, List.not_mem_nil, or_false] at hk
  rw [hV]
  rw [hV] at hk
  rcases hk with (⟨i, hi, hk⟩ | ⟨i, hi, j, hj, hk⟩) | ⟨i, hi, hk⟩
  · have := u32_le (i + 1)
    rcases hk with rfl | rfl | rfl <;> omega
  · have hmul : (i + 1) * (sliceCount + 1) ≤ a * (sliceCount + 1) :=
      Nat.mul_le_mul_right _ (by omega)
    have hmul2 : i * (sliceCount + 1) ≤ (i + 1) * (sliceCount + 1) :=
      Nat.mul_le_mul_right _ (by omega)
    have h1 := u32_le (1 + i * (sliceCount + 1) + j)
    have h2 := u32_le (1 + i * (sliceCount + 1) + j + 1)
    have h3 := u32_le (1 + (i + 1) * (sliceCount + 1) + j)
    have h4 := u32_le (1 + (i + 1) * (sliceCount + 1) + j + 1)
    rcases hk with rfl | rfl | rfl | rfl | rfl | rfl <;> omega
  · generalize hVV : 2 + (a * (sliceCount + 1) + (sliceCount + 1)) = V at hk ⊢
    have hVge : sliceCount + 3 ≤ V := by omega
    by_cases hbig : V < 2 ^ 32
    · have e1 : u32 V = V := u32_of_lt hbig
      have e2 : usub V 1 = V - 1 := usub_of_le (by omega) hbig
      have e3 : usub (V - 1) (sliceCount + 1) = V - 1 - (sliceCount + 1) :=
        usub_of_le (by omega) (by omega)
      rw [e1, e2, e3] at hk
      have h1 := u32_le (V - 1 - (sliceCount + 1) + i)
      have h2 := u32_le (V - 1 - (sliceCount + 1) + i + 1)
      rcases hk with h | h | h <;> omega
    · have h0 := usub_lt (u32 V) 1
      have h1 := u32_lt (usub (usub (u32 V) 1) (sliceCount + 1) + i)
      have h2 := u32_lt (usub (usub (u32 V) 1) (sliceCount + 1) + i + 1)
      rcases hk with h | h | h <;> omega

theorem CreateSphere_returns (sqrtf sinf cosf : α → α) (XM_PI radius : α)
    {sliceCount stackCount : Nat} (ht : 2 ≤ stackCount)
    (ht32 : stackCount < 2 ^ 32) (hne : sliceCount ≠ 2 ^ 32 - 1) :
    CreateSphere sqrtf sinf cosf XM_PI radius sliceCount stackCount
      = some { Vertices := sphereVertices sqrtf sinf cosf XM_PI radius sliceCount stackCount
               Indices32 := sphereIndices sliceCount stackCount
                 (sphereVertices sqrtf sinf cosf XM_PI radius sliceCount stackCount).length } := by
  have hu : usub stackCount 1 = stackCount - 1 := usub_of_le (by omega) ht32
  have hg : ¬ (usub stackCount 1 = 2 ^ 32 - 1 ∨ sliceCount = 2 ^ 32 - 1) := by
    rw [hu]
    omega
  simp only [CreateSphere, if_neg hg]

theorem CreateSphere_inv (sqrtf sinf cosf : α → α) (XM_PI radius : α)
    {sliceCount stackCount : Nat} {m : MeshData α}
    (h : CreateSphere sqrtf sinf cosf XM_PI radius sliceCount stackCount = some m) :
    sliceCount ≠ 2 ^ 32 - 1 ∧
    m = { Vertices := sphereVertices sqrtf sinf cosf XM_PI radius sliceCount stackCount
          Indices32 := sphereIndices sliceCount stackCount
            (sphereVertices sqrtf sinf cosf XM_PI radius sliceCount stackCount).length } := by
  unfold CreateSphere at h
  split at h
  · exact absurd h (by simp)
  · rename_i hg
    exact ⟨fun e => hg (Or.inr e), (Option.some.inj h).symm⟩

/-- C11: for every `sliceCount ≥ 3` and `stackCount ≥ 2` (32-bit values), the mesh returned
by `CreateSphere` has an index count that is a multiple of 3, namely
`6 * sliceCount * (stackCount - 1)`, and every index is smaller than the vertex count. The
function returns for every `sliceCount` other than `2^32 - 1`. -/
theorem C11_sphere_indices_valid (sqrtf sinf cosf : α → α) (XM_PI radius : α)
    (sliceCount stackCount : Nat) (hs : 3 ≤ sliceCount) (ht : 2 ≤ stackCount)
    (hs32 : sliceCount < 2 ^ 32) (ht32 : stackCount < 2 ^ 32) :
    (sliceCount ≠ 2 ^ 32 - 1 →
      ∃ m, CreateSphere sqrtf sinf cosf XM_PI radius sliceCount stackCount = some m) ∧
    ∀ m, CreateSphere sqrtf sinf cosf XM_PI radius sliceCount stackCount = some m →
      m.Indices32.length % 3 = 0 ∧
      m.Indices32.length = 6 * sliceCount * (stackCount - 1) ∧ m.IndicesValid := by
  refine ⟨fun hne => ⟨_, CreateSphere_returns sqrtf sinf cosf XM_PI radius ht ht32 hne⟩, ?_⟩
  intro m hm
  obtain ⟨hne, rfl⟩ := CreateSphere_inv sqrtf sinf cosf XM_PI radius hm
  have hu1 : usub stackCount 1 = stackCount - 1 := usub_of_le (by omega) ht32
  have hu2 : usub stackCount 2 = stackCount - 2 := usub_of_le ht ht32
  have hV : (sphereVertices sqrtf sinf cosf XM_PI radius sliceCount stackCount).length
      = 2 + (stackCount - 1) * (sliceCount + 1) := by
    rw [sphereVertices_length, hu1]
  have hlen : (sphereIndices sliceCount stackCount
      (sphereVertices sqrtf sinf cosf XM_PI radius sliceCount stackCount).length).length
      = 6 * sliceCount * (stackCount - 1) := by
    rw [sphereIndices_length, hu2]
    obtain ⟨a, rfl⟩ : ∃ a, stackCount = a + 2 := ⟨stackCount - 2, by omega⟩
    rw [show a + 2 - 2 = a by omega, show a + 2 - 1 = a + 1 by omega]
    ring
  refine ⟨?_, hlen, ?_⟩
  · show (sphereIndices _ _ _).length % 3 = 0
    obtain ⟨q, hq⟩ : ∃ q, 6 * sliceCount * (stackCount - 1) = 3 * q :=
      ⟨2 * sliceCount * (stackCount - 1), by ring⟩
    rw [hlen, hq]
    exact Nat.mul_mod_right 3 q
  · intro k hk
    have hk2 : k ∈ sphereIndices sliceCount stackCount
        (sphereVertices sqrtf sinf cosf XM_PI radius sliceCount stackCount).length := hk
    show k < (sphereVertices sqrtf sinf cosf XM_PI radius sliceCount stackCount).length
    rw [hV] at hk2 ⊢
    exact sphereIndices_valid hs ht (by omega) ht32 k hk2

theorem C11_sphere_indices_valid_witness :
    3 ≤ 8 ∧ 2 ≤ 4 ∧ 8 < 2 ^ 32 ∧ 4 < 2 ^ 32 ∧
    ((8 ≠ 2 ^ 32 - 1 →
      ∃ m, CreateSphere (fun x : ℚ => x) (fun x => x) (fun x => x) 3 1 8 4 = some m) ∧
    ∀ m, CreateSphere (fun x : ℚ => x) (fun x => x) (fun x => x) 3 1 8 4 = some m →
      m.Indices32.length % 3 = 0 ∧
      m.Indices32.length = 6 * 8 * (4 - 1) ∧ m.IndicesValid) :=
  ⟨by norm_num, by norm_num, by norm_num, by norm_num,
    C11_sphere_indices_valid (fun x : ℚ => x) (fun x => x) (fun x => x) 3 1 8 4
      (by norm_num) (by norm_num) (by norm_num) (by norm_num)⟩

end SphereIndexClaims

/-! ## CreateSphere: ring vertices, lengths -/

theorem getElem?_flatMap_range' {β : Type} (g : Nat → Nat → β) (c : Nat) :
    ∀ (n s a b : Nat), a < n → b < c →
      ((List.range' s n).flatMap (fun i => (List.range' 0 c).map (g i)))[a * c + b]?
        = some (g (s + a) b) := by
  intro n
  induction n with
  | zero => intro s a b ha _; exact absurd ha (Nat.not_lt_zero _)
  | succ n ih =>
    intro s a b ha hb
    rw [List.range'_succ, List.flatMap_cons]
    have hlen : ((List.range' 0 c).map (g s)).length = c := by
      rw [List.length_map, List.length_range']
    cases a with
    | zero =>
      rw [List.getElem?_append_left (by rw [hlen]; omega)]
      simp only [Nat.zero_mul, Nat.zero_add, Nat.add_zero, List.getElem?_map]
      rw [List.getElem?_range' _ _ hb]
      simp
    | succ a =>
      rw [List.getElem?_append_right (by rw [hlen, Nat.succ_mul]; omega), hlen,
        show (a + 1) * c + b - c = a * c + b by rw [Nat.succ_mul]; omega,
        ih (s + 1) a b (by omega) hb, show s + 1 + a = s + (a + 1) by omega]

theorem sphereVertices_ring {α : Type} [LinearOrderedField α] (sqrtf sinf cosf : α → α) (XM_PI radius : α)
    (sliceCount stackCount i j : Nat) (hi1 : 1 ≤ i) (hi2 : i ≤ usub stackCount 1)
    (hj : j ≤ sliceCount) :
    (sphereVertices sqrtf sinf cosf XM_PI radius sliceCount stackCount)[
        1 + (i - 1) * (sliceCount + 1) + j]?
      = some (sphereRingVertex sqrtf sinf cosf XM_PI radius (XM_PI / (stackCount : α))
          (2 * XM_PI / (sliceCount : α)) i j) := by
  have h1 : ([Vertex.ofFloats 0 radius 0 0 1 0 1 0 0 0 0] : List (Vertex α)).length = 1 := rfl
  have hR := sphereRings_length sqrtf sinf cosf XM_PI radius sliceCount stackCount
  have hmul : (i - 1) * (sliceCount + 1) + (sliceCount + 1) ≤ usub stackCount 1 * (sliceCount + 1) := by
    have : (i - 1 + 1) * (sliceCount + 1) ≤ usub stackCount 1 * (sliceCount + 1) :=
      Nat.mul_le_mul_right _ (by omega)
    rwa [Nat.succ_mul] at this
  rw [sphereVertices_eq, List.append_assoc, List.getElem?_append_right (by rw [h1]; omega), h1,
    List.getElem?_append_left (by rw [hR]; omega),
    show 1 + (i - 1) * (sliceCount + 1) + j - 1 = (i - 1) * (sliceCount + 1) + j by omega]
  have := getElem?_flatMap_range'
    (fun i j => sphereRingVertex sqrtf sinf cosf XM_PI radius (XM_PI / (stackCount : α))
      (2 * XM_PI / (sliceCount : α)) i j) (sliceCount + 1) (usub stackCount 1) 1 (i - 1) j
    (by omega) (by omega)
  rw [show 1 + (i - 1) = i by omega] at this
  exact this

theorem sphereVertices_mem {α : Type} [LinearOrderedField α] (sqrtf sinf cosf : α → α)
    (XM_PI radius : α) (sliceCount stackCount : Nat) (v : Vertex α)
    (hv : v ∈ sphereVertices sqrtf sinf cosf XM_PI radius sliceCount stackCount) :
    v = Vertex.ofFloats 0 radius 0 0 1 0 1 0 0 0 0 ∨
    v = Vertex.ofFloats 0 (-radius) 0 0 (-1) 0 1 0 0 0 1 ∨
    ∃ i j, 1 ≤ i ∧ i ≤ usub stackCount 1 ∧ j ≤ sliceCount ∧
      v = sphereRingVertex sqrtf sinf cosf XM_PI radius (XM_PI / (stackCount : α))
        (2 * XM_PI / (sliceCount : α)) i j := by
  rw [sphereVertices_eq, List.mem_append, List.mem_append, List.mem_singleton,
    List.mem_singleton] at hv
  rcases hv with (h | h) | h
  · exact Or.inl h
  · exact Or.inr (Or.inr (sphereRings_mem _ _ _ _ _ _ _ _ h))
  · exact Or.inr (Or.inl h)

/-! ### Real arithmetic -/

theorem ne_zero_of_dot3_pos {v : XMFLOAT3 ℝ} (h : 0 < dot3 v v) : v ≠ ⟨0, 0, 0⟩ := by
  intro e
  rw [e] at h
  simp [dot3] at h

theorem length3_ofFloats_unit_y (s : ℝ) (hs : s * s = 1) :
    length3 Real.sqrt (⟨0, s, 0⟩ : XMFLOAT3 ℝ) = 1 := by
  simp only [length3, dot3, mul_zero, zero_add, add_zero, hs, Real.sqrt_one]

theorem length3_unit_x : length3 Real.sqrt (⟨1, 0, 0⟩ : XMFLOAT3 ℝ) = 1 := by
  simp only [length3, dot3, mul_zero, mul_one, add_zero, Real.sqrt_one]

/-- The position of a ring vertex of the sphere has squared length `radius^2`. -/
theorem sphereRing_dot_position (sqrtf : ℝ → ℝ) (XM_PI radius phiStep thetaStep : ℝ)
    (i j : Nat) :
    dot3 (sphereRingVertex sqrtf Real.sin Real.cos XM_PI radius phiStep thetaStep i j).Position
      (sphereRingVertex sqrtf Real.sin Real.cos XM_PI radius phiStep thetaStep i j).Position
      = radius * radius := by
  simp only [sphereRingVertex, dot3]
  have h1 := Real.sin_sq_add_cos_sq ((i : ℝ) * phiStep)
  have h2 := Real.sin_sq_add_cos_sq ((j : ℝ) * thetaStep)
  generalize Real.sin ((i : ℝ) * phiStep) = sp at h1 ⊢
  generalize Real.cos ((i : ℝ) * phiStep) = cp at h1 ⊢
  generalize Real.sin ((j : ℝ) * thetaStep) = st at h2 ⊢
  generalize Real.cos ((j : ℝ) * thetaStep) = ct at h2 ⊢
  have e : radius * sp * ct * (radius * sp * ct) + radius * cp * (radius * cp)
      + radius * sp * st * (radius * sp * st)
      = radius * radius * (sp ^ 2 * (st ^ 2 + ct ^ 2) + cp ^ 2) := by ring
  rw [e, h2, mul_one, h1, mul_one]

theorem sin_ring_pos {i n : Nat} (hi : 1 ≤ i) (hn : i + 1 ≤ n) :
    0 < Real.sin ((i : ℝ) * (Real.pi / (n : ℝ))) := by
  have hpi := Real.pi_pos
  have hn0 : (0 : ℝ) < n := by exact_mod_cast (by omega : 0 < n)
  have hi0 : (0 : ℝ) < i := by exact_mod_cast (by omega : 0 < i)
  have hin : (i : ℝ) < n := by exact_mod_cast (by omega : i < n)
  have hpos : 0 < (i : ℝ) * (Real.pi / (n : ℝ)) := by positivity
  have hlt : (i : ℝ) * (Real.pi / (n : ℝ)) < Real.pi := by
    rw [← mul_div_assoc, div_lt_iff₀ hn0]
    nlinarith
  exact Real.sin_pos_of_pos_of_lt_pi hpos hlt

/-- The unnormalised tangent of a ring vertex of the sphere has squared length
`(radius * sin phi)^2`. -/
theorem sphereRing_tangent_dot (radius phi theta : ℝ) :
    dot3 (⟨-radius * Real.sin phi * Real.sin theta, 0,
        radius * Real.sin phi * Real.cos theta⟩ : XMFLOAT3 ℝ)
      ⟨-radius * Real.sin phi * Real.sin theta, 0, radius * Real.sin phi * Real.cos theta⟩
      = (radius * Real.sin phi) * (radius * Real.sin phi) := by
  simp only [dot3]
  have h2 := Real.sin_sq_add_cos_sq theta
  generalize Real.sin theta = st at h2 ⊢
  generalize Real.cos theta = ct at h2 ⊢
  have e : -radius * Real.sin phi * st * (-radius * Real.sin phi * st) + 0 * 0
      + radius * Real.sin phi * ct * (radius * Real.sin phi * ct)
      = radius * Real.sin phi * (radius * Real.sin phi) * (st ^ 2 + ct ^ 2) := by ring
  rw [e, h2, mul_one]

/-- C12: in real arithmetic, for every `sliceCount ≥ 3`, `stackCount ≥ 2` (32-bit values),
ring `1 ≤ i ≤ stackCount-1` and slice `j ≤ sliceCount`, the vertex of the mesh returned by
`CreateSphere` at offset `1 + (i-1)*(sliceCount+1) + j` has position
`(r sin phi cos theta, r cos phi, r sin phi sin theta)` and texture coordinate
`(theta/(2 pi), phi/pi) = (j/sliceCount, i/stackCount)`, with `phi = i*pi/stackCount` and
`theta = j*2*pi/sliceCount`. The function returns for every `sliceCount` other than
`2^32 - 1`. -/
theorem C12_sphere_ring_vertex (radius : ℝ) (sliceCount stackCount i j : Nat)
    (hs : 3 ≤ sliceCount) (ht : 2 ≤ stackCount) (hs32 : sliceCount < 2 ^ 32)
    (ht32 : stackCount < 2 ^ 32) (hi1 : 1 ≤ i) (hi2 : i ≤ stackCount - 1)
    (hj : j ≤ sliceCount) :
    (sliceCount ≠ 2 ^ 32 - 1 →
      ∃ m, CreateSphere Real.sqrt Real.sin Real.cos Real.pi radius sliceCount stackCount
        = some m) ∧
    ∀ m, CreateSphere Real.sqrt Real.sin Real.cos Real.pi radius sliceCount stackCount = some m →
      ∃ v, m.Vertices[1 + (i - 1) * (sliceCount + 1) + j]? = some v ∧
        v.Position =
          ⟨radius * Real.sin ((i : ℝ) * Real.pi / (stackCount : ℝ))
              * Real.cos ((j : ℝ) * (2 * Real.pi) / (sliceCount : ℝ)),
            radius * Real.cos ((i : ℝ) * Real.pi / (stackCount : ℝ)),
            radius * Real.sin ((i : ℝ) * Real.pi / (stackCount : ℝ))
              * Real.sin ((j : ℝ) * (2 * Real.pi) / (sliceCount : ℝ))⟩ ∧
        v.TexC = ⟨(j : ℝ) * (2 * Real.pi) / (sliceCount : ℝ) / (2 * Real.pi),
          (i : ℝ) * Real.pi / (stackCount : ℝ) / Real.pi⟩ ∧
        v.TexC = ⟨(j : ℝ) / (sliceCount : ℝ), (i : ℝ) / (stackCount : ℝ)⟩ := by
  refine ⟨fun hne => ⟨_, CreateSphere_returns _ _ _ _ radius ht ht32 hne⟩, ?_⟩
  intro m hm
  obtain ⟨_, rfl⟩ := CreateSphere_inv _ _ _ _ radius hm
  have hu1 : usub stackCount 1 = stackCount - 1 := usub_of_le (by omega) ht32
  have hpi : Real.pi ≠ 0 := Real.pi_ne_zero
  have hs0 : (sliceCount : ℝ) ≠ 0 := by exact_mod_cast (by omega : sliceCount ≠ 0)
  have ht0 : (stackCount : ℝ) ≠ 0 := by exact_mod_cast (by omega : stackCount ≠ 0)
  refine ⟨_, sphereVertices_ring Real.sqrt Real.sin Real.cos Real.pi radius sliceCount
    stackCount i j hi1 (by rw [hu1]; exact hi2) hj, ?_, ?_, ?_⟩
  · simp only [sphereRingVertex, mul_div_assoc]
  · simp only [sphereRingVertex, mul_div_assoc]
  · simp only [sphereRingVertex, XMFLOAT2.mk.injEq]
    constructor
    · field_simp
      ring
    · field_simp
      ring

theorem C12_sphere_ring_vertex_witness :
    3 ≤ 8 ∧ 2 ≤ 4 ∧ 8 < 2 ^ 32 ∧ 4 < 2 ^ 32 ∧ 1 ≤ 2 ∧ 2 ≤ 4 - 1 ∧ 3 ≤ 8 ∧
    ∀ m, CreateSphere Real.sqrt Real.sin Real.cos Real.pi 1 8 4 = some m →
      ∃ v, m.Vertices[1 + (2 - 1) * (8 + 1) + 3]? = some v ∧
        v.TexC = ⟨((3 : Nat) : ℝ) / ((8 : Nat) : ℝ), ((2 : Nat) : ℝ) / ((4 : Nat) : ℝ)⟩ :=
  ⟨by norm_num, by norm_num, by norm_num, by norm_num, by norm_num, by norm_num, by norm_num,
    fun m hm =>
      ((C12_sphere_ring_vertex 1 8 4 2 3 (by norm_num) (by norm_num) (by norm_num)
        (by norm_num) (by norm_num) (by norm_num) (by norm_num)).2 m hm).imp
        (fun _ h => ⟨h.1, h.2.2.2⟩)⟩

/-- C13: in real arithmetic, for every `radius > 0`, `sliceCount ≥ 3` and `stackCount ≥ 2`,
every vertex of the mesh returned by `CreateSphere`, poles and ring vertices, has a position
of Euclidean length `radius`; for `radius = 1` every vertex other than the first and the
last has a position of length 1. The function returns for every
`sliceCount` other than `2^32 - 1`. -/
theorem C13_sphere_positions (radius : ℝ) (sliceCount stackCount : Nat) (hr : 0 < radius)
    (_hs : 3 ≤ sliceCount) (ht : 2 ≤ stackCount) (ht32 : stackCount < 2 ^ 32) :
    (sliceCount ≠ 2 ^ 32 - 1 →
      ∃ m, CreateSphere Real.sqrt Real.sin Real.cos Real.pi radius sliceCount stackCount
        = some m) ∧
    (∀ m, CreateSphere Real.sqrt Real.sin Real.cos Real.pi radius sliceCount stackCount = some m →
      ∀ v ∈ m.Vertices, length3 Real.sqrt v.Position = radius) ∧
    (∀ m, CreateSphere Real.sqrt Real.sin Real.cos Real.pi 1 sliceCount stackCount = some m →
      ∀ k v, 1 ≤ k → k + 1 < m.Vertices.length → m.Vertices[k]? = some v →
        length3 Real.sqrt v.Position = 1) := by
  have key : ∀ r : ℝ, 0 < r → ∀ m,
      CreateSphere Real.sqrt Real.sin Real.cos Real.pi r sliceCount stackCount = some m →
      ∀ v ∈ m.Vertices, length3 Real.sqrt v.Position = r := by
    intro r hr0 m hm v hv
    obtain ⟨_, rfl⟩ := CreateSphere_inv _ _ _ _ r hm
    have hsq : Real.sqrt (r * r) = r := Real.sqrt_mul_self hr0.le
    rcases sphereVertices_mem _ _ _ _ _ _ _ v hv with h | h | ⟨i, j, _, _, _, h⟩
    · rw [h]
      simp only [Vertex.ofFloats, length3, dot3, mul_zero, zero_add, add_zero, hsq]
    · rw [h]
      simp only [Vertex.ofFloats, length3, dot3, mul_zero, zero_add, add_zero, neg_mul_neg, hsq]
    · rw [h, length3, sphereRing_dot_position, hsq]
  refine ⟨fun hne => ⟨_, CreateSphere_returns _ _ _ _ radius ht ht32 hne⟩, key radius hr, ?_⟩
  intro m hm k v _ _ hkv
  exact key 1 one_pos m hm v (List.getElem?_mem hkv)

theorem C13_sphere_positions_witness :
    (0 : ℝ) < 1 ∧ 3 ≤ 8 ∧ 2 ≤ 4 ∧ 4 < 2 ^ 32 ∧
    ∀ m, CreateSphere Real.sqrt Real.sin Real.cos Real.pi 1 8 4 = some m →
      ∀ v ∈ m.Vertices, length3 Real.sqrt v.Position = 1 :=
  ⟨one_pos, by norm_num, by norm_num, by norm_num,
    (C13_sphere_positions 1 8 4 one_pos (by norm_num) (by norm_num) (by norm_num)).2.1⟩

/-- C14: in real arithmetic, for every `radius > 0`, `sliceCount ≥ 3` and `stackCount ≥ 2`,
every vertex of the mesh returned by `CreateSphere` has a normal of length 1 and a tangent
of length 1. The function returns for every `sliceCount` other than
`2^32 - 1`. -/
theorem C14_sphere_unit_frames (radius : ℝ) (sliceCount stackCount : Nat) (hr : 0 < radius)
    (_hs : 3 ≤ sliceCount) (ht : 2 ≤ stackCount) (ht32 : stackCount < 2 ^ 32) :
    (sliceCount ≠ 2 ^ 32 - 1 →
      ∃ m, CreateSphere Real.sqrt Real.sin Real.cos Real.pi radius sliceCount stackCount
        = some m) ∧
    ∀ m, CreateSphere Real.sqrt Real.sin Real.cos Real.pi radius sliceCount stackCount = some m →
      ∀ v ∈ m.Vertices,
        length3 Real.sqrt v.Normal = 1 ∧ length3 Real.sqrt v.TangentU = 1 := by
  refine ⟨fun hne => ⟨_, CreateSphere_returns _ _ _ _ radius ht ht32 hne⟩, ?_⟩
  intro m hm v hv
  obtain ⟨_, rfl⟩ := CreateSphere_inv _ _ _ _ radius hm
  have hu1 : usub stackCount 1 = stackCount - 1 := usub_of_le (by omega) ht32
  rcases sphereVertices_mem _ _ _ _ _ _ _ v hv with h | h | ⟨i, j, hi1, hi2, _, h⟩
  · rw [h]
    exact ⟨length3_ofFloats_unit_y 1 (by norm_num), length3_unit_x⟩
  · rw [h]
    exact ⟨length3_ofFloats_unit_y (-1) (by norm_num), length3_unit_x⟩
  · rw [hu1] at hi2
    have hsin := sin_ring_pos (i := i) (n := stackCount) hi1 (by omega)
    have hP : 0 < dot3
        (sphereRingVertex Real.sqrt Real.sin Real.cos Real.pi radius
          (Real.pi / (stackCount : ℝ)) (2 * Real.pi / (sliceCount : ℝ)) i j).Position
        (sphereRingVertex Real.sqrt Real.sin Real.cos Real.pi radius
          (Real.pi / (stackCount : ℝ)) (2 * Real.pi / (sliceCount : ℝ)) i j).Position := by
      rw [sphereRing_dot_position]
      positivity
    have hT : 0 < dot3
        (⟨-radius * Real.sin ((i : ℝ) * (Real.pi / (stackCount : ℝ)))
            * Real.sin ((j : ℝ) * (2 * Real.pi / (sliceCount : ℝ))), 0,
          radius * Real.sin ((i : ℝ) * (Real.pi / (stackCount : ℝ)))
            * Real.cos ((j : ℝ) * (2 * Real.pi / (sliceCount : ℝ)))⟩ : XMFLOAT3 ℝ)
        ⟨-radius * Real.sin ((i : ℝ) * (Real.pi / (stackCount : ℝ)))
            * Real.sin ((j : ℝ) * (2 * Real.pi / (sliceCount : ℝ))), 0,
          radius * Real.sin ((i : ℝ) * (Real.pi / (stackCount : ℝ)))
            * Real.cos ((j : ℝ) * (2 * Real.pi / (sliceCount : ℝ)))⟩ := by
      rw [sphereRing_tangent_dot]
      positivity
    rw [h]
    exact ⟨(normalize_real (ne_zero_of_dot3_pos hP)).1,
      (normalize_real (ne_zero_of_dot3_pos hT)).1⟩

theorem C14_sphere_unit_frames_witness :
    (0 : ℝ) < 1 ∧ 3 ≤ 8 ∧ 2 ≤ 4 ∧ 4 < 2 ^ 32 ∧
    ∀ m, CreateSphere Real.sqrt Real.sin Real.cos Real.pi 1 8 4 = some m →
      ∀ v ∈ m.Vertices,
        length3 Real.sqrt v.Normal = 1 ∧ length3 Real.sqrt v.TangentU = 1 :=
  ⟨one_pos, by norm_num, by norm_num, by norm_num,
    (C14_sphere_unit_frames 1 8 4 one_pos (by norm_num) (by norm_num) (by norm_num)).2⟩

/-! ## CreateGeosphere: counts -/

section GeoCountClaims

variable {α : Type} [LinearOrderedField α]

/-- What the subdivision loop of `CreateGeosphere` returns, by number of passes. -/
theorem icosahedron_passes (sqrtf : α → α) (n : Nat) (hn : n ≤ 6) :
    ∃ out, subdividePasses sqrtf n (icosahedronMesh : MeshData α) = some out ∧
      out.Indices32.length = 60 * 4 ^ n ∧ out.IndicesValid ∧
      (n = 0 → out = icosahedronMesh) ∧ (1 ≤ n → 2 * out.Vertices.length = 60 * 4 ^ n) := by
  have hp := pow4_le hn
  obtain ⟨out, hout, hlen, hval, h0, hge⟩ :=
    subdividePasses_counts sqrtf n (icosahedronMesh : MeshData α) icosahedronMesh_valid
      ⟨20, rfl⟩ (by
        show 60 * 4 ^ n < 2 ^ 32
        omega)
  have hlen2 : out.Indices32.length = 60 * 4 ^ n := hlen
  exact ⟨out, hout, hlen2, hval, h0, fun h => by rw [hge h, hlen2]⟩

/-- What `CreateGeosphere` returns, by number of passes. -/
theorem CreateGeosphere_counts (sqrtf sinf cosf acosf : α → α) (atan2f : α → α → α)
    (XM_PI radius : α) (n : Nat) (hn : n ≤ 6) :
    ∃ m out, subdividePasses sqrtf n (icosahedronMesh : MeshData α) = some out ∧
      CreateGeosphere sqrtf sinf cosf acosf atan2f XM_PI radius n = some m ∧
      m = geosphereProjectAll sqrtf sinf cosf acosf atan2f XM_PI radius out ∧
      m.Indices32.length = 60 * 4 ^ n ∧ m.IndicesValid ∧
      (n = 0 → m.Vertices.length = 12) ∧ (1 ≤ n → 2 * m.Vertices.length = 60 * 4 ^ n) := by
  obtain ⟨out, hout, hlen, hval, h0, hge⟩ := icosahedron_passes sqrtf n hn
  have hmin : min n 6 = n := Nat.min_eq_left hn
  have hv : (geosphereProjectAll sqrtf sinf cosf acosf atan2f XM_PI radius out).Vertices.length
      = out.Vertices.length := List.length_map _ _
  refine ⟨_, out, hout, ?_, rfl, hlen, ?_, ?_, ?_⟩
  · rw [CreateGeosphere_eq, hmin, hout]
    rfl
  · intro k hk
    rw [hv]
    exact hval k hk
  · intro h
    rw [hv, h0 h]
    rfl
  · intro h
    rw [hv]
    exact hge h

/-- C18: `CreateGeosphere(r,0)` returns exactly 12 vertices and 60 indices, every index
below 12; for every `k` in `1..6`, `CreateGeosphere(r,k)` returns `60 * 4^k` indices and
`120 * 4^(k-1)` vertices, every index smaller than the vertex count. -/
theorem C18_geosphere_counts (sqrtf sinf cosf acosf : α → α) (atan2f : α → α → α)
    (XM_PI radius : α) :
    (∃ m, CreateGeosphere sqrtf sinf cosf acosf atan2f XM_PI radius 0 = some m ∧
      m.Vertices.length = 12 ∧ m.Indices32.length = 60 ∧ ∀ k ∈ m.Indices32, k < 12) ∧
    (∀ k, 1 ≤ k → k ≤ 6 →
      ∃ m, CreateGeosphere sqrtf sinf cosf acosf atan2f XM_PI radius k = some m ∧
        m.Indices32.length = 60 * 4 ^ k ∧ m.Vertices.length = 120 * 4 ^ (k - 1) ∧
        m.IndicesValid) := by
  constructor
  · obtain ⟨m, _, _, hm, _, hlen, hval, h0, _⟩ :=
      CreateGeosphere_counts sqrtf sinf cosf acosf atan2f XM_PI radius 0 (by norm_num)
    refine ⟨m, hm, h0 rfl, by rw [hlen]; norm_num, ?_⟩
    intro k hk
    have := hval k hk
    rwa [h0 rfl] at this
  · intro k hk1 hk6
    obtain ⟨m, _, _, hm, _, hlen, hval, _, hge⟩ :=
      CreateGeosphere_counts sqrtf sinf cosf acosf atan2f XM_PI radius k hk6
    refine ⟨m, hm, hlen, ?_, hval⟩
    have h2 := hge hk1
    obtain ⟨j, rfl⟩ : ∃ j, k = j + 1 := ⟨k - 1, by omega⟩
    rw [Nat.add_sub_cancel]
    rw [pow_succ] at h2
    omega

theorem C18_geosphere_counts_witness :
    1 ≤ 2 ∧ 2 ≤ 6 ∧
    ∃ m, CreateGeosphere (fun x : ℚ => x) (fun x => x) (fun x => x) (fun x => x)
        (fun x _ => x) 3 1 2 = some m ∧
      m.Indices32.length = 60 * 4 ^ 2 ∧ m.Vertices.length = 120 * 4 ^ (2 - 1) ∧
      m.IndicesValid :=
  ⟨by norm_num, by norm_num,
    (C18_geosphere_counts (fun x : ℚ => x) (fun x => x) (fun x => x) (fun x => x)
      (fun x _ => x) 3 1).2 2 (by norm_num) (by norm_num)⟩

end GeoCountClaims

/-! ## Subdivide keeps triangles away from the origin -/

section FaceOut

variable {α : Type} [LinearOrderedField α]

theorem dot3_midPoint (sqrtf : α → α) (l : XMFLOAT3 α) (a b : Vertex α) :
    dot3 l (MidPoint sqrtf a b).Position = (dot3 l a.Position + dot3 l b.Position) / 2 := by
  simp only [MidPoint, dot3, scale3, add3]
  ring

theorem dot3_midPoint_pos (sqrtf : α → α) {l : XMFLOAT3 α} {a b : Vertex α}
    (ha : 0 < dot3 l a.Position) (hb : 0 < dot3 l b.Position) :
    0 < dot3 l (MidPoint sqrtf a b).Position := by
  rw [dot3_midPoint]
  linarith

theorem position_ne_zero_of_dot3_pos {l p : XMFLOAT3 α} (h : 0 < dot3 l p) :
    p ≠ ⟨0, 0, 0⟩ := by
  intro e
  rw [e] at h
  simp [dot3] at h

omit [LinearOrderedField α] in
theorem Corners.triangle_eq {m : MeshData α} {i : Nat} {v0 v1 v2 : Vertex α}
    (h : Corners m i v0 v1 v2) : m.triangle i = some (v0, v1, v2) := by
  obtain ⟨a, b, c, ha, hb, hc, h0, h1, h2⟩ := h
  exact triangle_of_lookups rfl rfl rfl ha hb hc h0 h1 h2

omit [LinearOrderedField α] in
theorem Corners.lt_length {m : MeshData α} {i : Nat} {v0 v1 v2 : Vertex α}
    (h : Corners m i v0 v1 v2) : 3 * i + 2 < m.Indices32.length := by
  obtain ⟨a, b, c, _, _, hc, _⟩ := h
  exact (List.getElem?_eq_some_iff.mp hc).1

/-- One pass of `Subdivide` without index wrap-around keeps every triangle on the positive
side of a plane through the origin, and no vertex it writes is at the origin. -/
theorem Subdivide_faceOut (sqrtf : α → α) {m out : MeshData α}
    (h : Subdivide sqrtf m = some out) (hfit : 2 * m.Indices32.length ≤ 2 ^ 32)
    (hm : TrianglesFaceOut m) :
    TrianglesFaceOut out ∧ ∀ v ∈ out.Vertices, v.Position ≠ ⟨0, 0, 0⟩ := by
  obtain ⟨hlv, hli, hcor, hall⟩ := Subdivide_some_spec sqrtf h
  have hN : numTris m = m.Indices32.length / 3 := by
    unfold numTris
    rw [u32_of_lt (by omega)]
  constructor
  · intro t w0 w1 w2 hw
    have hlt := hw.lt_length
    have htri := hw.triangle_eq
    have hi : t / 4 < numTris m := by omega
    obtain ⟨v0, v1, v2, hc⟩ := hcor _ hi
    obtain ⟨l, p0, p1, p2⟩ := hm _ v0 v1 v2 hc
    have q0 := dot3_midPoint_pos sqrtf p0 p1
    have q1 := dot3_midPoint_pos sqrtf p1 p2
    have q2 := dot3_midPoint_pos sqrtf p0 p2
    obtain ⟨t0, t1, t2, t3, _⟩ := Subdivide_triangles sqrtf h hi (by omega) hc
    have hk : t % 4 < 4 := Nat.mod_lt _ (by norm_num)
    have ht : t = 4 * (t / 4) + t % 4 := (Nat.div_add_mod t 4).symm
    refine ⟨l, ?_⟩
    rcases (by omega : t % 4 = 0 ∨ t % 4 = 1 ∨ t % 4 = 2 ∨ t % 4 = 3) with e | e | e | e
    · rw [e, Nat.add_zero] at ht
      rw [ht, t0] at htri
      obtain ⟨rfl, rfl, rfl⟩ := Prod.mk.inj (Option.some.inj htri) |>.imp_right Prod.mk.inj
      exact ⟨p0, q0, q2⟩
    · rw [e] at ht
      rw [ht, t1] at htri
      obtain ⟨rfl, rfl, rfl⟩ := Prod.mk.inj (Option.some.inj htri) |>.imp_right Prod.mk.inj
      exact ⟨q0, q1, q2⟩
    · rw [e] at ht
      rw [ht, t2] at htri
      obtain ⟨rfl, rfl, rfl⟩ := Prod.mk.inj (Option.some.inj htri) |>.imp_right Prod.mk.inj
      exact ⟨q2, q1, p2⟩
    · rw [e] at ht
      rw [ht, t3] at htri
      obtain ⟨rfl, rfl, rfl⟩ := Prod.mk.inj (Option.some.inj htri) |>.imp_right Prod.mk.inj
      exact ⟨q0, p1, q1⟩
  · intro v hv
    obtain ⟨p, hp⟩ := List.mem_iff_getElem?.mp hv
    have hpl : p < out.Vertices.length := (List.getElem?_eq_some_iff.mp hp).1
    have hi : p / 6 < numTris m := by omega
    obtain ⟨v0, v1, v2, hc⟩ := hcor _ hi
    obtain ⟨l, p0, p1, p2⟩ := hm _ v0 v1 v2 hc
    have hk : p % 6 < 6 := Nat.mod_lt _ (by norm_num)
    have hvx := (hall _ v0 v1 v2 hi hc).1 (p % 6) hk
    rw [show 6 * (p / 6) + p % 6 = p from Nat.div_add_mod p 6, hp] at hvx
    have hmem : v ∈ triVertices sqrtf v0 v1 v2 := List.getElem?_mem hvx.symm
    simp only [triVertices, List.mem_cons, List.mem_singleton, List.not_mem_nil,
      or_false] at hmem
    rcases hmem with e | e | e | e | e | e <;> rw [e]
    · exact position_ne_zero_of_dot3_pos p0
    · exact position_ne_zero_of_dot3_pos p1
    · exact position_ne_zero_of_dot3_pos p2
    · exact position_ne_zero_of_dot3_pos (dot3_midPoint_pos sqrtf p0 p1)
    · exact position_ne_zero_of_dot3_pos (dot3_midPoint_pos sqrtf p1 p2)
    · exact position_ne_zero_of_dot3_pos (dot3_midPoint_pos sqrtf p0 p2)

/-- The face-out property survives `n` passes as long as the index count times `4^n` stays
below `2^32`, and after them no vertex is at the origin. -/
theorem subdividePasses_faceOut (sqrtf : α → α) :
    ∀ (n : Nat) (m : MeshData α), m.IndicesValid → 3 ∣ m.Indices32.length →
      m.Indices32.length * 4 ^ n < 2 ^ 32 → TrianglesFaceOut m →
      (∀ v ∈ m.Vertices, v.Position ≠ ⟨0, 0, 0⟩) →
      ∃ out, subdividePasses sqrtf n m = some out ∧ TrianglesFaceOut out ∧
        ∀ v ∈ out.Vertices, v.Position ≠ ⟨0, 0, 0⟩ := by
  intro n
  induction n with
  | zero => intro m _ _ _ hf hv; exact ⟨m, rfl, hf, hv⟩
  | succ n ih =>
    intro m hval h3 hfit hf _
    obtain ⟨T, hT⟩ := h3
    have hpow : 1 ≤ 4 ^ n := Nat.one_le_pow _ _ (by norm_num)
    have hfit2 : 3 * T * (4 ^ n * 4) < 2 ^ 32 := by
      rw [hT, pow_succ] at hfit
      exact hfit
    have hlt : 3 * T < 2 ^ 32 := by nlinarith
    have hlt2 : 2 * (3 * T) ≤ 2 ^ 32 := by nlinarith
    obtain ⟨m1, hm1⟩ := Subdivide_isSome sqrtf hval
    obtain ⟨_, hi1, _, _⟩ := Subdivide_some_spec sqrtf hm1
    rw [numTris_eq hT hlt] at hi1
    obtain ⟨hf1, hv1⟩ := Subdivide_faceOut sqrtf hm1 (by rw [hT]; exact hlt2) hf
    have hfit1 : m1.Indices32.length * 4 ^ n < 2 ^ 32 := by
      rw [hi1]
      nlinarith
    obtain ⟨out, hout, hfo, hvo⟩ :=
      ih m1 (Subdivide_valid sqrtf hm1) ⟨4 * T, by rw [hi1]; ring⟩ hfit1 hf1 hv1
    exact ⟨out, by simp only [subdividePasses, hm1]; exact hout, hfo, hvo⟩

end FaceOut

/-! ## The icosahedron -/

section Icosahedron

variable {α : Type} [LinearOrderedField α]

theorem icosahedron_vertices_ne_zero :
    ∀ v ∈ (icosahedronMesh : MeshData α).Vertices, v.Position ≠ ⟨0, 0, 0⟩ := by
  intro v hv
  simp only [icosahedronMesh, icosahedronPositions, List.map_cons, List.map_nil,
    List.mem_cons, List.mem_singleton, List.not_mem_nil, or_false] at hv
  rcases hv with e | e | e | e | e | e | e | e | e | e | e | e <;> rw [e] <;>
    simp only [ne_eq, XMFLOAT3.mk.injEq, not_and] <;> norm_num

theorem icosahedron_faceOut : TrianglesFaceOut (icosahedronMesh : MeshData α) := by
  intro i v0 v1 v2 hc
  have hlt := hc.lt_length
  have h60 : (icosahedronMesh : MeshData α).Indices32.length = 60 := rfl
  rw [h60] at hlt
  have hi : i < 20 := by omega
  obtain ⟨a, b, c, ha, hb, hc2, h0, h1, h2⟩ := hc
  refine ⟨add3 (add3 v0.Position v1.Position) v2.Position, ?_⟩
  interval_cases i <;>
    simp only [icosahedronMesh, icosahedronIndices, Nat.reduceMul, Nat.reduceAdd,
      List.getElem?_cons_zero, List.getElem?_cons_succ, Option.some.injEq] at ha hb hc2 <;>
    subst ha <;> subst hb <;> subst hc2 <;>
    simp only [icosahedronMesh, icosahedronPositions, List.map_cons, List.map_nil,
      List.getElem?_cons_zero, List.getElem?_cons_succ, Option.some.injEq] at h0 h1 h2 <;>
    subst h0 <;> subst h1 <;> subst h2 <;>
    simp only [dot3, add3] <;> norm_num

end Icosahedron

/-! ## CreateGeosphere in real arithmetic -/

theorem length3_scale3 (r : ℝ) (n : XMFLOAT3 ℝ) (hr : 0 ≤ r) :
    length3 Real.sqrt (scale3 r n) = r * length3 Real.sqrt n := by
  have e : dot3 (scale3 r n) (scale3 r n) = r * r * dot3 n n := by
    simp only [dot3, scale3]
    ring
  rw [length3, e, Real.sqrt_mul (mul_self_nonneg r), Real.sqrt_mul_self hr, length3]

/-- C17: in real arithmetic, for every `radius > 0` and every `numSubdivisions`, no vertex
of the subdivided icosahedron is at the origin, and every vertex of the mesh returned by
`CreateGeosphere` has a position of Euclidean length `radius`, equal to `radius` times the
vertex's stored normal. -/
theorem C17_geosphere_positions (sinf cosf acosf : ℝ → ℝ) (atan2f : ℝ → ℝ → ℝ)
    (XM_PI radius : ℝ) (hr : 0 < radius) (numSubdivisions : Nat) :
    ∃ m out,
      subdividePasses Real.sqrt (min numSubdivisions 6) (icosahedronMesh : MeshData ℝ)
        = some out ∧
      (∀ v ∈ out.Vertices, v.Position ≠ ⟨0, 0, 0⟩) ∧
      CreateGeosphere Real.sqrt sinf cosf acosf atan2f XM_PI radius numSubdivisions = some m ∧
      ∀ v ∈ m.Vertices,
        length3 Real.sqrt v.Position = radius ∧ v.Position = scale3 radius v.Normal := by
  have hk : min numSubdivisions 6 ≤ 6 := Nat.min_le_right _ _
  have hp := pow4_le hk
  obtain ⟨out, hout, _, hne⟩ :=
    subdividePasses_faceOut Real.sqrt (min numSubdivisions 6) (icosahedronMesh : MeshData ℝ)
      icosahedronMesh_valid ⟨20, rfl⟩ (by
        show 60 * 4 ^ (min numSubdivisions 6) < 2 ^ 32
        omega) icosahedron_faceOut icosahedron_vertices_ne_zero
  refine ⟨geosphereProjectAll Real.sqrt sinf cosf acosf atan2f XM_PI radius out, out, hout, hne,
    ?_, ?_⟩
  · rw [CreateGeosphere_eq, hout]
    rfl
  · intro v hv
    obtain ⟨w, hw, rfl⟩ := List.mem_map.mp hv
    have hunit := (normalize_real (hne w hw)).1
    constructor
    · show length3 Real.sqrt (scale3 radius (XMVector3Normalize Real.sqrt w.Position)) = radius
      rw [length3_scale3 _ _ hr.le, hunit, mul_one]
    · rfl

theorem C17_geosphere_positions_witness :
    (0 : ℝ) < 2 ∧
    ∃ m out,
      subdividePasses Real.sqrt (min 3 6) (icosahedronMesh : MeshData ℝ) = some out ∧
      (∀ v ∈ out.Vertices, v.Position ≠ ⟨0, 0, 0⟩) ∧
      CreateGeosphere Real.sqrt Real.sin Real.cos Real.arccos (fun _ _ => 0) Real.pi 2 3
        = some m ∧
      ∀ v ∈ m.Vertices,
        length3 Real.sqrt v.Position = 2 ∧ v.Position = scale3 2 v.Normal :=
  ⟨by norm_num,
    C17_geosphere_positions Real.sin Real.cos Real.arccos (fun _ _ => 0) Real.pi 2
      (by norm_num) 3⟩

/-- The re-projection of a vertex on the positive `y` axis, in real arithmetic: the angle
`phi` is `arccos 1 = 0`, so the tangent is the normalisation of the zero vector. -/
theorem geosphereProject_on_axis (atan2f : ℝ → ℝ → ℝ) (radius y : ℝ) (hr : 0 < radius)
    (hy : 0 < y) (w : Vertex ℝ) (hw : w.Position = ⟨0, y, 0⟩) :
    (geosphereProject Real.sqrt Real.sin Real.cos Real.arccos atan2f Real.pi radius w).Position
      = ⟨0, radius, 0⟩ ∧
    (geosphereProject Real.sqrt Real.sin Real.cos Real.arccos atan2f Real.pi radius w).Normal
      = ⟨0, 1, 0⟩ ∧
    (geosphereProject Real.sqrt Real.sin Real.cos Real.arccos atan2f Real.pi radius w).TangentU
      = ⟨0, 0, 0⟩ := by
  have hn : XMVector3Normalize Real.sqrt w.Position = ⟨0, 1, 0⟩ := by
    rw [hw]
    simp only [XMVector3Normalize, length3, dot3, mul_zero, zero_add, add_zero,
      Real.sqrt_mul_self hy.le, zero_div, div_self (ne_of_gt hy)]
  have hp : scale3 radius (XMVector3Normalize Real.sqrt w.Position) = ⟨0, radius, 0⟩ := by
    rw [hn]
    simp only [scale3, mul_zero, mul_one]
  refine ⟨hp, hn, ?_⟩
  simp only [geosphereProject, hp, div_self (ne_of_gt hr), Real.arccos_one, Real.sin_zero,
    mul_zero, zero_mul]
  simp only [XMVector3Normalize, zero_div]

theorem icosahedron_corners_two :
    Corners (icosahedronMesh : MeshData ℝ) 2
      { Vertex.zero with Position := ⟨0, 850651 / 1000000, 525731 / 1000000⟩ }
      { Vertex.zero with Position := ⟨0, 850651 / 1000000, -(525731 / 1000000)⟩ }
      { Vertex.zero with Position := ⟨-(850651 / 1000000), 525731 / 1000000, 0⟩ } :=
  ⟨4, 5, 9, rfl, rfl, rfl, rfl, rfl, rfl⟩

theorem subdividePasses_one {α : Type} [LinearOrderedField α] (sqrtf : α → α)
    {m out : MeshData α} (h : subdividePasses sqrtf 1 m = some out) :
    Subdivide sqrtf m = some out := by
  simp only [subdividePasses] at h
  cases hs : Subdivide sqrtf m with
  | none => rw [hs] at h; exact absurd h (by simp)
  | some m1 => rw [hs] at h; exact h

/-- C16 (evaluation at a failing input): in real arithmetic `CreateGeosphere(1, 1)` returns
a mesh whose vertex 15, the midpoint of the icosahedron vertices 4 and 5, is re-projected to
`(0, 1, 0)` on the `y` axis; its normal has length 1 but its tangent is the normalisation of
the zero vector, which is the zero vector and not a vector of length 1. -/
theorem C16_geosphere_pole_tangent (atan2f : ℝ → ℝ → ℝ) :
    ∃ m, CreateGeosphere Real.sqrt Real.sin Real.cos Real.arccos atan2f Real.pi 1 1 = some m ∧
      ∃ v, m.Vertices[15]? = some v ∧ v.Position = ⟨0, 1, 0⟩ ∧
        length3 Real.sqrt v.Normal = 1 ∧ v.TangentU = ⟨0, 0, 0⟩ ∧
        length3 Real.sqrt v.TangentU ≠ 1 := by
  obtain ⟨m, out, hout, hm, hmeq, _⟩ :=
    CreateGeosphere_counts Real.sqrt Real.sin Real.cos Real.arccos atan2f Real.pi 1 1
      (by norm_num)
  have hsub := subdividePasses_one Real.sqrt hout
  obtain ⟨_, _, _, hall⟩ := Subdivide_some_spec Real.sqrt hsub
  have hN : numTris (icosahedronMesh : MeshData ℝ) = 20 := by
    unfold numTris
    rw [show (icosahedronMesh : MeshData ℝ).Indices32.length = 60 from rfl, u32_of_lt (by norm_num)]
  have hV := (hall 2 _ _ _ (by rw [hN]; norm_num) icosahedron_corners_two).1 3 (by norm_num)
  have hV2 : out.Vertices[15]? = some (MidPoint Real.sqrt
      { Vertex.zero with Position := ⟨0, 850651 / 1000000, 525731 / 1000000⟩ }
      { Vertex.zero with Position := ⟨0, 850651 / 1000000, -(525731 / 1000000)⟩ }) := hV
  have hmid : (MidPoint Real.sqrt
      ({ Vertex.zero with Position := ⟨0, 850651 / 1000000, 525731 / 1000000⟩ } : Vertex ℝ)
      { Vertex.zero with Position := ⟨0, 850651 / 1000000, -(525731 / 1000000)⟩ }).Position
      = ⟨0, 850651 / 1000000, 0⟩ := by
    simp only [MidPoint, scale3, add3, XMFLOAT3.mk.injEq]
    refine ⟨?_, ?_, ?_⟩ <;> norm_num
  obtain ⟨hP, hNrm, hT⟩ := geosphereProject_on_axis atan2f 1 (850651 / 1000000) one_pos
    (by norm_num) _ hmid
  refine ⟨m, hm, _, ?_, hP, ?_, hT, ?_⟩
  · rw [hmeq]
    show (out.Vertices.map _)[15]? = _
    rw [List.getElem?_map, hV2]
    rfl
  · rw [hNrm]
    exact length3_ofFloats_unit_y 1 (by norm_num)
  · rw [hT]
    simp [length3, dot3]

/-! ## CreateCylinder: counts and indices -/

section CylinderLemmas

variable {α : Type} [LinearOrderedField α]

theorem capRingVertices_length (sinf cosf : α → α)
    (XM_PI capRadius height y ny : α) (sliceCount : Nat) :
    (capRingVertices sinf cosf XM_PI capRadius height y ny sliceCount).length
      = sliceCount + 1 := by
  unfold capRingVertices
  rw [List.length_map, List.length_range']

theorem BuildCylinderTopCap_eq (sinf cosf : α → α) (XM_PI bottomRadius topRadius height : α)
    (sliceCount stackCount : Nat) (meshData : MeshData α) (hne : sliceCount ≠ 2 ^ 32 - 1) :
    BuildCylinderTopCap sinf cosf XM_PI bottomRadius topRadius height sliceCount stackCount
        meshData
      = some
        { Vertices := meshData.Vertices
            ++ capRingVertices sinf cosf XM_PI topRadius height (1 / 2 * height) 1 sliceCount
            ++ [Vertex.ofFloats 0 (1 / 2 * height) 0 0 1 0 1 0 0 (1 / 2) (1 / 2)]
          Indices32 := meshData.Indices32
            ++ topCapIndices sliceCount meshData.Vertices.length } := by
  simp only [BuildCylinderTopCap, if_neg hne, topCapIndices, List.length_append,
    capRingVertices_length, List.length_singleton]

theorem BuildCylinderBottomCap_eq (sinf cosf : α → α)
    (XM_PI bottomRadius topRadius height : α)
    (sliceCount stackCount : Nat) (meshData : MeshData α) (hne : sliceCount ≠ 2 ^ 32 - 1) :
    BuildCylinderBottomCap sinf cosf XM_PI bottomRadius topRadius height sliceCount stackCount
        meshData
      = some
        { Vertices := meshData.Vertices
            ++ capRingVertices sinf cosf XM_PI bottomRadius height (-(1 / 2) * height) (-1)
                sliceCount
            ++ [Vertex.ofFloats 0 (-(1 / 2) * height) 0 0 (-1) 0 1 0 0 (1 / 2) (1 / 2)]
          Indices32 := meshData.Indices32
            ++ bottomCapIndices sliceCount meshData.Vertices.length } := by
  simp only [BuildCylinderBottomCap, if_neg hne, bottomCapIndices, List.length_append,
    capRingVertices_length, List.length_singleton]

theorem CreateCylinder_returns (sqrtf sinf cosf : α → α)
    (XM_PI bottomRadius topRadius height : α) (sliceCount stackCount : Nat)
    (hne : sliceCount ≠ 2 ^ 32 - 1) :
    CreateCylinder sqrtf sinf cosf XM_PI bottomRadius topRadius height sliceCount stackCount
      = some (cylinderMesh sqrtf sinf cosf XM_PI bottomRadius topRadius height
          sliceCount stackCount) := by
  simp only [CreateCylinder, if_neg hne, BuildCylinderTopCap_eq _ _ _ _ _ _ _ _ _ hne,
    BuildCylinderBottomCap_eq _ _ _ _ _ _ _ _ _ hne, cylinderMesh, topCapVertices,
    bottomCapVertices, List.append_assoc, List.length_append, capRingVertices_length,
    List.length_singleton]

theorem CreateCylinder_inv (sqrtf sinf cosf : α → α)
    (XM_PI bottomRadius topRadius height : α) {sliceCount stackCount : Nat} {m : MeshData α}
    (h : CreateCylinder sqrtf sinf cosf XM_PI bottomRadius topRadius height sliceCount
      stackCount = some m) :
    sliceCount ≠ 2 ^ 32 - 1 ∧
    m = cylinderMesh sqrtf sinf cosf XM_PI bottomRadius topRadius height
      sliceCount stackCount := by
  by_cases hne : sliceCount = 2 ^ 32 - 1
  · simp only [CreateCylinder, if_pos hne] at h
    exact absurd h (by simp)
  · rw [CreateCylinder_returns _ _ _ _ _ _ _ _ _ hne] at h
    exact ⟨hne, (Option.some.inj h).symm⟩

theorem cylinderSideVertices_length (sqrtf sinf cosf : α → α)
    (XM_PI bottomRadius topRadius height : α) (sliceCount stackCount : Nat) :
    (cylinderSideVertices sqrtf sinf cosf XM_PI bottomRadius topRadius height
      sliceCount stackCount).length = u32 (stackCount + 1) * (sliceCount + 1) := by
  unfold cylinderSideVertices
  rw [length_flatMap_const _ _ (sliceCount + 1), List.length_range]
  intro i _
  rw [List.length_map, List.length_range']

theorem cylinderSideIndices_length (sliceCount stackCount : Nat) :
    (cylinderSideIndices sliceCount stackCount).length = 6 * sliceCount * stackCount := by
  unfold cylinderSideIndices
  rw [length_flatMap_flatMap_const _ _ _ 6 (by intros; rfl), List.length_range,
    List.length_range]
  ring

theorem topCapIndices_length (sliceCount n : Nat) :
    (topCapIndices sliceCount n).length = 3 * sliceCount := by
  unfold topCapIndices
  rw [length_flatMap_const _ _ 3 (by intros; rfl), List.length_range]
  ring

theorem bottomCapIndices_length (sliceCount n : Nat) :
    (bottomCapIndices sliceCount n).length = 3 * sliceCount := by
  unfold bottomCapIndices
  rw [length_flatMap_const _ _ 3 (by intros; rfl), List.length_range]
  ring

theorem topCapVertices_length (sinf cosf : α → α) (XM_PI topRadius height : α)
    (sliceCount : Nat) :
    (topCapVertices sinf cosf XM_PI topRadius height sliceCount).length = sliceCount + 2 := by
  unfold topCapVertices
  rw [List.length_append, capRingVertices_length, List.length_singleton]

theorem bottomCapVertices_length (sinf cosf : α → α) (XM_PI bottomRadius height : α)
    (sliceCount : Nat) :
    (bottomCapVertices sinf cosf XM_PI bottomRadius height sliceCount).length
      = sliceCount + 2 := by
  unfold bottomCapVertices
  rw [List.length_append, capRingVertices_length, List.length_singleton]

theorem cylinderMesh_vertices_length (sqrtf sinf cosf : α → α)
    (XM_PI bottomRadius topRadius height : α) (sliceCount stackCount : Nat) :
    (cylinderMesh sqrtf sinf cosf XM_PI bottomRadius topRadius height
      sliceCount stackCount).Vertices.length
      = u32 (stackCount + 1) * (sliceCount + 1) + (sliceCount + 2) + (sliceCount + 2) := by
  simp only [cylinderMesh, List.length_append, cylinderSideVertices_length,
    topCapVertices_length, bottomCapVertices_length]

/-- C19 (amended): for every `sliceCount ≥ 1` and `stackCount ≥ 1` with
`stackCount + 1 < 2^32`, the mesh returned by `CreateCylinder` has exactly
`(stackCount+1)*(sliceCount+1)` side vertices followed by `sliceCount+2` top-cap vertices
and `sliceCount+2` bottom-cap vertices, and exactly `6*sliceCount*stackCount` side indices
followed by `3*sliceCount` indices for each cap. The function returns for every `sliceCount`
other than `2^32 - 1`. -/
theorem C19_cylinder_counts (sqrtf sinf cosf : α → α)
    (XM_PI bottomRadius topRadius height : α) (sliceCount stackCount : Nat)
    (_hs : 1 ≤ sliceCount) (_ht : 1 ≤ stackCount) (ht32 : stackCount + 1 < 2 ^ 32) :
    (sliceCount ≠ 2 ^ 32 - 1 →
      ∃ m, CreateCylinder sqrtf sinf cosf XM_PI bottomRadius topRadius height
        sliceCount stackCount = some m) ∧
    ∀ m, CreateCylinder sqrtf sinf cosf XM_PI bottomRadius topRadius height
        sliceCount stackCount = some m →
      ∃ side top bottom sideIdx topIdx bottomIdx,
        m.Vertices = side ++ top ++ bottom ∧
        side = cylinderSideVertices sqrtf sinf cosf XM_PI bottomRadius topRadius height
          sliceCount stackCount ∧
        top = topCapVertices sinf cosf XM_PI topRadius height sliceCount ∧
        bottom = bottomCapVertices sinf cosf XM_PI bottomRadius height sliceCount ∧
        side.length = (stackCount + 1) * (sliceCount + 1) ∧
        top.length = sliceCount + 2 ∧ bottom.length = sliceCount + 2 ∧
        m.Indices32 = sideIdx ++ topIdx ++ bottomIdx ∧
        sideIdx = cylinderSideIndices sliceCount stackCount ∧
        topIdx = topCapIndices sliceCount side.length ∧
        bottomIdx = bottomCapIndices sliceCount (side.length + top.length) ∧
        sideIdx.length = 6 * sliceCount * stackCount ∧
        topIdx.length = 3 * sliceCount ∧ bottomIdx.length = 3 * sliceCount := by
  refine ⟨fun hne => ⟨_, CreateCylinder_returns _ _ _ _ _ _ _ _ _ hne⟩, ?_⟩
  intro m hm
  obtain ⟨_, rfl⟩ := CreateCylinder_inv _ _ _ _ _ _ _ hm
  refine ⟨_, _, _, _, _, _, rfl, rfl, rfl, rfl, ?_, topCapVertices_length _ _ _ _ _ _,
    bottomCapVertices_length _ _ _ _ _ _, rfl, rfl, rfl, rfl,
    cylinderSideIndices_length _ _, topCapIndices_length _ _, bottomCapIndices_length _ _⟩
  rw [cylinderSideVertices_length, u32_of_lt ht32]

theorem C19_cylinder_counts_witness :
    1 ≤ 20 ∧ 1 ≤ 20 ∧ 20 + 1 < 2 ^ 32 ∧
    (20 ≠ 2 ^ 32 - 1 →
      ∃ m, CreateCylinder (fun x : ℚ => x) (fun x => x) (fun x => x) 3 1 1 1 20 20 = some m) ∧
    ∀ m, CreateCylinder (fun x : ℚ => x) (fun x => x) (fun x => x) 3 1 1 1 20 20 = some m →
      m.Vertices.length = (20 + 1) * (20 + 1) + (20 + 2) + (20 + 2) ∧
      m.Indices32.length = 6 * 20 * 20 + 3 * 20 + 3 * 20 := by
  have h := C19_cylinder_counts (fun x : ℚ => x) (fun x => x) (fun x => x) 3 1 1 1 20 20
    (by norm_num) (by norm_num) (by norm_num)
  refine ⟨by norm_num, by norm_num, by norm_num, h.1, ?_⟩
  intro m hm
  obtain ⟨side, top, bottom, sideIdx, topIdx, bottomIdx, hv, _, _, _, h1, h2, h3, hi, _, _, _,
    h4, h5, h6⟩ := h.2 m hm
  rw [hv, hi]
  simp only [List.length_append, h1, h2, h3, h4, h5, h6]
  exact ⟨trivial, trivial⟩

theorem u32_two_pow : u32 (4294967295 + 1) = 0 := by
  simp only [u32]
  norm_num

/-- C19 (as stated, refuted): for `sliceCount = 1` and `stackCount = 2^32 - 1` the ring count
`stackCount + 1` wraps around to 0, so `CreateCylinder` writes no side vertex: the mesh it
returns has 6 vertices in all, not `(stackCount+1)*(sliceCount+1) = 2^33` side vertices. -/
theorem C19_counterexample :
    1 ≤ 1 ∧ 1 ≤ 4294967295 ∧
    ∃ m, CreateCylinder (fun x : ℚ => x) (fun x => x) (fun x => x) 3 1 1 1 1 4294967295
        = some m ∧ m.Vertices.length = 6 ∧
      ¬ ((4294967295 + 1) * (1 + 1) ≤ m.Vertices.length) := by
  refine ⟨le_refl _, by norm_num, _,
    CreateCylinder_returns _ _ _ _ _ _ _ 1 4294967295 (by norm_num), ?_⟩
  have h := cylinderMesh_vertices_length (fun x : ℚ => x) (fun x => x) (fun x => x) 3 1 1 1
    1 4294967295
  rw [u32_two_pow] at h
  rw [h]
  norm_num

/-- Every index written by `CreateCylinder` is below the number of vertices when the ring
count `stackCount + 1` does not wrap around, whether or not the index arithmetic does. -/
theorem cylinderMesh_valid (sqrtf sinf cosf : α → α)
    (XM_PI bottomRadius topRadius height : α) {sliceCount stackCount : Nat}
    (hs32 : sliceCount + 1 < 2 ^ 32) (ht32 : stackCount + 1 < 2 ^ 32) :
    (cylinderMesh sqrtf sinf cosf XM_PI bottomRadius topRadius height
      sliceCount stackCount).IndicesValid := by
  intro k hk
  rw [cylinderMesh_vertices_length, u32_of_lt ht32]
  have hS : (stackCount + 1) * (sliceCount + 1)
      = stackCount * (sliceCount + 1) + (sliceCount + 1) := by ring
  simp only [cylinderMesh, List.mem_append, cylinderSideVertices_length, topCapVertices_length,
    u32_of_lt ht32] at hk
  rw [hS] at hk ⊢
  generalize hW : stackCount * (sliceCount + 1) = W at hk ⊢
  rcases hk with (hk | hk) | hk
  · simp only [cylinderSideIndices, u32_of_lt hs32, List.mem_flatMap, List.mem_range,
      List.mem_cons, List.mem_singleton, List.not_mem_nil, or_false] at hk
    obtain ⟨i, hi, j, hj, hk⟩ := hk
    have hmul : (i + 1) * (sliceCount + 1) ≤ W := by
      rw [← hW]
      exact Nat.mul_le_mul_right _ (by omega)
    have hmul2 : i * (sliceCount + 1) ≤ (i + 1) * (sliceCount + 1) :=
      Nat.mul_le_mul_right _ (by omega)
    have h1 := u32_le (i * (sliceCount + 1) + j)
    have h2 := u32_le ((i + 1) * (sliceCount + 1) + j)
    have h3 := u32_le ((i + 1) * (sliceCount + 1) + j + 1)
    have h4 := u32_le (i * (sliceCount + 1) + j + 1)
    rcases hk with h | h | h | h | h | h <;> omega
  · simp only [topCapIndices, List.mem_flatMap, List.mem_range, List.mem_cons,
      List.mem_singleton, List.not_mem_nil, or_false] at hk
    obtain ⟨i, hi, hk⟩ := hk
    rcases Nat.lt_or_ge (W + (sliceCount + 1) + (sliceCount + 1) + 1) (2 ^ 32) with hb | hb
    · have e0 : u32 (W + (sliceCount + 1)) = W + (sliceCount + 1) := u32_of_lt (by omega)
      have e1 : u32 (W + (sliceCount + 1) + (sliceCount + 1) + 1)
          = W + (sliceCount + 1) + (sliceCount + 1) + 1 := u32_of_lt hb
      have e2 : usub (W + (sliceCount + 1) + (sliceCount + 1) + 1) 1
          = W + (sliceCount + 1) + (sliceCount + 1) + 1 - 1 := usub_of_le (by omega) hb
      rw [e0, e1, e2] at hk
      have h1 := u32_le (W + (sliceCount + 1) + i + 1)
      have h2 := u32_le (W + (sliceCount + 1) + i)
      rcases hk with h | h | h <;> omega
    · have h0 := usub_lt (u32 (W + (sliceCount + 1) + (sliceCount + 1) + 1)) 1
      have h1 := u32_lt (u32 (W + (sliceCount + 1)) + i + 1)
      have h2 := u32_lt (u32 (W + (sliceCount + 1)) + i)
      rcases hk with h | h | h <;> omega
  · simp only [bottomCapIndices, List.mem_flatMap, List.mem_range, List.mem_cons,
      List.mem_singleton, List.not_mem_nil, or_false] at hk
    obtain ⟨i, hi, hk⟩ := hk
    rcases Nat.lt_or_ge (W + (sliceCount + 1) + (sliceCount + 2) + (sliceCount + 1) + 1)
      (2 ^ 32) with hb | hb
    · have e0 : u32 (W + (sliceCount + 1) + (sliceCount + 2))
          = W + (sliceCount + 1) + (sliceCount + 2) := u32_of_lt (by omega)
      have e1 : u32 (W + (sliceCount + 1) + (sliceCount + 2) + (sliceCount + 1) + 1)
          = W + (sliceCount + 1) + (sliceCount + 2) + (sliceCount + 1) + 1 := u32_of_lt hb
      have e2 : usub (W + (sliceCount + 1) + (sliceCount + 2) + (sliceCount + 1) + 1) 1
          = W + (sliceCount + 1) + (sliceCount + 2) + (sliceCount + 1) + 1 - 1 :=
        usub_of_le (by omega) hb
      rw [e0, e1, e2] at hk
      have h1 := u32_le (W + (sliceCount + 1) + (sliceCount + 2) + i + 1)
      have h2 := u32_le (W + (sliceCount + 1) + (sliceCount + 2) + i)
      rcases hk with h | h | h <;> omega
    · have h0 := usub_lt (u32 (W + (sliceCount + 1) + (sliceCount + 2) + (sliceCount + 1) + 1)) 1
      have h1 := u32_lt (u32 (W + (sliceCount + 1) + (sliceCount + 2)) + i + 1)
      have h2 := u32_lt (u32 (W + (sliceCount + 1) + (sliceCount + 2)) + i)
      rcases hk with h | h | h <;> omega

theorem cylinderMesh_indices_length (sqrtf sinf cosf : α → α)
    (XM_PI bottomRadius topRadius height : α) (sliceCount stackCount : Nat) :
    (cylinderMesh sqrtf sinf cosf XM_PI bottomRadius topRadius height
      sliceCount stackCount).Indices32.length
      = 3 * (2 * sliceCount * stackCount + sliceCount + sliceCount) := by
  simp only [cylinderMesh, List.length_append, cylinderSideIndices_length,
    topCapIndices_length, bottomCapIndices_length]
  ring

/-- C20 (amended): for every `sliceCount ≥ 1` and `stackCount ≥ 1` (32-bit values) with
`stackCount + 1 < 2^32`, the mesh returned by `CreateCylinder`, side plus both caps, has an
index count that is a multiple of 3 and every index is smaller than the vertex count. The
function returns for every `sliceCount` other than `2^32 - 1`. -/
theorem C20_cylinder_indices_valid (sqrtf sinf cosf : α → α)
    (XM_PI bottomRadius topRadius height : α) (sliceCount stackCount : Nat)
    (_hs : 1 ≤ sliceCount) (_ht : 1 ≤ stackCount) (hs32 : sliceCount < 2 ^ 32)
    (ht32 : stackCount + 1 < 2 ^ 32) :
    (sliceCount ≠ 2 ^ 32 - 1 →
      ∃ m, CreateCylinder sqrtf sinf cosf XM_PI bottomRadius topRadius height
        sliceCount stackCount = some m) ∧
    ∀ m, CreateCylinder sqrtf sinf cosf XM_PI bottomRadius topRadius height
        sliceCount stackCount = some m →
      m.Indices32.length % 3 = 0 ∧ m.IndicesValid := by
  refine ⟨fun hne => ⟨_, CreateCylinder_returns _ _ _ _ _ _ _ _ _ hne⟩, ?_⟩
  intro m hm
  obtain ⟨hne, rfl⟩ := CreateCylinder_inv _ _ _ _ _ _ _ hm
  constructor
  · rw [cylinderMesh_indices_length]
    exact Nat.mul_mod_right 3 _
  · exact cylinderMesh_valid _ _ _ _ _ _ _ (by omega) ht32

theorem C20_cylinder_indices_valid_witness :
    1 ≤ 20 ∧ 1 ≤ 20 ∧ 20 < 2 ^ 32 ∧ 20 + 1 < 2 ^ 32 ∧
    (20 ≠ 2 ^ 32 - 1 →
      ∃ m, CreateCylinder (fun x : ℚ => x) (fun x => x) (fun x => x) 3 1 1 1 20 20 = some m) ∧
    ∀ m, CreateCylinder (fun x : ℚ => x) (fun x => x) (fun x => x) 3 1 1 1 20 20 = some m →
      m.Indices32.length % 3 = 0 ∧ m.IndicesValid :=
  ⟨by norm_num, by norm_num, by norm_num, by norm_num,
    C20_cylinder_indices_valid (fun x : ℚ => x) (fun x => x) (fun x => x) 3 1 1 1 20 20
      (by norm_num) (by norm_num) (by norm_num) (by norm_num)⟩

theorem cylinderSideIndices_mem (sliceCount stackCount i j : Nat) (hi : i < stackCount)
    (hj : j < sliceCount) :
    u32 ((i + 1) * u32 (sliceCount + 1) + j) ∈ cylinderSideIndices sliceCount stackCount := by
  unfold cylinderSideIndices
  refine List.mem_flatMap.mpr ⟨i, List.mem_range.mpr hi, ?_⟩
  refine List.mem_flatMap.mpr ⟨j, List.mem_range.mpr hj, ?_⟩
  simp only [List.mem_cons, true_or, or_true]

theorem u32_wrapped_index : u32 ((3 + 1) * u32 (1 + 1) + 0) = 8 := by
  simp only [u32]
  norm_num

/-- C20 (as stated, refuted): for `sliceCount = 1` and `stackCount = 2^32 - 1` the ring count
wraps around to 0 and no side vertex is written, so the mesh `CreateCylinder` returns has 6
vertices, while the side index loop still runs and writes, for stack 3, the index 8. -/
theorem C20_counterexample :
    1 ≤ 1 ∧ 1 ≤ 4294967295 ∧
    ∃ m, CreateCylinder (fun x : ℚ => x) (fun x => x) (fun x => x) 3 1 1 1 1 4294967295
        = some m ∧ m.Vertices.length = 6 ∧ 8 ∈ m.Indices32 ∧ ¬ m.IndicesValid := by
  have hlen := cylinderMesh_vertices_length (fun x : ℚ => x) (fun x => x) (fun x => x) 3 1 1 1
    1 4294967295
  rw [u32_two_pow] at hlen
  have hlen6 : (cylinderMesh (fun x : ℚ => x) (fun x => x) (fun x => x) 3 1 1 1
      1 4294967295).Vertices.length = 6 := by
    rw [hlen]
  have hmem : 8 ∈ (cylinderMesh (fun x : ℚ => x) (fun x => x) (fun x => x) 3 1 1 1
      1 4294967295).Indices32 := by
    have h := cylinderSideIndices_mem 1 4294967295 3 0 (by norm_num) (by norm_num)
    rw [u32_wrapped_index] at h
    exact List.mem_append_left _ (List.mem_append_left _ h)
  refine ⟨le_refl _, by norm_num, _,
    CreateCylinder_returns _ _ _ _ _ _ _ 1 4294967295 (by norm_num), hlen6, hmem, ?_⟩
  intro hval
  have := hval 8 hmem
  rw [hlen6] at this
  omega

end CylinderLemmas

/-! ## CreateCylinder in real arithmetic -/

theorem cylinderSide_cross (height dr theta : ℝ) :
    dot3 (XMVector3Cross (⟨-Real.sin theta, 0, Real.cos theta⟩ : XMFLOAT3 ℝ)
        ⟨dr * Real.cos theta, -height, dr * Real.sin theta⟩)
      (XMVector3Cross ⟨-Real.sin theta, 0, Real.cos theta⟩
        ⟨dr * Real.cos theta, -height, dr * Real.sin theta⟩)
      = height * height + dr * dr := by
  simp only [dot3, XMVector3Cross]
  have h2 := Real.sin_sq_add_cos_sq theta
  generalize Real.sin theta = st at h2 ⊢
  generalize Real.cos theta = ct at h2 ⊢
  have e : (0 * (dr * st) - ct * -height) * (0 * (dr * st) - ct * -height)
      + (ct * (dr * ct) - -st * (dr * st)) * (ct * (dr * ct) - -st * (dr * st))
      + (-st * -height - 0 * (dr * ct)) * (-st * -height - 0 * (dr * ct))
      = height * height * (st ^ 2 + ct ^ 2) + dr * dr * ((st ^ 2 + ct ^ 2) * (st ^ 2 + ct ^ 2)) := by
    ring
  rw [e, h2, mul_one, mul_one, mul_one]

theorem length3_neg_sin_cos (theta : ℝ) :
    length3 Real.sqrt (⟨-Real.sin theta, 0, Real.cos theta⟩ : XMFLOAT3 ℝ) = 1 := by
  have h2 := Real.sin_sq_add_cos_sq theta
  have e : dot3 (⟨-Real.sin theta, 0, Real.cos theta⟩ : XMFLOAT3 ℝ)
      ⟨-Real.sin theta, 0, Real.cos theta⟩ = 1 := by
    simp only [dot3]
    nlinarith [h2]
  rw [length3, e, Real.sqrt_one]

theorem cylinderMesh_mem {α : Type} [LinearOrderedField α] (sqrtf sinf cosf : α → α)
    (XM_PI bottomRadius topRadius height : α) (sliceCount stackCount : Nat) (v : Vertex α)
    (hv : v ∈ (cylinderMesh sqrtf sinf cosf XM_PI bottomRadius topRadius height
      sliceCount stackCount).Vertices) :
    (∃ i j, v = cylinderSideVertex sqrtf sinf cosf XM_PI bottomRadius topRadius height
      sliceCount stackCount i j) ∨
    (v.Normal = ⟨0, 1, 0⟩ ∧ v.TangentU = ⟨1, 0, 0⟩) ∨
    (v.Normal = ⟨0, -1, 0⟩ ∧ v.TangentU = ⟨1, 0, 0⟩) := by
  simp only [cylinderMesh, topCapVertices, bottomCapVertices, capRingVertices,
    cylinderSideVertices, List.mem_append, List.mem_flatMap, List.mem_map, List.mem_singleton]
    at hv
  rcases hv with (⟨i, _, j, _, h⟩ | ⟨i, _, h⟩ | h) | ⟨i, _, h⟩ | h
  · exact Or.inl ⟨i, j, h.symm⟩
  · exact Or.inr (Or.inl (by rw [← h]; exact ⟨rfl, rfl⟩))
  · exact Or.inr (Or.inl (by rw [h]; exact ⟨rfl, rfl⟩))
  · exact Or.inr (Or.inr (by rw [← h]; exact ⟨rfl, rfl⟩))
  · exact Or.inr (Or.inr (by rw [h]; exact ⟨rfl, rfl⟩))

/-- Side vertex `i * (sliceCount+1) + j` of the cylinder is the one pushed for ring `i` and
slice `j`, when the ring count does not wrap around. -/
theorem cylinderMesh_side_getElem {α : Type} [LinearOrderedField α]
    (sqrtf sinf cosf : α → α)
    (XM_PI bottomRadius topRadius height : α) (sliceCount stackCount i j : Nat)
    (ht32 : stackCount + 1 < 2 ^ 32) (hi : i ≤ stackCount) (hj : j ≤ sliceCount) :
    (cylinderMesh sqrtf sinf cosf XM_PI bottomRadius topRadius height
      sliceCount stackCount).Vertices[i * (sliceCount + 1) + j]?
      = some (cylinderSideVertex sqrtf sinf cosf XM_PI bottomRadius topRadius height
          sliceCount stackCount i j) := by
  have hside := cylinderSideVertices_length sqrtf sinf cosf XM_PI bottomRadius topRadius height
    sliceCount stackCount
  rw [u32_of_lt ht32] at hside
  have hlt : i * (sliceCount + 1) + j
      < (cylinderSideVertices sqrtf sinf cosf XM_PI bottomRadius topRadius height
          sliceCount stackCount).length := by
    rw [hside]
    have : (i + 1) * (sliceCount + 1) ≤ (stackCount + 1) * (sliceCount + 1) :=
      Nat.mul_le_mul_right _ (by omega)
    rw [Nat.succ_mul] at this
    omega
  have := getElem?_flatMap_range'
    (fun i j => cylinderSideVertex sqrtf sinf cosf XM_PI bottomRadius topRadius height
      sliceCount stackCount i j) (sliceCount + 1) (stackCount + 1) 0 i j (by omega) (by omega)
  rw [Nat.zero_add] at this
  simp only [cylinderMesh]
  rw [List.append_assoc, List.getElem?_append_left hlt]
  simp only [cylinderSideVertices, u32_of_lt ht32, List.range_eq_range']
  exact this

/-- Every vertex of the cylinder is a side vertex of some ring `i` and slice
`j ≤ sliceCount`, or a cap vertex. -/
theorem cylinderMesh_mem_slice {α : Type} [LinearOrderedField α] (sqrtf sinf cosf : α → α)
    (XM_PI bottomRadius topRadius height : α) (sliceCount stackCount : Nat) (v : Vertex α)
    (hv : v ∈ (cylinderMesh sqrtf sinf cosf XM_PI bottomRadius topRadius height
      sliceCount stackCount).Vertices) :
    (∃ i j, j ≤ sliceCount ∧
      v = cylinderSideVertex sqrtf sinf cosf XM_PI bottomRadius topRadius height
        sliceCount stackCount i j) ∨
    (v.Normal = ⟨0, 1, 0⟩ ∧ v.TangentU = ⟨1, 0, 0⟩) ∨
    (v.Normal = ⟨0, -1, 0⟩ ∧ v.TangentU = ⟨1, 0, 0⟩) := by
  simp only [cylinderMesh, topCapVertices, bottomCapVertices, capRingVertices,
    cylinderSideVertices, List.mem_append, List.mem_flatMap, List.mem_map, List.mem_singleton,
    List.mem_range'_1] at hv
  rcases hv with (⟨i, _, j, hj, h⟩ | ⟨i, _, h⟩ | h) | ⟨i, _, h⟩ | h
  · exact Or.inl ⟨i, j, by omega, h.symm⟩
  · exact Or.inr (Or.inl (by rw [← h]; exact ⟨rfl, rfl⟩))
  · exact Or.inr (Or.inl (by rw [h]; exact ⟨rfl, rfl⟩))
  · exact Or.inr (Or.inr (by rw [← h]; exact ⟨rfl, rfl⟩))
  · exact Or.inr (Or.inr (by rw [h]; exact ⟨rfl, rfl⟩))

/-- C15: in real arithmetic, for every `height ≠ 0`, all radii, `sliceCount ≥ 1` and
`stackCount ≥ 1`, every vertex of the mesh returned by `CreateCylinder` (side rings, top cap
and bottom cap) has a normal of length 1 and a tangent of length 1. Every vertex of that
mesh is a side vertex, which for a slice `j ≤ sliceCount` at angle
`theta = j * (2 pi / sliceCount)` has the tangent `(-sin theta, 0, cos theta)` and as normal
the normalised cross product of that tangent with the bitangent
`((r0-r1) cos theta, -height, (r0-r1) sin theta)`, or a cap vertex with normal `(0, ±1, 0)`
and tangent `(1, 0, 0)`; and the vertex at offset `i * (sliceCount+1) + j` of the mesh, for
ring `i ≤ stackCount` and slice `j ≤ sliceCount`, is such a side vertex for that `j` (when
the ring count `stackCount + 1` fits 32 bits). The function returns for every `sliceCount`
other than `2^32 - 1`. -/
theorem C15_cylinder_unit_frames (bottomRadius topRadius height : ℝ)
    (sliceCount stackCount : Nat) (hh : height ≠ 0) (_hs : 1 ≤ sliceCount)
    (_ht : 1 ≤ stackCount) :
    (sliceCount ≠ 2 ^ 32 - 1 →
      ∃ m, CreateCylinder Real.sqrt Real.sin Real.cos Real.pi bottomRadius topRadius height
        sliceCount stackCount = some m) ∧
    (∀ m, CreateCylinder Real.sqrt Real.sin Real.cos Real.pi bottomRadius topRadius height
        sliceCount stackCount = some m →
      ∀ v ∈ m.Vertices,
        length3 Real.sqrt v.Normal = 1 ∧ length3 Real.sqrt v.TangentU = 1) ∧
    (∀ m, CreateCylinder Real.sqrt Real.sin Real.cos Real.pi bottomRadius topRadius height
        sliceCount stackCount = some m →
      (∀ v ∈ m.Vertices,
        (∃ j : Nat, j ≤ sliceCount ∧
          v.TangentU = ⟨-Real.sin ((j : ℝ) * (2 * Real.pi / (sliceCount : ℝ))), 0,
              Real.cos ((j : ℝ) * (2 * Real.pi / (sliceCount : ℝ)))⟩ ∧
          v.Normal = XMVector3Normalize Real.sqrt (XMVector3Cross
              ⟨-Real.sin ((j : ℝ) * (2 * Real.pi / (sliceCount : ℝ))), 0,
                Real.cos ((j : ℝ) * (2 * Real.pi / (sliceCount : ℝ)))⟩
              ⟨(bottomRadius - topRadius) * Real.cos ((j : ℝ) * (2 * Real.pi / (sliceCount : ℝ))),
                -height,
                (bottomRadius - topRadius)
                  * Real.sin ((j : ℝ) * (2 * Real.pi / (sliceCount : ℝ)))⟩)) ∨
        (v.Normal = ⟨0, 1, 0⟩ ∧ v.TangentU = ⟨1, 0, 0⟩) ∨
        (v.Normal = ⟨0, -1, 0⟩ ∧ v.TangentU = ⟨1, 0, 0⟩)) ∧
      (stackCount + 1 < 2 ^ 32 → ∀ i j : Nat, i ≤ stackCount → j ≤ sliceCount →
        ∃ v, m.Vertices[i * (sliceCount + 1) + j]? = some v ∧
          v.TangentU = ⟨-Real.sin ((j : ℝ) * (2 * Real.pi / (sliceCount : ℝ))), 0,
              Real.cos ((j : ℝ) * (2 * Real.pi / (sliceCount : ℝ)))⟩ ∧
          v.Normal = XMVector3Normalize Real.sqrt (XMVector3Cross
              ⟨-Real.sin ((j : ℝ) * (2 * Real.pi / (sliceCount : ℝ))), 0,
                Real.cos ((j : ℝ) * (2 * Real.pi / (sliceCount : ℝ)))⟩
              ⟨(bottomRadius - topRadius) * Real.cos ((j : ℝ) * (2 * Real.pi / (sliceCount : ℝ))),
                -height,
                (bottomRadius - topRadius)
                  * Real.sin ((j : ℝ) * (2 * Real.pi / (sliceCount : ℝ)))⟩))) := by
  refine ⟨fun hne => ⟨_, CreateCylinder_returns _ _ _ _ _ _ _ _ _ hne⟩, ?_, ?_⟩
  · intro m hm v hv
    obtain ⟨_, rfl⟩ := CreateCylinder_inv _ _ _ _ _ _ _ hm
    rcases cylinderMesh_mem _ _ _ _ _ _ _ _ _ v hv with ⟨i, j, h⟩ | ⟨hn, ht⟩ | ⟨hn, ht⟩
    · rw [h]
      constructor
      · have hpos : 0 < dot3
            (XMVector3Cross
              (⟨-Real.sin ((j : ℝ) * (2 * Real.pi / (sliceCount : ℝ))), 0,
                Real.cos ((j : ℝ) * (2 * Real.pi / (sliceCount : ℝ)))⟩ : XMFLOAT3 ℝ)
              ⟨(bottomRadius - topRadius) * Real.cos ((j : ℝ) * (2 * Real.pi / (sliceCount : ℝ))),
                -height,
                (bottomRadius - topRadius)
                  * Real.sin ((j : ℝ) * (2 * Real.pi / (sliceCount : ℝ)))⟩)
            (XMVector3Cross
              ⟨-Real.sin ((j : ℝ) * (2 * Real.pi / (sliceCount : ℝ))), 0,
                Real.cos ((j : ℝ) * (2 * Real.pi / (sliceCount : ℝ)))⟩
              ⟨(bottomRadius - topRadius) * Real.cos ((j : ℝ) * (2 * Real.pi / (sliceCount : ℝ))),
                -height,
                (bottomRadius - topRadius)
                  * Real.sin ((j : ℝ) * (2 * Real.pi / (sliceCount : ℝ)))⟩) := by
          rw [cylinderSide_cross]
          have := mul_self_pos.mpr hh
          nlinarith [mul_self_nonneg (bottomRadius - topRadius)]
        exact (normalize_real (ne_zero_of_dot3_pos hpos)).1
      · exact length3_neg_sin_cos _
    · rw [hn, ht]
      exact ⟨length3_ofFloats_unit_y 1 (by norm_num), length3_unit_x⟩
    · rw [hn, ht]
      exact ⟨length3_ofFloats_unit_y (-1) (by norm_num), length3_unit_x⟩
  · intro m hm
    obtain ⟨_, rfl⟩ := CreateCylinder_inv _ _ _ _ _ _ _ hm
    refine ⟨fun v hv => ?_, fun h32 i j hi hj => ?_⟩
    · rcases cylinderMesh_mem_slice _ _ _ _ _ _ _ _ _ v hv with
        ⟨i, j, hj, h⟩ | hcap | hcap
      · exact Or.inl ⟨j, hj, by rw [h]; rfl, by rw [h]; rfl⟩
      · exact Or.inr (Or.inl hcap)
      · exact Or.inr (Or.inr hcap)
    · exact ⟨_, cylinderMesh_side_getElem _ _ _ _ _ _ _ sliceCount stackCount i j h32 hi hj,
        rfl, rfl⟩

theorem C15_cylinder_unit_frames_witness :
    (1 : ℝ) ≠ 0 ∧ 1 ≤ 20 ∧ 1 ≤ 20 ∧
    ∀ m, CreateCylinder Real.sqrt Real.sin Real.cos Real.pi 1 1 1 20 20 = some m →
      ∀ v ∈ m.Vertices,
        length3 Real.sqrt v.Normal = 1 ∧ length3 Real.sqrt v.TangentU = 1 :=
  ⟨one_ne_zero, by norm_num, by norm_num,
    (C15_cylinder_unit_frames 1 1 1 20 20 one_ne_zero (by norm_num) (by norm_num)).2.1⟩

/-! ## CreateGrid: the vertex loop -/

section GridLemmas

variable {α : Type} [LinearOrderedField α]

/-- Writing at the first slot not yet filled: the filled part grows by the written value. -/
theorem assignAt_fill {β : Type} (A init : List β) (x : β) (p : Nat) (hA : A.length = p)
    (hp : p < init.length) :
    assignAt (A ++ init.drop p) p x = some ((A ++ [x]) ++ init.drop (p + 1)) := by
  have hlen : p < (A ++ init.drop p).length := by
    rw [List.length_append, List.length_drop, hA]
    omega
  rw [assignAt, if_pos hlen, List.set_append_right _ _ (by omega), hA, Nat.sub_self,
    List.drop_eq_getElem_cons hp, List.set_cons_zero, List.append_assoc]
  rfl

/-- Writing anywhere into an empty array is out of range. -/
theorem assignAt_nil {β : Type} (k : Nat) (x : β) : assignAt ([] : List β) k x = none := by
  simp [assignAt]

/-- One row of the vertex loop of `CreateGrid`, started on an array whose first `i * n`
entries are `A`. -/
theorem gridVertexRow (width depth : α) (m n i : Nat) (A init : List (Vertex α))
    (hA : A.length = i * n) (hfit : i * n + n ≤ init.length) (h32 : init.length < 2 ^ 32) :
    ∀ j, j ≤ n →
      (List.range j).foldlM (fun vertices j =>
        assignAt vertices (u32 (i * n + j)) (gridVertex width depth m n i j))
        (A ++ init.drop (i * n))
      = some ((A ++ (List.range j).map (fun j => gridVertex width depth m n i j))
          ++ init.drop (i * n + j)) := by
  intro j
  induction j with
  | zero => intro _; simp
  | succ j ih =>
    intro hj
    rw [List.range_succ, List.foldlM_append, ih (by omega)]
    simp only [Option.some_bind, List.foldlM_cons, List.foldlM_nil, Option.bind_eq_bind,
      List.map_append, List.map_cons, List.map_nil]
    rw [u32_of_lt (by omega), assignAt_fill _ _ _ _ (by simp [hA]) (by omega)]
    simp [Nat.add_assoc]

/-- The vertex loops of `CreateGrid` after `i` rows. -/
theorem gridVertexRows (width depth : α) (m n : Nat) (init : List (Vertex α))
    (h32 : init.length < 2 ^ 32) :
    ∀ i, i * n ≤ init.length →
      (List.range i).foldlM (fun vertices i =>
        (List.range n).foldlM (fun vertices j =>
          assignAt vertices (u32 (i * n + j)) (gridVertex width depth m n i j)) vertices) init
      = some ((List.range i).flatMap (fun i =>
            (List.range n).map (fun j => gridVertex width depth m n i j))
          ++ init.drop (i * n)) := by
  intro i
  induction i with
  | zero => intro _; simp
  | succ i ih =>
    intro hi
    have hi2 : i * n + n ≤ init.length := by rw [Nat.succ_mul] at hi; exact hi
    rw [List.range_succ, List.foldlM_append, ih (by omega)]
    simp only [Option.some_bind, List.foldlM_cons, List.foldlM_nil, Option.bind_eq_bind,
      List.flatMap_append, List.flatMap_singleton]
    have hA : ((List.range i).flatMap (fun i =>
        (List.range n).map (fun j => gridVertex width depth m n i j))).length = i * n := by
      rw [length_flatMap_const _ _ n (by intros; simp), List.length_range]
    rw [gridVertexRow width depth m n i _ init hA hi2 h32 n (le_refl _)]
    simp [Nat.succ_mul]

/-- The vertex loops of `CreateGrid` overwrite every entry of an array of `m * n` entries,
when `m * n` fits 32 bits. -/
theorem gridVertexLoop_eq (width depth : α) (m n : Nat) (init : List (Vertex α))
    (hlen : init.length = m * n) (h32 : m * n < 2 ^ 32) :
    gridVertexLoop width depth m n init = some (gridVertices width depth m n) := by
  rw [gridVertexLoop, gridVertexRows width depth m n init (by omega) m (by omega),
    List.drop_of_length_le (by omega), List.append_nil]
  rfl

end GridLemmas

/-! ## CreateGrid: the index loop -/

section GridIndexLemmas

/-- One quad of the index loop of `CreateGrid`, started on an array whose first `6 * c`
entries are `A`, with the counter at `6 * c`. -/
theorem gridIndexStep_fill (n i j c : Nat) (A init : List Nat) (hA : A.length = 6 * c)
    (hfit : 6 * c + 6 ≤ init.length) (h32 : init.length < 2 ^ 32)
    (hidx : (i + 1) * n + j + 1 < 2 ^ 32) :
    gridIndexStep n i j (A ++ init.drop (6 * c), 6 * c)
      = some ((A ++ gridCell n i j) ++ init.drop (6 * (c + 1)), 6 * (c + 1)) := by
  have hmul : i * n ≤ (i + 1) * n := Nat.mul_le_mul_right _ (by omega)
  simp only [gridIndexStep]
  rw [u32_of_lt (show 6 * c + 1 < 2 ^ 32 by omega), u32_of_lt (show 6 * c + 2 < 2 ^ 32 by omega),
    u32_of_lt (show 6 * c + 3 < 2 ^ 32 by omega), u32_of_lt (show 6 * c + 4 < 2 ^ 32 by omega),
    u32_of_lt (show 6 * c + 5 < 2 ^ 32 by omega), u32_of_lt (show 6 * c + 6 < 2 ^ 32 by omega),
    u32_of_lt (show i * n + j < 2 ^ 32 by omega),
    u32_of_lt (show i * n + j + 1 < 2 ^ 32 by omega),
    u32_of_lt (show (i + 1) * n + j < 2 ^ 32 by omega),
    u32_of_lt (show (i + 1) * n + j + 1 < 2 ^ 32 by omega)]
  rw [assignAt_fill _ _ _ _ hA (by omega)]
  simp only [Option.bind_eq_bind, Option.some_bind]
  rw [assignAt_fill _ _ _ _ (by simp [hA]) (by omega)]
  simp only [Option.some_bind]
  rw [assignAt_fill _ _ _ _ (by simp [hA]) (by omega)]
  simp only [Option.some_bind]
  rw [assignAt_fill _ _ _ _ (by simp [hA]) (by omega)]
  simp only [Option.some_bind]
  rw [assignAt_fill _ _ _ _ (by simp [hA]) (by omega)]
  simp only [Option.some_bind]
  rw [assignAt_fill _ _ _ _ (by simp [hA]) (by omega)]
  simp only [Option.some_bind, gridCell, List.append_assoc, List.singleton_append,
    List.cons_append, List.nil_append]
  rfl

/-- One row of the index loop of `CreateGrid`: `b` is the number of quads in a row. -/
theorem gridIndexRow (n b i : Nat) (A init : List Nat) (hA : A.length = 6 * (i * b))
    (hfit : 6 * (i * b + b) ≤ init.length) (h32 : init.length < 2 ^ 32)
    (hidx : (i + 1) * n + b < 2 ^ 32) :
    ∀ j, j ≤ b →
      (List.range j).foldlM (fun st j => gridIndexStep n i j st)
        (A ++ init.drop (6 * (i * b)), 6 * (i * b))
      = some ((A ++ (List.range j).flatMap (fun j => gridCell n i j))
          ++ init.drop (6 * (i * b + j)), 6 * (i * b + j)) := by
  intro j
  induction j with
  | zero => intro _; simp
  | succ j ih =>
    intro hj
    rw [List.range_succ, List.foldlM_append, ih (by omega)]
    simp only [Option.some_bind, List.foldlM_cons, List.foldlM_nil, Option.bind_eq_bind,
      List.flatMap_append, List.flatMap_singleton]
    have hlen : (A ++ (List.range j).flatMap (fun j => gridCell n i j)).length
        = 6 * (i * b + j) := by
      rw [List.length_append, hA, length_flatMap_const _ _ 6 (by intros; rfl),
        List.length_range]
      ring
    rw [gridIndexStep_fill n i j (i * b + j) _ init hlen (by omega) h32 (by omega)]
    simp [Nat.add_assoc]

/-- The index loops of `CreateGrid` after `i` rows of `b` quads. -/
theorem gridIndexRows (n a b : Nat) (init : List Nat) (h32 : init.length < 2 ^ 32)
    (hidx : a * n + b < 2 ^ 32) :
    ∀ i, i ≤ a → 6 * (i * b) ≤ init.length →
      (List.range i).foldlM (fun st i =>
        (List.range b).foldlM (fun st j => gridIndexStep n i j st) st) (init, 0)
      = some ((List.range i).flatMap (fun i =>
            (List.range b).flatMap (fun j => gridCell n i j))
          ++ init.drop (6 * (i * b)), 6 * (i * b)) := by
  intro i
  induction i with
  | zero => intro _ _; simp
  | succ i ih =>
    intro hia hi
    have hi2 : 6 * (i * b + b) ≤ init.length := by
      rw [show (i + 1) * b = i * b + b from Nat.succ_mul i b] at hi
      exact hi
    have hmul : (i + 1) * n ≤ a * n := Nat.mul_le_mul_right _ hia
    rw [List.range_succ, List.foldlM_append, ih (by omega) (by omega)]
    simp only [Option.some_bind, List.foldlM_cons, List.foldlM_nil, Option.bind_eq_bind,
      List.flatMap_append, List.flatMap_singleton]
    have hA : ((List.range i).flatMap (fun i =>
        (List.range b).flatMap (fun j => gridCell n i j))).length = 6 * (i * b) := by
      rw [length_flatMap_flatMap_const _ _ _ 6 (by intros; rfl), List.length_range,
        List.length_range]
      ring
    rw [gridIndexRow n b i _ init hA hi2 h32 (by omega) b (le_refl _)]
    simp [Nat.succ_mul]

/-- The index loops of `CreateGrid` overwrite every entry of an array of
`6 * (m-1) * (n-1)` entries, when that count and `m * n` fit 32 bits. -/
theorem gridIndexLoop_eq (m n : Nat) (init : List Nat) (hm : 2 ≤ m) (hn : 2 ≤ n)
    (hlen : init.length = 6 * (m - 1) * (n - 1)) (h32 : m * n < 2 ^ 32)
    (h6 : 6 * (m - 1) * (n - 1) < 2 ^ 32) :
    gridIndexLoop m n init = some (gridIndices m n, 6 * (m - 1) * (n - 1)) := by
  have hmn : m ≤ m * n := Nat.le_mul_of_pos_right _ (by omega)
  have hnm : n ≤ m * n := Nat.le_mul_of_pos_left _ (by omega)
  have hum : usub m 1 = m - 1 := usub_of_le (by omega) (by omega)
  have hun : usub n 1 = n - 1 := usub_of_le (by omega) (by omega)
  have hidx : (m - 1) * n + (n - 1) < 2 ^ 32 := by
    have : (m - 1) * n + n = m * n := by
      obtain ⟨k, rfl⟩ : ∃ k, m = k + 1 := ⟨m - 1, by omega⟩
      rw [Nat.add_sub_cancel, Nat.succ_mul]
    omega
  have hassoc : 6 * ((m - 1) * (n - 1)) = 6 * (m - 1) * (n - 1) := by ring
  rw [gridIndexLoop, hum, hun,
    gridIndexRows n (m - 1) (n - 1) init (by omega) hidx (m - 1) (le_refl _) (by omega),
    List.drop_of_length_le (by omega), List.append_nil, hassoc]
  rfl

end GridIndexLemmas

/-! ## CreateGrid: counts -/

section GridClaims

variable {α : Type} [LinearOrderedField α]

/-- What `CreateGrid` returns when neither the vertex count nor the index count wraps. -/
theorem CreateGrid_eq (width depth : α) (m n : Nat) (hm : 2 ≤ m) (hn : 2 ≤ n)
    (h32 : m * n < 2 ^ 32) (h6 : 6 * (m - 1) * (n - 1) < 2 ^ 32) :
    CreateGrid width depth m n
      = some { Vertices := gridVertices width depth m n, Indices32 := gridIndices m n } := by
  have hmn : m ≤ m * n := Nat.le_mul_of_pos_right _ (by omega)
  have hnm : n ≤ m * n := Nat.le_mul_of_pos_left _ (by omega)
  have hum : usub m 1 = m - 1 := usub_of_le (by omega) (by omega)
  have hun : usub n 1 = n - 1 := usub_of_le (by omega) (by omega)
  have e6 : (m - 1) * (n - 1) * 2 * 3 = 6 * (m - 1) * (n - 1) := by ring
  have hf : u32 ((m - 1) * (n - 1) * 2) = (m - 1) * (n - 1) * 2 := u32_of_lt (by omega)
  have hf3 : u32 ((m - 1) * (n - 1) * 2 * 3) = 6 * (m - 1) * (n - 1) := by
    rw [e6]
    exact u32_of_lt h6
  simp only [CreateGrid, hum, hun, hf, hf3, u32_of_lt h32]
  rw [gridVertexLoop_eq width depth m n _ (List.length_replicate _ _) h32,
    gridIndexLoop_eq m n _ hm hn (List.length_replicate _ _) h32 h6]

theorem gridVertices_length (width depth : α) (m n : Nat) :
    (gridVertices width depth m n).length = m * n := by
  rw [gridVertices, length_flatMap_const _ _ n (by intros; simp), List.length_range]

theorem gridIndices_length (m n : Nat) :
    (gridIndices m n).length = 6 * (m - 1) * (n - 1) := by
  rw [gridIndices, length_flatMap_flatMap_const _ _ _ 6 (by intros; rfl), List.length_range,
    List.length_range]
  ring

/-- Vertex `i * n + j` of the grid is the one written for row `i` and column `j`. -/
theorem gridVertices_getElem (width depth : α) (m n i j : Nat) (hi : i < m) (hj : j < n) :
    (gridVertices width depth m n)[i * n + j]? = some (gridVertex width depth m n i j) := by
  have := getElem?_flatMap_range' (fun i j => gridVertex width depth m n i j) n m 0 i j hi hj
  rw [Nat.zero_add] at this
  rw [gridVertices, List.range_eq_range', List.range_eq_range']
  exact this

theorem gridVertices_mem (width depth : α) (m n : Nat) (v : Vertex α)
    (hv : v ∈ gridVertices width depth m n) :
    ∃ i j, i < m ∧ j < n ∧ v = gridVertex width depth m n i j := by
  simp only [gridVertices, List.mem_flatMap, List.mem_map, List.mem_range] at hv
  obtain ⟨i, hi, j, hj, rfl⟩ := hv
  exact ⟨i, j, hi, hj, rfl⟩

/-- Every value written by the index loop of `CreateGrid` is below `m * n`. -/
theorem gridIndices_lt (m n : Nat) (hm : 2 ≤ m) : ∀ k ∈ gridIndices m n, k < m * n := by
  intro k hk
  simp only [gridIndices, gridCell, List.mem_flatMap, List.mem_range, List.mem_cons,
    List.mem_singleton, List.not_mem_nil, or_false] at hk
  obtain ⟨i, hi, j, hj, hk⟩ := hk
  obtain ⟨a, rfl⟩ : ∃ a, m = a + 1 := ⟨m - 1, by omega⟩
  rw [Nat.add_sub_cancel] at hi
  have h1 : (i + 1) * n ≤ a * n := Nat.mul_le_mul_right _ hi
  have h2 : i * n ≤ (i + 1) * n := Nat.mul_le_mul_right _ (by omega)
  rw [Nat.succ_mul]
  rcases hk with h | h | h | h | h | h <;> omega

/-- A block of a list built block by block starts at the offset of the blocks before it. -/
theorem drop_flatMap_range {β : Type} (F : Nat → List β) (c : Nat)
    (hF : ∀ i, (F i).length = c) :
    ∀ a i, i < a → ∃ rest, ((List.range a).flatMap F).drop (i * c) = F i ++ rest := by
  intro a
  induction a with
  | zero => intro i hi; exact absurd hi (Nat.not_lt_zero _)
  | succ a ih =>
    intro i hi
    have hlen : ((List.range a).flatMap F).length = a * c := by
      rw [length_flatMap_const _ _ c (fun x _ => hF x), List.length_range]
    rw [List.range_succ, List.flatMap_append, List.flatMap_singleton]
    rcases Nat.lt_or_ge i a with h | h
    · obtain ⟨rest, hrest⟩ := ih i h
      refine ⟨rest ++ F a, ?_⟩
      rw [List.drop_append_of_le_length (by rw [hlen]; exact Nat.mul_le_mul_right _ (by omega)),
        hrest, List.append_assoc]
    · have : i = a := by omega
      subst this
      exact ⟨[], by rw [List.drop_left' hlen, List.append_nil]⟩

/-- The six indices of the quad `(i, j)` sit at offset `6 * (i * (n-1) + j)`. -/
theorem gridIndices_cell (m n i j : Nat) (hi : i < m - 1) (hj : j < n - 1) :
    ((gridIndices m n).drop (6 * (i * (n - 1) + j))).take 6 = gridCell n i j := by
  obtain ⟨r1, h1⟩ := drop_flatMap_range
    (fun i => (List.range (n - 1)).flatMap (fun j => gridCell n i j)) ((n - 1) * 6)
    (fun i => by
      rw [length_flatMap_const _ _ 6 (by intros; rfl), List.length_range]) (m - 1) i hi
  obtain ⟨r2, h2⟩ := drop_flatMap_range (fun j => gridCell n i j) 6 (fun _ => rfl) (n - 1) j hj
  have hlen : ((List.range (n - 1)).flatMap (fun j => gridCell n i j)).length = (n - 1) * 6 := by
    rw [length_flatMap_const _ _ 6 (by intros; rfl), List.length_range]
  have hsplit : 6 * (i * (n - 1) + j) = i * ((n - 1) * 6) + j * 6 := by ring
  rw [gridIndices, hsplit, ← List.drop_drop, h1,
    List.drop_append_of_le_length (by rw [hlen]; omega), h2, List.append_assoc]
  exact List.take_left' rfl

/-- C21: for every `m ≥ 2` and `n ≥ 2` whose vertex count `m * n` and index count
`6 * (m-1) * (n-1)` fit 32 bits, `CreateGrid(width, depth, m, n)` returns exactly `m * n`
vertices and `6 * (m-1) * (n-1)` indices, and the index loop writes every entry of the index
array: it leaves the same list whatever the array held before. `CreateGrid(2,2,3,3)` returns
9 vertices and 24 indices and its vertex 4 is at `(0,0,0)`. -/
theorem C21_grid_counts (width depth : α) (m n : Nat) (hm : 2 ≤ m) (hn : 2 ≤ n)
    (h32 : m * n < 2 ^ 32) (h6 : 6 * (m - 1) * (n - 1) < 2 ^ 32) :
    (∃ g, CreateGrid width depth m n = some g ∧ g.Vertices.length = m * n ∧
      g.Indices32.length = 6 * (m - 1) * (n - 1) ∧
      ∀ init : List Nat, init.length = 6 * (m - 1) * (n - 1) →
        ∃ k, gridIndexLoop m n init = some (g.Indices32, k)) ∧
    ∃ g, CreateGrid (2 : α) 2 3 3 = some g ∧ g.Vertices.length = 9 ∧
      g.Indices32.length = 24 ∧ ∃ v, g.Vertices[4]? = some v ∧ v.Position = ⟨0, 0, 0⟩ := by
  constructor
  · refine ⟨_, CreateGrid_eq width depth m n hm hn h32 h6, gridVertices_length _ _ _ _,
      gridIndices_length _ _, ?_⟩
    intro init hinit
    exact ⟨_, gridIndexLoop_eq m n init hm hn hinit h32 h6⟩
  · refine ⟨_, CreateGrid_eq 2 2 3 3 (by norm_num) (by norm_num) (by norm_num) (by norm_num),
      gridVertices_length _ _ _ _, gridIndices_length _ _, _,
      gridVertices_getElem 2 2 3 3 1 1 (by norm_num) (by norm_num), ?_⟩
    have hu : usub 3 1 = 2 := by simp [usub]
    simp only [gridVertex, hu]
    norm_num

theorem C21_grid_counts_witness :
    2 ≤ 50 ∧ 2 ≤ 50 ∧ 50 * 50 < 2 ^ 32 ∧ 6 * (50 - 1) * (50 - 1) < 2 ^ 32 ∧
    ∃ g, CreateGrid (26 : ℚ) 26 50 50 = some g ∧ g.Vertices.length = 50 * 50 ∧
      g.Indices32.length = 6 * (50 - 1) * (50 - 1) :=
  ⟨by norm_num, by norm_num, by norm_num, by norm_num,
    let ⟨g, h1, h2, h3, _⟩ := (C21_grid_counts (26 : ℚ) 26 50 50 (by norm_num) (by norm_num)
      (by norm_num) (by norm_num)).1
    ⟨g, h1, h2, h3⟩⟩

end GridClaims

/-! ## CreateGrid: vertices and quads -/

section GridVertexClaims

variable {α : Type} [LinearOrderedField α]

/-- The vertex of row `i` and column `j`, with the steps written out. -/
theorem gridVertex_eq (width depth : α) (m n i j : Nat) (hm : 2 ≤ m) (hn : 2 ≤ n)
    (hm32 : m < 2 ^ 32) (hn32 : n < 2 ^ 32) :
    gridVertex width depth m n i j
      = { Position := ⟨-width / 2 + (j : α) * width / ((n : α) - 1), 0,
            depth / 2 - (i : α) * depth / ((m : α) - 1)⟩
          Normal := ⟨0, 1, 0⟩
          TangentU := ⟨1, 0, 0⟩
          TexC := ⟨(j : α) / ((n : α) - 1), (i : α) / ((m : α) - 1)⟩ } := by
  have hum : usub m 1 = m - 1 := usub_of_le (by omega) hm32
  have hun : usub n 1 = n - 1 := usub_of_le (by omega) hn32
  have cm : ((m - 1 : Nat) : α) = (m : α) - 1 := Nat.cast_pred (by omega)
  have cn : ((n - 1 : Nat) : α) = (n : α) - 1 := Nat.cast_pred (by omega)
  unfold gridVertex
  rw [hum, hun, cm, cn]
  simp only [Vertex.mk.injEq, XMFLOAT3.mk.injEq, XMFLOAT2.mk.injEq, and_true, true_and]
  refine ⟨⟨?_, ?_⟩, ?_, ?_⟩ <;> ring

/-- A fraction `t = j / (n - 1)` with `j < n` lies in `[0, 1]`. -/
theorem grid_fraction (n j : Nat) (hn : 2 ≤ n) (hj : j < n) :
    0 ≤ (j : α) / ((n : α) - 1) ∧ (j : α) / ((n : α) - 1) ≤ 1 := by
  have hpos : (0 : α) < (n : α) - 1 := by
    have : (2 : α) ≤ (n : α) := by exact_mod_cast hn
    linarith
  have hle : (j : α) ≤ (n : α) - 1 := by
    have : (j : α) + 1 ≤ (n : α) := by exact_mod_cast hj
    linarith
  exact ⟨div_nonneg (Nat.cast_nonneg j) hpos.le, (div_le_one hpos).2 hle⟩

/-- C22 (amended): for every `m ≥ 2` and `n ≥ 2` whose vertex count `m * n` and index count
`6 * (m-1) * (n-1)` fit 32 bits, and every `i < m`, `j < n`, vertex `i * n + j` of
`CreateGrid(width, depth, m, n)` has position
`(-width/2 + j*width/(n-1), 0, depth/2 - i*depth/(m-1))`, normal `(0,1,0)`, tangent `(1,0,0)`
and texture coordinate `(j/(n-1), i/(m-1))` in exact arithmetic; every texture coordinate
lies in `[0,1]`, and for `width, depth ≥ 0` every position lies in
`[-width/2, width/2] x {0} x [-depth/2, depth/2]` and the four corner vertices reach those
bounds. -/
theorem C22_grid_vertex (width depth : α) (m n : Nat) (hm : 2 ≤ m) (hn : 2 ≤ n)
    (h32 : m * n < 2 ^ 32) (h6 : 6 * (m - 1) * (n - 1) < 2 ^ 32) :
    ∃ g, CreateGrid width depth m n = some g ∧
      (∀ i j, i < m → j < n →
        g.Vertices[i * n + j]? = some
          { Position := ⟨-width / 2 + (j : α) * width / ((n : α) - 1), 0,
              depth / 2 - (i : α) * depth / ((m : α) - 1)⟩
            Normal := ⟨0, 1, 0⟩
            TangentU := ⟨1, 0, 0⟩
            TexC := ⟨(j : α) / ((n : α) - 1), (i : α) / ((m : α) - 1)⟩ }) ∧
      (∀ v ∈ g.Vertices, 0 ≤ v.TexC.x ∧ v.TexC.x ≤ 1 ∧ 0 ≤ v.TexC.y ∧ v.TexC.y ≤ 1) ∧
      (0 ≤ width → 0 ≤ depth →
        (∀ v ∈ g.Vertices, -width / 2 ≤ v.Position.x ∧ v.Position.x ≤ width / 2 ∧
          v.Position.y = 0 ∧ -depth / 2 ≤ v.Position.z ∧ v.Position.z ≤ depth / 2) ∧
        (∃ v, g.Vertices[0 * n + 0]? = some v ∧ v.Position = ⟨-width / 2, 0, depth / 2⟩) ∧
        (∃ v, g.Vertices[0 * n + (n - 1)]? = some v ∧
          v.Position = ⟨width / 2, 0, depth / 2⟩) ∧
        (∃ v, g.Vertices[(m - 1) * n + 0]? = some v ∧
          v.Position = ⟨-width / 2, 0, -depth / 2⟩) ∧
        (∃ v, g.Vertices[(m - 1) * n + (n - 1)]? = some v ∧
          v.Position = ⟨width / 2, 0, -depth / 2⟩)) := by
  have hmn : m ≤ m * n := Nat.le_mul_of_pos_right _ (by omega)
  have hnm : n ≤ m * n := Nat.le_mul_of_pos_left _ (by omega)
  have hm32 : m < 2 ^ 32 := by omega
  have hn32 : n < 2 ^ 32 := by omega
  have hmpos : (0 : α) < (m : α) - 1 := by
    have : (2 : α) ≤ (m : α) := by exact_mod_cast hm
    linarith
  have hnpos : (0 : α) < (n : α) - 1 := by
    have : (2 : α) ≤ (n : α) := by exact_mod_cast hn
    linarith
  have cm : ((m - 1 : Nat) : α) = (m : α) - 1 := Nat.cast_pred (by omega)
  have cn : ((n - 1 : Nat) : α) = (n : α) - 1 := Nat.cast_pred (by omega)
  have key : ∀ i j, i < m → j < n →
      (gridVertices width depth m n)[i * n + j]? = some
        { Position := ⟨-width / 2 + (j : α) * width / ((n : α) - 1), 0,
            depth / 2 - (i : α) * depth / ((m : α) - 1)⟩
          Normal := ⟨0, 1, 0⟩
          TangentU := ⟨1, 0, 0⟩
          TexC := ⟨(j : α) / ((n : α) - 1), (i : α) / ((m : α) - 1)⟩ } := by
    intro i j hi hj
    rw [gridVertices_getElem width depth m n i j hi hj,
      gridVertex_eq width depth m n i j hm hn hm32 hn32]
  have hx0 : -width / 2 + ((0 : Nat) : α) * width / ((n : α) - 1) = -width / 2 := by simp
  have hx1 : -width / 2 + ((n - 1 : Nat) : α) * width / ((n : α) - 1) = width / 2 := by
    rw [cn]
    field_simp
    ring
  have hz0 : depth / 2 - ((0 : Nat) : α) * depth / ((m : α) - 1) = depth / 2 := by simp
  have hz1 : depth / 2 - ((m - 1 : Nat) : α) * depth / ((m : α) - 1) = -depth / 2 := by
    rw [cm]
    field_simp
    ring
  refine ⟨_, CreateGrid_eq width depth m n hm hn h32 h6, key, ?_, ?_⟩
  · intro v hv
    obtain ⟨i, j, hi, hj, rfl⟩ := gridVertices_mem width depth m n v hv
    rw [gridVertex_eq width depth m n i j hm hn hm32 hn32]
    obtain ⟨a1, a2⟩ := @grid_fraction α _ n j hn hj
    obtain ⟨b1, b2⟩ := @grid_fraction α _ m i hm hi
    exact ⟨a1, a2, b1, b2⟩
  · intro hw hd
    have k00 := key 0 0 (by omega) (by omega)
    have k01 := key 0 (n - 1) (by omega) (by omega)
    have k10 := key (m - 1) 0 (by omega) (by omega)
    have k11 := key (m - 1) (n - 1) (by omega) (by omega)
    rw [hx0, hz0] at k00
    rw [hx1, hz0] at k01
    rw [hx0, hz1] at k10
    rw [hx1, hz1] at k11
    refine ⟨?_, ⟨_, k00, rfl⟩, ⟨_, k01, rfl⟩, ⟨_, k10, rfl⟩, ⟨_, k11, rfl⟩⟩
    intro v hv
    obtain ⟨i, j, hi, hj, rfl⟩ := gridVertices_mem width depth m n v hv
    rw [gridVertex_eq width depth m n i j hm hn hm32 hn32]
    obtain ⟨a1, a2⟩ := @grid_fraction α _ n j hn hj
    obtain ⟨b1, b2⟩ := @grid_fraction α _ m i hm hi
    have ex : (j : α) * width / ((n : α) - 1) = (j : α) / ((n : α) - 1) * width := by ring
    have ez : (i : α) * depth / ((m : α) - 1) = (i : α) / ((m : α) - 1) * depth := by ring
    have p1 : 0 ≤ (j : α) / ((n : α) - 1) * width := mul_nonneg a1 hw
    have p2 : (j : α) / ((n : α) - 1) * width ≤ width := mul_le_of_le_one_left hw a2
    have p3 : 0 ≤ (i : α) / ((m : α) - 1) * depth := mul_nonneg b1 hd
    have p4 : (i : α) / ((m : α) - 1) * depth ≤ depth := mul_le_of_le_one_left hd b2
    simp only [ex, ez]
    refine ⟨?_, ?_, trivial, ?_, ?_⟩ <;> linarith

theorem C22_grid_vertex_witness :
    2 ≤ 3 ∧ 2 ≤ 3 ∧ 3 * 3 < 2 ^ 32 ∧ 6 * (3 - 1) * (3 - 1) < 2 ^ 32 ∧
    ∃ g, CreateGrid (2 : ℚ) 2 3 3 = some g ∧
      ∀ i j, i < 3 → j < 3 →
        g.Vertices[i * 3 + j]? = some
          { Position := ⟨-2 / 2 + (j : ℚ) * 2 / (((3 : Nat) : ℚ) - 1), 0,
              2 / 2 - (i : ℚ) * 2 / (((3 : Nat) : ℚ) - 1)⟩
            Normal := ⟨0, 1, 0⟩
            TangentU := ⟨1, 0, 0⟩
            TexC := ⟨(j : ℚ) / (((3 : Nat) : ℚ) - 1), (i : ℚ) / (((3 : Nat) : ℚ) - 1)⟩ } :=
  ⟨by norm_num, by norm_num, by norm_num, by norm_num,
    let ⟨g, h1, h2, _⟩ := C22_grid_vertex (2 : ℚ) 2 3 3 (by norm_num) (by norm_num)
      (by norm_num) (by norm_num)
    ⟨g, h1, h2⟩⟩

/-- The vertex loop of `CreateGrid` on an empty array: the first write is out of range. -/
theorem gridVertexLoop_nil (width depth : α) (m n : Nat) (hm : 0 < m) (hn : 0 < n) :
    gridVertexLoop width depth m n [] = none := by
  obtain ⟨a, rfl⟩ : ∃ a, m = a + 1 := ⟨m - 1, by omega⟩
  obtain ⟨b, rfl⟩ : ∃ b, n = b + 1 := ⟨n - 1, by omega⟩
  simp only [gridVertexLoop, List.range_succ_eq_map, List.foldlM_cons, assignAt_nil,
    Option.bind_eq_bind, Option.none_bind]

/-- When `m * n` wraps around to `0`, `CreateGrid` resizes the vertex array to no entry and
its first write is out of range. -/
theorem CreateGrid_wrap (width depth : α) (m n : Nat) (hm : 0 < m) (hn : 0 < n)
    (hw : u32 (m * n) = 0) : CreateGrid width depth m n = none := by
  simp only [CreateGrid, hw, List.replicate_zero, gridVertexLoop_nil width depth m n hm hn]

theorem u32_grid_wrap : u32 (65536 * 65536) = 0 := by
  simp only [u32]
  norm_num

/-- C22 (as stated, refuted): for `m = n = 65536` the vertex count `m * n = 2^32` wraps
around to `0`, the vertex array is resized to no entry and the first write is out of range:
`CreateGrid` returns no mesh, so there is no vertex `i * n + j` for `i = j = 0`. -/
theorem C22_counterexample :
    2 ≤ 65536 ∧ 0 < 65536 ∧
    ¬ ∃ g v, CreateGrid (1 : ℚ) 1 65536 65536 = some g ∧ g.Vertices[0 * 65536 + 0]? = some v := by
  refine ⟨by norm_num, by norm_num, ?_⟩
  rintro ⟨g, v, hg, _⟩
  rw [CreateGrid_wrap (1 : ℚ) 1 65536 65536 (by norm_num) (by norm_num) u32_grid_wrap] at hg
  exact absurd hg (by simp)

/-- C23 (amended): for every `m ≥ 2` and `n ≥ 2` whose vertex count `m * n` and index count
`6 * (m-1) * (n-1)` fit 32 bits, every index of `CreateGrid` is smaller than `m * n`, and
for every quad `(i, j)` with `i < m-1`, `j < n-1` the six indices at offset
`6 * (i * (n-1) + j)` are `i*n+j, i*n+j+1, (i+1)*n+j, (i+1)*n+j, i*n+j+1, (i+1)*n+j+1`. -/
theorem C23_grid_indices (width depth : α) (m n : Nat) (hm : 2 ≤ m) (hn : 2 ≤ n)
    (h32 : m * n < 2 ^ 32) (h6 : 6 * (m - 1) * (n - 1) < 2 ^ 32) :
    ∃ g, CreateGrid width depth m n = some g ∧
      (∀ k ∈ g.Indices32, k < m * n) ∧
      ∀ i j, i < m - 1 → j < n - 1 →
        (g.Indices32.drop (6 * (i * (n - 1) + j))).take 6
          = [i * n + j, i * n + j + 1, (i + 1) * n + j,
             (i + 1) * n + j, i * n + j + 1, (i + 1) * n + j + 1] :=
  ⟨_, CreateGrid_eq width depth m n hm hn h32 h6, gridIndices_lt m n hm,
    fun i j hi hj => gridIndices_cell m n i j hi hj⟩

theorem C23_grid_indices_witness :
    2 ≤ 50 ∧ 2 ≤ 50 ∧ 50 * 50 < 2 ^ 32 ∧ 6 * (50 - 1) * (50 - 1) < 2 ^ 32 ∧
    ∃ g, CreateGrid (26 : ℚ) 26 50 50 = some g ∧
      (∀ k ∈ g.Indices32, k < 50 * 50) ∧
      ∀ i j, i < 50 - 1 → j < 50 - 1 →
        (g.Indices32.drop (6 * (i * (50 - 1) + j))).take 6
          = [i * 50 + j, i * 50 + j + 1, (i + 1) * 50 + j,
             (i + 1) * 50 + j, i * 50 + j + 1, (i + 1) * 50 + j + 1] :=
  ⟨by norm_num, by norm_num, by norm_num, by norm_num,
    C23_grid_indices (26 : ℚ) 26 50 50 (by norm_num) (by norm_num) (by norm_num)
      (by norm_num)⟩

/-- C23 (as stated, refuted): for `m = n = 65536` the vertex count wraps around to `0` and
`CreateGrid` returns no mesh, so the six indices of the quad `(0, 0)` are not there. -/
theorem C23_counterexample :
    2 ≤ 65536 ∧ 0 < 65536 - 1 ∧
    ¬ ∃ g, CreateGrid (1 : ℚ) 1 65536 65536 = some g ∧
      (g.Indices32.drop (6 * (0 * (65536 - 1) + 0))).take 6
        = [0 * 65536 + 0, 0 * 65536 + 0 + 1, (0 + 1) * 65536 + 0,
           (0 + 1) * 65536 + 0, 0 * 65536 + 0 + 1, (0 + 1) * 65536 + 0 + 1] := by
  refine ⟨by norm_num, by norm_num, ?_⟩
  rintro ⟨g, hg, _⟩
  rw [CreateGrid_wrap (1 : ℚ) 1 65536 65536 (by norm_num) (by norm_num) u32_grid_wrap] at hg
  exact absurd hg (by simp)

end GridVertexClaims

/-! ## CreateQuad -/

section QuadClaims

variable {α : Type} [LinearOrderedField α]

/-- C24: for all `x, y, w, h, depth`, `CreateQuad` returns exactly the 4 vertices at
`(x, y-h, depth)`, `(x, y, depth)`, `(x+w, y, depth)`, `(x+w, y-h, depth)`, every one with
normal `(0,0,-1)` and tangent `(1,0,0)`, with texture coordinates `(0,1)`, `(0,0)`, `(1,0)`,
`(1,1)`, and exactly the 6 indices `0,1,2,0,2,3`. -/
theorem C24_quad (x y w h depth : α) :
    CreateQuad x y w h depth
      = { Vertices :=
            [ { Position := ⟨x, y - h, depth⟩, Normal := ⟨0, 0, -1⟩, TangentU := ⟨1, 0, 0⟩,
                TexC := ⟨0, 1⟩ },
              { Position := ⟨x, y, depth⟩, Normal := ⟨0, 0, -1⟩, TangentU := ⟨1, 0, 0⟩,
                TexC := ⟨0, 0⟩ },
              { Position := ⟨x + w, y, depth⟩, Normal := ⟨0, 0, -1⟩, TangentU := ⟨1, 0, 0⟩,
                TexC := ⟨1, 0⟩ },
              { Position := ⟨x + w, y - h, depth⟩, Normal := ⟨0, 0, -1⟩,
                TangentU := ⟨1, 0, 0⟩, TexC := ⟨1, 1⟩ } ]
          Indices32 := [0, 1, 2, 0, 2, 3] } ∧
    (CreateQuad x y w h depth).Vertices.length = 4 ∧
    (CreateQuad x y w h depth).Indices32.length = 6 :=
  ⟨rfl, rfl, rfl⟩

end QuadClaims

/-! ## Coarse polyhedra: counts and indices -/

section PolyhedraClaims

variable {α : Type} [LinearOrderedField α]

/-- Three passes of `Subdivide` on a base mesh of `T` triangles with in-range indices: the
result has `64 * T` triangles and `96 * T` vertices, and its indices are in range. -/
theorem three_passes (sqrtf : α → α) (base : MeshData α) (T : Nat)
    (hv : base.IndicesValid) (hT : base.Indices32.length = 3 * T) (hsmall : T ≤ 1000) :
    ∃ out, subdividePasses sqrtf 3 base = some out ∧
      out.Indices32.length = 3 * (64 * T) ∧ out.Vertices.length = 96 * T ∧
      out.IndicesValid := by
  obtain ⟨out, hout, hlen, hval, _, hge⟩ :=
    subdividePasses_counts sqrtf 3 base hv ⟨T, hT⟩ (by rw [hT]; norm_num; omega)
  have h2 := hge (by norm_num)
  rw [hT] at hlen
  rw [hlen] at h2
  refine ⟨out, hout, ?_, ?_, hval⟩
  · rw [hlen]; norm_num; omega
  · norm_num at h2; omega

theorem coneMesh_valid (cos sin : α → α) (XM_PI height : α) :
    (coneMesh cos sin XM_PI height).IndicesValid := by
  intro k hk
  have : ∀ k ∈ coneIndices, k < 10 := by decide
  exact this k hk

theorem wedgeMesh_valid (width depth height : α) :
    (wedgeMesh width depth height).IndicesValid := by
  intro k hk
  have : ∀ k ∈ wedgeIndices, k < 6 := by decide
  exact this k hk

theorem pyramidMesh_valid (width depth height : α) :
    (pyramidMesh width depth height).IndicesValid := by
  intro k hk
  have : ∀ k ∈ pyramidIndices, k < 5 := by decide
  exact this k hk

theorem truncatedPyramidMesh_valid (bottomWidth bottomDepth topWidth topDepth height : α) :
    (truncatedPyramidMesh bottomWidth bottomDepth topWidth topDepth height).IndicesValid := by
  intro k hk
  have : ∀ k ∈ truncatedPyramidIndices, k < 8 := by decide
  exact this k hk

theorem diamondMesh_valid (cos sin : α → α) (XM_PI height : α) (past : Nat → Vertex α) :
    (diamondMesh cos sin XM_PI height past).IndicesValid := by
  intro k hk
  have h17 : ∀ k ∈ diamondIndices, k < 17 := by decide
  have hlen : (diamondMesh cos sin XM_PI height past).Vertices.length = 36 := by
    simp [diamondMesh, diamondVertices]
  rw [hlen]
  exact lt_trans (h17 k hk) (by norm_num)

theorem CreateCone_counts (sqrtf cos sin : α → α) (XM_PI height : α) :
    ∃ m, CreateCone sqrtf cos sin XM_PI height = some m ∧
      m.Indices32.length = 3 * (64 * 16) ∧ m.Vertices.length = 96 * 16 ∧ m.IndicesValid :=
  three_passes sqrtf _ 16 (coneMesh_valid cos sin XM_PI height) rfl (by norm_num)

theorem CreateWedge_counts (sqrtf : α → α) (width depth height : α) :
    ∃ m, CreateWedge sqrtf width depth height = some m ∧
      m.Indices32.length = 3 * (64 * 8) ∧ m.Vertices.length = 96 * 8 ∧ m.IndicesValid :=
  three_passes sqrtf _ 8 (wedgeMesh_valid width depth height) rfl (by norm_num)

theorem CreatePyramid_counts (sqrtf : α → α) (width depth height : α) :
    ∃ m, CreatePyramid sqrtf width depth height = some m ∧
      m.Indices32.length = 3 * (64 * 6) ∧ m.Vertices.length = 96 * 6 ∧ m.IndicesValid :=
  three_passes sqrtf _ 6 (pyramidMesh_valid width depth height) rfl (by norm_num)

theorem CreateTruncatedPyramid_counts (sqrtf : α → α)
    (bottomWidth bottomDepth topWidth topDepth height : α) :
    ∃ m, CreateTruncatedPyramid sqrtf bottomWidth bottomDepth topWidth topDepth height
        = some m ∧
      m.Indices32.length = 3 * (64 * 12) ∧ m.Vertices.length = 96 * 12 ∧ m.IndicesValid :=
  three_passes sqrtf _ 12
    (truncatedPyramidMesh_valid bottomWidth bottomDepth topWidth topDepth height) rfl
    (by norm_num)

theorem CreateDiamondOfDeath_counts (sqrtf cos sin : α → α) (XM_PI height : α)
    (past : Nat → Vertex α) :
    ∃ m, CreateDiamondOfDeath sqrtf cos sin XM_PI height past = some m ∧
      m.Indices32.length = 3 * (64 * 24) ∧ m.Vertices.length = 96 * 24 ∧ m.IndicesValid :=
  three_passes sqrtf _ 24 (diamondMesh_valid cos sin XM_PI height past) rfl (by norm_num)

/-- C25: each coarse polyhedron generator is three passes of `Subdivide` on its base mesh,
and for all parameter values the mesh it returns has 64 times the base triangle count in
triangles and 96 times the base triangle count in vertices: `CreateCone` 1024 triangles and
1536 vertices, `CreateWedge` 512 and 768, `CreatePyramid` 384 and 576,
`CreateTruncatedPyramid` 768 and 1152, `CreateDiamondOfDeath` 1536 and 2304 (whatever the
19 vertices read past the end of its vertex table are). -/
theorem C25_polyhedra_counts (sqrtf cos sin : α → α) (XM_PI : α) :
    (∀ height,
      CreateCone sqrtf cos sin XM_PI height
        = subdividePasses sqrtf 3 (coneMesh cos sin XM_PI height) ∧
      (coneMesh cos sin XM_PI height).Indices32.length = 3 * 16 ∧
      ∃ m, CreateCone sqrtf cos sin XM_PI height = some m ∧
        m.Indices32.length = 3 * 1024 ∧ m.Vertices.length = 1536 ∧
        1024 = 64 * 16 ∧ 1536 = 96 * 16) ∧
    (∀ width depth height,
      CreateWedge sqrtf width depth height
        = subdividePasses sqrtf 3 (wedgeMesh width depth height) ∧
      (wedgeMesh width depth height).Indices32.length = 3 * 8 ∧
      ∃ m, CreateWedge sqrtf width depth height = some m ∧
        m.Indices32.length = 3 * 512 ∧ m.Vertices.length = 768 ∧
        512 = 64 * 8 ∧ 768 = 96 * 8) ∧
    (∀ width depth height,
      CreatePyramid sqrtf width depth height
        = subdividePasses sqrtf 3 (pyramidMesh width depth height) ∧
      (pyramidMesh width depth height).Indices32.length = 3 * 6 ∧
      ∃ m, CreatePyramid sqrtf width depth height = some m ∧
        m.Indices32.length = 3 * 384 ∧ m.Vertices.length = 576 ∧
        384 = 64 * 6 ∧ 576 = 96 * 6) ∧
    (∀ bottomWidth bottomDepth topWidth topDepth height,
      CreateTruncatedPyramid sqrtf bottomWidth bottomDepth topWidth topDepth height
        = subdividePasses sqrtf 3
            (truncatedPyramidMesh bottomWidth bottomDepth topWidth topDepth height) ∧
      (truncatedPyramidMesh bottomWidth bottomDepth topWidth topDepth height).Indices32.length
        = 3 * 12 ∧
      ∃ m, CreateTruncatedPyramid sqrtf bottomWidth bottomDepth topWidth topDepth height
          = some m ∧
        m.Indices32.length = 3 * 768 ∧ m.Vertices.length = 1152 ∧
        768 = 64 * 12 ∧ 1152 = 96 * 12) ∧
    (∀ height past,
      CreateDiamondOfDeath sqrtf cos sin XM_PI height past
        = subdividePasses sqrtf 3 (diamondMesh cos sin XM_PI height past) ∧
      (diamondMesh cos sin XM_PI height past).Indices32.length = 3 * 24 ∧
      ∃ m, CreateDiamondOfDeath sqrtf cos sin XM_PI height past = some m ∧
        m.Indices32.length = 3 * 1536 ∧ m.Vertices.length = 2304 ∧
        1536 = 64 * 24 ∧ 2304 = 96 * 24) := by
  refine ⟨?_, ?_, ?_, ?_, ?_⟩
  · intro height
    obtain ⟨m, hm, h1, h2, _⟩ := CreateCone_counts sqrtf cos sin XM_PI height
    exact ⟨rfl, rfl, m, hm, h1, h2, rfl, rfl⟩
  · intro width depth height
    obtain ⟨m, hm, h1, h2, _⟩ := CreateWedge_counts sqrtf width depth height
    exact ⟨rfl, rfl, m, hm, h1, h2, rfl, rfl⟩
  · intro width depth height
    obtain ⟨m, hm, h1, h2, _⟩ := CreatePyramid_counts sqrtf width depth height
    exact ⟨rfl, rfl, m, hm, h1, h2, rfl, rfl⟩
  · intro bottomWidth bottomDepth topWidth topDepth height
    obtain ⟨m, hm, h1, h2, _⟩ :=
      CreateTruncatedPyramid_counts sqrtf bottomWidth bottomDepth topWidth topDepth height
    exact ⟨rfl, rfl, m, hm, h1, h2, rfl, rfl⟩
  · intro height past
    obtain ⟨m, hm, h1, h2, _⟩ := CreateDiamondOfDeath_counts sqrtf cos sin XM_PI height past
    exact ⟨rfl, rfl, m, hm, h1, h2, rfl, rfl⟩

/-- C26: for each of `CreateCone`, `CreateWedge`, `CreatePyramid`, `CreateTruncatedPyramid`
and `CreateDiamondOfDeath` and for all parameter values, the vertex table has 10, 6, 5, 8 and
17 entries respectively, every index of the base index list is smaller than that length, the
base index count is a multiple of 3, and the returned mesh has an index count that is a
multiple of 3 with every index smaller than its vertex count. -/
theorem C26_polyhedra_indices (sqrtf cos sin : α → α) (XM_PI : α) :
    (∀ height,
      (coneVertices cos sin XM_PI height).length = 10 ∧
      (∀ k ∈ coneIndices, k < (coneVertices cos sin XM_PI height).length) ∧
      coneIndices.length % 3 = 0 ∧
      ∃ m, CreateCone sqrtf cos sin XM_PI height = some m ∧
        m.Indices32.length % 3 = 0 ∧ ∀ k ∈ m.Indices32, k < m.Vertices.length) ∧
    (∀ width depth height,
      (wedgeVertices width depth height).length = 6 ∧
      (∀ k ∈ wedgeIndices, k < (wedgeVertices width depth height).length) ∧
      wedgeIndices.length % 3 = 0 ∧
      ∃ m, CreateWedge sqrtf width depth height = some m ∧
        m.Indices32.length % 3 = 0 ∧ ∀ k ∈ m.Indices32, k < m.Vertices.length) ∧
    (∀ width depth height,
      (pyramidVertices width depth height).length = 5 ∧
      (∀ k ∈ pyramidIndices, k < (pyramidVertices width depth height).length) ∧
      pyramidIndices.length % 3 = 0 ∧
      ∃ m, CreatePyramid sqrtf width depth height = some m ∧
        m.Indices32.length % 3 = 0 ∧ ∀ k ∈ m.Indices32, k < m.Vertices.length) ∧
    (∀ bottomWidth bottomDepth topWidth topDepth height,
      (truncatedPyramidVertices bottomWidth bottomDepth topWidth topDepth height).length = 8 ∧
      (∀ k ∈ truncatedPyramidIndices,
        k < (truncatedPyramidVertices bottomWidth bottomDepth topWidth topDepth height).length) ∧
      truncatedPyramidIndices.length % 3 = 0 ∧
      ∃ m, CreateTruncatedPyramid sqrtf bottomWidth bottomDepth topWidth topDepth height
          = some m ∧
        m.Indices32.length % 3 = 0 ∧ ∀ k ∈ m.Indices32, k < m.Vertices.length) ∧
    (∀ height past,
      (diamondVertices cos sin XM_PI height).length = 17 ∧
      (∀ k ∈ diamondIndices, k < (diamondVertices cos sin XM_PI height).length) ∧
      diamondIndices.length % 3 = 0 ∧
      ∃ m, CreateDiamondOfDeath sqrtf cos sin XM_PI height past = some m ∧
        m.Indices32.length % 3 = 0 ∧ ∀ k ∈ m.Indices32, k < m.Vertices.length) := by
  refine ⟨?_, ?_, ?_, ?_, ?_⟩
  · intro height
    obtain ⟨m, hm, h1, _, hv⟩ := CreateCone_counts sqrtf cos sin XM_PI height
    exact ⟨rfl, (by decide : ∀ k ∈ coneIndices, k < 10), rfl, m, hm, by rw [h1], hv⟩
  · intro width depth height
    obtain ⟨m, hm, h1, _, hv⟩ := CreateWedge_counts sqrtf width depth height
    exact ⟨rfl, (by decide : ∀ k ∈ wedgeIndices, k < 6), rfl, m, hm, by rw [h1], hv⟩
  · intro width depth height
    obtain ⟨m, hm, h1, _, hv⟩ := CreatePyramid_counts sqrtf width depth height
    exact ⟨rfl, (by decide : ∀ k ∈ pyramidIndices, k < 5), rfl, m, hm, by rw [h1], hv⟩
  · intro bottomWidth bottomDepth topWidth topDepth height
    obtain ⟨m, hm, h1, _, hv⟩ :=
      CreateTruncatedPyramid_counts sqrtf bottomWidth bottomDepth topWidth topDepth height
    exact ⟨rfl, (by decide : ∀ k ∈ truncatedPyramidIndices, k < 8), rfl, m, hm, by rw [h1], hv⟩
  · intro height past
    obtain ⟨m, hm, h1, _, hv⟩ := CreateDiamondOfDeath_counts sqrtf cos sin XM_PI height past
    exact ⟨rfl, (by decide : ∀ k ∈ diamondIndices, k < 17), rfl, m, hm, by rw [h1], hv⟩

end PolyhedraClaims

/-! ## The 16-bit index view of the meshes of BuildShapeGeometry -/

section NarrowingClaims

variable {α : Type} [LinearOrderedField α]

omit [LinearOrderedField α] in
/-- A returned mesh with in-range indices and at most 65535 vertices narrows exactly. -/
theorem narrowsExactly_of_valid {call : Option (MeshData α)} {m : MeshData α}
    (hcall : call = some m) (hlen : m.Vertices.length ≤ 65535) (hv : m.IndicesValid) :
    NarrowsExactly call := by
  have hlt : ∀ k ∈ m.Indices32, k < 65536 := fun k hk => by
    have := hv k hk
    omega
  refine ⟨m, hcall, hlen, hlt, ?_⟩
  have hmap : m.Indices32.map (fun i => i % 2 ^ 16) = m.Indices32.map id :=
    List.map_congr_left (fun k hk => Nat.mod_eq_of_lt (by have := hlt k hk; norm_num; omega))
  rw [MeshData.GetIndices16, hmap, List.map_id]

/-- C27: every mesh that `BuildShapeGeometry` narrows to 16-bit indices and whose generator
is in `GeometryGenerator.cpp`, namely `CreateBox(1,1,1,3)`, `CreateGrid(26,26,50,50)`,
`CreateSphere(0.5,20,20)`, `CreateCylinder(1,1,1,20,20)`, `CreateDiamondOfDeath(1.25)`,
`CreateWedge(1,1,1)`, `CreatePyramid(1,1,1)` and `CreateTruncatedPyramid(1,1,0.5,0.5,1)`, is
returned with at most 65535 vertices, every 32-bit index below 65536, and a 16-bit view equal
to the 32-bit index list value for value. -/
theorem C27_narrowing (sqrtf sinf cosf cos sin : α → α) (XM_PI : α) (past : Nat → Vertex α) :
    NarrowsExactly (CreateBox sqrtf 1 1 1 3) ∧
    NarrowsExactly (CreateGrid (26 : α) 26 50 50) ∧
    NarrowsExactly (CreateSphere sqrtf sinf cosf XM_PI (1 / 2) 20 20) ∧
    NarrowsExactly (CreateCylinder sqrtf sinf cosf XM_PI 1 1 1 20 20) ∧
    NarrowsExactly (CreateDiamondOfDeath sqrtf cos sin XM_PI (5 / 4) past) ∧
    NarrowsExactly (CreateWedge sqrtf 1 1 1) ∧
    NarrowsExactly (CreatePyramid sqrtf 1 1 1) ∧
    NarrowsExactly (CreateTruncatedPyramid sqrtf 1 1 (1 / 2) (1 / 2) 1) := by
  refine ⟨?_, ?_, ?_, ?_, ?_, ?_, ?_, ?_⟩
  · obtain ⟨m, hm, _, hv, _, hge⟩ := CreateBox_counts sqrtf (1 : α) 1 1 3
    have h := hge (by norm_num)
    exact narrowsExactly_of_valid hm (by rw [h]; norm_num) hv
  · have hg := CreateGrid_eq (26 : α) 26 50 50 (by norm_num) (by norm_num) (by norm_num)
      (by norm_num)
    refine narrowsExactly_of_valid hg ?_ ?_
    · show (gridVertices (26 : α) 26 50 50).length ≤ 65535
      rw [gridVertices_length]
      norm_num
    · intro k hk
      show k < (gridVertices (26 : α) 26 50 50).length
      rw [gridVertices_length]
      exact gridIndices_lt 50 50 (by norm_num) k hk
  · have hs := @CreateSphere_returns α _ sqrtf sinf cosf XM_PI (1 / 2) 20 20
      (by norm_num) (by norm_num) (by norm_num)
    have hu : usub 20 1 = 19 := by simp [usub]
    have hV : (sphereVertices sqrtf sinf cosf XM_PI (1 / 2) 20 20).length
        = 2 + (20 - 1) * (20 + 1) := by
      rw [sphereVertices_length, hu]
    refine narrowsExactly_of_valid hs ?_ ?_
    · show (sphereVertices sqrtf sinf cosf XM_PI (1 / 2) 20 20).length ≤ 65535
      rw [hV]
      norm_num
    · intro k hk
      have hk2 : k ∈ sphereIndices 20 20
          (sphereVertices sqrtf sinf cosf XM_PI (1 / 2) 20 20).length := hk
      show k < (sphereVertices sqrtf sinf cosf XM_PI (1 / 2) 20 20).length
      rw [hV] at hk2 ⊢
      exact sphereIndices_valid (by norm_num) (by norm_num) (by norm_num) (by norm_num) k hk2
  · have hc := CreateCylinder_returns sqrtf sinf cosf XM_PI 1 1 1 20 20 (by norm_num)
    refine narrowsExactly_of_valid hc ?_
      (cylinderMesh_valid _ _ _ _ _ _ _ (by norm_num) (by norm_num))
    rw [cylinderMesh_vertices_length, u32_of_lt (by norm_num)]
    norm_num
  · obtain ⟨m, hm, _, h2, hv⟩ := CreateDiamondOfDeath_counts sqrtf cos sin XM_PI (5 / 4) past
    exact narrowsExactly_of_valid hm (by rw [h2]; norm_num) hv
  · obtain ⟨m, hm, _, h2, hv⟩ := CreateWedge_counts sqrtf (1 : α) 1 1
    exact narrowsExactly_of_valid hm (by rw [h2]; norm_num) hv
  · obtain ⟨m, hm, _, h2, hv⟩ := CreatePyramid_counts sqrtf (1 : α) 1 1
    exact narrowsExactly_of_valid hm (by rw [h2]; norm_num) hv
  · obtain ⟨m, hm, _, h2, hv⟩ :=
      CreateTruncatedPyramid_counts sqrtf (1 : α) 1 (1 / 2) (1 / 2) 1
    exact narrowsExactly_of_valid hm (by rw [h2]; norm_num) hv

end NarrowingClaims

/-! ## CreateSphere: the index list, triangle by triangle -/

section SphereIndexList

variable {α : Type} [LinearOrderedField α]

/-- The index list of `CreateSphere` is the list the specification describes, when the
vertex count is at most `2^32` (at `2^32` the count itself wraps around to 0 and the south
pole index `(uint32)size() - 1` is `2^32 - 1`, the last vertex). -/
theorem sphereIndices_eq_spec (sliceCount stackCount : Nat) (ht : 2 ≤ stackCount)
    (hV : 2 + (stackCount - 1) * (sliceCount + 1) ≤ 2 ^ 32) :
    sphereIndices sliceCount stackCount (2 + (stackCount - 1) * (sliceCount + 1))
      = sphereIndicesSpec sliceCount stackCount := by
  obtain ⟨a, rfl⟩ : ∃ a, stackCount = a + 2 := ⟨stackCount - 2, by omega⟩
  have e1 : a + 2 - 1 = a + 1 := by omega
  have e2 : a + 2 - 2 = a := by omega
  rw [e1] at hV
  have hVexp : (a + 1) * (sliceCount + 1) = a * (sliceCount + 1) + (sliceCount + 1) :=
    Nat.succ_mul _ _
  have hs : sliceCount + 1 ≤ (a + 1) * (sliceCount + 1) := Nat.le_mul_of_pos_left _ (by omega)
  have ht32 : a + 2 < 2 ^ 32 := by
    have : a + 1 ≤ (a + 1) * (sliceCount + 1) := Nat.le_mul_of_pos_right _ (by omega)
    omega
  have hrvc : u32 (sliceCount + 1) = sliceCount + 1 := u32_of_lt (by omega)
  have hu2 : usub (a + 2) 2 = a := by rw [usub_of_le (by omega) ht32, e2]
  have hsouth : usub (u32 (2 + (a + 1) * (sliceCount + 1))) 1
      = 2 + (a + 1) * (sliceCount + 1) - 1 := by
    generalize (a + 1) * (sliceCount + 1) = p at hV
    simp only [usub, u32]
    omega
  have hbase : usub (2 + (a + 1) * (sliceCount + 1) - 1) (sliceCount + 1)
      = 1 + a * (sliceCount + 1) := by
    rw [usub_of_le (by omega) (by omega)]
    omega
  unfold sphereIndices sphereIndicesSpec
  dsimp only
  rw [hu2, hrvc, e1, hsouth, hbase, e2]
  refine congrArg₂ (· ++ ·) (congrArg₂ (· ++ ·) ?_ ?_) ?_
  · refine List.flatMap_congr (fun i hi => ?_)
    rw [List.mem_range'_1] at hi
    rw [u32_of_lt (by omega)]
  · refine List.flatMap_congr (fun i hi => List.flatMap_congr (fun j hj => ?_))
    rw [List.mem_range] at hi hj
    have hmul : (i + 1) * (sliceCount + 1) ≤ a * (sliceCount + 1) :=
      Nat.mul_le_mul_right _ hi
    have hexp : (i + 1) * (sliceCount + 1) = i * (sliceCount + 1) + (sliceCount + 1) :=
      Nat.succ_mul _ _
    rw [u32_of_lt (show 1 + i * (sliceCount + 1) + j < 2 ^ 32 by omega),
      u32_of_lt (show 1 + i * (sliceCount + 1) + j + 1 < 2 ^ 32 by omega),
      u32_of_lt (show 1 + (i + 1) * (sliceCount + 1) + j < 2 ^ 32 by omega),
      u32_of_lt (show 1 + (i + 1) * (sliceCount + 1) + j + 1 < 2 ^ 32 by omega), hexp]
    have eb : 1 + (i * (sliceCount + 1) + (sliceCount + 1)) + j
        = 1 + i * (sliceCount + 1) + j + sliceCount + 1 := by omega
    rw [eb]
  · refine List.flatMap_congr (fun i hi => ?_)
    rw [List.mem_range] at hi
    rw [u32_of_lt (show 1 + a * (sliceCount + 1) + i < 2 ^ 32 by omega),
      u32_of_lt (show 1 + a * (sliceCount + 1) + i + 1 < 2 ^ 32 by omega)]

/-- Every index written by `CreateSphere` is a 32-bit value. -/
theorem sphereIndices_lt32 (sliceCount stackCount vertexCount : Nat)
    (hs : sliceCount < 2 ^ 32) :
    ∀ k ∈ sphereIndices sliceCount stackCount vertexCount, k < 2 ^ 32 := by
  intro k hk
  simp only [sphereIndices, List.mem_append, List.mem_flatMap, List.mem_range'_1,
    List.mem_range, List.mem_cons, List.mem_singleton, List.not_mem_nil, or_false] at hk
  rcases hk with (⟨i, hi, hk⟩ | ⟨i, _, j, _, hk⟩) | ⟨i, _, hk⟩
  · have := u32_lt (i + 1)
    rcases hk with h | h | h <;> omega
  · have h1 := u32_lt (1 + i * u32 (sliceCount + 1) + j)
    have h2 := u32_lt (1 + i * u32 (sliceCount + 1) + j + 1)
    have h3 := u32_lt (1 + (i + 1) * u32 (sliceCount + 1) + j)
    have h4 := u32_lt (1 + (i + 1) * u32 (sliceCount + 1) + j + 1)
    rcases hk with h | h | h | h | h | h <;> omega
  · have h0 := usub_lt (u32 vertexCount) 1
    have h1 := u32_lt (usub (usub (u32 vertexCount) 1) (u32 (sliceCount + 1)) + i)
    have h2 := u32_lt (usub (usub (u32 vertexCount) 1) (u32 (sliceCount + 1)) + i + 1)
    rcases hk with h | h | h <;> omega

/-- The list of the specification names the vertex `sliceCount + 2` in its first band. -/
theorem sphereIndicesSpec_mem (sliceCount stackCount : Nat) (hs : 1 ≤ sliceCount)
    (ht : 3 ≤ stackCount) : sliceCount + 2 ∈ sphereIndicesSpec sliceCount stackCount := by
  simp only [sphereIndicesSpec, List.mem_append, List.mem_flatMap, List.mem_range,
    List.mem_cons, List.mem_singleton, List.not_mem_nil, or_false]
  refine Or.inl (Or.inr ⟨0, by omega, 0, by omega, Or.inr (Or.inr (Or.inl ?_))⟩)
  omega

/-- C28 (amended): for every `sliceCount ≥ 3` and `stackCount ≥ 2` whose vertex count
`2 + (stackCount-1) * (sliceCount+1)` is at most `2^32`, the index list of `CreateSphere`
consists of, in order: the `sliceCount` top-fan triangles `(0, i+1, i)` for
`i = 1..sliceCount`; for each band `i < stackCount-2` and slice `j < sliceCount` the two
triangles `(a, a+1, b)` and `(b, a+1, b+1)` with `a = 1 + i*(sliceCount+1) + j` and
`b = a + sliceCount + 1`; and the `sliceCount` bottom-fan triangles
`(south, base+i, base+i+1)` for `i = 0..sliceCount-1`, where `south` is the last vertex and
`base = 1 + (stackCount-2)*(sliceCount+1)` is the first vertex of the last ring; the bottom
fan runs through its ring with increasing offsets and the top fan with decreasing ones. -/
theorem C28_sphere_index_list (sqrtf sinf cosf : α → α) (XM_PI radius : α)
    (sliceCount stackCount : Nat) (_hs : 3 ≤ sliceCount) (ht : 2 ≤ stackCount)
    (hV : 2 + (stackCount - 1) * (sliceCount + 1) ≤ 2 ^ 32) :
    ∃ m, CreateSphere sqrtf sinf cosf XM_PI radius sliceCount stackCount = some m ∧
      m.Indices32
        = (List.range' 1 sliceCount).flatMap (fun i => [0, i + 1, i])
          ++ (List.range (stackCount - 2)).flatMap (fun i =>
              (List.range sliceCount).flatMap (fun j =>
                [1 + i * (sliceCount + 1) + j, 1 + i * (sliceCount + 1) + j + 1,
                 1 + i * (sliceCount + 1) + j + sliceCount + 1,
                 1 + i * (sliceCount + 1) + j + sliceCount + 1,
                 1 + i * (sliceCount + 1) + j + 1,
                 1 + i * (sliceCount + 1) + j + sliceCount + 1 + 1]))
          ++ (List.range sliceCount).flatMap (fun i =>
              [m.Vertices.length - 1, 1 + (stackCount - 2) * (sliceCount + 1) + i,
               1 + (stackCount - 2) * (sliceCount + 1) + i + 1]) ∧
      m.Indices32 = sphereIndicesSpec sliceCount stackCount ∧
      ∀ j, j ≤ sliceCount →
        m.Vertices[1 + (stackCount - 2) * (sliceCount + 1) + j]?
          = some (sphereRingVertex sqrtf sinf cosf XM_PI radius (XM_PI / (stackCount : α))
              (2 * XM_PI / (sliceCount : α)) (stackCount - 1) j) := by
  have hs1 : sliceCount + 1 ≤ (stackCount - 1) * (sliceCount + 1) :=
    Nat.le_mul_of_pos_left _ (by omega)
  have ht1 : stackCount - 1 ≤ (stackCount - 1) * (sliceCount + 1) :=
    Nat.le_mul_of_pos_right _ (by omega)
  have ht32 : stackCount < 2 ^ 32 := by omega
  have hu1 : usub stackCount 1 = stackCount - 1 := usub_of_le (by omega) ht32
  have hlen : (sphereVertices sqrtf sinf cosf XM_PI radius sliceCount stackCount).length
      = 2 + (stackCount - 1) * (sliceCount + 1) := by
    rw [sphereVertices_length, hu1]
  have hidx := sphereIndices_eq_spec sliceCount stackCount ht hV
  refine ⟨_, CreateSphere_returns sqrtf sinf cosf XM_PI radius ht ht32 (by omega), ?_, ?_, ?_⟩
  · show sphereIndices sliceCount stackCount
      (sphereVertices sqrtf sinf cosf XM_PI radius sliceCount stackCount).length = _
    simp only [hlen, hidx, sphereIndicesSpec]
  · show sphereIndices sliceCount stackCount
      (sphereVertices sqrtf sinf cosf XM_PI radius sliceCount stackCount).length = _
    rw [hlen, hidx]
  · intro j hj
    have := sphereVertices_ring sqrtf sinf cosf XM_PI radius sliceCount stackCount
      (stackCount - 1) j (by omega) (by omega) hj
    rw [show stackCount - 1 - 1 = stackCount - 2 by omega] at this
    exact this

theorem C28_sphere_index_list_witness :
    (3 ≤ 3 ∧ 2 ≤ 3 ∧ 2 + (3 - 1) * (3 + 1) ≤ 2 ^ 32 ∧
      ∃ m, CreateSphere (fun x : ℚ => x) (fun x => x) (fun x => x) 3 1 3 3 = some m ∧
        m.Indices32 = sphereIndicesSpec 3 3 ∧
        sphereIndicesSpec 3 3
          = [0, 2, 1, 0, 3, 2, 0, 4, 3,
             1, 2, 5, 5, 2, 6, 2, 3, 6, 6, 3, 7, 3, 4, 7, 7, 4, 8,
             9, 5, 6, 9, 6, 7, 9, 7, 8]) ∧
    (3 ≤ 2147483646 ∧ 2 ≤ 3 ∧ 2 + (3 - 1) * (2147483646 + 1) = 2 ^ 32 ∧
      ∃ m, CreateSphere (fun x : ℚ => x) (fun x => x) (fun x => x) 3 1 2147483646 3 = some m ∧
        m.Indices32 = sphereIndicesSpec 2147483646 3) :=
  ⟨⟨by norm_num, by norm_num, by norm_num,
      let ⟨m, h1, _, h2, _⟩ := C28_sphere_index_list (fun x : ℚ => x) (fun x => x) (fun x => x)
        3 1 3 3 (by norm_num) (by norm_num) (by norm_num)
      ⟨m, h1, h2, by decide⟩⟩,
    ⟨by norm_num, by norm_num, by norm_num,
      let ⟨m, h1, _, h2, _⟩ := C28_sphere_index_list (fun x : ℚ => x) (fun x => x) (fun x => x)
        3 1 2147483646 3 (by norm_num) (by norm_num) (by norm_num)
      ⟨m, h1, h2⟩⟩⟩

/-- C28 (as stated, refuted): for `sliceCount = 2^32 - 2` and `stackCount = 3` the list of the
claim names the vertex `sliceCount + 2 = 2^32` in its first band, while every index
`CreateSphere` writes is a 32-bit value: the returned index list is not the claimed one. -/
theorem C28_counterexample :
    3 ≤ 4294967294 ∧ 2 ≤ 3 ∧
    ∃ m, CreateSphere (fun x : ℚ => x) (fun x => x) (fun x => x) 3 1 4294967294 3 = some m ∧
      (∀ k ∈ m.Indices32, k < 2 ^ 32) ∧
      4294967294 + 2 ∈ sphereIndicesSpec 4294967294 3 ∧
      m.Indices32 ≠ sphereIndicesSpec 4294967294 3 := by
  have hmem := sphereIndicesSpec_mem 4294967294 3 (by norm_num) (by norm_num)
  have hlt : ∀ k ∈ sphereIndices 4294967294 3
      (sphereVertices (fun x : ℚ => x) (fun x => x) (fun x => x) 3 1 4294967294 3).length,
      k < 2 ^ 32 := sphereIndices_lt32 _ _ _ (by norm_num)
  refine ⟨by norm_num, by norm_num, _,
    @CreateSphere_returns ℚ _ (fun x : ℚ => x) (fun x => x) (fun x => x) 3 1
      4294967294 3 (by norm_num) (by norm_num) (by norm_num),
    hlt, hmem, ?_⟩
  intro heq
  have h := hlt (4294967294 + 2) (by
    have heq2 : sphereIndices 4294967294 3
      (sphereVertices (fun x : ℚ => x) (fun x => x) (fun x => x) 3 1 4294967294 3).length
        = sphereIndicesSpec 4294967294 3 := heq
    rw [heq2]
    exact hmem)
  omega

end SphereIndexList

/-! ## CreateGeosphere: texture coordinates -/

/-- The angle `theta` of `CreateGeosphere`, an `atan2` value in `[-π, π]` with `2π` added
when negative, lies in `[0, 2π)`. -/
theorem theta_range (t : ℝ) (h1 : -Real.pi ≤ t) (h2 : t ≤ Real.pi) :
    0 ≤ (if t < 0 then t + 2 * Real.pi else t) / (2 * Real.pi) ∧
    (if t < 0 then t + 2 * Real.pi else t) / (2 * Real.pi) < 1 := by
  have hpi := Real.pi_pos
  have h2pi : 0 < 2 * Real.pi := by linarith
  split
  · rename_i hneg
    exact ⟨div_nonneg (by linarith) h2pi.le, (div_lt_one h2pi).2 (by linarith)⟩
  · rename_i hnn
    exact ⟨div_nonneg (by linarith) h2pi.le, (div_lt_one h2pi).2 (by linarith)⟩

/-- C29: in real arithmetic, for every radius (in particular every `radius > 0`) and every
`numSubdivisions`, `CreateGeosphere` returns a mesh in which every vertex has texture
coordinate `u = theta / (2π)` in the half-open interval `[0,1)` and `v = phi / π` in `[0,1]`,
where `theta` is `atan2(z, x)` of the re-projected position with `2π` added when negative and
`phi = acos(y / radius)`; `atan2` is any function with values in `[-π, π]`. -/
theorem C29_geosphere_texcoords (sinf cosf : ℝ → ℝ) (atan2f : ℝ → ℝ → ℝ) (radius : ℝ)
    (numSubdivisions : Nat)
    (hat : ∀ y x, -Real.pi ≤ atan2f y x ∧ atan2f y x ≤ Real.pi) :
    ∃ m, CreateGeosphere Real.sqrt sinf cosf Real.arccos atan2f Real.pi radius numSubdivisions
        = some m ∧
      ∀ v ∈ m.Vertices,
        v.TexC.x = (if atan2f v.Position.z v.Position.x < 0
            then atan2f v.Position.z v.Position.x + 2 * Real.pi
            else atan2f v.Position.z v.Position.x) / (2 * Real.pi) ∧
        v.TexC.y = Real.arccos (v.Position.y / radius) / Real.pi ∧
        0 ≤ v.TexC.x ∧ v.TexC.x < 1 ∧ 0 ≤ v.TexC.y ∧ v.TexC.y ≤ 1 := by
  obtain ⟨out, hout, _⟩ :=
    icosahedron_passes Real.sqrt (min numSubdivisions 6) (Nat.min_le_right _ _)
  refine ⟨geosphereProjectAll Real.sqrt sinf cosf Real.arccos atan2f Real.pi radius out, ?_, ?_⟩
  · rw [CreateGeosphere_eq, hout]
    rfl
  · intro v hv
    obtain ⟨w, _, rfl⟩ := List.mem_map.mp hv
    have hpi := Real.pi_pos
    obtain ⟨a1, a2⟩ := hat
      (geosphereProject Real.sqrt sinf cosf Real.arccos atan2f Real.pi radius w).Position.z
      (geosphereProject Real.sqrt sinf cosf Real.arccos atan2f Real.pi radius w).Position.x
    obtain ⟨b1, b2⟩ := theta_range _ a1 a2
    refine ⟨rfl, rfl, b1, b2, ?_, ?_⟩
    · exact div_nonneg (Real.arccos_nonneg _) hpi.le
    · exact (div_le_one hpi).2 (Real.arccos_le_pi _)

theorem C29_geosphere_texcoords_witness :
    (∀ y x : ℝ, -Real.pi ≤ Complex.arg ⟨x, y⟩ ∧ Complex.arg ⟨x, y⟩ ≤ Real.pi) ∧
    ∃ m, CreateGeosphere Real.sqrt Real.sin Real.cos Real.arccos
        (fun y x => Complex.arg ⟨x, y⟩) Real.pi 1 2 = some m ∧
      ∀ v ∈ m.Vertices, 0 ≤ v.TexC.x ∧ v.TexC.x < 1 ∧ 0 ≤ v.TexC.y ∧ v.TexC.y ≤ 1 :=
  have hat : ∀ y x : ℝ, -Real.pi ≤ Complex.arg ⟨x, y⟩ ∧ Complex.arg ⟨x, y⟩ ≤ Real.pi :=
    fun _ _ => ⟨(Complex.neg_pi_lt_arg _).le, Complex.arg_le_pi _⟩
  ⟨hat,
    let ⟨m, h1, h2⟩ := C29_geosphere_texcoords Real.sin Real.cos
      (fun y x => Complex.arg ⟨x, y⟩) 1 2 hat
    ⟨m, h1, fun v hv => (h2 v hv).2.2⟩⟩

/-! ## CreateCylinder: side vertices -/

section CylinderSide

variable {α : Type} [LinearOrderedField α]

/-- C30 (amended): for every `sliceCount ≥ 1` and `stackCount ≥ 1` with
`stackCount + 1 < 2^32`, every ring `i` in `0..stackCount` and slice `j` in `0..sliceCount`,
side vertex `i*(sliceCount+1)+j` of `CreateCylinder` has position
`(r_i*cos(theta_j), y_i, r_i*sin(theta_j))` and texture coordinate
`(j/sliceCount, 1 - i/stackCount)`, with `y_i = -height/2 + i*height/stackCount`,
`r_i = bottomRadius + i*(topRadius-bottomRadius)/stackCount` and
`theta_j = j*2*pi/sliceCount`, in exact arithmetic and for any `cos`, `sin` and `pi`; ring 0
has radius `bottomRadius` at `y = -height/2` and ring `stackCount` has radius `topRadius` at
`y = +height/2`. The function returns for every `sliceCount` other than `2^32 - 1`. -/
theorem C30_cylinder_side_vertex (sqrtf sinf cosf : α → α)
    (XM_PI bottomRadius topRadius height : α) (sliceCount stackCount : Nat)
    (_hs : 1 ≤ sliceCount) (ht : 1 ≤ stackCount) (ht32 : stackCount + 1 < 2 ^ 32) :
    (sliceCount ≠ 2 ^ 32 - 1 →
      ∃ m, CreateCylinder sqrtf sinf cosf XM_PI bottomRadius topRadius height
        sliceCount stackCount = some m) ∧
    ∀ m, CreateCylinder sqrtf sinf cosf XM_PI bottomRadius topRadius height
        sliceCount stackCount = some m →
      (∀ i j, i ≤ stackCount → j ≤ sliceCount →
        ∃ v, m.Vertices[i * (sliceCount + 1) + j]? = some v ∧
          v.Position
            = ⟨(bottomRadius + (i : α) * (topRadius - bottomRadius) / (stackCount : α))
                * cosf ((j : α) * 2 * XM_PI / (sliceCount : α)),
               -height / 2 + (i : α) * height / (stackCount : α),
               (bottomRadius + (i : α) * (topRadius - bottomRadius) / (stackCount : α))
                * sinf ((j : α) * 2 * XM_PI / (sliceCount : α))⟩ ∧
          v.TexC = ⟨(j : α) / (sliceCount : α), 1 - (i : α) / (stackCount : α)⟩) ∧
      (∀ j, j ≤ sliceCount →
        ∃ v, m.Vertices[0 * (sliceCount + 1) + j]? = some v ∧
          v.Position = ⟨bottomRadius * cosf ((j : α) * 2 * XM_PI / (sliceCount : α)),
            -height / 2, bottomRadius * sinf ((j : α) * 2 * XM_PI / (sliceCount : α))⟩) ∧
      (∀ j, j ≤ sliceCount →
        ∃ v, m.Vertices[stackCount * (sliceCount + 1) + j]? = some v ∧
          v.Position = ⟨topRadius * cosf ((j : α) * 2 * XM_PI / (sliceCount : α)),
            height / 2, topRadius * sinf ((j : α) * 2 * XM_PI / (sliceCount : α))⟩) := by
  refine ⟨fun hne => ⟨_, CreateCylinder_returns _ _ _ _ _ _ _ _ _ hne⟩, ?_⟩
  intro m hm
  obtain ⟨_, rfl⟩ := CreateCylinder_inv _ _ _ _ _ _ _ hm
  have hpos : ∀ i j : Nat,
      (cylinderSideVertex sqrtf sinf cosf XM_PI bottomRadius topRadius height
        sliceCount stackCount i j).Position
        = ⟨(bottomRadius + (i : α) * (topRadius - bottomRadius) / (stackCount : α))
            * cosf ((j : α) * 2 * XM_PI / (sliceCount : α)),
           -height / 2 + (i : α) * height / (stackCount : α),
           (bottomRadius + (i : α) * (topRadius - bottomRadius) / (stackCount : α))
            * sinf ((j : α) * 2 * XM_PI / (sliceCount : α))⟩ := by
    intro i j
    have e1 : (j : α) * (2 * XM_PI / (sliceCount : α)) = (j : α) * 2 * XM_PI / (sliceCount : α) := by
      ring
    have e2 : bottomRadius + (i : α) * ((topRadius - bottomRadius) / (stackCount : α))
        = bottomRadius + (i : α) * (topRadius - bottomRadius) / (stackCount : α) := by ring
    have e3 : -(1 / 2) * height + (i : α) * (height / (stackCount : α))
        = -height / 2 + (i : α) * height / (stackCount : α) := by ring
    simp only [cylinderSideVertex, e1, e2, e3]
  have hst : (stackCount : α) ≠ 0 := by
    have : (0 : α) < (stackCount : α) := by exact_mod_cast ht
    exact this.ne'
  refine ⟨?_, ?_, ?_⟩
  · intro i j hi hj
    exact ⟨_, cylinderMesh_side_getElem sqrtf sinf cosf XM_PI bottomRadius topRadius height
      sliceCount stackCount i j ht32 hi hj, hpos i j, rfl⟩
  · intro j hj
    refine ⟨_, cylinderMesh_side_getElem sqrtf sinf cosf XM_PI bottomRadius topRadius height
      sliceCount stackCount 0 j ht32 (by omega) hj, ?_⟩
    rw [hpos 0 j]
    simp
  · intro j hj
    refine ⟨_, cylinderMesh_side_getElem sqrtf sinf cosf XM_PI bottomRadius topRadius height
      sliceCount stackCount stackCount j ht32 (le_refl _) hj, ?_⟩
    rw [hpos stackCount j]
    have r1 : bottomRadius + (stackCount : α) * (topRadius - bottomRadius) / (stackCount : α)
        = topRadius := by
      field_simp
    have y1 : -height / 2 + (stackCount : α) * height / (stackCount : α) = height / 2 := by
      field_simp
      ring
    rw [r1, y1]

theorem C30_cylinder_side_vertex_witness :
    1 ≤ 20 ∧ 1 ≤ 20 ∧ 20 + 1 < 2 ^ 32 ∧
    (20 ≠ 2 ^ 32 - 1 →
      ∃ m, CreateCylinder (fun x : ℚ => x) (fun x => x) (fun x => x) 3 1 1 1 20 20 = some m) ∧
    ∀ m, CreateCylinder (fun x : ℚ => x) (fun x => x) (fun x => x) 3 1 1 1 20 20 = some m →
      ∀ j, j ≤ 20 →
        ∃ v, m.Vertices[20 * (20 + 1) + j]? = some v ∧
          v.Position = ⟨1 * ((j : ℚ) * 2 * 3 / ((20 : Nat) : ℚ)), 1 / 2,
            1 * ((j : ℚ) * 2 * 3 / ((20 : Nat) : ℚ))⟩ :=
  have h := C30_cylinder_side_vertex (fun x : ℚ => x) (fun x => x) (fun x => x) 3 1 1 1 20 20
    (by norm_num) (by norm_num) (by norm_num)
  ⟨by norm_num, by norm_num, by norm_num, h.1, fun m hm => (h.2 m hm).2.2⟩

/-- When the ring count `stackCount + 1` wraps around to `0`, the cylinder has no side vertex
and vertex 0 of the mesh is the first vertex of the top cap ring, at height `height / 2`. -/
theorem cylinderMesh_head_wrap (sqrtf sinf cosf : α → α)
    (XM_PI bottomRadius topRadius height : α) (sliceCount stackCount : Nat)
    (hw : u32 (stackCount + 1) = 0) :
    ∃ v, (cylinderMesh sqrtf sinf cosf XM_PI bottomRadius topRadius height
        sliceCount stackCount).Vertices[0]? = some v ∧ v.Position.y = 1 / 2 * height := by
  have hside : cylinderSideVertices sqrtf sinf cosf XM_PI bottomRadius topRadius height
      sliceCount stackCount = [] := by
    simp only [cylinderSideVertices, hw, List.range_zero, List.flatMap_nil]
  simp only [cylinderMesh, hside, List.nil_append, topCapVertices, capRingVertices,
    List.range'_succ, List.map_cons, List.cons_append, List.getElem?_cons_zero]
  exact ⟨_, rfl, rfl⟩

/-- C30 (as stated, refuted): for `sliceCount = 1` and `stackCount = 2^32 - 1` the ring count
`stackCount + 1` wraps around to 0 and `CreateCylinder` pushes no side vertex: vertex
`0*(sliceCount+1)+0` of the mesh it returns is a top cap vertex at `y = height/2 = 1/2`, not
at `y_0 = -height/2 + 0*height/stackCount = -1/2`. -/
theorem C30_counterexample :
    1 ≤ 1 ∧ 1 ≤ 4294967295 ∧ 0 ≤ 4294967295 ∧ 0 ≤ 1 ∧
    ∃ m v, CreateCylinder (fun x : ℚ => x) (fun x => x) (fun x => x) 3 1 1 1 1 4294967295
        = some m ∧ m.Vertices[0 * (1 + 1) + 0]? = some v ∧ v.Position.y = 1 / 2 ∧
      v.Position.y ≠ -1 / 2 + ((0 : Nat) : ℚ) * 1 / ((4294967295 : Nat) : ℚ) := by
  obtain ⟨v, hv, hy⟩ := cylinderMesh_head_wrap (fun x : ℚ => x) (fun x => x) (fun x => x)
    3 1 1 1 1 4294967295 u32_two_pow
  refine ⟨le_refl _, by norm_num, by norm_num, by norm_num, _, v,
    CreateCylinder_returns _ _ _ _ _ _ _ 1 4294967295 (by norm_num), hv, ?_, ?_⟩
  · rw [hy]; norm_num
  · rw [hy]; norm_num

end CylinderSide

/-! ## The cylinder caps -/

section CapClaims

variable {α : Type} [LinearOrderedField α]

/-- The vertices a cap builder appends, written out: the ring, then the centre. -/
theorem capRingVertices_eq (sinf cosf : α → α) (XM_PI capRadius height y y2 ny : α)
    (sliceCount : Nat) (hy : y = y2) :
    capRingVertices sinf cosf XM_PI capRadius height y ny sliceCount
      = (List.range (sliceCount + 1)).map (fun (i : Nat) =>
          ({ Position := ⟨capRadius * cosf ((i : α) * (2 * XM_PI / (sliceCount : α))), y2,
               capRadius * sinf ((i : α) * (2 * XM_PI / (sliceCount : α)))⟩
             Normal := ⟨0, ny, 0⟩
             TangentU := ⟨1, 0, 0⟩
             TexC := ⟨capRadius * cosf ((i : α) * (2 * XM_PI / (sliceCount : α))) / height
                 + 1 / 2,
               capRadius * sinf ((i : α) * (2 * XM_PI / (sliceCount : α))) / height
                 + 1 / 2⟩ } : Vertex α)) := by
  subst hy
  rw [capRingVertices, List.range_eq_range']
  rfl

/-- The fan of the top cap without wrap-around. -/
theorem topCapIndices_eq (sliceCount n : Nat) (hfit : n + sliceCount + 2 ≤ 2 ^ 32) :
    topCapIndices sliceCount n
      = (List.range sliceCount).flatMap (fun i => [n + sliceCount + 1, n + i + 1, n + i]) := by
  unfold topCapIndices
  refine List.flatMap_congr (fun i hi => ?_)
  rw [List.mem_range] at hi
  rw [u32_of_lt (show n < 2 ^ 32 by omega), u32_of_lt (show n + i + 1 < 2 ^ 32 by omega),
    u32_of_lt (show n + i < 2 ^ 32 by omega),
    show usub (u32 (n + (sliceCount + 1) + 1)) 1 = n + sliceCount + 1 by
      simp only [usub, u32]; omega]

/-- The fan of the bottom cap without wrap-around. -/
theorem bottomCapIndices_eq (sliceCount n : Nat) (hfit : n + sliceCount + 2 ≤ 2 ^ 32) :
    bottomCapIndices sliceCount n
      = (List.range sliceCount).flatMap (fun i => [n + sliceCount + 1, n + i, n + i + 1]) := by
  unfold bottomCapIndices
  refine List.flatMap_congr (fun i hi => ?_)
  rw [List.mem_range] at hi
  rw [u32_of_lt (show n < 2 ^ 32 by omega), u32_of_lt (show n + i + 1 < 2 ^ 32 by omega),
    u32_of_lt (show n + i < 2 ^ 32 by omega),
    show usub (u32 (n + (sliceCount + 1) + 1)) 1 = n + sliceCount + 1 by
      simp only [usub, u32]; omega]

/-- C31 (amended): for every mesh and `sliceCount ≥ 1` such that the vertex count after the
call, `base + sliceCount + 2` with `base` the vertex count before the call, is at most
`2^32`, `BuildCylinderTopCap` and `BuildCylinderBottomCap` each return, leave all existing
vertices and indices unchanged at the front, and append exactly `sliceCount+2` vertices and
`3*sliceCount` indices: ring vertex `i` at `(R*cos(i*dTheta), y, R*sin(i*dTheta))` with
normal `(0, ±1, 0)`, tangent `(1,0,0)` and texture coordinate `(x/height + 1/2,
z/height + 1/2)`, then a centre vertex `(0, y, 0)` with texture coordinate `(1/2, 1/2)`,
where `(R, y, normal)` is `(topRadius, height/2, (0,1,0))` for the top and
`(bottomRadius, -height/2, (0,-1,0))` for the bottom; the fan triangles are
`(centre, base+i+1, base+i)` for the top and `(centre, base+i, base+i+1)` for the bottom,
with `centre = base + sliceCount + 1`. -/
theorem C31_cylinder_caps (sinf cosf : α → α) (XM_PI bottomRadius topRadius height : α)
    (sliceCount stackCount : Nat) (meshData : MeshData α) (_hs : 1 ≤ sliceCount)
    (hfit : meshData.Vertices.length + sliceCount + 2 ≤ 2 ^ 32) :
    (∃ m, BuildCylinderTopCap sinf cosf XM_PI bottomRadius topRadius height sliceCount
        stackCount meshData = some m ∧
      m.Vertices = meshData.Vertices
        ++ (List.range (sliceCount + 1)).map (fun (i : Nat) =>
            ({ Position := ⟨topRadius * cosf ((i : α) * (2 * XM_PI / (sliceCount : α))),
                 height / 2, topRadius * sinf ((i : α) * (2 * XM_PI / (sliceCount : α)))⟩
               Normal := ⟨0, 1, 0⟩
               TangentU := ⟨1, 0, 0⟩
               TexC := ⟨topRadius * cosf ((i : α) * (2 * XM_PI / (sliceCount : α))) / height
                   + 1 / 2,
                 topRadius * sinf ((i : α) * (2 * XM_PI / (sliceCount : α))) / height
                   + 1 / 2⟩ } : Vertex α))
        ++ [{ Position := ⟨0, height / 2, 0⟩, Normal := ⟨0, 1, 0⟩, TangentU := ⟨1, 0, 0⟩,
              TexC := ⟨1 / 2, 1 / 2⟩ }] ∧
      m.Indices32 = meshData.Indices32
        ++ (List.range sliceCount).flatMap (fun i =>
            [meshData.Vertices.length + sliceCount + 1, meshData.Vertices.length + i + 1,
             meshData.Vertices.length + i]) ∧
      m.Vertices.length = meshData.Vertices.length + (sliceCount + 2) ∧
      m.Indices32.length = meshData.Indices32.length + 3 * sliceCount) ∧
    (∃ m, BuildCylinderBottomCap sinf cosf XM_PI bottomRadius topRadius height sliceCount
        stackCount meshData = some m ∧
      m.Vertices = meshData.Vertices
        ++ (List.range (sliceCount + 1)).map (fun (i : Nat) =>
            ({ Position := ⟨bottomRadius * cosf ((i : α) * (2 * XM_PI / (sliceCount : α))),
                 -height / 2, bottomRadius * sinf ((i : α) * (2 * XM_PI / (sliceCount : α)))⟩
               Normal := ⟨0, -1, 0⟩
               TangentU := ⟨1, 0, 0⟩
               TexC := ⟨bottomRadius * cosf ((i : α) * (2 * XM_PI / (sliceCount : α))) / height
                   + 1 / 2,
                 bottomRadius * sinf ((i : α) * (2 * XM_PI / (sliceCount : α))) / height
                   + 1 / 2⟩ } : Vertex α))
        ++ [{ Position := ⟨0, -height / 2, 0⟩, Normal := ⟨0, -1, 0⟩, TangentU := ⟨1, 0, 0⟩,
              TexC := ⟨1 / 2, 1 / 2⟩ }] ∧
      m.Indices32 = meshData.Indices32
        ++ (List.range sliceCount).flatMap (fun i =>
            [meshData.Vertices.length + sliceCount + 1, meshData.Vertices.length + i,
             meshData.Vertices.length + i + 1]) ∧
      m.Vertices.length = meshData.Vertices.length + (sliceCount + 2) ∧
      m.Indices32.length = meshData.Indices32.length + 3 * sliceCount) := by
  have hne : sliceCount ≠ 2 ^ 32 - 1 := by omega
  have ht : (1 : α) / 2 * height = height / 2 := by ring
  have hb : -(1 : α) / 2 * height = -height / 2 := by ring
  have hb2 : -((1 : α) / 2) * height = -height / 2 := by ring
  constructor
  · refine ⟨_, BuildCylinderTopCap_eq sinf cosf XM_PI bottomRadius topRadius height sliceCount
      stackCount meshData hne, ?_, ?_, ?_, ?_⟩
    · show _ ++ capRingVertices sinf cosf XM_PI topRadius height (1 / 2 * height) 1 sliceCount
        ++ [Vertex.ofFloats 0 (1 / 2 * height) 0 0 1 0 1 0 0 (1 / 2) (1 / 2)] = _
      rw [capRingVertices_eq sinf cosf XM_PI topRadius height _ (height / 2) 1 sliceCount ht,
        ht]
      rfl
    · show _ ++ topCapIndices sliceCount meshData.Vertices.length = _
      rw [topCapIndices_eq _ _ hfit]
    · simp only [List.length_append, capRingVertices_length, List.length_singleton]
      omega
    · simp only [List.length_append, topCapIndices_length]
  · refine ⟨_, BuildCylinderBottomCap_eq sinf cosf XM_PI bottomRadius topRadius height
      sliceCount stackCount meshData hne, ?_, ?_, ?_, ?_⟩
    · show _ ++ capRingVertices sinf cosf XM_PI bottomRadius height (-(1 / 2) * height) (-1)
          sliceCount
        ++ [Vertex.ofFloats 0 (-(1 / 2) * height) 0 0 (-1) 0 1 0 0 (1 / 2) (1 / 2)] = _
      rw [capRingVertices_eq sinf cosf XM_PI bottomRadius height _ (-height / 2) (-1)
        sliceCount hb2, hb2]
      rfl
    · show _ ++ bottomCapIndices sliceCount meshData.Vertices.length = _
      rw [bottomCapIndices_eq _ _ hfit]
    · simp only [List.length_append, capRingVertices_length, List.length_singleton]
      omega
    · simp only [List.length_append, bottomCapIndices_length]

theorem C31_cylinder_caps_witness :
    1 ≤ 2 ∧ (oneTriangle).Vertices.length + 2 + 2 ≤ 2 ^ 32 ∧
    ∃ m, BuildCylinderTopCap (fun x : ℚ => x) (fun x => x) 3 1 1 1 2 1 oneTriangle = some m ∧
      m.Indices32 = oneTriangle.Indices32
        ++ (List.range 2).flatMap (fun i =>
            [oneTriangle.Vertices.length + 2 + 1, oneTriangle.Vertices.length + i + 1,
             oneTriangle.Vertices.length + i]) ∧
      m.Vertices.length = oneTriangle.Vertices.length + (2 + 2) :=
  have hfit : (oneTriangle).Vertices.length + 2 + 2 ≤ 2 ^ 32 := by
    show 3 + 2 + 2 ≤ 2 ^ 32
    norm_num
  ⟨by norm_num, hfit,
    let ⟨m, h1, _, h3, h4, _⟩ := (C31_cylinder_caps (fun x : ℚ => x) (fun x => x) 3 1 1 1 2 1
      oneTriangle (by norm_num) hfit).1
    ⟨m, h1, h3, h4⟩⟩

/-- The top cap built with one slice on a mesh of `n` blank vertices. -/
theorem blankMesh_topCap (n : Nat) :
    ∃ m, BuildCylinderTopCap (fun x : ℚ => x) (fun x => x) 3 1 1 1 1 1 (blankMesh n) = some m ∧
      m.Indices32 = [usub (u32 (n + (1 + 1) + 1)) 1, u32 (u32 n + 0 + 1), u32 (u32 n + 0)] := by
  refine ⟨_, BuildCylinderTopCap_eq (fun x : ℚ => x) (fun x => x) 3 1 1 1 1 1 (blankMesh n)
    (by norm_num), ?_⟩
  show [] ++ topCapIndices 1 (List.replicate n Vertex.zero).length = _
  rw [List.length_replicate]
  rfl

theorem u32_cap_wrap :
    [usub (u32 (4294967296 + (1 + 1) + 1)) 1, u32 (u32 4294967296 + 0 + 1),
      u32 (u32 4294967296 + 0)] = [2, 1, 0] := by
  simp only [u32, usub]
  norm_num

/-- C31 (as stated, refuted): on a mesh that already has `2^32` vertices, `BuildCylinderTopCap`
with `sliceCount = 1` computes `base` and the centre index in `uint32`: the fan triangle it
appends is `(2, 1, 0)`, not `(centre, base+1, base)` with `base = 2^32` the vertex count
before the call. -/
theorem C31_counterexample :
    1 ≤ 1 ∧ (blankMesh 4294967296).Vertices.length = 4294967296 ∧
    ∃ m, BuildCylinderTopCap (fun x : ℚ => x) (fun x => x) 3 1 1 1 1 1 (blankMesh 4294967296)
        = some m ∧
      m.Indices32 = [2, 1, 0] ∧
      m.Indices32 ≠ (blankMesh 4294967296).Indices32
        ++ [4294967296 + 1 + 1, 4294967296 + 0 + 1, 4294967296 + 0] := by
  obtain ⟨m, hm, hi⟩ := blankMesh_topCap 4294967296
  rw [u32_cap_wrap] at hi
  refine ⟨le_refl _, List.length_replicate _ _, m, hm, hi, ?_⟩
  rw [hi]
  show [2, 1, 0] ≠ [] ++ [4294967296 + 1 + 1, 4294967296 + 0 + 1, 4294967296 + 0]
  intro h
  have h2 := (List.cons.inj h).1
  omega

end CapClaims

/-! ## Coarse polyhedra: the range copied from the vertex table -/

section TableRange

variable {α : Type} [LinearOrderedField α]

/-- C32 (refuted for `CreateDiamondOfDeath`): the vertex table `v` of `CreateDiamondOfDeath`
has 17 entries, yet the mesh is assigned the 36 entries `&v[0] .. &v[36]`: its vertices
`17 .. 35` are the 19 entries read past the end of the table. In `CreateCone`, `CreateWedge`,
`CreatePyramid` and `CreateTruncatedPyramid` the mesh is assigned exactly the table, of 10,
6, 5 and 8 entries. -/
theorem C32_diamond_overrun (cos sin : α → α) (XM_PI height : α) (past : Nat → Vertex α) :
    (diamondVertices cos sin XM_PI height).length = 17 ∧
    (diamondMesh cos sin XM_PI height past).Vertices.length = 36 ∧
    (diamondMesh cos sin XM_PI height past).Vertices.length
      ≠ (diamondVertices cos sin XM_PI height).length ∧
    (∀ k, k < 19 →
      (diamondMesh cos sin XM_PI height past).Vertices[17 + k]? = some (past k)) ∧
    ((coneMesh cos sin XM_PI height).Vertices = coneVertices cos sin XM_PI height ∧
      (coneVertices cos sin XM_PI height).length = 10) ∧
    (∀ width depth : α,
      ((wedgeMesh width depth height).Vertices = wedgeVertices width depth height ∧
        (wedgeVertices width depth height).length = 6) ∧
      ((pyramidMesh width depth height).Vertices = pyramidVertices width depth height ∧
        (pyramidVertices width depth height).length = 5)) ∧
    (∀ bottomWidth bottomDepth topWidth topDepth : α,
      (truncatedPyramidMesh bottomWidth bottomDepth topWidth topDepth height).Vertices
        = truncatedPyramidVertices bottomWidth bottomDepth topWidth topDepth height ∧
      (truncatedPyramidVertices bottomWidth bottomDepth topWidth topDepth height).length
        = 8) := by
  have h17 : (diamondVertices cos sin XM_PI height).length = 17 := rfl
  have h36 : (diamondMesh cos sin XM_PI height past).Vertices.length = 36 := by
    simp [diamondMesh, diamondVertices]
  refine ⟨h17, h36, by rw [h36, h17]; norm_num, ?_, ⟨rfl, rfl⟩,
    fun _ _ => ⟨⟨rfl, rfl⟩, ⟨rfl, rfl⟩⟩, fun _ _ _ _ => ⟨rfl, rfl⟩⟩
  intro k hk
  simp only [diamondMesh]
  rw [List.getElem?_append_right (by rw [h17]; omega), h17, Nat.add_sub_cancel_left,
    List.getElem?_map, List.getElem?_range (by omega)]
  rfl

end TableRange

/-! ## Subdivide: orientation and area -/

section SubdivideOrientation

variable {α : Type} [LinearOrderedField α]

/-- The cross products of the edge vectors of the four children of a triangle, in the order
`Subdivide` writes them, are each a quarter of the parent's. -/
theorem child_cross (sqrtf : α → α) (v0 v1 v2 : Vertex α) :
    XMVector3Cross (sub3 (MidPoint sqrtf v0 v1).Position v0.Position)
        (sub3 (MidPoint sqrtf v0 v2).Position v0.Position)
      = scale3 (1 / 4) (XMVector3Cross (sub3 v1.Position v0.Position)
          (sub3 v2.Position v0.Position)) ∧
    XMVector3Cross (sub3 (MidPoint sqrtf v1 v2).Position (MidPoint sqrtf v0 v1).Position)
        (sub3 (MidPoint sqrtf v0 v2).Position (MidPoint sqrtf v0 v1).Position)
      = scale3 (1 / 4) (XMVector3Cross (sub3 v1.Position v0.Position)
          (sub3 v2.Position v0.Position)) ∧
    XMVector3Cross (sub3 (MidPoint sqrtf v1 v2).Position (MidPoint sqrtf v0 v2).Position)
        (sub3 v2.Position (MidPoint sqrtf v0 v2).Position)
      = scale3 (1 / 4) (XMVector3Cross (sub3 v1.Position v0.Position)
          (sub3 v2.Position v0.Position)) ∧
    XMVector3Cross (sub3 v1.Position (MidPoint sqrtf v0 v1).Position)
        (sub3 (MidPoint sqrtf v1 v2).Position (MidPoint sqrtf v0 v1).Position)
      = scale3 (1 / 4) (XMVector3Cross (sub3 v1.Position v0.Position)
          (sub3 v2.Position v0.Position)) := by
  refine ⟨?_, ?_, ?_, ?_⟩ <;>
    simp only [MidPoint, XMVector3Cross, sub3, scale3, add3, XMFLOAT3.mk.injEq] <;>
    refine ⟨?_, ?_, ?_⟩ <;> ring

/-- C33 (amended): for every mesh with in-range indices whose index count `n` satisfies
`2 * n ≤ 2^32` (so that no output index `i*6+k` wraps around in 32 bits) and every input
triangle `i` with corner positions `p0, p1, p2`, each of the four output triangles
`(a, b, c)` number `4i .. 4i+3` of `Subdivide` satisfies
`(b-a) x (c-a) = (1/4) * ((p1-p0) x (p2-p0))` in exact arithmetic, so the four children have
the parent's winding and their cross products sum to the parent's. -/
theorem C33_subdivide_orientation (sqrtf : α → α) (m : MeshData α) (i : Nat)
    (v0 v1 v2 : Vertex α) (hfit : 2 * m.Indices32.length ≤ 2 ^ 32)
    (hv : m.IndicesValid) (hc : Corners m i v0 v1 v2) :
    ∃ out, Subdivide sqrtf m = some out ∧
      (∀ k, k < 4 → ∃ a b c, out.triangle (4 * i + k) = some (a, b, c) ∧
        XMVector3Cross (sub3 b.Position a.Position) (sub3 c.Position a.Position)
          = scale3 (1 / 4) (XMVector3Cross (sub3 v1.Position v0.Position)
              (sub3 v2.Position v0.Position))) ∧
      add3 (add3 (add3
          (scale3 (1 / 4) (XMVector3Cross (sub3 v1.Position v0.Position)
            (sub3 v2.Position v0.Position)))
          (scale3 (1 / 4) (XMVector3Cross (sub3 v1.Position v0.Position)
            (sub3 v2.Position v0.Position))))
          (scale3 (1 / 4) (XMVector3Cross (sub3 v1.Position v0.Position)
            (sub3 v2.Position v0.Position))))
          (scale3 (1 / 4) (XMVector3Cross (sub3 v1.Position v0.Position)
            (sub3 v2.Position v0.Position)))
        = XMVector3Cross (sub3 v1.Position v0.Position) (sub3 v2.Position v0.Position) := by
  obtain ⟨out, hout⟩ := Subdivide_isSome sqrtf hv
  have hlt := hc.lt_length
  have hN : numTris m = m.Indices32.length / 3 := by
    unfold numTris
    rw [u32_of_lt (by omega)]
  obtain ⟨t0, t1, t2, t3, _⟩ :=
    Subdivide_triangles sqrtf hout (by rw [hN]; omega) (by omega) hc
  obtain ⟨c0, c1, c2, c3⟩ := child_cross sqrtf v0 v1 v2
  refine ⟨out, hout, ?_, ?_⟩
  · intro k hk
    interval_cases k
    · exact ⟨_, _, _, t0, c0⟩
    · exact ⟨_, _, _, t1, c1⟩
    · exact ⟨_, _, _, t2, c2⟩
    · exact ⟨_, _, _, t3, c3⟩
  · simp only [add3, scale3, XMVector3Cross, XMFLOAT3.mk.injEq]
    refine ⟨?_, ?_, ?_⟩ <;> ring

theorem C33_subdivide_orientation_witness :
    2 * oneTriangle.Indices32.length ≤ 2 ^ 32 ∧ oneTriangle.IndicesValid ∧
    Corners oneTriangle 0 (flatVertex 0 0 0) (flatVertex 0 2 0) (flatVertex 2 0 0) ∧
    ∃ out, Subdivide (fun x : ℚ => x) oneTriangle = some out ∧
      ∀ k, k < 4 → ∃ a b c, out.triangle (4 * 0 + k) = some (a, b, c) ∧
        XMVector3Cross (sub3 b.Position a.Position) (sub3 c.Position a.Position)
          = scale3 (1 / 4) (XMVector3Cross
              (sub3 (flatVertex 0 2 0).Position (flatVertex 0 0 0).Position)
              (sub3 (flatVertex 2 0 0).Position (flatVertex 0 0 0).Position)) :=
  have hfit : 2 * oneTriangle.Indices32.length ≤ 2 ^ 32 := by
    show 2 * 3 ≤ 2 ^ 32
    norm_num
  ⟨hfit, oneTriangle_valid, oneTriangle_corners,
    let ⟨out, h1, h2, _⟩ := C33_subdivide_orientation (fun x : ℚ => x) oneTriangle 0
      (flatVertex 0 0 0) (flatVertex 0 2 0) (flatVertex 2 0 0) hfit oneTriangle_valid
      oneTriangle_corners
    ⟨out, h1, h2⟩⟩

theorem cycleMesh_length (n : Nat) : (cycleMesh n).Indices32.length = n := by
  simp only [cycleMesh, List.length_map, List.length_range]

theorem cycleMesh_valid (n : Nat) : (cycleMesh n).IndicesValid := by
  intro k hk
  simp only [cycleMesh, List.mem_map, List.mem_range] at hk
  obtain ⟨p, _, rfl⟩ := hk
  simp only [cycleMesh, List.length_cons, List.length_nil]
  omega

theorem cycleMesh_index (n p : Nat) (hp : p < n) :
    (cycleMesh n).Indices32[p]? = some (p % 3) := by
  simp only [cycleMesh, List.getElem?_map, List.getElem?_range hp, Option.map_some']

theorem cycleMesh_corners (n i : Nat) (h : 3 * i + 2 < n) :
    Corners (cycleMesh n) i (flatVertex 0 0 0) (flatVertex 2 0 0) (flatVertex 0 2 0) := by
  refine ⟨0, 1, 2, ?_, ?_, ?_, rfl, rfl, rfl⟩
  · rw [cycleMesh_index n _ (by omega)]; congr 1; omega
  · rw [cycleMesh_index n _ (by omega)]; congr 1; omega
  · rw [cycleMesh_index n _ (by omega)]; congr 1; omega

/-- On `cycleMesh`, when the index `i*6+5` wraps around to `1`, output triangle `4i` ends at
the second vertex written for triangle `0`. -/
theorem cycleMesh_triangle (sqrtf : ℚ → ℚ) (n i : Nat) {out : MeshData ℚ}
    (h : Subdivide sqrtf (cycleMesh n) = some out) (hn : i < numTris (cycleMesh n))
    (h0 : u32 (i * 6 + 0) = 6 * i + 0) (h3 : u32 (i * 6 + 3) = 6 * i + 3)
    (h5 : u32 (i * 6 + 5) = 6 * 0 + 1) :
    out.triangle (4 * i) = some (flatVertex 0 0 0,
      MidPoint sqrtf (flatVertex 0 0 0) (flatVertex 2 0 0), flatVertex 2 0 0) := by
  have hb := numTris_bound (cycleMesh n)
  rw [cycleMesh_length] at hb
  obtain ⟨_, _, _, hall⟩ := Subdivide_some_spec sqrtf h
  obtain ⟨hV, hI⟩ := hall i _ _ _ hn (cycleMesh_corners n i (by omega))
  obtain ⟨hV0, _⟩ := hall 0 _ _ _ (by omega) (cycleMesh_corners n 0 (by omega))
  have hI2 : ∀ t x, t < 12 → (triIndices i)[t]? = some x →
      out.Indices32[12 * i + t]? = some x := fun t x ht hx => (hI t ht).trans hx
  refine triangle_of_lookups (p := 12 * i + 0) (q := 12 * i + 1) (r := 12 * i + 2)
    (by omega) (by omega) (by omega)
    (hI2 0 (u32 (i * 6 + 0)) (by norm_num) rfl) (hI2 1 (u32 (i * 6 + 3)) (by norm_num) rfl)
    (hI2 2 (u32 (i * 6 + 5)) (by norm_num) rfl) ?_ ?_ ?_
  · rw [h0]; exact (hV 0 (by norm_num)).trans rfl
  · rw [h3]; exact (hV 3 (by norm_num)).trans rfl
  · rw [h5]; exact (hV0 1 (by norm_num)).trans rfl

theorem cycleMesh_numTris_eq (n : Nat) : numTris (cycleMesh n) = u32 n / 3 := by
  simp only [numTris, cycleMesh_length]

theorem u32_cycle_count : u32 2147483649 / 3 = 715827883 := by
  simp only [u32]
  norm_num

theorem cycleMesh_numTris : numTris (cycleMesh 2147483649) = 715827883 :=
  (cycleMesh_numTris_eq 2147483649).trans u32_cycle_count

/-- C33 (as stated, refuted): the mesh with vertices `A = (0,0,0)`, `B = (2,0,0)`,
`C = (0,2,0)` and `715827883` triangles `(0,1,2)` has in-range indices. For its last
triangle `i = 715827882`, with corners `(A,B,C)`, the index `i*6+5` wraps around to `1`, so
output triangle `4i` is `(A, MidPoint(A,B), B)`: its cross product is `(0,0,0)`, not a
quarter of the parent's, `(0,0,1)`. -/
theorem C33_counterexample :
    (cycleMesh 2147483649).IndicesValid ∧
    Corners (cycleMesh 2147483649) 715827882
      (flatVertex 0 0 0) (flatVertex 2 0 0) (flatVertex 0 2 0) ∧
    ∃ out a b c, Subdivide (fun x : ℚ => x) (cycleMesh 2147483649) = some out ∧
      out.triangle (4 * 715827882 + 0) = some (a, b, c) ∧
      XMVector3Cross (sub3 b.Position a.Position) (sub3 c.Position a.Position) = ⟨0, 0, 0⟩ ∧
      scale3 (1 / 4) (XMVector3Cross
          (sub3 (flatVertex 2 0 0).Position (flatVertex 0 0 0).Position)
          (sub3 (flatVertex 0 2 0).Position (flatVertex 0 0 0).Position)) = ⟨0, 0, 1⟩ ∧
      XMVector3Cross (sub3 b.Position a.Position) (sub3 c.Position a.Position)
        ≠ scale3 (1 / 4) (XMVector3Cross
            (sub3 (flatVertex 2 0 0).Position (flatVertex 0 0 0).Position)
            (sub3 (flatVertex 0 2 0).Position (flatVertex 0 0 0).Position)) := by
  obtain ⟨out, hout⟩ := Subdivide_isSome (fun x : ℚ => x) (cycleMesh_valid 2147483649)
  have htri := cycleMesh_triangle (fun x : ℚ => x) 2147483649 715827882 hout
    (by rw [cycleMesh_numTris]; norm_num) (by simp only [u32]; norm_num)
    (by simp only [u32]; norm_num) (by simp only [u32]; norm_num)
  have hchild : XMVector3Cross
      (sub3 (MidPoint (fun x : ℚ => x) (flatVertex 0 0 0) (flatVertex 2 0 0)).Position
        (flatVertex 0 0 0).Position)
      (sub3 (flatVertex 2 0 0).Position (flatVertex 0 0 0).Position) = ⟨0, 0, 0⟩ := by
    simp only [MidPoint, flatVertex, Vertex.ofFloats, XMVector3Cross, sub3, scale3, add3,
      XMFLOAT3.mk.injEq]
    norm_num
  have hparent : scale3 (1 / 4) (XMVector3Cross
      (sub3 (flatVertex 2 0 0).Position (flatVertex 0 0 0).Position)
      (sub3 (flatVertex 0 2 0).Position (flatVertex 0 0 0).Position))
      = (⟨0, 0, 1⟩ : XMFLOAT3 ℚ) := by
    simp only [flatVertex, Vertex.ofFloats, XMVector3Cross, sub3, scale3, XMFLOAT3.mk.injEq]
    norm_num
  refine ⟨cycleMesh_valid _, cycleMesh_corners _ _ (by norm_num), out, _, _, _, hout, htri,
    hchild, hparent, ?_⟩
  rw [hchild, hparent]
  intro h
  have hz := congrArg (fun v => v.z) h
  norm_num at hz

end SubdivideOrientation

/-! ## Subdivide: what the output depends on -/

section SubdivideReads

variable {α : Type} [LinearOrderedField α]

/-- The loop of `Subdivide` only depends on what its body returns for the triangles it
visits. -/
theorem subdivideLoop_congr (sqrtf : α → α) (m1 m2 : MeshData α) :
    ∀ (k i : Nat) (out : MeshData α),
      (∀ j, j < k → subdivideTri sqrtf m1 (i + j) = subdivideTri sqrtf m2 (i + j)) →
      subdivideLoop sqrtf m1 k i out = subdivideLoop sqrtf m2 k i out := by
  intro k
  induction k with
  | zero => intro i out _; rfl
  | succ k ih =>
    intro i out h
    have h0 := h 0 (Nat.succ_pos _)
    rw [Nat.add_zero] at h0
    simp only [subdivideLoop, h0]
    cases subdivideTri sqrtf m2 i with
    | none => rfl
    | some x =>
      obtain ⟨vs, is⟩ := x
      refine ih (i + 1) _ (fun j hj => ?_)
      have := h (j + 1) (by omega)
      rwa [show i + (j + 1) = i + 1 + j by omega] at this

/-- The body of the loop of `Subdivide` reads the vertex list only at offsets that the index
list holds. -/
theorem subdivideTri_congr (sqrtf : α → α) (m1 m2 : MeshData α)
    (hidx : m1.Indices32 = m2.Indices32)
    (hvtx : ∀ k ∈ m1.Indices32, m1.Vertices[k]? = m2.Vertices[k]?) (i : Nat) :
    subdivideTri sqrtf m1 i = subdivideTri sqrtf m2 i := by
  simp only [subdivideTri, ← hidx]
  cases h0 : m1.Indices32[u32 (i * 3 + 0)]? with
  | none => rfl
  | some a =>
  cases h1 : m1.Indices32[u32 (i * 3 + 1)]? with
  | none => rfl
  | some b =>
  cases h2 : m1.Indices32[u32 (i * 3 + 2)]? with
  | none => rfl
  | some c =>
  simp only [Option.bind_eq_bind, Option.some_bind, hvtx a (List.getElem?_mem h0),
    hvtx b (List.getElem?_mem h1), hvtx c (List.getElem?_mem h2)]

/-- `Subdivide` returns the same on two meshes with the same index list whose vertex lists
agree at every offset the index list holds. -/
theorem Subdivide_congr (sqrtf : α → α) (m1 m2 : MeshData α)
    (hidx : m1.Indices32 = m2.Indices32)
    (hvtx : ∀ k ∈ m1.Indices32, m1.Vertices[k]? = m2.Vertices[k]?) :
    Subdivide sqrtf m1 = Subdivide sqrtf m2 := by
  simp only [Subdivide, ← hidx]
  exact subdivideLoop_congr sqrtf m1 m2 _ 0 _
    (fun j _ => subdivideTri_congr sqrtf m1 m2 hidx hvtx _)

omit [LinearOrderedField α] in
/-- A corner of a triangle is the vertex at an offset that the index list holds. -/
theorem Corners.referenced {m : MeshData α} {i : Nat} {v0 v1 v2 : Vertex α}
    (h : Corners m i v0 v1 v2) :
    (∃ k ∈ m.Indices32, m.Vertices[k]? = some v0) ∧
    (∃ k ∈ m.Indices32, m.Vertices[k]? = some v1) ∧
    (∃ k ∈ m.Indices32, m.Vertices[k]? = some v2) := by
  obtain ⟨a, b, c, ha, hb, hc, h0, h1, h2⟩ := h
  exact ⟨⟨a, List.getElem?_mem ha, h0⟩, ⟨b, List.getElem?_mem hb, h1⟩,
    ⟨c, List.getElem?_mem hc, h2⟩⟩

/-- Every vertex `Subdivide` writes is one of the six vertices it pushes for an input
triangle. -/
theorem Subdivide_vertex_origin (sqrtf : α → α) {m out : MeshData α}
    (h : Subdivide sqrtf m = some out) :
    ∀ v ∈ out.Vertices, ∃ i v0 v1 v2, Corners m i v0 v1 v2 ∧
      v ∈ triVertices sqrtf v0 v1 v2 := by
  obtain ⟨hlv, _, hcor, hall⟩ := Subdivide_some_spec sqrtf h
  intro v hv
  obtain ⟨p, hp⟩ := List.mem_iff_getElem?.mp hv
  have hpl : p < out.Vertices.length := (List.getElem?_eq_some_iff.mp hp).1
  have hi : p / 6 < numTris m := by omega
  obtain ⟨v0, v1, v2, hc⟩ := hcor _ hi
  have hk : p % 6 < 6 := Nat.mod_lt _ (by norm_num)
  have hvx := (hall _ v0 v1 v2 hi hc).1 (p % 6) hk
  rw [show 6 * (p / 6) + p % 6 = p from Nat.div_add_mod p 6, hp] at hvx
  exact ⟨p / 6, v0, v1, v2, hc, List.getElem?_mem hvx.symm⟩

/-- One more pass: `Subdivide`, then the remaining passes. -/
theorem subdividePasses_succ (sqrtf : α → α) (n : Nat) (m : MeshData α) :
    subdividePasses sqrtf (n + 1) m = (Subdivide sqrtf m).bind (subdividePasses sqrtf n) := by
  simp only [subdividePasses]
  cases Subdivide sqrtf m <;> rfl

/-- The base meshes of `CreateDiamondOfDeath` for two contents of the memory after the
vertex table agree at every offset the index table holds. -/
theorem diamondMesh_agree (cos sin : α → α) (XM_PI height : α) (past1 past2 : Nat → Vertex α) :
    ∀ k ∈ (diamondMesh cos sin XM_PI height past1).Indices32,
      (diamondMesh cos sin XM_PI height past1).Vertices[k]?
        = (diamondMesh cos sin XM_PI height past2).Vertices[k]? := by
  intro k hk
  have h17 : ∀ k ∈ diamondIndices, k < 17 := by decide
  have hlen : (diamondVertices cos sin XM_PI height).length = 17 := rfl
  have hk17 := h17 k hk
  simp only [diamondMesh]
  rw [List.getElem?_append_left (by rw [hlen]; exact hk17),
    List.getElem?_append_left (by rw [hlen]; exact hk17)]

/-- C35: the output of `Subdivide` depends only on the index list and on the vertices the
index list references: on two meshes with the same index list whose vertex lists agree at
every offset the index list holds, `Subdivide` gives the same result; every vertex of the
output is a referenced input vertex or the `MidPoint` of two referenced input vertices; and
the result of `CreateDiamondOfDeath` is the same whatever the vertex entries beyond offset 16
are. -/
theorem C35_subdivide_reads (sqrtf cos sin : α → α) (XM_PI height : α) :
    (∀ m1 m2 : MeshData α, m1.Indices32 = m2.Indices32 →
      (∀ k ∈ m1.Indices32, m1.Vertices[k]? = m2.Vertices[k]?) →
      Subdivide sqrtf m1 = Subdivide sqrtf m2) ∧
    (∀ m out : MeshData α, Subdivide sqrtf m = some out → ∀ v ∈ out.Vertices,
      (∃ k ∈ m.Indices32, m.Vertices[k]? = some v) ∨
      ∃ k1 ∈ m.Indices32, ∃ k2 ∈ m.Indices32, ∃ a b,
        m.Vertices[k1]? = some a ∧ m.Vertices[k2]? = some b ∧ v = MidPoint sqrtf a b) ∧
    (∀ past1 past2 : Nat → Vertex α,
      CreateDiamondOfDeath sqrtf cos sin XM_PI height past1
        = CreateDiamondOfDeath sqrtf cos sin XM_PI height past2) ∧
    ∀ past : Nat → Vertex α,
      ∃ m, CreateDiamondOfDeath sqrtf cos sin XM_PI height past = some m := by
  refine ⟨Subdivide_congr sqrtf, ?_, ?_, ?_⟩
  · intro m out h v hv
    obtain ⟨i, v0, v1, v2, hc, hmem⟩ := Subdivide_vertex_origin sqrtf h v hv
    obtain ⟨⟨k0, m0, r0⟩, ⟨k1, m1, r1⟩, ⟨k2, m2, r2⟩⟩ := hc.referenced
    simp only [triVertices, List.mem_cons, List.mem_singleton, List.not_mem_nil,
      or_false] at hmem
    rcases hmem with e | e | e | e | e | e
    · exact Or.inl ⟨k0, m0, e ▸ r0⟩
    · exact Or.inl ⟨k1, m1, e ▸ r1⟩
    · exact Or.inl ⟨k2, m2, e ▸ r2⟩
    · exact Or.inr ⟨k0, m0, k1, m1, v0, v1, r0, r1, e⟩
    · exact Or.inr ⟨k1, m1, k2, m2, v1, v2, r1, r2, e⟩
    · exact Or.inr ⟨k0, m0, k2, m2, v0, v2, r0, r2, e⟩
  · intro past1 past2
    have h1 : Subdivide sqrtf (diamondMesh cos sin XM_PI height past1)
        = Subdivide sqrtf (diamondMesh cos sin XM_PI height past2) :=
      Subdivide_congr sqrtf _ _ rfl (diamondMesh_agree cos sin XM_PI height past1 past2)
    show subdividePasses sqrtf (2 + 1) _ = subdividePasses sqrtf (2 + 1) _
    rw [subdividePasses_succ, subdividePasses_succ, h1]
  · intro past
    obtain ⟨m, hm, _⟩ := CreateDiamondOfDeath_counts sqrtf cos sin XM_PI height past
    exact ⟨m, hm⟩

end SubdivideReads

/-! ## Subdivide: index counts that are not a multiple of 3 -/

section SubdivideFloor

variable {α : Type} [LinearOrderedField α]

omit [LinearOrderedField α] in
/-- The corners of a triangle exist when the indices of the whole triangles are in range. -/
theorem corners_exist_of_front {inp : MeshData α}
    (hv : ∀ p k, p < 3 * (inp.Indices32.length / 3) → inp.Indices32[p]? = some k →
      k < inp.Vertices.length) {i : Nat} (hi : i < inp.Indices32.length / 3) :
    ∃ v0 v1 v2, Corners inp i v0 v1 v2 := by
  have hlen : 3 * i + 2 < inp.Indices32.length := by omega
  have ha : inp.Indices32[3 * i]? = some (inp.Indices32[3 * i]) :=
    List.getElem?_eq_getElem (by omega)
  have hb : inp.Indices32[3 * i + 1]? = some (inp.Indices32[3 * i + 1]) :=
    List.getElem?_eq_getElem (by omega)
  have hc : inp.Indices32[3 * i + 2]? = some (inp.Indices32[3 * i + 2]) :=
    List.getElem?_eq_getElem (by omega)
  have hav := hv _ _ (by omega) ha
  have hbv := hv _ _ (by omega) hb
  have hcv := hv _ _ (by omega) hc
  exact ⟨_, _, _, _, _, _, ha, hb, hc, List.getElem?_eq_getElem hav,
    List.getElem?_eq_getElem hbv, List.getElem?_eq_getElem hcv⟩

/-- The body of the loop of `Subdivide` for a whole triangle does not read the trailing
indices. -/
theorem subdivideTri_take (sqrtf : α → α) (m : MeshData α) (i : Nat)
    (hfit : m.Indices32.length < 2 ^ 32) (hi : i < m.Indices32.length / 3) :
    subdivideTri sqrtf m i
      = subdivideTri sqrtf
          { m with Indices32 := m.Indices32.take (3 * (m.Indices32.length / 3)) } i := by
  have e0 : u32 (i * 3 + 0) = 3 * i := by rw [u32_of_lt (by omega)]; omega
  have e1 : u32 (i * 3 + 1) = 3 * i + 1 := by rw [u32_of_lt (by omega)]; omega
  have e2 : u32 (i * 3 + 2) = 3 * i + 2 := by rw [u32_of_lt (by omega)]; omega
  simp only [subdivideTri, e0, e1, e2]
  rw [List.getElem?_take_of_lt (by omega), List.getElem?_take_of_lt (by omega),
    List.getElem?_take_of_lt (by omega)]

/-- C34 (amended): for every mesh with `n < 2^32` indices (`n` not necessarily a multiple of
3) whose first `3 * floor(n/3)` indices are valid, `Subdivide` returns, processes exactly
`floor(n/3)` triangles, each with its corners, and drops the trailing `n mod 3` indices (it
returns what it returns on the mesh without them): the output has `12 * floor(n/3)` indices
and `6 * floor(n/3)` vertices, and a mesh with fewer than 3 indices becomes the empty
mesh. -/
theorem C34_subdivide_floor (sqrtf : α → α) (m : MeshData α)
    (hfit : m.Indices32.length < 2 ^ 32)
    (hv : ∀ p k, p < 3 * (m.Indices32.length / 3) → m.Indices32[p]? = some k →
      k < m.Vertices.length) :
    ∃ out, Subdivide sqrtf m = some out ∧
      numTris m = m.Indices32.length / 3 ∧
      out.Indices32.length = 12 * (m.Indices32.length / 3) ∧
      out.Vertices.length = 6 * (m.Indices32.length / 3) ∧
      (∀ i, i < m.Indices32.length / 3 → ∃ v0 v1 v2, Corners m i v0 v1 v2 ∧
        ∀ t, t < 6 → out.Vertices[6 * i + t]? = (triVertices sqrtf v0 v1 v2)[t]?) ∧
      Subdivide sqrtf { m with Indices32 := m.Indices32.take (3 * (m.Indices32.length / 3)) }
        = some out ∧
      (m.Indices32.length < 3 → out = { Vertices := [], Indices32 := [] }) := by
  have hN : numTris m = m.Indices32.length / 3 := by
    unfold numTris
    rw [u32_of_lt hfit]
  have hcor : ∀ j, j < numTris m → ∃ v0 v1 v2, Corners m (0 + j) v0 v1 v2 := by
    intro j hj
    rw [Nat.zero_add]
    exact corners_exist_of_front hv (by omega)
  obtain ⟨out, hout, _⟩ :=
    subdivideLoop_spec sqrtf m (numTris m) 0 { Vertices := [], Indices32 := [] } hcor
      (by omega)
  have hsub : Subdivide sqrtf m = some out := hout
  obtain ⟨hlv, hli, hcor2, hall⟩ := Subdivide_some_spec sqrtf hsub
  rw [hN] at hlv hli hcor2 hall
  refine ⟨out, hsub, hN, hli, hlv, ?_, ?_, ?_⟩
  · intro i hi
    obtain ⟨v0, v1, v2, hc⟩ := hcor2 i hi
    exact ⟨v0, v1, v2, hc, (hall i v0 v1 v2 hi hc).1⟩
  · rw [← hsub]
    have hlen : (m.Indices32.take (3 * (m.Indices32.length / 3))).length
        = 3 * (m.Indices32.length / 3) := by
      rw [List.length_take]
      omega
    have hN2 : u32 (m.Indices32.take (3 * (m.Indices32.length / 3))).length / 3
        = m.Indices32.length / 3 := by
      rw [hlen, u32_of_lt (by omega)]
      omega
    have hN1 : u32 m.Indices32.length / 3 = m.Indices32.length / 3 := by
      rw [u32_of_lt hfit]
    simp only [Subdivide, hN2, hN1]
    symm
    exact subdivideLoop_congr sqrtf _ _ _ 0 _ (fun j hj => by
      rw [Nat.zero_add]
      exact subdivideTri_take sqrtf m j hfit hj)
  · intro h3
    have h0 : m.Indices32.length / 3 = 0 := by omega
    rw [h0] at hlv hli
    obtain ⟨vs, is⟩ := out
    simp only [Nat.mul_zero, List.length_eq_zero] at hlv hli
    rw [hlv, hli]

theorem C34_subdivide_floor_witness :
    (wrapMesh 1).Indices32.length < 2 ^ 32 ∧
    (∀ p k, p < 3 * ((wrapMesh 1).Indices32.length / 3) → (wrapMesh 1).Indices32[p]? = some k →
      k < (wrapMesh 1).Vertices.length) ∧
    ∃ out, Subdivide (fun x : ℚ => x) (wrapMesh 1) = some out ∧
      out.Indices32.length = 12 * ((wrapMesh 1).Indices32.length / 3) ∧
      out.Vertices.length = 6 * ((wrapMesh 1).Indices32.length / 3) ∧
      (wrapMesh 1).Indices32.length = 4 ∧ (wrapMesh 1).Indices32.length / 3 = 1 :=
  have hfit : (wrapMesh 1).Indices32.length < 2 ^ 32 := by
    rw [wrapMesh_length]; norm_num
  have hv : ∀ p k, p < 3 * ((wrapMesh 1).Indices32.length / 3) →
      (wrapMesh 1).Indices32[p]? = some k → k < (wrapMesh 1).Vertices.length :=
    fun _ k _ hk => wrapMesh_valid 1 k (List.getElem?_mem hk)
  ⟨hfit, hv,
    let ⟨out, h1, _, h3, h4, _⟩ := C34_subdivide_floor (fun x : ℚ => x) (wrapMesh 1) hfit hv
    ⟨out, h1, h3, h4, rfl, rfl⟩⟩

/-- `Subdivide` on a mesh whose index count, reduced to 32 bits, is below 3. -/
theorem Subdivide_of_wrapped_count (sqrtf : α → α) (m : MeshData α)
    (h : u32 m.Indices32.length / 3 = 0) :
    Subdivide sqrtf m = some { Vertices := [], Indices32 := [] } := by
  show subdivideLoop sqrtf m (u32 m.Indices32.length / 3) 0 _ = _
  rw [h]
  rfl

theorem u32_wrap_one : u32 (4294967296 + 1) / 3 = 0 := by
  simp only [u32]
  norm_num

/-- C34 (as stated, refuted): the mesh with one vertex and `n = 2^32 + 1` zero indices has
only in-range indices, yet `Subdivide` reads `(uint32)n / 3 = 0` triangles and returns the
empty mesh, not `12 * floor(n/3) = 12 * 1431655765` indices. -/
theorem C34_counterexample :
    (zeroIndexMesh (4294967296 + 1)).Indices32.length = 4294967296 + 1 ∧
    (zeroIndexMesh (4294967296 + 1)).IndicesValid ∧
    (4294967296 + 1) / 3 = 1431655765 ∧
    ∃ out, Subdivide (fun x : ℚ => x) (zeroIndexMesh (4294967296 + 1)) = some out ∧
      out.Indices32.length = 0 ∧ out.Indices32.length ≠ 12 * 1431655765 := by
  have h0 : u32 (zeroIndexMesh (4294967296 + 1)).Indices32.length / 3 = 0 := by
    rw [zeroIndexMesh_length]
    exact u32_wrap_one
  exact ⟨zeroIndexMesh_length _, zeroIndexMesh_valid _, by norm_num, _,
    Subdivide_of_wrapped_count _ _ h0, rfl, by norm_num⟩

end SubdivideFloor

/-! ## Subdivide: invariants of the triangles -/

section SubdivideInvariant

variable {α : Type} [LinearOrderedField α]

/-- A property of triangles that passes from a triangle to the four children `Subdivide`
writes for it, and holds of every triangle of the input, holds of every triangle of the
output when no output index wraps around. -/
theorem Subdivide_triangle_invariant (sqrtf : α → α)
    (Q : Vertex α → Vertex α → Vertex α → Prop)
    (hQ : ∀ v0 v1 v2, Q v0 v1 v2 →
      Q v0 (MidPoint sqrtf v0 v1) (MidPoint sqrtf v0 v2) ∧
      Q (MidPoint sqrtf v0 v1) (MidPoint sqrtf v1 v2) (MidPoint sqrtf v0 v2) ∧
      Q (MidPoint sqrtf v0 v2) (MidPoint sqrtf v1 v2) v2 ∧
      Q (MidPoint sqrtf v0 v1) v1 (MidPoint sqrtf v1 v2))
    {m out : MeshData α} (h : Subdivide sqrtf m = some out)
    (hfit : 2 * m.Indices32.length ≤ 2 ^ 32)
    (hm : ∀ i v0 v1 v2, Corners m i v0 v1 v2 → Q v0 v1 v2) :
    ∀ t w0 w1 w2, Corners out t w0 w1 w2 → Q w0 w1 w2 := by
  obtain ⟨hlv, hli, hcor, hall⟩ := Subdivide_some_spec sqrtf h
  have hN : numTris m = m.Indices32.length / 3 := by
    unfold numTris
    rw [u32_of_lt (by omega)]
  intro t w0 w1 w2 hw
  have hlt := hw.lt_length
  have htri := hw.triangle_eq
  have hi : t / 4 < numTris m := by omega
  obtain ⟨v0, v1, v2, hc⟩ := hcor _ hi
  obtain ⟨q0, q1, q2, q3⟩ := hQ v0 v1 v2 (hm _ v0 v1 v2 hc)
  obtain ⟨t0, t1, t2, t3, _⟩ := Subdivide_triangles sqrtf h hi (by omega) hc
  have hk : t % 4 < 4 := Nat.mod_lt _ (by norm_num)
  have ht : t = 4 * (t / 4) + t % 4 := (Nat.div_add_mod t 4).symm
  rcases (by omega : t % 4 = 0 ∨ t % 4 = 1 ∨ t % 4 = 2 ∨ t % 4 = 3) with e | e | e | e
  · rw [e, Nat.add_zero] at ht
    rw [ht, t0] at htri
    obtain ⟨rfl, rfl, rfl⟩ := Prod.mk.inj (Option.some.inj htri) |>.imp_right Prod.mk.inj
    exact q0
  · rw [e] at ht
    rw [ht, t1] at htri
    obtain ⟨rfl, rfl, rfl⟩ := Prod.mk.inj (Option.some.inj htri) |>.imp_right Prod.mk.inj
    exact q1
  · rw [e] at ht
    rw [ht, t2] at htri
    obtain ⟨rfl, rfl, rfl⟩ := Prod.mk.inj (Option.some.inj htri) |>.imp_right Prod.mk.inj
    exact q2
  · rw [e] at ht
    rw [ht, t3] at htri
    obtain ⟨rfl, rfl, rfl⟩ := Prod.mk.inj (Option.some.inj htri) |>.imp_right Prod.mk.inj
    exact q3

/-- Passes of `Subdivide` keep a property of triangles that passes to the four children, and
after at least one pass every vertex of the mesh is one of the six vertices written for a
triangle with the property. -/
theorem subdividePasses_triangle_invariant (sqrtf : α → α)
    (Q : Vertex α → Vertex α → Vertex α → Prop)
    (hQ : ∀ v0 v1 v2, Q v0 v1 v2 →
      Q v0 (MidPoint sqrtf v0 v1) (MidPoint sqrtf v0 v2) ∧
      Q (MidPoint sqrtf v0 v1) (MidPoint sqrtf v1 v2) (MidPoint sqrtf v0 v2) ∧
      Q (MidPoint sqrtf v0 v2) (MidPoint sqrtf v1 v2) v2 ∧
      Q (MidPoint sqrtf v0 v1) v1 (MidPoint sqrtf v1 v2)) :
    ∀ (n : Nat) (m : MeshData α), m.IndicesValid → 3 ∣ m.Indices32.length →
      m.Indices32.length * 4 ^ n < 2 ^ 32 →
      (∀ i v0 v1 v2, Corners m i v0 v1 v2 → Q v0 v1 v2) →
      ∃ out, subdividePasses sqrtf n m = some out ∧
        (∀ i v0 v1 v2, Corners out i v0 v1 v2 → Q v0 v1 v2) ∧
        (1 ≤ n → ∀ v ∈ out.Vertices, ∃ v0 v1 v2, Q v0 v1 v2 ∧
          v ∈ triVertices sqrtf v0 v1 v2) := by
  intro n
  induction n with
  | zero => intro m _ _ _ hm; exact ⟨m, rfl, hm, fun h => absurd h (by norm_num)⟩
  | succ n ih =>
    intro m hval h3 hfit hm
    obtain ⟨T, hT⟩ := h3
    have hpow : 1 ≤ 4 ^ n := Nat.one_le_pow _ _ (by norm_num)
    have hfit2 : 3 * T * (4 ^ n * 4) < 2 ^ 32 := by
      rw [hT, pow_succ] at hfit
      exact hfit
    have hlt : 3 * T < 2 ^ 32 := by nlinarith
    have hlt2 : 2 * (3 * T) ≤ 2 ^ 32 := by nlinarith
    obtain ⟨m1, hm1⟩ := Subdivide_isSome sqrtf hval
    obtain ⟨_, hi1, _, _⟩ := Subdivide_some_spec sqrtf hm1
    rw [numTris_eq hT hlt] at hi1
    have hQ1 := Subdivide_triangle_invariant sqrtf Q hQ hm1 (by rw [hT]; exact hlt2) hm
    have hfit1 : m1.Indices32.length * 4 ^ n < 2 ^ 32 := by
      rw [hi1]
      nlinarith
    obtain ⟨out, hout, hQo, hvo⟩ :=
      ih m1 (Subdivide_valid sqrtf hm1) ⟨4 * T, by rw [hi1]; ring⟩ hfit1 hQ1
    refine ⟨out, by rw [subdividePasses_succ, hm1]; exact hout, hQo, ?_⟩
    intro _ v hv
    rcases Nat.eq_zero_or_pos n with hn | hn
    · subst hn
      have e : out = m1 := (Option.some.inj hout).symm
      subst e
      obtain ⟨i, v0, v1, v2, hc, hmem⟩ := Subdivide_vertex_origin sqrtf hm1 v hv
      exact ⟨v0, v1, v2, hm i v0 v1 v2 hc, hmem⟩
    · exact hvo hn v hv

end SubdivideInvariant

/-! ## CreateBox: winding against the stored normals -/

section BoxWinding

variable {α : Type} [LinearOrderedField α]

omit [LinearOrderedField α] in
/-- Two 3-vectors with the same components are equal. -/
theorem XMFLOAT3.ext3 {a b : XMFLOAT3 α} (hx : a.x = b.x) (hy : a.y = b.y) (hz : a.z = b.z) :
    a = b := by
  cases a
  cases b
  simp only [XMFLOAT3.mk.injEq]
  exact ⟨hx, hy, hz⟩

/-- With the identity for the rounding, `CreateBoxRounded` is `CreateBox`. -/
theorem CreateBoxRounded_exact (sqrtf : α → α) (width height depth : α)
    (numSubdivisions : Nat) :
    CreateBoxRounded sqrtf (fun x => x) width height depth numSubdivisions
      = CreateBox sqrtf width height depth numSubdivisions := rfl

/-- An integer is rounded to itself. -/
theorem roundTiesEven_intCast (n : ℤ) : roundTiesEven (n : ℚ) = n := by
  simp [roundTiesEven]

/-- One half, half-way between 0 and 1, is rounded to the even 0. -/
theorem roundTiesEven_half : roundTiesEven (1 / 2) = 0 := by
  have h : ⌊(1 / 2 : ℚ)⌋ = 0 := by
    rw [Int.floor_eq_iff]
    norm_num
  unfold roundTiesEven
  rw [h]
  norm_num

/-- A non-negative number is rounded to a positive integer exactly when it is above one
half. -/
theorem roundTiesEven_pos_iff {q : ℚ} (hq : 0 ≤ q) : 0 < roundTiesEven q ↔ 1 / 2 < q := by
  have hf0 : 0 ≤ ⌊q⌋ := Int.floor_nonneg.mpr hq
  have hlt : q < ⌊q⌋ + 1 := Int.lt_floor_add_one q
  constructor
  · intro h
    by_contra hn
    have hq2 : q ≤ 1 / 2 := not_lt.mp hn
    have hfl : ⌊q⌋ = 0 := by
      rw [Int.floor_eq_iff]
      constructor
      · simpa using hq
      · norm_num
        linarith
    have hz : roundTiesEven q = 0 := by
      unfold roundTiesEven
      rw [hfl]
      simp only [Int.cast_zero, sub_zero]
      rcases lt_or_eq_of_le hq2 with h1 | h1
      · rw [if_pos h1]
      · rw [if_neg (by rw [h1]; exact lt_irrefl _), if_neg (by rw [h1]; exact lt_irrefl _),
          if_pos (by decide)]
    rw [hz] at h
    exact lt_irrefl _ h
  · intro h
    unfold roundTiesEven
    rcases lt_trichotomy (q - ⌊q⌋) (1 / 2) with h1 | h1 | h1
    · rw [if_pos h1]
      have : (0 : ℚ) < ⌊q⌋ := by linarith
      exact_mod_cast this
    · rw [if_neg (by rw [h1]; exact lt_irrefl _), if_neg (by rw [h1]; exact lt_irrefl _)]
      have : (0 : ℚ) < ⌊q⌋ := by linarith
      have hpos : 0 < ⌊q⌋ := by exact_mod_cast this
      split_ifs <;> omega
    · rw [if_neg (not_lt.mpr h1.le), if_pos h1]
      omega

/-- The product `0.5f*x` of a positive `x` is stored as a positive `float` exactly when `x`
is above `2^-149`, the smallest positive `float`. -/
theorem binary32_half_pos_iff {x : ℚ} (hx : 0 < x) :
    0 < binary32 (1 / 2 * x) ↔ (2 : ℚ) ^ (-149 : ℤ) < x := by
  have hy : 0 < 1 / 2 * x := by positivity
  have habs : |1 / 2 * x| = 1 / 2 * x := abs_of_pos hy
  have hulp : ∀ e : ℤ, (0 : ℚ) < 2 ^ e := fun e => zpow_pos (by norm_num) e
  unfold binary32
  dsimp only
  rw [habs]
  rw [mul_pos_iff_of_pos_right (hulp _)]
  have hc : (0 : ℚ) < (roundTiesEven (1 / 2 * x / 2 ^ (max (Int.log 2 (1 / 2 * x)) (-126) - 23)) : ℚ)
      ↔ 0 < roundTiesEven (1 / 2 * x / 2 ^ (max (Int.log 2 (1 / 2 * x)) (-126) - 23)) :=
    Int.cast_pos
  rw [hc, roundTiesEven_pos_iff (div_nonneg hy.le (hulp _).le), lt_div_iff₀ (hulp _)]
  rcases le_total (Int.log 2 (1 / 2 * x)) (-126) with hL | hL
  · rw [max_eq_right hL]
    have e : (1 / 2 : ℚ) * 2 ^ ((-126 : ℤ) - 23) = 1 / 2 * 2 ^ (-149 : ℤ) := by norm_num
    rw [e]
    generalize (2 : ℚ) ^ (-149 : ℤ) = c
    constructor <;> intro h <;> linarith
  · rw [max_eq_left hL]
    have hlog : ((2 : ℕ) : ℚ) ^ Int.log 2 (1 / 2 * x) ≤ 1 / 2 * x :=
      Int.zpow_log_le_self (by norm_num) hy
    rw [Nat.cast_ofNat] at hlog
    have hmono1 : (2 : ℚ) ^ (Int.log 2 (1 / 2 * x) - 23) ≤ 2 ^ Int.log 2 (1 / 2 * x) :=
      zpow_le_zpow_right₀ (by norm_num) (by omega)
    have hmono2 : (2 : ℚ) ^ (-149 : ℤ) ≤ 2 ^ Int.log 2 (1 / 2 * x) :=
      zpow_le_zpow_right₀ (by norm_num) (by omega)
    have hp := hulp (Int.log 2 (1 / 2 * x) - 23)
    have hp2 := hulp (-149)
    generalize (2 : ℚ) ^ (-149 : ℤ) = c at hmono2 hp2 ⊢
    generalize (2 : ℚ) ^ (Int.log 2 (1 / 2 * x) - 23) = u at hmono1 hp ⊢
    generalize (2 : ℚ) ^ Int.log 2 (1 / 2 * x) = p at hlog hmono1 hmono2
    constructor <;> intro _ <;> linarith

/-- Rounding of a power of two, with its exponent read off. -/
theorem binary32_zpow (k : ℤ) :
    binary32 (2 ^ k)
      = (roundTiesEven (2 ^ k / 2 ^ (max k (-126) - 23)) : ℚ) * 2 ^ (max k (-126) - 23) := by
  have hlog : Int.log 2 |(2 : ℚ) ^ k| = k := by
    rw [abs_of_pos (zpow_pos (by norm_num) k)]
    have := @Int.log_zpow ℚ _ _ 2 (by norm_num) k
    rwa [Nat.cast_ofNat] at this
  unfold binary32
  dsimp only
  rw [hlog]

/-- The `float` values `2^-149` and `2` are stored as they are, `0.5f*2` as `1` and
`0.5f*2^-149`, half-way between `0` and the smallest positive `float`, as `0`. -/
theorem binary32_values :
    binary32 (2 ^ (-149 : ℤ)) = 2 ^ (-149 : ℤ) ∧ binary32 2 = 2 ∧
    binary32 (1 / 2 * 2) = 1 ∧ binary32 (1 / 2 * 2 ^ (-149 : ℤ)) = 0 := by
  refine ⟨?_, ?_, ?_, ?_⟩
  · rw [binary32_zpow, max_eq_right (by norm_num)]
    have : (2 : ℚ) ^ (-149 : ℤ) / 2 ^ ((-126 : ℤ) - 23) = ((1 : ℤ) : ℚ) := by norm_num
    rw [this, roundTiesEven_intCast]
    norm_num
  · have e : binary32 2 = binary32 (2 ^ (1 : ℤ)) := by
      rw [show (2 : ℚ) ^ (1 : ℤ) = 2 by norm_num]
    rw [e, binary32_zpow, max_eq_left (by norm_num)]
    have : (2 : ℚ) ^ (1 : ℤ) / 2 ^ ((1 : ℤ) - 23) = ((8388608 : ℤ) : ℚ) := by norm_num
    rw [this, roundTiesEven_intCast]
    norm_num
  · have e : binary32 (1 / 2 * 2) = binary32 (2 ^ (0 : ℤ)) := by
      rw [show (2 : ℚ) ^ (0 : ℤ) = 1 / 2 * 2 by norm_num]
    rw [e, binary32_zpow, max_eq_left (by norm_num)]
    have : (2 : ℚ) ^ (0 : ℤ) / 2 ^ ((0 : ℤ) - 23) = ((8388608 : ℤ) : ℚ) := by norm_num
    rw [this, roundTiesEven_intCast]
    norm_num
  · have e : binary32 (1 / 2 * 2 ^ (-149 : ℤ)) = binary32 (2 ^ (-150 : ℤ)) := by
      rw [show (2 : ℚ) ^ (-150 : ℤ) = 1 / 2 * 2 ^ (-149 : ℤ) by norm_num]
    rw [e, binary32_zpow, max_eq_right (by norm_num)]
    have : (2 : ℚ) ^ (-150 : ℤ) / 2 ^ ((-126 : ℤ) - 23) = 1 / 2 := by norm_num
    rw [this, roundTiesEven_half]
    norm_num

/-- C36 (amended): for all `width`, `height`, `depth` whose halves as stored,
`0.5f*width`, `0.5f*height`, `0.5f*depth` rounded by `fl`, are `> 0` (with the identity for
`fl`, exact arithmetic: all `width, height, depth > 0`; with `binary32`: all
`width, height, depth` above `2^-149`, the smallest positive `float`), `CreateBox` with
`numSubdivisions = 0` returns the base box, and the winding of every one of its 12 triangles
agrees with the stored normals: for each triangle with vertex offsets `(a,b,c)`, the vector
`(P_b - P_a) x (P_c - P_a)`, taken exactly on the stored positions, is a strictly positive
multiple of the normal stored at `a`, which is also the normal stored at `b` and at `c`. -/
theorem C36_box_winding (sqrtf fl : α → α) (width height depth : α)
    (hw : 0 < fl (1 / 2 * width)) (hh : 0 < fl (1 / 2 * height))
    (hd : 0 < fl (1 / 2 * depth)) :
    (∃ m, CreateBoxRounded sqrtf fl width height depth 0 = some m ∧
      m.Indices32.length = 3 * 12 ∧
      ∀ t, t < 12 → ∃ va vb vc k, m.triangle t = some (va, vb, vc) ∧ 0 < k ∧
        XMVector3Cross (sub3 vb.Position va.Position) (sub3 vc.Position va.Position)
          = scale3 k va.Normal ∧
        vb.Normal = va.Normal ∧ vc.Normal = va.Normal) ∧
    CreateBoxRounded sqrtf (fun x => x) width height depth 0
      = CreateBox sqrtf width height depth 0 ∧
    ∀ x : ℚ, 0 < x → (0 < binary32 (1 / 2 * x) ↔ (2 : ℚ) ^ (-149 : ℤ) < x) := by
  refine ⟨⟨_, rfl, rfl, ?_⟩, rfl, fun x hx => binary32_half_pos_iff hx⟩
  have hwh : 0 < 4 * (fl (1 / 2 * width) * fl (1 / 2 * height)) :=
    mul_pos (by norm_num) (mul_pos hw hh)
  have hwd : 0 < 4 * (fl (1 / 2 * width) * fl (1 / 2 * depth)) :=
    mul_pos (by norm_num) (mul_pos hw hd)
  have hhd : 0 < 4 * (fl (1 / 2 * height) * fl (1 / 2 * depth)) :=
    mul_pos (by norm_num) (mul_pos hh hd)
  intro t ht
  interval_cases t
  · refine ⟨(Vertex.ofFloats (-(fl (1 / 2 * width))) (-(fl (1 / 2 * height))) (-(fl (1 / 2 * depth)))
      0 0 (-1) 1 0 0 0 1),
      (Vertex.ofFloats (-(fl (1 / 2 * width))) (fl (1 / 2 * height)) (-(fl (1 / 2 * depth)))
          0 0 (-1) 1 0 0 0 0),
      (Vertex.ofFloats (fl (1 / 2 * width)) (fl (1 / 2 * height)) (-(fl (1 / 2 * depth)))
          0 0 (-1) 1 0 0 1 0),
      4 * (fl (1 / 2 * width) * fl (1 / 2 * height)), rfl, hwh, ?_, rfl, rfl⟩
    refine XMFLOAT3.ext3 ?_ ?_ ?_ <;>
      simp only [Vertex.ofFloats, XMVector3Cross, sub3, scale3] <;> ring
  · refine ⟨(Vertex.ofFloats (-(fl (1 / 2 * width))) (-(fl (1 / 2 * height))) (-(fl (1 / 2 * depth)))
      0 0 (-1) 1 0 0 0 1),
      (Vertex.ofFloats (fl (1 / 2 * width)) (fl (1 / 2 * height)) (-(fl (1 / 2 * depth)))
          0 0 (-1) 1 0 0 1 0),
      (Vertex.ofFloats (fl (1 / 2 * width)) (-(fl (1 / 2 * height))) (-(fl (1 / 2 * depth)))
          0 0 (-1) 1 0 0 1 1),
      4 * (fl (1 / 2 * width) * fl (1 / 2 * height)), rfl, hwh, ?_, rfl, rfl⟩
    refine XMFLOAT3.ext3 ?_ ?_ ?_ <;>
      simp only [Vertex.ofFloats, XMVector3Cross, sub3, scale3] <;> ring
  · refine ⟨(Vertex.ofFloats (-(fl (1 / 2 * width))) (-(fl (1 / 2 * height))) (fl (1 / 2 * depth))
      0 0 1 (-1) 0 0 1 1),
      (Vertex.ofFloats (fl (1 / 2 * width)) (-(fl (1 / 2 * height))) (fl (1 / 2 * depth))
          0 0 1 (-1) 0 0 0 1),
      (Vertex.ofFloats (fl (1 / 2 * width)) (fl (1 / 2 * height)) (fl (1 / 2 * depth))
          0 0 1 (-1) 0 0 0 0),
      4 * (fl (1 / 2 * width) * fl (1 / 2 * height)), rfl, hwh, ?_, rfl, rfl⟩
    refine XMFLOAT3.ext3 ?_ ?_ ?_ <;>
      simp only [Vertex.ofFloats, XMVector3Cross, sub3, scale3] <;> ring
  · refine ⟨(Vertex.ofFloats (-(fl (1 / 2 * width))) (-(fl (1 / 2 * height))) (fl (1 / 2 * depth))
      0 0 1 (-1) 0 0 1 1),
      (Vertex.ofFloats (fl (1 / 2 * width)) (fl (1 / 2 * height)) (fl (1 / 2 * depth))
          0 0 1 (-1) 0 0 0 0),
      (Vertex.ofFloats (-(fl (1 / 2 * width))) (fl (1 / 2 * height)) (fl (1 / 2 * depth))
          0 0 1 (-1) 0 0 1 0),
      4 * (fl (1 / 2 * width) * fl (1 / 2 * height)), rfl, hwh, ?_, rfl, rfl⟩
    refine XMFLOAT3.ext3 ?_ ?_ ?_ <;>
      simp only [Vertex.ofFloats, XMVector3Cross, sub3, scale3] <;> ring
  · refine ⟨(Vertex.ofFloats (-(fl (1 / 2 * width))) (fl (1 / 2 * height)) (-(fl (1 / 2 * depth)))
      0 1 0 1 0 0 0 1),
      (Vertex.ofFloats (-(fl (1 / 2 * width))) (fl (1 / 2 * height)) (fl (1 / 2 * depth))
          0 1 0 1 0 0 0 0),
      (Vertex.ofFloats (fl (1 / 2 * width)) (fl (1 / 2 * height)) (fl (1 / 2 * depth))
          0 1 0 1 0 0 1 0),
      4 * (fl (1 / 2 * width) * fl (1 / 2 * depth)), rfl, hwd, ?_, rfl, rfl⟩
    refine XMFLOAT3.ext3 ?_ ?_ ?_ <;>
      simp only [Vertex.ofFloats, XMVector3Cross, sub3, scale3] <;> ring
  · refine ⟨(Vertex.ofFloats (-(fl (1 / 2 * width))) (fl (1 / 2 * height)) (-(fl (1 / 2 * depth)))
      0 1 0 1 0 0 0 1),
      (Vertex.ofFloats (fl (1 / 2 * width)) (fl (1 / 2 * height)) (fl (1 / 2 * depth))
          0 1 0 1 0 0 1 0),
      (Vertex.ofFloats (fl (1 / 2 * width)) (fl (1 / 2 * height)) (-(fl (1 / 2 * depth)))
          0 1 0 1 0 0 1 1),
      4 * (fl (1 / 2 * width) * fl (1 / 2 * depth)), rfl, hwd, ?_, rfl, rfl⟩
    refine XMFLOAT3.ext3 ?_ ?_ ?_ <;>
      simp only [Vertex.ofFloats, XMVector3Cross, sub3, scale3] <;> ring
  · refine ⟨(Vertex.ofFloats (-(fl (1 / 2 * width))) (-(fl (1 / 2 * height))) (-(fl (1 / 2 * depth)))
      0 (-1) 0 (-1) 0 0 1 1),
      (Vertex.ofFloats (fl (1 / 2 * width)) (-(fl (1 / 2 * height))) (-(fl (1 / 2 * depth)))
          0 (-1) 0 (-1) 0 0 0 1),
      (Vertex.ofFloats (fl (1 / 2 * width)) (-(fl (1 / 2 * height))) (fl (1 / 2 * depth))
          0 (-1) 0 (-1) 0 0 0 0),
      4 * (fl (1 / 2 * width) * fl (1 / 2 * depth)), rfl, hwd, ?_, rfl, rfl⟩
    refine XMFLOAT3.ext3 ?_ ?_ ?_ <;>
      simp only [Vertex.ofFloats, XMVector3Cross, sub3, scale3] <;> ring
  · refine ⟨(Vertex.ofFloats (-(fl (1 / 2 * width))) (-(fl (1 / 2 * height))) (-(fl (1 / 2 * depth)))
      0 (-1) 0 (-1) 0 0 1 1),
      (Vertex.ofFloats (fl (1 / 2 * width)) (-(fl (1 / 2 * height))) (fl (1 / 2 * depth))
          0 (-1) 0 (-1) 0 0 0 0),
      (Vertex.ofFloats (-(fl (1 / 2 * width))) (-(fl (1 / 2 * height))) (fl (1 / 2 * depth))
          0 (-1) 0 (-1) 0 0 1 0),
      4 * (fl (1 / 2 * width) * fl (1 / 2 * depth)), rfl, hwd, ?_, rfl, rfl⟩
    refine XMFLOAT3.ext3 ?_ ?_ ?_ <;>
      simp only [Vertex.ofFloats, XMVector3Cross, sub3, scale3] <;> ring
  · refine ⟨(Vertex.ofFloats (-(fl (1 / 2 * width))) (-(fl (1 / 2 * height))) (fl (1 / 2 * depth))
      (-1) 0 0 0 0 (-1) 0 1),
      (Vertex.ofFloats (-(fl (1 / 2 * width))) (fl (1 / 2 * height)) (fl (1 / 2 * depth))
          (-1) 0 0 0 0 (-1) 0 0),
      (Vertex.ofFloats (-(fl (1 / 2 * width))) (fl (1 / 2 * height)) (-(fl (1 / 2 * depth)))
          (-1) 0 0 0 0 (-1) 1 0),
      4 * (fl (1 / 2 * height) * fl (1 / 2 * depth)), rfl, hhd, ?_, rfl, rfl⟩
    refine XMFLOAT3.ext3 ?_ ?_ ?_ <;>
      simp only [Vertex.ofFloats, XMVector3Cross, sub3, scale3] <;> ring
  · refine ⟨(Vertex.ofFloats (-(fl (1 / 2 * width))) (-(fl (1 / 2 * height))) (fl (1 / 2 * depth))
      (-1) 0 0 0 0 (-1) 0 1),
      (Vertex.ofFloats (-(fl (1 / 2 * width))) (fl (1 / 2 * height)) (-(fl (1 / 2 * depth)))
          (-1) 0 0 0 0 (-1) 1 0),
      (Vertex.ofFloats (-(fl (1 / 2 * width))) (-(fl (1 / 2 * height))) (-(fl (1 / 2 * depth)))
          (-1) 0 0 0 0 (-1) 1 1),
      4 * (fl (1 / 2 * height) * fl (1 / 2 * depth)), rfl, hhd, ?_, rfl, rfl⟩
    refine XMFLOAT3.ext3 ?_ ?_ ?_ <;>
      simp only [Vertex.ofFloats, XMVector3Cross, sub3, scale3] <;> ring
  · refine ⟨(Vertex.ofFloats (fl (1 / 2 * width)) (-(fl (1 / 2 * height))) (-(fl (1 / 2 * depth)))
      1 0 0 0 0 1 0 1),
      (Vertex.ofFloats (fl (1 / 2 * width)) (fl (1 / 2 * height)) (-(fl (1 / 2 * depth)))
          1 0 0 0 0 1 0 0),
      (Vertex.ofFloats (fl (1 / 2 * width)) (fl (1 / 2 * height)) (fl (1 / 2 * depth))
          1 0 0 0 0 1 1 0),
      4 * (fl (1 / 2 * height) * fl (1 / 2 * depth)), rfl, hhd, ?_, rfl, rfl⟩
    refine XMFLOAT3.ext3 ?_ ?_ ?_ <;>
      simp only [Vertex.ofFloats, XMVector3Cross, sub3, scale3] <;> ring
  · refine ⟨(Vertex.ofFloats (fl (1 / 2 * width)) (-(fl (1 / 2 * height))) (-(fl (1 / 2 * depth)))
      1 0 0 0 0 1 0 1),
      (Vertex.ofFloats (fl (1 / 2 * width)) (fl (1 / 2 * height)) (fl (1 / 2 * depth))
          1 0 0 0 0 1 1 0),
      (Vertex.ofFloats (fl (1 / 2 * width)) (-(fl (1 / 2 * height))) (fl (1 / 2 * depth))
          1 0 0 0 0 1 1 1),
      4 * (fl (1 / 2 * height) * fl (1 / 2 * depth)), rfl, hhd, ?_, rfl, rfl⟩
    refine XMFLOAT3.ext3 ?_ ?_ ?_ <;>
      simp only [Vertex.ofFloats, XMVector3Cross, sub3, scale3] <;> ring

theorem C36_box_winding_witness :
    (0 : ℚ) < binary32 (1 / 2 * 2) ∧ (0 : ℚ) < binary32 (1 / 2 * 2) ∧
    (0 : ℚ) < binary32 (1 / 2 * 2) ∧
    (∃ m, CreateBoxRounded (fun x : ℚ => x) binary32 2 2 2 0 = some m ∧
      m.Indices32.length = 3 * 12 ∧
      ∀ t, t < 12 → ∃ va vb vc k, m.triangle t = some (va, vb, vc) ∧ 0 < k ∧
        XMVector3Cross (sub3 vb.Position va.Position) (sub3 vc.Position va.Position)
          = scale3 k va.Normal ∧
        vb.Normal = va.Normal ∧ vc.Normal = va.Normal) ∧
    CreateBoxRounded (fun x : ℚ => x) (fun x => x) 2 2 2 0
      = CreateBox (fun x : ℚ => x) 2 2 2 0 ∧
    ∀ x : ℚ, 0 < x → (0 < binary32 (1 / 2 * x) ↔ (2 : ℚ) ^ (-149 : ℤ) < x) :=
  have h : (0 : ℚ) < binary32 (1 / 2 * 2) := by
    rw [binary32_values.2.2.1]
    norm_num
  ⟨h, h, h, C36_box_winding (fun x : ℚ => x) binary32 2 2 2 h h h⟩

/-- C36 (as stated, refuted): `width = 2^-149`, the smallest positive `float`, and
`height = depth = 2` are `float` values `> 0`, yet `0.5f*width` is stored as `0`: in the box
`CreateBox` returns for `numSubdivisions = 0`, triangle 0 (offsets `0, 1, 2`, front face,
stored normal `(0,0,-1)`) has `(P_1 - P_0) x (P_2 - P_0) = (0,0,0)`, which is no strictly
positive multiple of the stored normal. -/
theorem C36_counterexample :
    (0 : ℚ) < 2 ^ (-149 : ℤ) ∧ (0 : ℚ) < 2 ∧
    binary32 (2 ^ (-149 : ℤ)) = 2 ^ (-149 : ℤ) ∧ binary32 2 = 2 ∧
    binary32 (1 / 2 * 2 ^ (-149 : ℤ)) = 0 ∧
    ∃ m va vb vc,
      CreateBoxRounded (fun x : ℚ => x) binary32 (2 ^ (-149 : ℤ)) 2 2 0 = some m ∧
      m.triangle 0 = some (va, vb, vc) ∧
      va.Normal = ⟨0, 0, -1⟩ ∧
      XMVector3Cross (sub3 vb.Position va.Position) (sub3 vc.Position va.Position)
        = ⟨0, 0, 0⟩ ∧
      ¬ ∃ k : ℚ, 0 < k ∧
        XMVector3Cross (sub3 vb.Position va.Position) (sub3 vc.Position va.Position)
          = scale3 k va.Normal := by
  obtain ⟨hmin, htwo, hone, hzero⟩ := binary32_values
  have hcross : XMVector3Cross
      (sub3 (Vertex.ofFloats (-(binary32 (1 / 2 * 2 ^ (-149 : ℤ)))) (binary32 (1 / 2 * 2))
          (-(binary32 (1 / 2 * 2))) 0 0 (-1) 1 0 0 0 0).Position
        (Vertex.ofFloats (-(binary32 (1 / 2 * 2 ^ (-149 : ℤ)))) (-(binary32 (1 / 2 * 2)))
          (-(binary32 (1 / 2 * 2))) 0 0 (-1) 1 0 0 0 1).Position)
      (sub3 (Vertex.ofFloats (binary32 (1 / 2 * 2 ^ (-149 : ℤ))) (binary32 (1 / 2 * 2))
          (-(binary32 (1 / 2 * 2))) 0 0 (-1) 1 0 0 1 0).Position
        (Vertex.ofFloats (-(binary32 (1 / 2 * 2 ^ (-149 : ℤ)))) (-(binary32 (1 / 2 * 2)))
          (-(binary32 (1 / 2 * 2))) 0 0 (-1) 1 0 0 0 1).Position)
      = (⟨0, 0, 0⟩ : XMFLOAT3 ℚ) := by
    rw [hzero, hone]
    simp only [Vertex.ofFloats, XMVector3Cross, sub3]
    norm_num
  refine ⟨by positivity, by norm_num, hmin, htwo, hzero,
    _,
    Vertex.ofFloats (-(binary32 (1 / 2 * 2 ^ (-149 : ℤ)))) (-(binary32 (1 / 2 * 2)))
      (-(binary32 (1 / 2 * 2))) 0 0 (-1) 1 0 0 0 1,
    Vertex.ofFloats (-(binary32 (1 / 2 * 2 ^ (-149 : ℤ)))) (binary32 (1 / 2 * 2))
      (-(binary32 (1 / 2 * 2))) 0 0 (-1) 1 0 0 0 0,
    Vertex.ofFloats (binary32 (1 / 2 * 2 ^ (-149 : ℤ))) (binary32 (1 / 2 * 2))
      (-(binary32 (1 / 2 * 2))) 0 0 (-1) 1 0 0 1 0,
    rfl, rfl, rfl, hcross, ?_⟩
  rintro ⟨k, hk, h⟩
  rw [hcross] at h
  have hz : (0 : ℚ) = k * (-1) := congrArg XMFLOAT3.z h
  linarith

end BoxWinding

/-! ## CreateBox: subdivision keeps the faces flat -/

section BoxFacesFlat

variable {α : Type} [LinearOrderedField α]

/-- The normal `MidPoint` computes from two equal axis unit normals is that normal, when
`sqrtf 1 = 1`. -/
theorem normalize_axis (sqrtf : α → α) (hsqrt : sqrtf 1 = 1) {n : XMFLOAT3 α}
    (hn : IsAxisUnit n) : XMVector3Normalize sqrtf (scale3 (1 / 2) (add3 n n)) = n := by
  have hlen : ∀ x y z : α, x * x + y * y + z * z = 1 →
      XMVector3Normalize sqrtf (⟨x, y, z⟩ : XMFLOAT3 α) = ⟨x, y, z⟩ := by
    intro x y z h
    simp only [XMVector3Normalize, length3, dot3, h, hsqrt, div_one]
  rcases hn with h | h | h | h | h | h <;> subst h <;>
    simp only [scale3, add3] <;> norm_num <;> exact hlen _ _ _ (by norm_num)

/-- The mean of two numbers of absolute value at most `|w|` has absolute value at most
`|w|`. -/
theorem abs_half_add_le {x y w : α} (hx : |x| ≤ |w|) (hy : |y| ≤ |w|) :
    |1 / 2 * (x + y)| ≤ |w| := by
  obtain ⟨x1, x2⟩ := abs_le.mp hx
  obtain ⟨y1, y2⟩ := abs_le.mp hy
  exact abs_le.mpr ⟨by linarith, by linarith⟩

/-- The midpoint of two vertices on the same face of the box is on that face. -/
theorem MidPoint_onBoxFace (sqrtf : α → α) (hsqrt : sqrtf 1 = 1) (w2 h2 d2 : α)
    {n : XMFLOAT3 α} (hn : IsAxisUnit n) {a b : Vertex α}
    (ha : OnBoxFace w2 h2 d2 n a) (hb : OnBoxFace w2 h2 d2 n b) :
    OnBoxFace w2 h2 d2 n (MidPoint sqrtf a b) := by
  obtain ⟨an, ax, ay, az, abx, aby, abz, au0, au1, av0, av1⟩ := ha
  obtain ⟨bn, bx, by1, bz, bbx, bby, bbz, bu0, bu1, bv0, bv1⟩ := hb
  refine ⟨?_, ?_, ?_, ?_, ?_, ?_, ?_, ?_, ?_, ?_, ?_⟩
  · show XMVector3Normalize sqrtf (scale3 (1 / 2) (add3 a.Normal b.Normal)) = n
    rw [an, bn]
    exact normalize_axis sqrtf hsqrt hn
  · intro h
    show 1 / 2 * (a.Position.x + b.Position.x) = n.x * w2
    rw [ax h, bx h]; ring
  · intro h
    show 1 / 2 * (a.Position.y + b.Position.y) = n.y * h2
    rw [ay h, by1 h]; ring
  · intro h
    show 1 / 2 * (a.Position.z + b.Position.z) = n.z * d2
    rw [az h, bz h]; ring
  · exact abs_half_add_le abx bbx
  · exact abs_half_add_le aby bby
  · exact abs_half_add_le abz bbz
  · show 0 ≤ 1 / 2 * (a.TexC.x + b.TexC.x)
    linarith
  · show 1 / 2 * (a.TexC.x + b.TexC.x) ≤ 1
    linarith
  · show 0 ≤ 1 / 2 * (a.TexC.y + b.TexC.y)
    linarith
  · show 1 / 2 * (a.TexC.y + b.TexC.y) ≤ 1
    linarith

/-- The four vertices of face `f` in the vertex table of the box lie on one face of the
box. -/
theorem boxVertices_face (width height depth : α) :
    ∀ f, f < 6 → ∃ n : XMFLOAT3 α, IsAxisUnit n ∧
      ∀ k v, k / 4 = f → (boxVertices width height depth)[k]? = some v →
        OnBoxFace (1 / 2 * width) (1 / 2 * height) (1 / 2 * depth) n v := by
  have hface : ∀ (n : XMFLOAT3 α) (q0 q1 q2 q3 : Vertex α) (f : Nat),
      (boxVertices width height depth)[4 * f]? = some q0 →
      (boxVertices width height depth)[4 * f + 1]? = some q1 →
      (boxVertices width height depth)[4 * f + 2]? = some q2 →
      (boxVertices width height depth)[4 * f + 3]? = some q3 →
      OnBoxFace (1 / 2 * width) (1 / 2 * height) (1 / 2 * depth) n q0 →
      OnBoxFace (1 / 2 * width) (1 / 2 * height) (1 / 2 * depth) n q1 →
      OnBoxFace (1 / 2 * width) (1 / 2 * height) (1 / 2 * depth) n q2 →
      OnBoxFace (1 / 2 * width) (1 / 2 * height) (1 / 2 * depth) n q3 →
      ∀ k v, k / 4 = f → (boxVertices width height depth)[k]? = some v →
        OnBoxFace (1 / 2 * width) (1 / 2 * height) (1 / 2 * depth) n v := by
    intro n q0 q1 q2 q3 f e0 e1 e2 e3 o0 o1 o2 o3 k v hk hv
    rcases (by omega : k = 4 * f ∨ k = 4 * f + 1 ∨ k = 4 * f + 2 ∨ k = 4 * f + 3) with
      h | h | h | h <;> subst h
    · rw [e0] at hv; exact Option.some.inj hv ▸ o0
    · rw [e1] at hv; exact Option.some.inj hv ▸ o1
    · rw [e2] at hv; exact Option.some.inj hv ▸ o2
    · rw [e3] at hv; exact Option.some.inj hv ▸ o3
  intro f hf
  interval_cases f
  · refine ⟨⟨0, 0, -1⟩, by simp [IsAxisUnit], hface _ _ _ _ _ 0 rfl rfl rfl rfl ?_ ?_ ?_ ?_⟩ <;>
      simp [OnBoxFace, Vertex.ofFloats, boxVertices]
  · refine ⟨⟨0, 0, 1⟩, by simp [IsAxisUnit], hface _ _ _ _ _ 1 rfl rfl rfl rfl ?_ ?_ ?_ ?_⟩ <;>
      simp [OnBoxFace, Vertex.ofFloats, boxVertices]
  · refine ⟨⟨0, 1, 0⟩, by simp [IsAxisUnit], hface _ _ _ _ _ 2 rfl rfl rfl rfl ?_ ?_ ?_ ?_⟩ <;>
      simp [OnBoxFace, Vertex.ofFloats, boxVertices]
  · refine ⟨⟨0, -1, 0⟩, by simp [IsAxisUnit], hface _ _ _ _ _ 3 rfl rfl rfl rfl ?_ ?_ ?_ ?_⟩ <;>
      simp [OnBoxFace, Vertex.ofFloats, boxVertices]
  · refine ⟨⟨-1, 0, 0⟩, by simp [IsAxisUnit], hface _ _ _ _ _ 4 rfl rfl rfl rfl ?_ ?_ ?_ ?_⟩ <;>
      simp [OnBoxFace, Vertex.ofFloats, boxVertices]
  · refine ⟨⟨1, 0, 0⟩, by simp [IsAxisUnit], hface _ _ _ _ _ 5 rfl rfl rfl rfl ?_ ?_ ?_ ?_⟩ <;>
      simp [OnBoxFace, Vertex.ofFloats, boxVertices]

/-- The three corners of every triangle of the base box lie on one face of the box. -/
theorem boxMesh_faces (width height depth : α) :
    ∀ i v0 v1 v2, Corners (boxMesh width height depth) i v0 v1 v2 →
      ∃ n : XMFLOAT3 α, IsAxisUnit n ∧
        OnBoxFace (1 / 2 * width) (1 / 2 * height) (1 / 2 * depth) n v0 ∧
        OnBoxFace (1 / 2 * width) (1 / 2 * height) (1 / 2 * depth) n v1 ∧
        OnBoxFace (1 / 2 * width) (1 / 2 * height) (1 / 2 * depth) n v2 := by
  intro i v0 v1 v2 hc
  have hlt : 3 * i + 2 < 36 := hc.lt_length
  obtain ⟨a, b, c, ha, hb, hcc, h0, h1, h2⟩ := hc
  have ha : boxIndices[3 * i]? = some a := ha
  have hb : boxIndices[3 * i + 1]? = some b := hb
  have hcc : boxIndices[3 * i + 2]? = some c := hcc
  have ka := boxIndices_block (3 * i) (by omega)
  have kb := boxIndices_block (3 * i + 1) (by omega)
  have kc := boxIndices_block (3 * i + 2) (by omega)
  rw [ha] at ka
  rw [hb] at kb
  rw [hcc] at kc
  simp only [Option.map_some', Option.some.injEq] at ka kb kc
  obtain ⟨n, hn, hall⟩ := boxVertices_face width height depth (i / 2) (by omega)
  exact ⟨n, hn, hall a v0 (by omega) h0, hall b v1 (by omega) h1, hall c v2 (by omega) h2⟩

/-- C37: in exact arithmetic (any ordered field and any `sqrtf` with `sqrtf 1 = 1`), for all
`width`, `height`, `depth` and every `numSubdivisions`, `CreateBox` returns a mesh in which
every vertex has a normal equal to one of the six axis unit vectors and lies on the box face
that normal names: the position coordinate along the normal's axis equals the normal's sign
times half the corresponding dimension, the three coordinates are within the box extents,
and the texture coordinates are in `[0,1]`. -/
theorem C37_box_faces_flat (sqrtf : α → α) (hsqrt : sqrtf 1 = 1) (width height depth : α)
    (numSubdivisions : Nat) :
    ∃ m, CreateBox sqrtf width height depth numSubdivisions = some m ∧
      ∀ v ∈ m.Vertices, ∃ n : XMFLOAT3 α, IsAxisUnit n ∧
        OnBoxFace (1 / 2 * width) (1 / 2 * height) (1 / 2 * depth) n v := by
  have hk : min numSubdivisions 6 ≤ 6 := Nat.min_le_right _ _
  have hp := pow4_le hk
  obtain ⟨out, hout, _, hvo⟩ := subdividePasses_triangle_invariant sqrtf
    (fun v0 v1 v2 => ∃ n : XMFLOAT3 α, IsAxisUnit n ∧
      OnBoxFace (1 / 2 * width) (1 / 2 * height) (1 / 2 * depth) n v0 ∧
      OnBoxFace (1 / 2 * width) (1 / 2 * height) (1 / 2 * depth) n v1 ∧
      OnBoxFace (1 / 2 * width) (1 / 2 * height) (1 / 2 * depth) n v2)
    (fun v0 v1 v2 ⟨n, hn, h0, h1, h2⟩ =>
      ⟨⟨n, hn, h0, MidPoint_onBoxFace sqrtf hsqrt _ _ _ hn h0 h1,
          MidPoint_onBoxFace sqrtf hsqrt _ _ _ hn h0 h2⟩,
        ⟨n, hn, MidPoint_onBoxFace sqrtf hsqrt _ _ _ hn h0 h1,
          MidPoint_onBoxFace sqrtf hsqrt _ _ _ hn h1 h2,
          MidPoint_onBoxFace sqrtf hsqrt _ _ _ hn h0 h2⟩,
        ⟨n, hn, MidPoint_onBoxFace sqrtf hsqrt _ _ _ hn h0 h2,
          MidPoint_onBoxFace sqrtf hsqrt _ _ _ hn h1 h2, h2⟩,
        ⟨n, hn, MidPoint_onBoxFace sqrtf hsqrt _ _ _ hn h0 h1, h1,
          MidPoint_onBoxFace sqrtf hsqrt _ _ _ hn h1 h2⟩⟩)
    (min numSubdivisions 6) (boxMesh width height depth) (boxMesh_valid width height depth)
    ⟨12, rfl⟩ (by
      show 36 * 4 ^ (min numSubdivisions 6) < 2 ^ 32
      omega)
    (boxMesh_faces width height depth)
  refine ⟨out, (CreateBox_eq sqrtf width height depth numSubdivisions).trans hout, ?_⟩
  intro v hv
  rcases Nat.eq_zero_or_pos (min numSubdivisions 6) with h0 | h1
  · rw [h0] at hout
    have e : out = boxMesh width height depth := (Option.some.inj hout).symm
    subst e
    obtain ⟨k, hkv⟩ := List.mem_iff_getElem?.mp hv
    have hkv : (boxVertices width height depth)[k]? = some v := hkv
    have hk24 : k < 24 := (List.getElem?_eq_some_iff.mp hkv).1
    obtain ⟨n, hn, hall⟩ := boxVertices_face width height depth (k / 4) (by omega)
    exact ⟨n, hn, hall k v rfl hkv⟩
  · obtain ⟨v0, v1, v2, ⟨n, hn, q0, q1, q2⟩, hmem⟩ := hvo h1 v hv
    simp only [triVertices, List.mem_cons, List.mem_singleton, List.not_mem_nil,
      or_false] at hmem
    refine ⟨n, hn, ?_⟩
    rcases hmem with e | e | e | e | e | e <;> rw [e]
    · exact q0
    · exact q1
    · exact q2
    · exact MidPoint_onBoxFace sqrtf hsqrt _ _ _ hn q0 q1
    · exact MidPoint_onBoxFace sqrtf hsqrt _ _ _ hn q1 q2
    · exact MidPoint_onBoxFace sqrtf hsqrt _ _ _ hn q0 q2

theorem C37_box_faces_flat_witness :
    Real.sqrt 1 = 1 ∧
    ∃ m, CreateBox Real.sqrt 1 1 1 3 = some m ∧
      ∀ v ∈ m.Vertices, ∃ n : XMFLOAT3 ℝ, IsAxisUnit n ∧
        OnBoxFace (1 / 2 * 1) (1 / 2 * 1) (1 / 2 * 1) n v :=
  ⟨Real.sqrt_one, C37_box_faces_flat Real.sqrt Real.sqrt_one 1 1 1 3⟩

end BoxFacesFlat

/-! ## Hand-authored index lists: closed oriented surfaces -/

/-- C38: the hand-authored base index lists of the geosphere icosahedron, `CreateCone`,
`CreateWedge`, `CreatePyramid` and `CreateTruncatedPyramid` each describe a closed,
consistently oriented surface: every directed edge `(a,b)` of a triangle occurs in exactly
one triangle of the list, its reverse `(b,a)` occurs in exactly one triangle, and no triangle
repeats a vertex. -/
theorem C38_closed_surfaces :
    ClosedOriented icosahedronIndices ∧ ClosedOriented coneIndices ∧
    ClosedOriented wedgeIndices ∧ ClosedOriented pyramidIndices ∧
    ClosedOriented truncatedPyramidIndices := by
  refine ⟨?_, ?_, ?_, ?_, ?_⟩ <;> decide

/-! ## Wedge, pyramid, truncated pyramid: stored attributes -/

section FlatAttributes

variable {α : Type} [LinearOrderedField α]

/-- The midpoint of two vertices with normal `(0,0,-1)`, tangent `(1,0,0)` and texture
coordinate `(0,0)` has the same three attributes, when `sqrtf 1 = 1`. -/
theorem MidPoint_flat (sqrtf : α → α) (hsqrt : sqrtf 1 = 1) {a b : Vertex α}
    (ha : a.Normal = ⟨0, 0, -1⟩ ∧ a.TangentU = ⟨1, 0, 0⟩ ∧ a.TexC = ⟨0, 0⟩)
    (hb : b.Normal = ⟨0, 0, -1⟩ ∧ b.TangentU = ⟨1, 0, 0⟩ ∧ b.TexC = ⟨0, 0⟩) :
    (MidPoint sqrtf a b).Normal = ⟨0, 0, -1⟩ ∧ (MidPoint sqrtf a b).TangentU = ⟨1, 0, 0⟩ ∧
      (MidPoint sqrtf a b).TexC = ⟨0, 0⟩ := by
  obtain ⟨a1, a2, a3⟩ := ha
  obtain ⟨b1, b2, b3⟩ := hb
  have hn : length3 sqrtf (scale3 (1 / 2) (add3 (⟨0, 0, -1⟩ : XMFLOAT3 α) ⟨0, 0, -1⟩)) = 1 := by
    simp only [length3, dot3, scale3, add3]
    norm_num
    exact hsqrt
  have ht : length3 sqrtf (scale3 (1 / 2) (add3 (⟨1, 0, 0⟩ : XMFLOAT3 α) ⟨1, 0, 0⟩)) = 1 := by
    simp only [length3, dot3, scale3, add3]
    norm_num
    exact hsqrt
  simp only [MidPoint, a1, a2, a3, b1, b2, b3, XMVector3Normalize, hn, ht]
  simp only [scale3, add3, scale2, add2]
  norm_num

/-- Three passes of `Subdivide` on a base mesh whose vertices all have normal `(0,0,-1)`,
tangent `(1,0,0)` and texture coordinate `(0,0)` return a mesh whose vertices all do. -/
theorem three_passes_flat (sqrtf : α → α) (hsqrt : sqrtf 1 = 1) (base : MeshData α) (T : Nat)
    (hv : base.IndicesValid) (hT : base.Indices32.length = 3 * T) (hsmall : T ≤ 1000)
    (hflat : ∀ v ∈ base.Vertices,
      v.Normal = ⟨0, 0, -1⟩ ∧ v.TangentU = ⟨1, 0, 0⟩ ∧ v.TexC = ⟨0, 0⟩) :
    ∃ out, subdividePasses sqrtf 3 base = some out ∧
      ∀ v ∈ out.Vertices, v.Normal = ⟨0, 0, -1⟩ ∧ v.TangentU = ⟨1, 0, 0⟩ ∧ v.TexC = ⟨0, 0⟩ := by
  obtain ⟨out, hout, _, hvo⟩ := subdividePasses_triangle_invariant sqrtf
    (fun v0 v1 v2 =>
      (v0.Normal = ⟨0, 0, -1⟩ ∧ v0.TangentU = ⟨1, 0, 0⟩ ∧ v0.TexC = ⟨0, 0⟩) ∧
      (v1.Normal = ⟨0, 0, -1⟩ ∧ v1.TangentU = ⟨1, 0, 0⟩ ∧ v1.TexC = ⟨0, 0⟩) ∧
      (v2.Normal = ⟨0, 0, -1⟩ ∧ v2.TangentU = ⟨1, 0, 0⟩ ∧ v2.TexC = ⟨0, 0⟩))
    (fun v0 v1 v2 ⟨h0, h1, h2⟩ =>
      ⟨⟨h0, MidPoint_flat sqrtf hsqrt h0 h1, MidPoint_flat sqrtf hsqrt h0 h2⟩,
        ⟨MidPoint_flat sqrtf hsqrt h0 h1, MidPoint_flat sqrtf hsqrt h1 h2,
          MidPoint_flat sqrtf hsqrt h0 h2⟩,
        ⟨MidPoint_flat sqrtf hsqrt h0 h2, MidPoint_flat sqrtf hsqrt h1 h2, h2⟩,
        ⟨MidPoint_flat sqrtf hsqrt h0 h1, h1, MidPoint_flat sqrtf hsqrt h1 h2⟩⟩)
    3 base hv ⟨T, hT⟩ (by rw [hT]; norm_num; omega)
    (fun i v0 v1 v2 hc => by
      obtain ⟨a, b, c, _, _, _, h0, h1, h2⟩ := hc
      exact ⟨hflat _ (List.getElem?_mem h0), hflat _ (List.getElem?_mem h1),
        hflat _ (List.getElem?_mem h2)⟩)
  refine ⟨out, hout, ?_⟩
  intro v hv
  obtain ⟨v0, v1, v2, ⟨h0, h1, h2⟩, hmem⟩ := hvo (by norm_num) v hv
  simp only [triVertices, List.mem_cons, List.mem_singleton, List.not_mem_nil,
    or_false] at hmem
  rcases hmem with e | e | e | e | e | e <;> rw [e]
  · exact h0
  · exact h1
  · exact h2
  · exact MidPoint_flat sqrtf hsqrt h0 h1
  · exact MidPoint_flat sqrtf hsqrt h1 h2
  · exact MidPoint_flat sqrtf hsqrt h0 h2

/-- C39: in exact arithmetic (any ordered field and any `sqrtf` with `sqrtf 1 = 1`), for all
parameter values, `CreateWedge`, `CreatePyramid` and `CreateTruncatedPyramid` return a mesh
in which every vertex has normal exactly `(0,0,-1)`, tangent exactly `(1,0,0)` and texture
coordinate exactly `(0,0)`, whatever face it belongs to. -/
theorem C39_flat_attributes (sqrtf : α → α) (hsqrt : sqrtf 1 = 1) :
    (∀ width depth height, ∃ m, CreateWedge sqrtf width depth height = some m ∧
      ∀ v ∈ m.Vertices, v.Normal = ⟨0, 0, -1⟩ ∧ v.TangentU = ⟨1, 0, 0⟩ ∧ v.TexC = ⟨0, 0⟩) ∧
    (∀ width depth height, ∃ m, CreatePyramid sqrtf width depth height = some m ∧
      ∀ v ∈ m.Vertices, v.Normal = ⟨0, 0, -1⟩ ∧ v.TangentU = ⟨1, 0, 0⟩ ∧ v.TexC = ⟨0, 0⟩) ∧
    (∀ bottomWidth bottomDepth topWidth topDepth height,
      ∃ m, CreateTruncatedPyramid sqrtf bottomWidth bottomDepth topWidth topDepth height
          = some m ∧
        ∀ v ∈ m.Vertices,
          v.Normal = ⟨0, 0, -1⟩ ∧ v.TangentU = ⟨1, 0, 0⟩ ∧ v.TexC = ⟨0, 0⟩) := by
  refine ⟨?_, ?_, ?_⟩
  · intro width depth height
    refine three_passes_flat sqrtf hsqrt _ 8 (wedgeMesh_valid width depth height) rfl
      (by norm_num) ?_
    intro v hv
    simp only [wedgeMesh, wedgeVertices, List.mem_cons, List.mem_singleton, List.not_mem_nil,
      or_false] at hv
    rcases hv with e | e | e | e | e | e <;> rw [e] <;> exact ⟨rfl, rfl, rfl⟩
  · intro width depth height
    refine three_passes_flat sqrtf hsqrt _ 6 (pyramidMesh_valid width depth height) rfl
      (by norm_num) ?_
    intro v hv
    simp only [pyramidMesh, pyramidVertices, List.mem_cons, List.mem_singleton,
      List.not_mem_nil, or_false] at hv
    rcases hv with e | e | e | e | e <;> rw [e] <;> exact ⟨rfl, rfl, rfl⟩
  · intro bottomWidth bottomDepth topWidth topDepth height
    refine three_passes_flat sqrtf hsqrt _ 12
      (truncatedPyramidMesh_valid bottomWidth bottomDepth topWidth topDepth height) rfl
      (by norm_num) ?_
    intro v hv
    simp only [truncatedPyramidMesh, truncatedPyramidVertices, List.mem_cons,
      List.mem_singleton, List.not_mem_nil, or_false] at hv
    rcases hv with e | e | e | e | e | e | e | e <;> rw [e] <;> exact ⟨rfl, rfl, rfl⟩

theorem C39_flat_attributes_witness :
    Real.sqrt 1 = 1 ∧
    ∃ m, CreateWedge Real.sqrt 1 1 1 = some m ∧
      ∀ v ∈ m.Vertices, v.Normal = ⟨0, 0, -1⟩ ∧ v.TangentU = ⟨1, 0, 0⟩ ∧ v.TexC = ⟨0, 0⟩ :=
  ⟨Real.sqrt_one, (C39_flat_attributes Real.sqrt Real.sqrt_one).1 1 1 1⟩

end FlatAttributes

/-! ## Sphere and cylinder: tangent against normal -/

section Orthogonality

variable {α : Type} [LinearOrderedField α]

/-- The dot product with a normalised vector is the dot product divided by the length. -/
theorem dot3_normalize_right (sqrtf : α → α) (a b : XMFLOAT3 α) :
    dot3 a (XMVector3Normalize sqrtf b) = dot3 a b / length3 sqrtf b := by
  simp only [dot3, XMVector3Normalize]
  rw [add_div, add_div, mul_div_assoc, mul_div_assoc, mul_div_assoc]

/-- The dot product of a normalised vector with a vector is the dot product divided by the
length. -/
theorem dot3_normalize_left (sqrtf : α → α) (a b : XMFLOAT3 α) :
    dot3 (XMVector3Normalize sqrtf a) b = dot3 a b / length3 sqrtf a := by
  simp only [dot3, XMVector3Normalize]
  rw [add_div, add_div, div_mul_eq_mul_div, div_mul_eq_mul_div, div_mul_eq_mul_div]

/-- At a ring vertex of the sphere the stored tangent is orthogonal to the stored normal. -/
theorem sphereRingVertex_orthogonal (sqrtf sinf cosf : α → α)
    (XM_PI radius phiStep thetaStep : α) (i j : Nat) :
    dot3 (sphereRingVertex sqrtf sinf cosf XM_PI radius phiStep thetaStep i j).TangentU
      (sphereRingVertex sqrtf sinf cosf XM_PI radius phiStep thetaStep i j).Normal = 0 := by
  simp only [sphereRingVertex]
  rw [dot3_normalize_left, dot3_normalize_right]
  have h0 : dot3
      (⟨-radius * sinf ((i : α) * phiStep) * sinf ((j : α) * thetaStep), 0,
        radius * sinf ((i : α) * phiStep) * cosf ((j : α) * thetaStep)⟩ : XMFLOAT3 α)
      ⟨radius * sinf ((i : α) * phiStep) * cosf ((j : α) * thetaStep),
        radius * cosf ((i : α) * phiStep),
        radius * sinf ((i : α) * phiStep) * sinf ((j : α) * thetaStep)⟩ = 0 := by
    simp only [dot3]
    ring
  rw [h0, zero_div, zero_div]

/-- At a side vertex of the cylinder the stored tangent is orthogonal to the stored
normal. -/
theorem cylinderSideVertex_orthogonal (sqrtf sinf cosf : α → α)
    (XM_PI bottomRadius topRadius height : α) (sliceCount stackCount i j : Nat) :
    dot3 (cylinderSideVertex sqrtf sinf cosf XM_PI bottomRadius topRadius height
        sliceCount stackCount i j).TangentU
      (cylinderSideVertex sqrtf sinf cosf XM_PI bottomRadius topRadius height
        sliceCount stackCount i j).Normal = 0 := by
  simp only [cylinderSideVertex]
  rw [dot3_normalize_right]
  have h0 : ∀ s c : α, dot3 (⟨-s, 0, c⟩ : XMFLOAT3 α)
      (XMVector3Cross ⟨-s, 0, c⟩
        ⟨(bottomRadius - topRadius) * c, -height, (bottomRadius - topRadius) * s⟩) = 0 := by
    intro s c
    simp only [dot3, XMVector3Cross]
    ring
  rw [h0, zero_div]

/-- C40: the stored tangent is exactly orthogonal to the stored normal (dot product 0, in
exact arithmetic over any ordered field and for any `sqrtf`, `sinf`, `cosf`, so in real
arithmetic) at every vertex of the mesh returned by `CreateSphere`, in particular at every
ring vertex `1 + (i-1)*(sliceCount+1) + j`, and at every vertex of the mesh returned by
`CreateCylinder`, in particular at every side vertex; for all radii and heights, every
`sliceCount` and `stackCount`. `CreateSphere` (for `2 ≤ stackCount < 2^32`) and
`CreateCylinder` return for every `sliceCount` other than `2^32 - 1`. -/
theorem C40_tangent_orthogonal (sqrtf sinf cosf : α → α) (XM_PI : α) :
    (∀ radius sliceCount stackCount,
      (2 ≤ stackCount → stackCount < 2 ^ 32 → sliceCount ≠ 2 ^ 32 - 1 →
        ∃ m, CreateSphere sqrtf sinf cosf XM_PI radius sliceCount stackCount = some m) ∧
      ∀ m, CreateSphere sqrtf sinf cosf XM_PI radius sliceCount stackCount = some m →
        (∀ v ∈ m.Vertices, dot3 v.TangentU v.Normal = 0) ∧
        ∀ i j, 1 ≤ i → i ≤ usub stackCount 1 → j ≤ sliceCount →
          ∃ v, m.Vertices[1 + (i - 1) * (sliceCount + 1) + j]? = some v ∧
            dot3 v.TangentU v.Normal = 0) ∧
    (∀ bottomRadius topRadius height sliceCount stackCount,
      (sliceCount ≠ 2 ^ 32 - 1 →
        ∃ m, CreateCylinder sqrtf sinf cosf XM_PI bottomRadius topRadius height
          sliceCount stackCount = some m) ∧
      ∀ m, CreateCylinder sqrtf sinf cosf XM_PI bottomRadius topRadius height
          sliceCount stackCount = some m →
        (∀ v ∈ m.Vertices, dot3 v.TangentU v.Normal = 0) ∧
        ∀ i j, stackCount + 1 < 2 ^ 32 → i ≤ stackCount → j ≤ sliceCount →
          ∃ v, m.Vertices[i * (sliceCount + 1) + j]? = some v ∧
            dot3 v.TangentU v.Normal = 0) := by
  constructor
  · intro radius sliceCount stackCount
    refine ⟨fun ht ht32 hne =>
      ⟨_, CreateSphere_returns sqrtf sinf cosf XM_PI radius ht ht32 hne⟩, ?_⟩
    intro m hm
    obtain ⟨_, rfl⟩ := CreateSphere_inv sqrtf sinf cosf XM_PI radius hm
    have hall : ∀ v ∈ sphereVertices sqrtf sinf cosf XM_PI radius sliceCount stackCount,
        dot3 v.TangentU v.Normal = 0 := by
      intro v hv
      rcases sphereVertices_mem sqrtf sinf cosf XM_PI radius sliceCount stackCount v hv with
        h | h | ⟨i, j, _, _, _, h⟩
      · rw [h]; simp [dot3, Vertex.ofFloats]
      · rw [h]; simp [dot3, Vertex.ofFloats]
      · rw [h]; exact sphereRingVertex_orthogonal _ _ _ _ _ _ _ _ _
    refine ⟨hall, ?_⟩
    intro i j hi1 hi2 hj
    have hget := sphereVertices_ring sqrtf sinf cosf XM_PI radius sliceCount stackCount i j
      hi1 hi2 hj
    exact ⟨_, hget, sphereRingVertex_orthogonal _ _ _ _ _ _ _ _ _⟩
  · intro bottomRadius topRadius height sliceCount stackCount
    refine ⟨fun hne => ⟨_, CreateCylinder_returns _ _ _ _ _ _ _ _ _ hne⟩, ?_⟩
    intro m hm
    obtain ⟨_, rfl⟩ := CreateCylinder_inv _ _ _ _ _ _ _ hm
    constructor
    · intro v hv
      rcases cylinderMesh_mem sqrtf sinf cosf XM_PI bottomRadius topRadius height sliceCount
        stackCount v hv with ⟨i, j, h⟩ | ⟨h1, h2⟩ | ⟨h1, h2⟩
      · rw [h]; exact cylinderSideVertex_orthogonal _ _ _ _ _ _ _ _ _ _ _
      · rw [h1, h2]; simp [dot3]
      · rw [h1, h2]; simp [dot3]
    · intro i j ht32 hi hj
      exact ⟨_, cylinderMesh_side_getElem sqrtf sinf cosf XM_PI bottomRadius topRadius height
        sliceCount stackCount i j ht32 hi hj, cylinderSideVertex_orthogonal _ _ _ _ _ _ _ _ _ _ _⟩

end Orthogonality

end GeometryGenerator
